import Mathlib

/-!
# Cuel front end: tokenizer and recursive-descent parser

A shallow embedding of `src/tokenize.h`, `src/tokenize.cpp`, `src/parser.h` and
`src/parser.cpp`, followed by theorems about it.

Modelling conventions
* `std::string` is a `List Char`; string literals of the source are written
  `"...".toList`.
* `Token::position` (an `int` filled from a `size_t` index) is a `Nat`: the
  conversion is the identity for every text shorter than `2^31` characters.
* `std::isspace`, `std::isalnum` and `::isdigit` are the "C" locale predicates.
* The parser state of `class Parser` (`tokens`, `current`) is the structure
  `Parser`; a member function that can throw returns an `Outcome`, which also
  records an out-of-bounds read of `tokens[current]` and, for the recursive
  functions, exhaustion of the recursion budget (`fuel`) of the model.
-/

namespace Cuel

/-! ## tokenize.h -/

/-- The enumeration `TokenType` of `tokenize.h`, in declaration order. -/
inductive TokenType where
  | TOK_NUMBER
  | TOK_STRING
  | TOK_TRUE
  | TOK_FALSE
  | TOK_OPEN_PAREN
  | TOK_CLOSE_PAREN
  | TOK_OPEN_BRACE
  | TOK_CLOSE_BRACE
  | TOK_OPEN_BRACKET
  | TOK_CLOSE_BRACKET
  | TOK_IF_STATEMENT
  | TOK_ELSEIF_STATEMENT
  | TOK_ELSE_STATEMENT
  | TOK_FOR_STATEMENT
  | TOK_WHILE_STATEMENT
  | TOK_SWITCH_STATEMENT
  | TOK_CASE_STATEMENT
  | TOK_DEFAULT_STATEMENT
  | TOK_BREAK_STATEMENT
  | TOK_CONTINUE_STATEMENT
  | TOK_RETURN_STATEMENT
  | TOK_VAR
  | TOK_VAR_TYPE
  | TOK_VAR_CONST
  | TOK_GLOBAL_VAR
  | TOK_ASSIGNMENT
  | TOK_ADDITION
  | TOK_SUBTRACTION
  | TOK_MULTIPLICATION
  | TOK_DIVISION
  | TOK_MODULUS
  | TOK_ADDITION_ASSIGNMENT
  | TOK_SUBTRACTION_ASSIGNMENT
  | TOK_MULTIPLICATION_ASSIGNMENT
  | TOK_DIVISION_ASSIGNMENT
  | TOK_MODULUS_ASSIGNMENT
  | TOK_INCREMENT
  | TOK_DECREMENT
  | TOK_EQUAL
  | TOK_NOT_EQUAL
  | TOK_GREATER
  | TOK_LESS
  | TOK_GREATER_EQUAL
  | TOK_LESS_EQUAL
  | TOK_AND
  | TOK_OR
  | TOK_NOT
  | TOK_BITWISE_AND
  | TOK_BITWISE_OR
  | TOK_BITWISE_XOR
  | TOK_BITWISE_NOT
  | TOK_LEFT_SHIFT
  | TOK_RIGHT_SHIFT
  | TOK_IDENTIFIER
  | TOK_SEMICOLON
  | TOK_COMMENT
  | TOK_DOT
  | TOK_COMMA
  | TOK_WHITESPACE
  | TOK_UNKNOWN
  | TOK_EOF
  deriving DecidableEq, Repr

open TokenType

/-- The class `Token` of `tokenize.h`: literal text, kind, source position. -/
structure Token where
  value : List Char
  type : TokenType
  position : Nat
  deriving DecidableEq, Repr

/-! ## tokenize.cpp -/

/-- The double quote character. -/
def dquote : Char := Char.ofNat 34

/-- The single quote character. -/
def squote : Char := Char.ofNat 39

/-- C `isdigit`. -/
def isdigit (ch : Char) : Bool := 48 ≤ ch.toNat && ch.toNat ≤ 57

/-- C `isalnum` in the "C" locale: a decimal digit or an ASCII letter. -/
def isalnum (ch : Char) : Bool :=
  isdigit ch || (65 ≤ ch.toNat && ch.toNat ≤ 90) || (97 ≤ ch.toNat && ch.toNat ≤ 122)

/-- C `isspace` in the "C" locale: space, `\t`, `\n`, `\v`, `\f`, `\r`. -/
def isspace (ch : Char) : Bool := ch.toNat = 32 || (9 ≤ ch.toNat && ch.toNat ≤ 13)

/-- `isNumber`: non-empty and all digits. -/
def isNumber (word : List Char) : Bool := !word.isEmpty && word.all isdigit

/-- `isBoolean`. -/
def isBoolean (word : List Char) : Bool :=
  word = "true".toList || word = "false".toList

/-- `isOperator(const std::string&)`: membership in the operator table. -/
def isOperator (word : List Char) : Bool :=
  word ∈ ["=".toList, "+".toList, "-".toList, "*".toList, "/".toList, "%".toList,
    "+=".toList, "-=".toList, "*=".toList, "/=".toList, "%=".toList,
    "++".toList, "--".toList,
    "==".toList, "!=".toList, ">".toList, "<".toList, ">=".toList, "<=".toList,
    "&&".toList, "||".toList, "!".toList, "&".toList, "|".toList, "^".toList,
    "~".toList, "<<".toList, ">>".toList]

/-- `getTokenType`: the kind of an operator or keyword text. -/
def getTokenType (keyword : List Char) : TokenType :=
  if keyword = "=".toList then TOK_ASSIGNMENT
  else if keyword = "+".toList then TOK_ADDITION
  else if keyword = "-".toList then TOK_SUBTRACTION
  else if keyword = "*".toList then TOK_MULTIPLICATION
  else if keyword = "/".toList then TOK_DIVISION
  else if keyword = "%".toList then TOK_MODULUS
  else if keyword = "+=".toList then TOK_ADDITION_ASSIGNMENT
  else if keyword = "-=".toList then TOK_SUBTRACTION_ASSIGNMENT
  else if keyword = "*=".toList then TOK_MULTIPLICATION_ASSIGNMENT
  else if keyword = "/=".toList then TOK_DIVISION_ASSIGNMENT
  else if keyword = "%=".toList then TOK_MODULUS_ASSIGNMENT
  else if keyword = "++".toList then TOK_INCREMENT
  else if keyword = "--".toList then TOK_DECREMENT
  else if keyword = "==".toList then TOK_EQUAL
  else if keyword = "!=".toList then TOK_NOT_EQUAL
  else if keyword = ">".toList then TOK_GREATER
  else if keyword = "<".toList then TOK_LESS
  else if keyword = ">=".toList then TOK_GREATER_EQUAL
  else if keyword = "<=".toList then TOK_LESS_EQUAL
  else if keyword = "&&".toList then TOK_AND
  else if keyword = "||".toList then TOK_OR
  else if keyword = "!".toList then TOK_NOT
  else if keyword = "&".toList then TOK_BITWISE_AND
  else if keyword = "|".toList then TOK_BITWISE_OR
  else if keyword = "^".toList then TOK_BITWISE_XOR
  else if keyword = "~".toList then TOK_BITWISE_NOT
  else if keyword = "<<".toList then TOK_LEFT_SHIFT
  else if keyword = ">>".toList then TOK_RIGHT_SHIFT
  else if keyword = ";".toList then TOK_SEMICOLON
  else if keyword = "if".toList then TOK_IF_STATEMENT
  else if keyword = "elseif".toList then TOK_ELSEIF_STATEMENT
  else if keyword = "else".toList then TOK_ELSE_STATEMENT
  else if keyword = "for".toList then TOK_FOR_STATEMENT
  else if keyword = "while".toList then TOK_WHILE_STATEMENT
  else if keyword = "switch".toList then TOK_SWITCH_STATEMENT
  else if keyword = "case".toList then TOK_CASE_STATEMENT
  else if keyword = "default".toList then TOK_DEFAULT_STATEMENT
  else if keyword = "break".toList then TOK_BREAK_STATEMENT
  else if keyword = "continue".toList then TOK_CONTINUE_STATEMENT
  else if keyword = "return".toList then TOK_RETURN_STATEMENT
  else if keyword = "true".toList then TOK_TRUE
  else if keyword = "false".toList then TOK_FALSE
  else if keyword = "var".toList then TOK_VAR
  else TOK_UNKNOWN

/-- `getOperatorType`. -/
def getOperatorType (op : List Char) : TokenType :=
  if isOperator op then getTokenType op else TOK_UNKNOWN

/-- `getStatementType`. -/
def getStatementType (word : List Char) : TokenType :=
  if word = "if".toList then TOK_IF_STATEMENT
  else if word = "elseif".toList then TOK_ELSEIF_STATEMENT
  else if word = "else".toList then TOK_ELSE_STATEMENT
  else if word = "for".toList then TOK_FOR_STATEMENT
  else if word = "while".toList then TOK_WHILE_STATEMENT
  else if word = "switch".toList then TOK_SWITCH_STATEMENT
  else if word = "case".toList then TOK_CASE_STATEMENT
  else if word = "default".toList then TOK_DEFAULT_STATEMENT
  else if word = "break".toList then TOK_BREAK_STATEMENT
  else if word = "continue".toList then TOK_CONTINUE_STATEMENT
  else if word = "return".toList then TOK_RETURN_STATEMENT
  else TOK_UNKNOWN

/-- `getDataType`. -/
def getDataType (word : List Char) : TokenType :=
  if word = "var".toList then TOK_VAR
  else if word = "const".toList then TOK_VAR_CONST
  else if word = "global".toList then TOK_GLOBAL_VAR
  else if word = "number".toList || word = "string".toList || word = "bool".toList
    then TOK_VAR_TYPE
  else TOK_UNKNOWN

/-- `getBooleanType`. -/
def getBooleanType (word : List Char) : TokenType :=
  if isBoolean word then (if word = "true".toList then TOK_TRUE else TOK_FALSE)
  else TOK_UNKNOWN

/-- `checkTypedVariable`: `word.find` of the first `<`, then the text between
it and a final `>` (`substr(pos + 1, size - pos - 2)`). It is only ever called
on a non-empty word. -/
def checkTypedVariable (word : List Char) : TokenType :=
  let angleBracketPos := word.indexOf '<'
  if angleBracketPos < word.length && word.getLast? = some '>' then
    let type := (word.drop (angleBracketPos + 1)).take (word.length - angleBracketPos - 2)
    if type = "number".toList || type = "string".toList || type = "bool".toList
      then TOK_VAR
    else TOK_UNKNOWN
  else TOK_UNKNOWN

/-- The classification cascade that `tokenize` applies to a pending word; the
source repeats these nested tests verbatim at its three flush points. -/
def classifyWord (currentWord : List Char) : TokenType :=
  let type := checkTypedVariable currentWord
  if type = TOK_UNKNOWN then
    let type := getDataType currentWord
    if type = TOK_UNKNOWN then
      let type := if isNumber currentWord then TOK_NUMBER else getStatementType currentWord
      if type = TOK_UNKNOWN then
        if isBoolean currentWord then getBooleanType currentWord else TOK_IDENTIFIER
      else type
    else type
  else type

/-- The local variables of `tokenize` that live across loop iterations. -/
structure TokState where
  tokens : List Token
  currentWord : List Char
  insideString : Bool
  currentString : List Char
  deriving DecidableEq, Repr

/-- `if (!currentWord.empty()) { classify; emplace_back; clear }` at index `i`. -/
def flushWord (st : TokState) (i : Nat) : TokState :=
  if st.currentWord.isEmpty then st
  else { st with
    tokens := st.tokens ++ [⟨st.currentWord, classifyWord st.currentWord, i⟩],
    currentWord := [] }

/-- `tokens.emplace_back(value, type, i)`. -/
def TokState.emplace_back (st : TokState) (value : List Char) (type : TokenType) (i : Nat) :
    TokState :=
  { st with tokens := st.tokens ++ [⟨value, type, i⟩] }

/-- The nine `case` labels of the `switch (ch)` in `tokenize`. -/
def punctuationType (ch : Char) : Option TokenType :=
  if ch = '(' then some TOK_OPEN_PAREN
  else if ch = ')' then some TOK_CLOSE_PAREN
  else if ch = Char.ofNat 123 then some TOK_OPEN_BRACE
  else if ch = Char.ofNat 125 then some TOK_CLOSE_BRACE
  else if ch = '[' then some TOK_OPEN_BRACKET
  else if ch = ']' then some TOK_CLOSE_BRACKET
  else if ch = ';' then some TOK_SEMICOLON
  else if ch = '.' then some TOK_DOT
  else if ch = ',' then some TOK_COMMA
  else none

/-- One iteration of the `for` loop of `tokenize` at index `i`, where `next`
is `sourceCode[i + 1]` when `i + 1 < sourceCode.size()`. The result is the new
state and whether the two-character operator branch ran (`++i; continue;`). -/
def tokenizeStep (ch : Char) (next : Option Char) (i : Nat) (st : TokState) : TokState × Bool :=
  if ch = dquote ∨ ch = squote then
    if st.insideString then
      ({ st with
          tokens := st.tokens ++ [⟨st.currentString ++ [ch], TOK_STRING, i⟩],
          insideString := false,
          currentString := [] }, false)
    else
      ({ st with insideString := true, currentString := st.currentString ++ [ch] }, false)
  else if st.insideString then
    ({ st with currentString := st.currentString ++ [ch] }, false)
  else if isspace ch then
    (flushWord st i, false)
  else if isalnum ch ∨ ch = '_' then
    ({ st with currentWord := st.currentWord ++ [ch] }, false)
  else
    let st := flushWord st i
    match punctuationType ch with
    | some type => (st.emplace_back [ch] type i, false)
    | none =>
      match next with
      | some nextChar =>
        if getOperatorType [ch, nextChar] ≠ TOK_UNKNOWN then
          (st.emplace_back [ch, nextChar] (getOperatorType [ch, nextChar]) i, true)
        else
          (st.emplace_back [ch] (getOperatorType [ch]) i, false)
      | none => (st.emplace_back [ch] (getOperatorType [ch]) i, false)

/-- The `for` loop of `tokenize`, run on the characters from index `i` on:
after an iteration that took the two-character operator branch the scan
resumes two characters further, otherwise one. -/
def tokenizeLoop : List Char → Nat → TokState → TokState
  | [], _, st => st
  | [ch], i, st => (tokenizeStep ch none i st).1
  | ch :: nextChar :: rest, i, st =>
    if (tokenizeStep ch (some nextChar) i st).2 then
      tokenizeLoop rest (i + 2) (tokenizeStep ch (some nextChar) i st).1
    else
      tokenizeLoop (nextChar :: rest) (i + 1) (tokenizeStep ch (some nextChar) i st).1

/-- The function `tokenize`. -/
def tokenize (sourceCode : List Char) : List Token :=
  let st := tokenizeLoop sourceCode 0 ⟨[], [], false, []⟩
  let st := flushWord st sourceCode.length
  st.tokens ++ [⟨[], TOK_EOF, sourceCode.length⟩]


/-- The function `tokenTypeToString` of `tokenize.cpp`: a `switch` with one
`case` per line below, in the order of the source, and the `default` branch,
which the two enumerators without a `case` of their own reach
(`TOK_DEFAULT_STATEMENT` and `TOK_COMMA`). -/
def tokenTypeToString : TokenType → List Char
  | TOK_NUMBER => "TOK_NUMBER".toList
  | TOK_STRING => "TOK_STRING".toList
  | TOK_TRUE => "TOK_TRUE".toList
  | TOK_FALSE => "TOK_FALSE".toList
  | TOK_OPEN_PAREN => "TOK_OPEN_PAREN".toList
  | TOK_CLOSE_PAREN => "TOK_CLOSE_PAREN".toList
  | TOK_OPEN_BRACE => "TOK_OPEN_BRACE".toList
  | TOK_CLOSE_BRACE => "TOK_CLOSE_BRACE".toList
  | TOK_OPEN_BRACKET => "TOK_OPEN_BRACKET".toList
  | TOK_CLOSE_BRACKET => "TOK_CLOSE_BRACKET".toList
  | TOK_SEMICOLON => "TOK_SEMICOLON".toList
  | TOK_DOT => "TOK_DOT".toList
  | TOK_IDENTIFIER => "TOK_IDENTIFIER".toList
  | TOK_COMMENT => "TOK_COMMENT".toList
  | TOK_WHITESPACE => "TOK_WHITESPACE".toList
  | TOK_IF_STATEMENT => "TOK_IF_STATEMENT".toList
  | TOK_ELSEIF_STATEMENT => "TOK_ELSEIF_STATEMENT".toList
  | TOK_ELSE_STATEMENT => "TOK_ELSE_STATEMENT".toList
  | TOK_FOR_STATEMENT => "TOK_FOR_STATEMENT".toList
  | TOK_WHILE_STATEMENT => "TOK_WHILE_STATEMENT".toList
  | TOK_SWITCH_STATEMENT => "TOK_SWITCH_STATEMENT".toList
  | TOK_CASE_STATEMENT => "TOK_CASE_STATEMENT".toList
  | TOK_BREAK_STATEMENT => "TOK_BREAK_STATEMENT".toList
  | TOK_CONTINUE_STATEMENT => "TOK_CONTINUE_STATEMENT".toList
  | TOK_RETURN_STATEMENT => "TOK_RETURN_STATEMENT".toList
  | TOK_VAR => "TOK_VAR".toList
  | TOK_VAR_TYPE => "TOK_VAR_TYPE".toList
  | TOK_VAR_CONST => "TOK_VAR_CONST".toList
  | TOK_GLOBAL_VAR => "TOK_GLOBAL_VAR".toList
  | TOK_ASSIGNMENT => "TOK_ASSIGNMENT".toList
  | TOK_ADDITION => "TOK_ADDITION".toList
  | TOK_SUBTRACTION => "TOK_SUBTRACTION".toList
  | TOK_MULTIPLICATION => "TOK_MULTIPLICATION".toList
  | TOK_DIVISION => "TOK_DIVISION".toList
  | TOK_MODULUS => "TOK_MODULUS".toList
  | TOK_ADDITION_ASSIGNMENT => "TOK_ADDITION_ASSIGNMENT".toList
  | TOK_SUBTRACTION_ASSIGNMENT => "TOK_SUBTRACTION_ASSIGNMENT".toList
  | TOK_MULTIPLICATION_ASSIGNMENT => "TOK_MULTIPLICATION_ASSIGNMENT".toList
  | TOK_DIVISION_ASSIGNMENT => "TOK_DIVISION_ASSIGNMENT".toList
  | TOK_MODULUS_ASSIGNMENT => "TOK_MODULUS_ASSIGNMENT".toList
  | TOK_INCREMENT => "TOK_INCREMENT".toList
  | TOK_DECREMENT => "TOK_DECREMENT".toList
  | TOK_EQUAL => "TOK_EQUAL".toList
  | TOK_NOT_EQUAL => "TOK_NOT_EQUAL".toList
  | TOK_GREATER => "TOK_GREATER".toList
  | TOK_LESS => "TOK_LESS".toList
  | TOK_GREATER_EQUAL => "TOK_GREATER_EQUAL".toList
  | TOK_LESS_EQUAL => "TOK_LESS_EQUAL".toList
  | TOK_AND => "TOK_AND".toList
  | TOK_OR => "TOK_OR".toList
  | TOK_NOT => "TOK_NOT".toList
  | TOK_BITWISE_AND => "TOK_BITWISE_AND".toList
  | TOK_BITWISE_OR => "TOK_BITWISE_OR".toList
  | TOK_BITWISE_XOR => "TOK_BITWISE_XOR".toList
  | TOK_BITWISE_NOT => "TOK_BITWISE_NOT".toList
  | TOK_LEFT_SHIFT => "TOK_LEFT_SHIFT".toList
  | TOK_RIGHT_SHIFT => "TOK_RIGHT_SHIFT".toList
  | TOK_EOF => "TOK_EOF".toList
  | TOK_UNKNOWN => "whats this".toList
  | _ => "UNIMPLEMENTED".toList
/-! ## parser.h -/

/-- The enumeration `LiteralType`. -/
inductive LiteralType where
  | LITERAL_NUMBER
  | LITERAL_STRING
  | LITERAL_TRUE
  | LITERAL_FALSE
  deriving DecidableEq, Repr

open LiteralType

/-- The node classes derived from `ASTNode`, one constructor per class that
the parser instantiates, named after the class without its `Node` or
`StatementNode` suffix. A `shared_ptr` child is a sub-term, a `std::vector` of
children a list, and the `elseBody` of `IfStatementNode`, which may be
`nullptr`, an `Option`. The `variable` member of a declaration node is a
`shared_ptr<VariableNode>` and is represented by the name it holds. -/
inductive ASTNode where
  | Variable (name : List Char)
  | Number (value : Int)
  | String (value : List Char)
  | Boolean (value : Bool)
  | Literal (type : LiteralType) (value : ASTNode)
  | FunctionCall (object : ASTNode) (arguments : List ASTNode)
  | MemberAccess (object : ASTNode) (member : List Char)
  | BinaryOperation (left : ASTNode) (operation : TokenType) (right : ASTNode)
  | Empty
  | Block (statements : List ASTNode)
  | Assignment (var : ASTNode) (value : ASTNode)
  | VariableDeclaration (var : List Char) (value : ASTNode)
  | GlobalDeclaration (var : List Char) (value : ASTNode)
  | If (condition : ASTNode) (body : ASTNode) (elseifBodies : List ASTNode)
      (elseBody : Option ASTNode)
  | ElseIf (condition : ASTNode) (body : ASTNode)
  | While (condition : ASTNode) (body : ASTNode)
  | Return (expressions : ASTNode)
  | Break
  | Continue
  deriving Repr

/-- The `throw` site that raised an exception, with the arguments its message
is built from. The exception object of the code (a `std::runtime_error`)
holds none of these arguments as data: it holds the message text only, which
is `ParseError.what`, and a token kind reaches that text only through
`tokenTypeToString`. `stoiInvalidArgument` and `stoiOutOfRange` are the two
exceptions of `std::stoi`. -/
inductive ParseError where
  | unexpectedEndOfTokens
  | unexpectedToken (type : TokenType) (expected : TokenType) (position : Nat)
      (value : List Char)
  | unexpectedPrimary (type : TokenType) (position : Nat) (value : List Char)
  | unexpectedEndOfFile
  | expectedCloseParen
  | forLoopNotImplemented
  | stoiInvalidArgument
  | stoiOutOfRange
  deriving DecidableEq, Repr

/-- The function `std::to_string` on a position: its decimal digits. -/
def to_string (position : Nat) : List Char :=
  Nat.toDigits 10 position

/-- The message of the exception, as each `throw` site builds it:
`currentToken` (parser.h), `consume` and `expect` (parser.h, the same
concatenation in both), the default branch, the end-of-input branch and the
missing `)` of `parsePrimary` (parser.cpp), and `parseForStatement`. The text
of the two exceptions of `std::stoi` is chosen by the standard library and is
not modelled. -/
def ParseError.what : ParseError → Option (List Char)
  | .unexpectedEndOfTokens => some "Unexpected end of tokens".toList
  | .unexpectedToken type expected position value =>
    some ("Unexpected token: ".toList ++ tokenTypeToString type ++ ", expected: ".toList ++
      tokenTypeToString expected ++ " Position: ".toList ++ to_string position ++
      " | String: ".toList ++ value)
  | .unexpectedPrimary type position value =>
    some ("Unexpected token: ".toList ++ tokenTypeToString type ++ " Position: ".toList ++
      to_string position ++ " | String: ".toList ++ value)
  | .unexpectedEndOfFile => some "Unexpected end of file".toList
  | .expectedCloseParen =>
    some ("Expected ".toList ++ [squote, ')', squote] ++ " after sub-expression".toList)
  | .forLoopNotImplemented => some "for loop not implemented".toList
  | .stoiInvalidArgument => none
  | .stoiOutOfRange => none

/-- The ways a member function of `Parser` can end without returning: a C++
exception, a read of `tokens[current]` past the end of the vector (undefined
behaviour in `lookCurrent`), or the recursion budget of this model running
out. -/
inductive Failure where
  | thrown (e : ParseError)
  | outOfBounds
  | outOfFuel
  deriving DecidableEq, Repr

/-- The result of a member function: a value or a `Failure`. -/
abbrev Outcome (α : Type) := Except Failure α

/-- The data members of `class Parser`. -/
structure Parser where
  tokens : List Token
  current : Nat
  deriving DecidableEq, Repr

/-- `Parser::getOperatorPrecedence`. -/
def getOperatorPrecedence (type : TokenType) : Int :=
  match type with
  | TOK_INCREMENT => 15
  | TOK_DECREMENT => 15
  | TOK_NOT => 14
  | TOK_BITWISE_NOT => 14
  | TOK_MULTIPLICATION => 13
  | TOK_DIVISION => 13
  | TOK_MODULUS => 13
  | TOK_ADDITION => 12
  | TOK_SUBTRACTION => 12
  | TOK_LEFT_SHIFT => 11
  | TOK_RIGHT_SHIFT => 11
  | TOK_GREATER => 10
  | TOK_LESS => 10
  | TOK_GREATER_EQUAL => 10
  | TOK_LESS_EQUAL => 10
  | TOK_EQUAL => 9
  | TOK_NOT_EQUAL => 9
  | TOK_BITWISE_AND => 8
  | TOK_BITWISE_XOR => 7
  | TOK_BITWISE_OR => 6
  | TOK_AND => 5
  | TOK_OR => 4
  | TOK_ASSIGNMENT => 1
  | TOK_ADDITION_ASSIGNMENT => 1
  | TOK_SUBTRACTION_ASSIGNMENT => 1
  | TOK_MULTIPLICATION_ASSIGNMENT => 1
  | TOK_DIVISION_ASSIGNMENT => 1
  | TOK_MODULUS_ASSIGNMENT => 1
  | _ => 0

/-- `Parser::currentToken`. -/
def currentToken (p : Parser) : Outcome Token :=
  match p.tokens[p.current]? with
  | none => .error (.thrown .unexpectedEndOfTokens)
  | some t => .ok t

/-- `Parser::consume`. -/
def consume (p : Parser) (expectedType : TokenType) : Outcome Parser :=
  match currentToken p with
  | .error e => .error e
  | .ok t =>
    if t.type ≠ expectedType then
      .error (.thrown (.unexpectedToken t.type expectedType t.position t.value))
    else .ok { p with current := p.current + 1 }

/-- `Parser::expect`. -/
def expect (p : Parser) (expectedType : TokenType) : Outcome Unit :=
  match currentToken p with
  | .error e => .error e
  | .ok t =>
    if t.type ≠ expectedType then
      .error (.thrown (.unexpectedToken t.type expectedType t.position t.value))
    else .ok ()

/-- `Parser::lookCurrent`: `tokens[current].type == expectedType`, with no
bounds check. -/
def lookCurrent (p : Parser) (expectedType : TokenType) : Outcome Bool :=
  match p.tokens[p.current]? with
  | none => .error .outOfBounds
  | some t => .ok (t.type == expectedType)

/-! ## parser.cpp -/

/-- The set `rightNeededExpressionSet`. -/
def rightNeededExpressionSet : List (List Char) :=
  ["=".toList, "+".toList, "-".toList, "*".toList, "/".toList, "%".toList,
    "+=".toList, "-=".toList, "*=".toList, "/=".toList, "%=".toList,
    "==".toList, "!=".toList, ">".toList, "<".toList, ">=".toList, "<=".toList,
    "&&".toList, "||".toList,
    "&".toList, "|".toList, "^".toList, "<<".toList, ">>".toList]

/-- The value of a run of decimal digits, most significant first. -/
def digitsValue (digits : List Char) : Nat :=
  digits.foldl (fun acc d => 10 * acc + (d.toNat - 48)) 0

/-- `std::stoi(str)` with the default base 10: leading whitespace is skipped,
an optional sign is read, then the longest run of digits; no digit at all
throws `std::invalid_argument`, a value outside `int` throws
`std::out_of_range`. -/
def stoi (str : List Char) : Outcome Int :=
  let s := str.dropWhile isspace
  let negative := s.head? = some '-'
  let s := if s.head? = some '-' ∨ s.head? = some '+' then s.tail else s
  let digits := s.takeWhile isdigit
  if digits.isEmpty then .error (.thrown .stoiInvalidArgument)
  else
    let v : Int := if negative then -(digitsValue digits : Int) else (digitsValue digits : Int)
    if v < -2147483648 ∨ 2147483647 < v then .error (.thrown .stoiOutOfRange)
    else .ok v

mutual

/-- `Parser::parsePrimary`. -/
def parsePrimary : Nat → Parser → Outcome (ASTNode × Parser)
  | 0, _ => .error .outOfFuel
  | fuel + 1, p => do
    let token ← currentToken p
    if token.type = TOK_IDENTIFIER then
      let p ← consume p TOK_IDENTIFIER
      memberAccessLoop fuel p (.Variable token.value)
    else if token.type = TOK_NUMBER then
      let n ← stoi token.value
      let p ← consume p TOK_NUMBER
      .ok (.Literal LITERAL_NUMBER (.Number n), p)
    else if token.type = TOK_STRING then
      let p ← consume p TOK_STRING
      .ok (.Literal LITERAL_STRING (.String token.value), p)
    else if token.type = TOK_TRUE then
      let p ← consume p TOK_TRUE
      .ok (.Literal LITERAL_TRUE (.Boolean true), p)
    else if token.type = TOK_FALSE then
      let p ← consume p TOK_FALSE
      .ok (.Literal LITERAL_FALSE (.Boolean false), p)
    else if token.type = TOK_OPEN_PAREN then
      let p ← consume p TOK_OPEN_PAREN
      let (subExpr, p) ← parseExpression fuel p 0
      let close ← currentToken p
      if close.type ≠ TOK_CLOSE_PAREN then .error (.thrown .expectedCloseParen)
      else
        let p ← consume p TOK_CLOSE_PAREN
        .ok (subExpr, p)
    else if token.type = TOK_EOF then .error (.thrown .unexpectedEndOfFile)
    else .error (.thrown (.unexpectedPrimary token.type token.position token.value))

/-- The loop `while (lookCurrent(TOK_DOT))` of `parsePrimary`, entered with
the expression built so far. -/
def memberAccessLoop : Nat → Parser → ASTNode → Outcome (ASTNode × Parser)
  | 0, _, _ => .error .outOfFuel
  | fuel + 1, p, expression => do
    if ← lookCurrent p TOK_DOT then
      let p ← consume p TOK_DOT
      let nextToken ← currentToken p
      expect p TOK_IDENTIFIER
      let p ← consume p TOK_IDENTIFIER
      let expression := ASTNode.MemberAccess expression nextToken.value
      if ← lookCurrent p TOK_OPEN_PAREN then
        let p ← consume p TOK_OPEN_PAREN
        let (arguments, p) ← argumentLoop fuel p []
        let p ← consume p TOK_CLOSE_PAREN
        memberAccessLoop fuel p (.FunctionCall expression arguments)
      else memberAccessLoop fuel p expression
    else .ok (expression, p)

/-- The loop `while (!lookCurrent(TOK_CLOSE_PAREN))` of `parsePrimary`,
entered with the arguments collected so far. -/
def argumentLoop : Nat → Parser → List ASTNode → Outcome (List ASTNode × Parser)
  | 0, _, _ => .error .outOfFuel
  | fuel + 1, p, arguments => do
    if ← lookCurrent p TOK_CLOSE_PAREN then .ok (arguments, p)
    else
      let (argument, p) ← parseExpression fuel p 0
      if ← lookCurrent p TOK_COMMA then
        let p ← consume p TOK_COMMA
        argumentLoop fuel p (arguments ++ [argument])
      else argumentLoop fuel p (arguments ++ [argument])

/-- `Parser::parseExpression(precedence)`. -/
def parseExpression : Nat → Parser → Int → Outcome (ASTNode × Parser)
  | 0, _, _ => .error .outOfFuel
  | fuel + 1, p, precedence => do
    let (left, p) ← parsePrimary fuel p
    binaryOperationLoop fuel p precedence left

/-- The loop `while (true)` of `parseExpression`, entered with the left
operand built so far. -/
def binaryOperationLoop : Nat → Parser → Int → ASTNode → Outcome (ASTNode × Parser)
  | 0, _, _, _ => .error .outOfFuel
  | fuel + 1, p, precedence, left => do
    let token ← currentToken p
    let currentPrecedence := getOperatorPrecedence token.type
    if token.value ∈ rightNeededExpressionSet ∧ currentPrecedence ≥ precedence then
      let p ← consume p token.type
      let (right, p) ← parseExpression fuel p (currentPrecedence + 1)
      binaryOperationLoop fuel p precedence (.BinaryOperation left token.type right)
    else .ok (left, p)

end

/-- `Parser::parseAssignmentStatement`. -/
def parseAssignmentStatement (fuel : Nat) (p : Parser) (primary : ASTNode) :
    Outcome (ASTNode × Parser) := do
  let p ← consume p TOK_ASSIGNMENT
  let (valueNode, p) ← parseExpression fuel p 0
  .ok (.Assignment primary valueNode, p)

/-- `Parser::parseVariableDeclarationStatement`. -/
def parseVariableDeclarationStatement (fuel : Nat) (p : Parser) :
    Outcome (ASTNode × Parser) := do
  let p ← consume p TOK_VAR
  let variableToken ← currentToken p
  let p ← (do
    if ← lookCurrent p TOK_ELSEIF_STATEMENT then consume p TOK_IDENTIFIER else .ok p)
  let p ← consume p TOK_IDENTIFIER
  let p ← consume p TOK_ASSIGNMENT
  let (valueNode, p) ← parseExpression fuel p 0
  let p ← consume p TOK_SEMICOLON
  .ok (.VariableDeclaration variableToken.value valueNode, p)

/-- `Parser::parseGlobalDeclarationStatement`. -/
def parseGlobalDeclarationStatement (fuel : Nat) (p : Parser) :
    Outcome (ASTNode × Parser) := do
  let p ← consume p TOK_GLOBAL_VAR
  let variableToken ← currentToken p
  let p ← consume p TOK_IDENTIFIER
  let p ← consume p TOK_ASSIGNMENT
  let (valueNode, p) ← parseExpression fuel p 0
  let p ← consume p TOK_SEMICOLON
  .ok (.GlobalDeclaration variableToken.value valueNode, p)

/-- `Parser::parseForStatement`. -/
def parseForStatement (_p : Parser) : Outcome (ASTNode × Parser) :=
  .error (.thrown .forLoopNotImplemented)

/-- `Parser::parseReturnStatement`. -/
def parseReturnStatement (fuel : Nat) (p : Parser) : Outcome (ASTNode × Parser) := do
  let p ← consume p TOK_RETURN_STATEMENT
  let (expression, p) ← parseExpression fuel p 0
  let p ← consume p TOK_SEMICOLON
  .ok (.Return expression, p)

mutual

/-- `Parser::parseIfStatement`. -/
def parseIfStatement : Nat → Parser → Outcome (ASTNode × Parser)
  | 0, _ => .error .outOfFuel
  | fuel + 1, p => do
    let p ← consume p TOK_IF_STATEMENT
    let p ← consume p TOK_OPEN_PAREN
    let (condition, p) ← parseExpression fuel p 0
    let p ← consume p TOK_CLOSE_PAREN
    let p ← consume p TOK_OPEN_BRACE
    let _ ← lookCurrent p TOK_CLOSE_BRACE
    let (body, p) ← parseStatement fuel p true
    let p ← consume p TOK_CLOSE_BRACE
    let (elseifBodies, p) ← elseifLoop fuel p []
    if ← lookCurrent p TOK_ELSE_STATEMENT then
      let p ← consume p TOK_ELSE_STATEMENT
      let p ← consume p TOK_OPEN_BRACE
      let (elseBody, p) ← parseStatement fuel p true
      let p ← consume p TOK_CLOSE_BRACE
      .ok (.If condition body elseifBodies (some elseBody), p)
    else .ok (.If condition body elseifBodies none, p)

/-- The loop `while (lookCurrent(TOK_ELSEIF_STATEMENT))` of `parseIfStatement`,
entered with the clauses collected so far. -/
def elseifLoop : Nat → Parser → List ASTNode → Outcome (List ASTNode × Parser)
  | 0, _, _ => .error .outOfFuel
  | fuel + 1, p, elseifBodies => do
    if ← lookCurrent p TOK_ELSEIF_STATEMENT then
      let p ← consume p TOK_ELSEIF_STATEMENT
      let p ← consume p TOK_OPEN_PAREN
      let (elseifCondition, p) ← parseExpression fuel p 0
      let p ← consume p TOK_CLOSE_PAREN
      let p ← consume p TOK_OPEN_BRACE
      let (elseifBody, p) ← parseStatement fuel p true
      let p ← consume p TOK_CLOSE_BRACE
      elseifLoop fuel p (elseifBodies ++ [.ElseIf elseifCondition elseifBody])
    else .ok (elseifBodies, p)

/-- `Parser::parseWhileStatement`. -/
def parseWhileStatement : Nat → Parser → Outcome (ASTNode × Parser)
  | 0, _ => .error .outOfFuel
  | fuel + 1, p => do
    let p ← consume p TOK_WHILE_STATEMENT
    let p ← consume p TOK_OPEN_PAREN
    let (condition, p) ← parseExpression fuel p 0
    let p ← consume p TOK_CLOSE_PAREN
    let p ← consume p TOK_OPEN_BRACE
    let (body, p) ← parseStatement fuel p true
    let p ← consume p TOK_CLOSE_BRACE
    .ok (.While condition body, p)

/-- The loop `while (isBody)` of `parseStatement`, entered with the
statements collected so far; it returns them when the loop breaks. -/
def statementLoop : Nat → Parser → List ASTNode → Outcome (List ASTNode × Parser)
  | 0, _, _ => .error .outOfFuel
  | fuel + 1, p, statements => do
    if (← lookCurrent p TOK_EOF) || (← lookCurrent p TOK_CLOSE_BRACE) then
      .ok (statements, p)
    else if ← lookCurrent p TOK_VAR then
      let (s, p) ← parseVariableDeclarationStatement fuel p
      statementLoop fuel p (statements ++ [s])
    else if ← lookCurrent p TOK_GLOBAL_VAR then
      let (s, p) ← parseGlobalDeclarationStatement fuel p
      statementLoop fuel p (statements ++ [s])
    else if ← lookCurrent p TOK_FOR_STATEMENT then
      let (s, p) ← parseForStatement p
      statementLoop fuel p (statements ++ [s])
    else if ← lookCurrent p TOK_WHILE_STATEMENT then
      let (s, p) ← parseWhileStatement fuel p
      statementLoop fuel p (statements ++ [s])
    else if ← lookCurrent p TOK_IF_STATEMENT then
      let (s, p) ← parseIfStatement fuel p
      statementLoop fuel p (statements ++ [s])
    else if ← lookCurrent p TOK_RETURN_STATEMENT then
      let (s, p) ← parseReturnStatement fuel p
      statementLoop fuel p (statements ++ [s])
    else if ← lookCurrent p TOK_IDENTIFIER then
      let (primaryExpression, p) ← parsePrimary fuel p
      if ← lookCurrent p TOK_ASSIGNMENT then
        let (s, p) ← parseAssignmentStatement fuel p primaryExpression
        statementLoop fuel p (statements ++ [s])
      else statementLoop fuel p (statements ++ [primaryExpression])
    else if ← lookCurrent p TOK_BREAK_STATEMENT then
      let p ← consume p TOK_BREAK_STATEMENT
      let p ← consume p TOK_SEMICOLON
      statementLoop fuel p (statements ++ [.Break])
    else if ← lookCurrent p TOK_CONTINUE_STATEMENT then
      let p ← consume p TOK_CONTINUE_STATEMENT
      let p ← consume p TOK_SEMICOLON
      statementLoop fuel p (statements ++ [.Continue])
    else
      let token ← currentToken p
      let p ← consume p token.type
      statementLoop fuel p statements

/-- `Parser::parseStatement(isBody)`. -/
def parseStatement : Nat → Parser → Bool → Outcome (ASTNode × Parser)
  | 0, _, _ => .error .outOfFuel
  | fuel + 1, p, isBody => do
    let (statements, p) ← (if isBody then statementLoop fuel p [] else .ok ([], p))
    if statements.isEmpty then .ok (.Block [.Empty], p)
    else .ok (.Block statements, p)

end

/-- The expression `tokens.size()-1` of `Parser::parse`, computed in `size_t`,
that is modulo `2^64 = 18446744073709551616`. -/
def sizeMinusOne (size : Nat) : Nat :=
  (size + 18446744073709551616 - 1) % 18446744073709551616

/-- The loop `while (current < tokens.size()-1)` of `Parser::parse`, entered
with the roots collected so far. -/
def parseLoop : Nat → Parser → List ASTNode → Outcome (List ASTNode × Parser)
  | 0, _, _ => .error .outOfFuel
  | fuel + 1, p, statements =>
    if p.current < sizeMinusOne p.tokens.length then do
      let (s, p) ← parseStatement fuel p true
      parseLoop fuel p (statements ++ [s])
    else .ok (statements, p)

/-- `Parser(tokens).parse()`: the constructor sets `current` to 0. -/
def parse (fuel : Nat) (tokens : List Token) : Outcome (List ASTNode) := do
  let (statements, _) ← parseLoop fuel ⟨tokens, 0⟩ []
  .ok statements

/-! ## Vocabulary of the statements -/

/-- The tokens from the cursor on: `tokens[current]`, `tokens[current + 1]`, ... -/
def Parser.remaining (p : Parser) : List Token := p.tokens.drop p.current

/-- The parser state after `n` more tokens have been consumed. -/
def Parser.advance (p : Parser) (n : Nat) : Parser := { p with current := p.current + n }

/-- Budget order on results: the first run ran out of budget, or the second
run ends exactly as the first. -/
def FuelLe {α : Type} (r r' : Outcome α) : Prop := r ≠ .error .outOfFuel → r' = r

/-- An operand token (an identifier or a literal) and the node it denotes. A
number literal is a non-empty run of decimal digits whose value fits `int`. -/
inductive IsOperand : Token → ASTNode → Prop where
  | identifier (name : List Char) (pos : Nat) :
      IsOperand ⟨name, TOK_IDENTIFIER, pos⟩ (.Variable name)
  | number (digits : List Char) (pos : Nat) (hne : digits ≠ [])
      (hdigits : ∀ c ∈ digits, isdigit c = true) (hrange : digitsValue digits ≤ 2147483647) :
      IsOperand ⟨digits, TOK_NUMBER, pos⟩
        (.Literal LITERAL_NUMBER (.Number (digitsValue digits)))
  | string (text : List Char) (pos : Nat) :
      IsOperand ⟨text, TOK_STRING, pos⟩ (.Literal LITERAL_STRING (.String text))
  | true (text : List Char) (pos : Nat) :
      IsOperand ⟨text, TOK_TRUE, pos⟩ (.Literal LITERAL_TRUE (.Boolean Bool.true))
  | false (text : List Char) (pos : Nat) :
      IsOperand ⟨text, TOK_FALSE, pos⟩ (.Literal LITERAL_FALSE (.Boolean Bool.false))

/-- The eighteen binary operators that are not assignments: text, kind, and
the precedence the specification tabulates for them. -/
def binaryOperatorTable : List (List Char × TokenType × Int) :=
  [("*".toList, TOK_MULTIPLICATION, 13), ("/".toList, TOK_DIVISION, 13),
    ("%".toList, TOK_MODULUS, 13),
    ("+".toList, TOK_ADDITION, 12), ("-".toList, TOK_SUBTRACTION, 12),
    ("<<".toList, TOK_LEFT_SHIFT, 11), (">>".toList, TOK_RIGHT_SHIFT, 11),
    (">".toList, TOK_GREATER, 10), ("<".toList, TOK_LESS, 10),
    (">=".toList, TOK_GREATER_EQUAL, 10), ("<=".toList, TOK_LESS_EQUAL, 10),
    ("==".toList, TOK_EQUAL, 9), ("!=".toList, TOK_NOT_EQUAL, 9),
    ("&".toList, TOK_BITWISE_AND, 8), ("^".toList, TOK_BITWISE_XOR, 7),
    ("|".toList, TOK_BITWISE_OR, 6), ("&&".toList, TOK_AND, 5), ("||".toList, TOK_OR, 4)]

/-- The nonterminals of the reference grammar of arithmetic expressions. -/
inductive Sym where
  | E
  | T
  | F
  deriving DecidableEq, Repr

/-- One repetition `op X` of an iteration `(op X)*` of the reference grammar:
the operator token, the tokens of the operand `X`, and the tree of `X`. -/
structure Repetition where
  op : Token
  tokens : List Token
  tree : ASTNode

/-- The tokens of a run of repetitions `op1 X1 op2 X2 ...`. -/
def repetitionTokens : List Repetition → List Token
  | [] => []
  | r :: rs => r.op :: r.tokens ++ repetitionTokens rs

/-- The left-associative tree of `left op1 X1 op2 X2 ...`:
`((left op1 X1) op2 X2) ...`. -/
def repetitionTree (left : ASTNode) : List Repetition → ASTNode
  | [] => left
  | r :: rs => repetitionTree (.BinaryOperation left r.op.type r.tree) rs

/-- A token for `*` or `/`. -/
def isMultiplicative (op : Token) : Prop :=
  (op.value = "*".toList ∧ op.type = TOK_MULTIPLICATION) ∨
    (op.value = "/".toList ∧ op.type = TOK_DIVISION)

/-- A token for `+` or `-`. -/
def isAdditive (op : Token) : Prop :=
  (op.value = "+".toList ∧ op.type = TOK_ADDITION) ∨
    (op.value = "-".toList ∧ op.type = TOK_SUBTRACTION)

/-- The reference grammar `E -> T ((+|-) T)*`, `T -> F ((*|/) F)*`,
`F -> int | id | ( E )`, both operator levels grouping to the left:
`Derives s ts e` says that the token list `ts` is derived from the nonterminal
`s` and that `e` is its tree. An integer literal is a non-empty run of decimal
digits whose value fits `int`. -/
inductive Derives : Sym → List Token → ASTNode → Prop where
  | int (digits : List Char) (pos : Nat) (hne : digits ≠ [])
      (hdigits : ∀ c ∈ digits, isdigit c = true) (hrange : digitsValue digits ≤ 2147483647) :
      Derives .F [⟨digits, TOK_NUMBER, pos⟩]
        (.Literal LITERAL_NUMBER (.Number (digitsValue digits)))
  | id (name : List Char) (pos : Nat) :
      Derives .F [⟨name, TOK_IDENTIFIER, pos⟩] (.Variable name)
  | paren (openPos closePos : Nat) {ts : List Token} {e : ASTNode} (h : Derives .E ts e) :
      Derives .F (⟨"(".toList, TOK_OPEN_PAREN, openPos⟩ :: ts ++
        [⟨")".toList, TOK_CLOSE_PAREN, closePos⟩]) e
  | term {ts : List Token} {e : ASTNode} (first : Derives .F ts e) (rest : List Repetition)
      (hops : ∀ r ∈ rest, isMultiplicative r.op)
      (hrest : ∀ r ∈ rest, Derives .F r.tokens r.tree) :
      Derives .T (ts ++ repetitionTokens rest) (repetitionTree e rest)
  | expr {ts : List Token} {e : ASTNode} (first : Derives .T ts e) (rest : List Repetition)
      (hops : ∀ r ∈ rest, isAdditive r.op)
      (hrest : ∀ r ∈ rest, Derives .T r.tokens r.tree) :
      Derives .E (ts ++ repetitionTokens rest) (repetitionTree e rest)

/-- The reference grammar with its left-associative iterations written as
left recursion, `E -> T | E (+|-) T` and `T -> F | T (*|/) F`: every
derivation of `Derives` is one of `DerivesLeft`, which is the form the
correctness proof of `parseExpression` works on. -/
inductive DerivesLeft : Sym → List Token → ASTNode → Prop where
  | int (digits : List Char) (pos : Nat) (hne : digits ≠ [])
      (hdigits : ∀ c ∈ digits, isdigit c = true) (hrange : digitsValue digits ≤ 2147483647) :
      DerivesLeft .F [⟨digits, TOK_NUMBER, pos⟩]
        (.Literal LITERAL_NUMBER (.Number (digitsValue digits)))
  | id (name : List Char) (pos : Nat) :
      DerivesLeft .F [⟨name, TOK_IDENTIFIER, pos⟩] (.Variable name)
  | paren (openPos closePos : Nat) {ts : List Token} {e : ASTNode} (h : DerivesLeft .E ts e) :
      DerivesLeft .F (⟨"(".toList, TOK_OPEN_PAREN, openPos⟩ :: ts ++
        [⟨")".toList, TOK_CLOSE_PAREN, closePos⟩]) e
  | factor {ts : List Token} {e : ASTNode} (h : DerivesLeft .F ts e) : DerivesLeft .T ts e
  | mul {ts1 ts2 : List Token} {e1 e2 : ASTNode} (op : Token) (h1 : DerivesLeft .T ts1 e1)
      (hop : (op.value = "*".toList ∧ op.type = TOK_MULTIPLICATION) ∨
        (op.value = "/".toList ∧ op.type = TOK_DIVISION))
      (h2 : DerivesLeft .F ts2 e2) :
      DerivesLeft .T (ts1 ++ op :: ts2) (.BinaryOperation e1 op.type e2)
  | term {ts : List Token} {e : ASTNode} (h : DerivesLeft .T ts e) : DerivesLeft .E ts e
  | add {ts1 ts2 : List Token} {e1 e2 : ASTNode} (op : Token) (h1 : DerivesLeft .E ts1 e1)
      (hop : (op.value = "+".toList ∧ op.type = TOK_ADDITION) ∨
        (op.value = "-".toList ∧ op.type = TOK_SUBTRACTION))
      (h2 : DerivesLeft .T ts2 e2) :
      DerivesLeft .E (ts1 ++ op :: ts2) (.BinaryOperation e1 op.type e2)

/-- The largest minimum precedence at which `parseExpression` still parses a
whole phrase of the nonterminal. -/
def Sym.level : Sym → Int
  | .E => 12
  | .T => 13
  | .F => 14

/-- The largest precedence an operator token may have when it follows a
phrase of the nonterminal. -/
def Sym.stopLevel : Sym → Int
  | .E => 12
  | .T => 13
  | .F => 13

/-- A token that is neither an end-of-input token nor empty. -/
def Token.proper (t : Token) : Prop := t.type ≠ TOK_EOF ∧ t.value ≠ []

/-- The token layout of a run of `elseif` clauses, read off the parser:
`ElseIfClauses fuel p clauses p'` says that from the state `p` the tokens are,
for each pair `(c, b)` of `clauses` in order, `elseif (` followed by tokens on
which `parseExpression(0)` returns `c` and stops on `)`, then `{` followed by
tokens on which `parseStatement(true)` returns `b` and stops on `}`; `p'` is the
state behind the last `}`. -/
inductive ElseIfClauses (fuel : Nat) : Parser → List (ASTNode × ASTNode) → Parser → Prop where
  | nil (p : Parser) : ElseIfClauses fuel p [] p
  | cons {p p1 p2 p' : Parser} {c b : ASTNode} {clauses : List (ASTNode × ASTNode)}
      (hkeyword : lookCurrent p TOK_ELSEIF_STATEMENT = .ok true)
      (hopen : lookCurrent (p.advance 1) TOK_OPEN_PAREN = .ok true)
      (hcondition : parseExpression fuel (p.advance 2) 0 = .ok (c, p1))
      (hclose : lookCurrent p1 TOK_CLOSE_PAREN = .ok true)
      (hbrace : lookCurrent (p1.advance 1) TOK_OPEN_BRACE = .ok true)
      (hbody : parseStatement fuel (p1.advance 2) true = .ok (b, p2))
      (hend : lookCurrent p2 TOK_CLOSE_BRACE = .ok true)
      (hrest : ElseIfClauses fuel (p2.advance 1) clauses p') :
      ElseIfClauses fuel p ((c, b) :: clauses) p'

/-- The optional `else` clause behind the `elseif` clauses:
`ElseClause fuel p e p'` says that either the token at `p` is neither `elseif`
nor `else` (`e = none`, `p' = p`), or the tokens from `p` are `else {` followed
by tokens on which `parseStatement(true)` returns `b` and stops on `}`
(`e = some b`, `p'` the state behind that `}`). -/
inductive ElseClause (fuel : Nat) : Parser → Option ASTNode → Parser → Prop where
  | absent (p : Parser) (hnoelseif : lookCurrent p TOK_ELSEIF_STATEMENT = .ok false)
      (hnoelse : lookCurrent p TOK_ELSE_STATEMENT = .ok false) : ElseClause fuel p none p
  | present {p p1 : Parser} {b : ASTNode}
      (hkeyword : lookCurrent p TOK_ELSE_STATEMENT = .ok true)
      (hbrace : lookCurrent (p.advance 1) TOK_OPEN_BRACE = .ok true)
      (hbody : parseStatement fuel (p.advance 2) true = .ok (b, p1))
      (hend : lookCurrent p1 TOK_CLOSE_BRACE = .ok true) :
      ElseClause fuel p (some b) (p1.advance 1)

/-- The tokens of a chain with two `elseif` clauses and an `else` clause. -/
def ifChainExample : List Token :=
  tokenize "if (a) { } elseif (b) { x = 1; } elseif (c) { } else { y = 2; }".toList

/-- The state `p` as it reads in the token vector with `pre` put in front:
the cursor is on the same token. -/
def Parser.shift (pre : List Token) (p : Parser) : Parser :=
  ⟨pre ++ p.tokens, pre.length + p.current⟩

/-- The second result is the first one with its final state read in the
token vector with `pre` put in front. -/
def ShiftRel (pre : List Token) {α : Type} (r r' : Outcome (α × Parser)) : Prop :=
  r' = r.map (fun x => (x.1, x.2.shift pre))

mutual
/-- Every `Block` node in the tree has a non-empty statement list. -/
def ASTNode.blocksNonEmpty : ASTNode → Bool
  | .Variable _ => true
  | .Number _ => true
  | .String _ => true
  | .Boolean _ => true
  | .Literal _ value => value.blocksNonEmpty
  | .FunctionCall object arguments => object.blocksNonEmpty && allBlocksNonEmpty arguments
  | .MemberAccess object _ => object.blocksNonEmpty
  | .BinaryOperation left _ right => left.blocksNonEmpty && right.blocksNonEmpty
  | .Empty => true
  | .Block statements => !statements.isEmpty && allBlocksNonEmpty statements
  | .Assignment var value => var.blocksNonEmpty && value.blocksNonEmpty
  | .VariableDeclaration _ value => value.blocksNonEmpty
  | .GlobalDeclaration _ value => value.blocksNonEmpty
  | .If condition body elseifBodies elseBody =>
    condition.blocksNonEmpty && body.blocksNonEmpty && allBlocksNonEmpty elseifBodies &&
      optionBlocksNonEmpty elseBody
  | .ElseIf condition body => condition.blocksNonEmpty && body.blocksNonEmpty
  | .While condition body => condition.blocksNonEmpty && body.blocksNonEmpty
  | .Return expressions => expressions.blocksNonEmpty
  | .Break => true
  | .Continue => true
/-- Every node of the list satisfies `ASTNode.blocksNonEmpty`. -/
def allBlocksNonEmpty : List ASTNode → Bool
  | [] => true
  | node :: nodes => node.blocksNonEmpty && allBlocksNonEmpty nodes
/-- The node, if there is one, satisfies `ASTNode.blocksNonEmpty`. -/
def optionBlocksNonEmpty : Option ASTNode → Bool
  | none => true
  | some node => node.blocksNonEmpty
end

/-- A result, when it is a value, satisfies `P`. -/
def Sat {α : Type} (P : α → Prop) (r : Outcome α) : Prop := ∀ a, r = .ok a → P a

/-! ## Vocabulary of the tokenizer statements -/

/-- A quote character, `"` or `'`. -/
def isQuote (ch : Char) : Bool := decide (ch = dquote ∨ ch = squote)

/-- A character that extends the pending word: alphanumeric or underscore. -/
def isWordChar (ch : Char) : Bool := decide (isalnum ch = true ∨ ch = '_')

/-- The fifteen two-character operators, each with its kind. -/
def twoCharOperatorTable : List (List Char × TokenType) :=
  [("+=".toList, TOK_ADDITION_ASSIGNMENT), ("-=".toList, TOK_SUBTRACTION_ASSIGNMENT),
    ("*=".toList, TOK_MULTIPLICATION_ASSIGNMENT), ("/=".toList, TOK_DIVISION_ASSIGNMENT),
    ("%=".toList, TOK_MODULUS_ASSIGNMENT), ("++".toList, TOK_INCREMENT),
    ("--".toList, TOK_DECREMENT), ("==".toList, TOK_EQUAL), ("!=".toList, TOK_NOT_EQUAL),
    (">=".toList, TOK_GREATER_EQUAL), ("<=".toList, TOK_LESS_EQUAL), ("&&".toList, TOK_AND),
    ("||".toList, TOK_OR), ("<<".toList, TOK_LEFT_SHIFT), (">>".toList, TOK_RIGHT_SHIFT)]

/-- The thirteen single-character operators, each with its kind. -/
def singleCharOperatorTable : List (List Char × TokenType) :=
  [("=".toList, TOK_ASSIGNMENT), ("+".toList, TOK_ADDITION), ("-".toList, TOK_SUBTRACTION),
    ("*".toList, TOK_MULTIPLICATION), ("/".toList, TOK_DIVISION), ("%".toList, TOK_MODULUS),
    (">".toList, TOK_GREATER), ("<".toList, TOK_LESS), ("!".toList, TOK_NOT),
    ("&".toList, TOK_BITWISE_AND), ("|".toList, TOK_BITWISE_OR), ("^".toList, TOK_BITWISE_XOR),
    ("~".toList, TOK_BITWISE_NOT)]

/-- The kind of a word as the specification orders the tests, first match
first: a declaration keyword or bare type name, then all digits, then one of
the eleven statement keywords, then a boolean literal, otherwise identifier. -/
def referenceWordKind (w : List Char) : TokenType :=
  if w = "var".toList then TOK_VAR
  else if w = "const".toList then TOK_VAR_CONST
  else if w = "global".toList then TOK_GLOBAL_VAR
  else if w = "number".toList ∨ w = "string".toList ∨ w = "bool".toList then TOK_VAR_TYPE
  else if w.all isdigit then TOK_NUMBER
  else if w = "if".toList then TOK_IF_STATEMENT
  else if w = "elseif".toList then TOK_ELSEIF_STATEMENT
  else if w = "else".toList then TOK_ELSE_STATEMENT
  else if w = "for".toList then TOK_FOR_STATEMENT
  else if w = "while".toList then TOK_WHILE_STATEMENT
  else if w = "switch".toList then TOK_SWITCH_STATEMENT
  else if w = "case".toList then TOK_CASE_STATEMENT
  else if w = "default".toList then TOK_DEFAULT_STATEMENT
  else if w = "break".toList then TOK_BREAK_STATEMENT
  else if w = "continue".toList then TOK_CONTINUE_STATEMENT
  else if w = "return".toList then TOK_RETURN_STATEMENT
  else if w = "true".toList then TOK_TRUE
  else if w = "false".toList then TOK_FALSE
  else TOK_IDENTIFIER

/-- The nineteen words with a kind of their own: declaration keywords, bare
type names, statement keywords and boolean literals. -/
def reservedWords : List (List Char) :=
  ["var".toList, "const".toList, "global".toList, "number".toList, "string".toList,
    "bool".toList, "if".toList, "elseif".toList, "else".toList, "for".toList, "while".toList,
    "switch".toList, "case".toList, "default".toList, "break".toList, "continue".toList,
    "return".toList, "true".toList, "false".toList]


/-! ## Vocabulary of the statement-level claims -/

/-- The assignment family `= += -= *= /= %=`: spelling and token kind. -/
def assignmentOperatorTable : List (List Char × TokenType) :=
  [("=".toList, TOK_ASSIGNMENT),
   ("+=".toList, TOK_ADDITION_ASSIGNMENT),
   ("-=".toList, TOK_SUBTRACTION_ASSIGNMENT),
   ("*=".toList, TOK_MULTIPLICATION_ASSIGNMENT),
   ("/=".toList, TOK_DIVISION_ASSIGNMENT),
   ("%=".toList, TOK_MODULUS_ASSIGNMENT)]

/-- The shape that the specification gives to both declarations, read after
the keyword: an identifier, `=`, an expression and a terminating `;`. The
result is the name and the value tree. -/
def declarationShape (fuel : Nat) (p : Parser) : Outcome ((List Char × ASTNode) × Parser) := do
  let name ← currentToken p
  let p ← consume p TOK_IDENTIFIER
  let p ← consume p TOK_ASSIGNMENT
  let (value, p) ← parseExpression fuel p 0
  let p ← consume p TOK_SEMICOLON
  .ok ((name.value, value), p)

/-- The tokens of a chain of member accesses `. m1 . m2 ... . mk`, each
member given by its `.` token and its name token. -/
def memberTokens : List (Token × Token) → List Token
  | [] => []
  | m :: members => m.1 :: m.2 :: memberTokens members

/-- The left-nested tree `MemberAccess(...MemberAccess(e, m1)..., mk)`. -/
def memberChain (e : ASTNode) (members : List (Token × Token)) : ASTNode :=
  members.foldl (fun object m => .MemberAccess object m.2.value) e

/-- An argument list in source order: from the state behind `(`, each
argument is one full expression parsed at minimum precedence 0, optionally
followed by a comma, up to the state on `)`. -/
inductive ArgumentsParse (fuel : Nat) : Parser → List ASTNode → Parser → Prop where
  | close (p : Parser) (h : lookCurrent p TOK_CLOSE_PAREN = .ok true) :
      ArgumentsParse fuel p [] p
  | comma (p p1 p2 : Parser) (x : ASTNode) (xs : List ASTNode)
      (h : lookCurrent p TOK_CLOSE_PAREN = .ok false)
      (hx : parseExpression fuel p 0 = .ok (x, p1))
      (hc : lookCurrent p1 TOK_COMMA = .ok true)
      (hxs : ArgumentsParse fuel (p1.advance 1) xs p2) :
      ArgumentsParse fuel p (x :: xs) p2
  | noComma (p p1 p2 : Parser) (x : ASTNode) (xs : List ASTNode)
      (h : lookCurrent p TOK_CLOSE_PAREN = .ok false)
      (hx : parseExpression fuel p 0 = .ok (x, p1))
      (hc : lookCurrent p1 TOK_COMMA = .ok false)
      (hxs : ArgumentsParse fuel p1 xs p2) :
      ArgumentsParse fuel p (x :: xs) p2
/-! ## Vocabulary of the whole-program claims -/

/-- The source text of the demonstration program in `main`. -/
def demoSource : List Char :=
  "var proje = (1 + 2) * 3; while (true) \x7b proje = proje + 1; break; \x7d return 0;".toList

/-- The tokens of the demonstration program. -/
def demoTokens : List Token :=
  [⟨"var".toList, TOK_VAR, 3⟩, ⟨"proje".toList, TOK_IDENTIFIER, 9⟩,
   ⟨"=".toList, TOK_ASSIGNMENT, 10⟩, ⟨"(".toList, TOK_OPEN_PAREN, 12⟩,
   ⟨"1".toList, TOK_NUMBER, 14⟩, ⟨"+".toList, TOK_ADDITION, 15⟩,
   ⟨"2".toList, TOK_NUMBER, 18⟩, ⟨")".toList, TOK_CLOSE_PAREN, 18⟩,
   ⟨"*".toList, TOK_MULTIPLICATION, 20⟩, ⟨"3".toList, TOK_NUMBER, 23⟩,
   ⟨";".toList, TOK_SEMICOLON, 23⟩, ⟨"while".toList, TOK_WHILE_STATEMENT, 30⟩,
   ⟨"(".toList, TOK_OPEN_PAREN, 31⟩, ⟨"true".toList, TOK_TRUE, 36⟩,
   ⟨")".toList, TOK_CLOSE_PAREN, 36⟩, ⟨['\x7b'], TOK_OPEN_BRACE, 38⟩,
   ⟨"proje".toList, TOK_IDENTIFIER, 45⟩, ⟨"=".toList, TOK_ASSIGNMENT, 46⟩,
   ⟨"proje".toList, TOK_IDENTIFIER, 53⟩, ⟨"+".toList, TOK_ADDITION, 54⟩,
   ⟨"1".toList, TOK_NUMBER, 57⟩, ⟨";".toList, TOK_SEMICOLON, 57⟩,
   ⟨"break".toList, TOK_BREAK_STATEMENT, 64⟩, ⟨";".toList, TOK_SEMICOLON, 64⟩,
   ⟨['\x7d'], TOK_CLOSE_BRACE, 66⟩, ⟨"return".toList, TOK_RETURN_STATEMENT, 74⟩,
   ⟨"0".toList, TOK_NUMBER, 76⟩, ⟨";".toList, TOK_SEMICOLON, 76⟩,
   ⟨[], TOK_EOF, 77⟩]

/-- A token vector as `tokenize` builds it: tokens that are no end-of-input
tokens, followed by one end-of-input token with empty text. -/
def WellTerminated (tokens : List Token) : Prop :=
  ∃ (front : List Token) (last : Token),
    tokens = front ++ [last] ∧ last.type = TOK_EOF ∧ last.value = [] ∧
      ∀ t ∈ front, t.type ≠ TOK_EOF

/-- The texts of a list of tokens, concatenated in order. -/
def tokenTexts (tokens : List Token) : List Char :=
  tokens.foldr (fun t rest => t.value ++ rest) []

/-- The text with its whitespace characters removed. -/
def withoutWhitespace (text : List Char) : List Char :=
  text.filter (fun c => !isspace c)

/-- What the scanner holds of the text read so far: the texts of the tokens
emitted, then the pending word. -/
def TokState.content (st : TokState) : List Char :=
  tokenTexts st.tokens ++ st.currentWord

/-- What a run of a parser function over the token vector `tokens` has to
satisfy: when it returns, the token vector is unchanged and the cursor is at
least `c` and on a token; when it fails, it is not by an out-of-bounds read
of `tokens[current]`, and, when `enough` holds (the recursion budget is large
enough), not by exhausting the budget. -/
def SafeRun (tokens : List Token) (c : Nat) (enough : Prop) {α : Type}
    (r : Outcome (α × Parser)) : Prop :=
  match r with
  | .ok x => x.2.tokens = tokens ∧ c ≤ x.2.current ∧ x.2.current < tokens.length
  | .error e => e ≠ .outOfBounds ∧ (enough → e ≠ .outOfFuel)

/-- One iteration of a loop of the parser, entered in the state `p` with the
accumulated value `acc`: the loop ends and returns `acc` in the state `p`, or
the iteration fails, or the loop goes on (`loop` is the rest of the loop) in
a state of the same token vector whose cursor is on a token strictly behind
the cursor of `p`. -/
def LoopStep (tokens : List Token) (p : Parser) {α : Type} (acc : α)
    (loop : Parser → α → Outcome (α × Parser)) (r : Outcome (α × Parser)) : Prop :=
  r = .ok (acc, p) ∨ (∃ e, r = .error e) ∨
    ∃ (q : Parser) (acc1 : α),
      q.tokens = tokens ∧ p.current < q.current ∧ q.current < tokens.length ∧ r = loop q acc1
/-! ## Statements in source order

The statements that start at consecutive positions of the token vector, read
off the tokens from left to right. `StatementAt p s p1` says that one
statement starts at the cursor `p`, that it is `s`, and that the cursor behind
it is `p1`; `StatementList p ss q` says that `ss` are the statements from `p`
up to the first end-of-input token or `}` at statement position, which is at
`q`, each one starting where the one before it ends, in that order. -/

/-- One statement at the cursor `p`, by the token it starts with: `var`,
`global`, `while`, `if`, `return` (the statement is what the function of that
statement kind returns there); an identifier (the primary expression at `p`,
or the assignment to it when `=` follows it); `break ;` and `continue ;`. -/
inductive StatementAt : Parser → ASTNode → Parser → Prop
  | variableDeclaration (fuel : Nat) (p : Parser) (s : ASTNode) (p1 : Parser)
      (hlook : lookCurrent p TOK_VAR = .ok true)
      (h : parseVariableDeclarationStatement fuel p = .ok (s, p1)) : StatementAt p s p1
  | globalDeclaration (fuel : Nat) (p : Parser) (s : ASTNode) (p1 : Parser)
      (hlook : lookCurrent p TOK_GLOBAL_VAR = .ok true)
      (h : parseGlobalDeclarationStatement fuel p = .ok (s, p1)) : StatementAt p s p1
  | whileStatement (fuel : Nat) (p : Parser) (s : ASTNode) (p1 : Parser)
      (hlook : lookCurrent p TOK_WHILE_STATEMENT = .ok true)
      (h : parseWhileStatement fuel p = .ok (s, p1)) : StatementAt p s p1
  | ifStatement (fuel : Nat) (p : Parser) (s : ASTNode) (p1 : Parser)
      (hlook : lookCurrent p TOK_IF_STATEMENT = .ok true)
      (h : parseIfStatement fuel p = .ok (s, p1)) : StatementAt p s p1
  | returnStatement (fuel : Nat) (p : Parser) (s : ASTNode) (p1 : Parser)
      (hlook : lookCurrent p TOK_RETURN_STATEMENT = .ok true)
      (h : parseReturnStatement fuel p = .ok (s, p1)) : StatementAt p s p1
  | assignment (fuel : Nat) (p : Parser) (e : ASTNode) (p1 : Parser) (s : ASTNode)
      (p2 : Parser) (hlook : lookCurrent p TOK_IDENTIFIER = .ok true)
      (hprimary : parsePrimary fuel p = .ok (e, p1))
      (hassign : lookCurrent p1 TOK_ASSIGNMENT = .ok true)
      (h : parseAssignmentStatement fuel p1 e = .ok (s, p2)) : StatementAt p s p2
  | expression (fuel : Nat) (p : Parser) (e : ASTNode) (p1 : Parser)
      (hlook : lookCurrent p TOK_IDENTIFIER = .ok true)
      (hprimary : parsePrimary fuel p = .ok (e, p1))
      (hassign : lookCurrent p1 TOK_ASSIGNMENT = .ok false) : StatementAt p e p1
  | breakStatement (p : Parser) (hlook : lookCurrent p TOK_BREAK_STATEMENT = .ok true)
      (hsemicolon : lookCurrent (p.advance 1) TOK_SEMICOLON = .ok true) :
      StatementAt p .Break (p.advance 2)
  | continueStatement (p : Parser) (hlook : lookCurrent p TOK_CONTINUE_STATEMENT = .ok true)
      (hsemicolon : lookCurrent (p.advance 1) TOK_SEMICOLON = .ok true) :
      StatementAt p .Continue (p.advance 2)

/-- The statements from the cursor `p` on, in source order: none when the
token at `p` is the end-of-input token or `}`; the statement at `p` followed
by the statements behind it; and a token that starts no statement (a stray
`;`, for one) is passed over. -/
inductive StatementList : Parser → List ASTNode → Parser → Prop
  | done (p : Parser)
      (h : lookCurrent p TOK_EOF = .ok true ∨ lookCurrent p TOK_CLOSE_BRACE = .ok true) :
      StatementList p [] p
  | statement (p : Parser) (s : ASTNode) (p1 : Parser) (ss : List ASTNode) (q : Parser)
      (hs : StatementAt p s p1) (hrest : StatementList p1 ss q) : StatementList p (s :: ss) q
  | skip (p : Parser) (t : Token) (ss : List ASTNode) (q : Parser)
      (ht : p.tokens[p.current]? = some t)
      (hty : t.type ≠ TOK_EOF ∧ t.type ≠ TOK_CLOSE_BRACE ∧ t.type ≠ TOK_VAR ∧
        t.type ≠ TOK_GLOBAL_VAR ∧ t.type ≠ TOK_FOR_STATEMENT ∧ t.type ≠ TOK_WHILE_STATEMENT ∧
        t.type ≠ TOK_IF_STATEMENT ∧ t.type ≠ TOK_RETURN_STATEMENT ∧ t.type ≠ TOK_IDENTIFIER ∧
        t.type ≠ TOK_BREAK_STATEMENT ∧ t.type ≠ TOK_CONTINUE_STATEMENT)
      (hrest : StatementList (p.advance 1) ss q) : StatementList p ss q


/-! # Theorems -/

/-! ## Cursor primitives -/

theorem remaining_getElem? (p : Parser) : p.tokens[p.current]? = p.remaining.head? := by
  simp [Parser.remaining, List.head?_drop]

theorem currentToken_of_remaining {p : Parser} {t : Token} {rest : List Token}
    (h : p.remaining = t :: rest) : currentToken p = .ok t := by
  simp [currentToken, remaining_getElem?, h]

theorem lookCurrent_of_remaining {p : Parser} {t : Token} {rest : List Token}
    (h : p.remaining = t :: rest) (ty : TokenType) : lookCurrent p ty = .ok (t.type == ty) := by
  simp [lookCurrent, remaining_getElem?, h]

theorem consume_of_remaining {p : Parser} {t : Token} {rest : List Token}
    (h : p.remaining = t :: rest) {ty : TokenType} (hty : t.type = ty) :
    consume p ty = .ok (p.advance 1) := by
  simp [consume, currentToken_of_remaining h, hty, Parser.advance]

theorem remaining_advance (p : Parser) (n : Nat) :
    (p.advance n).remaining = p.remaining.drop n := by
  simp [Parser.remaining, Parser.advance, List.drop_drop, Nat.add_comm]

theorem advance_advance (p : Parser) (m n : Nat) :
    (p.advance m).advance n = p.advance (m + n) := by
  simp [Parser.advance, Nat.add_assoc]

theorem advance_zero (p : Parser) : p.advance 0 = p := by
  simp [Parser.advance]

theorem lookCurrent_eq_true {p : Parser} {ty : TokenType} (h : lookCurrent p ty = .ok true) :
    ∃ t, p.tokens[p.current]? = some t ∧ t.type = ty := by
  unfold lookCurrent at h
  split at h
  · simp at h
  · rename_i t ht
    refine ⟨t, ht, ?_⟩
    simpa using h

theorem currentToken_of_look {p : Parser} {ty : TokenType} (h : lookCurrent p ty = .ok true) :
    ∃ t, currentToken p = .ok t ∧ t.type = ty := by
  obtain ⟨t, ht, hty⟩ := lookCurrent_eq_true h
  exact ⟨t, by simp [currentToken, ht], hty⟩

theorem lookCurrent_of_look {p : Parser} {ty : TokenType} (h : lookCurrent p ty = .ok true)
    {ty' : TokenType} (hne : ty ≠ ty') : lookCurrent p ty' = .ok false := by
  obtain ⟨t, ht, hty⟩ := lookCurrent_eq_true h
  simp [lookCurrent, ht, hty, hne]

theorem consume_of_look {p : Parser} {ty : TokenType} (h : lookCurrent p ty = .ok true) :
    consume p ty = .ok (p.advance 1) := by
  obtain ⟨t, ht, hty⟩ := currentToken_of_look h
  simp [consume, ht, hty, Parser.advance]

/-! ## The recursion budget

A run that does not exhaust its budget ends the same way under any larger
budget. -/

theorem FuelLe.refl {α : Type} (r : Outcome α) : FuelLe r r := fun _ => rfl

theorem FuelLe.trans {α : Type} {r r' r'' : Outcome α} (h : FuelLe r r') (h' : FuelLe r' r'') :
    FuelLe r r'' := by
  intro hne
  have h1 := h hne
  rw [← h1]
  exact h' (by rw [h1]; exact hne)

theorem FuelLe.bind {α β : Type} {x x' : Outcome α} {f f' : α → Outcome β}
    (hx : FuelLe x x') (hf : ∀ a, FuelLe (f a) (f' a)) : FuelLe (x >>= f) (x' >>= f') := by
  intro h
  cases x with
  | error e =>
    have hne : (Except.error e : Outcome α) ≠ .error .outOfFuel := by
      intro he
      apply h
      rw [he]
      rfl
    rw [hx hne]
    rfl
  | ok a =>
    rw [hx (by simp)]
    exact hf a h

theorem FuelLe.ite {α : Type} {c : Prop} [Decidable c] {a a' b b' : Outcome α}
    (ha : c → FuelLe a a') (hb : ¬c → FuelLe b b') :
    FuelLe (if c then a else b) (if c then a' else b') := by
  split
  · exact ha ‹_›
  · exact hb ‹_›

theorem FuelLe.of_le {α : Type} (g : Nat → Outcome α) (h : ∀ f, FuelLe (g f) (g (f + 1)))
    {f f' : Nat} (hle : f ≤ f') : FuelLe (g f) (g f') := by
  induction hle with
  | refl => exact FuelLe.refl _
  | step _ ih => exact ih.trans (h _)

theorem FuelLe.ok {α : Type} {r r' : Outcome α} (h : FuelLe r r') {a : α} (ha : r = .ok a) :
    r' = .ok a := by
  rw [h (by rw [ha]; simp), ha]

theorem FuelLe.thrown {α : Type} {r r' : Outcome α} (h : FuelLe r r') {e : ParseError}
    (ha : r = .error (.thrown e)) : r' = .error (.thrown e) := by
  rw [h (by rw [ha]; simp), ha]

theorem expression_fuel_succ (f : Nat) :
    (∀ p, FuelLe (parsePrimary f p) (parsePrimary (f + 1) p)) ∧
    (∀ p e, FuelLe (memberAccessLoop f p e) (memberAccessLoop (f + 1) p e)) ∧
    (∀ p a, FuelLe (argumentLoop f p a) (argumentLoop (f + 1) p a)) ∧
    (∀ p q, FuelLe (parseExpression f p q) (parseExpression (f + 1) p q)) ∧
    (∀ p q l, FuelLe (binaryOperationLoop f p q l) (binaryOperationLoop (f + 1) p q l)) := by
  induction f with
  | zero =>
    refine ⟨?_, ?_, ?_, ?_, ?_⟩ <;> intros <;> intro h <;>
      simp [parsePrimary, memberAccessLoop, argumentLoop, parseExpression,
        binaryOperationLoop] at h
  | succ f ih =>
    obtain ⟨ih1, ih2, ih3, ih4, ih5⟩ := ih
    refine ⟨?_, ?_, ?_, ?_, ?_⟩
    · intro p
      rw [parsePrimary, parsePrimary]
      with_reducible repeat' (first
        | exact FuelLe.refl _ | exact ih2 _ _ | exact ih4 _ _
        | apply FuelLe.bind | apply FuelLe.ite | intro _)
    · intro p e
      rw [memberAccessLoop, memberAccessLoop]
      with_reducible repeat' (first
        | exact FuelLe.refl _ | exact ih2 _ _ | exact ih3 _ _
        | apply FuelLe.bind | apply FuelLe.ite | intro _)
    · intro p e
      rw [argumentLoop, argumentLoop]
      with_reducible repeat' (first
        | exact FuelLe.refl _ | exact ih3 _ _ | exact ih4 _ _
        | apply FuelLe.bind | apply FuelLe.ite | intro _)
    · intro p e
      rw [parseExpression, parseExpression]
      with_reducible repeat' (first
        | exact FuelLe.refl _ | exact ih1 _ | exact ih5 _ _ _
        | apply FuelLe.bind | apply FuelLe.ite | intro _)
    · intro p e l
      rw [binaryOperationLoop, binaryOperationLoop]
      with_reducible repeat' (first
        | exact FuelLe.refl _ | exact ih4 _ _ | exact ih5 _ _ _
        | apply FuelLe.bind | apply FuelLe.ite | intro _)

theorem parsePrimary_fuel {f f' : Nat} (h : f ≤ f') (p : Parser) :
    FuelLe (parsePrimary f p) (parsePrimary f' p) :=
  FuelLe.of_le (fun f => parsePrimary f p) (fun f => (expression_fuel_succ f).1 p) h

theorem memberAccessLoop_fuel {f f' : Nat} (h : f ≤ f') (p : Parser) (e : ASTNode) :
    FuelLe (memberAccessLoop f p e) (memberAccessLoop f' p e) :=
  FuelLe.of_le (fun f => memberAccessLoop f p e) (fun f => (expression_fuel_succ f).2.1 p e) h

theorem argumentLoop_fuel {f f' : Nat} (h : f ≤ f') (p : Parser) (a : List ASTNode) :
    FuelLe (argumentLoop f p a) (argumentLoop f' p a) :=
  FuelLe.of_le (fun f => argumentLoop f p a) (fun f => (expression_fuel_succ f).2.2.1 p a) h

theorem parseExpression_fuel {f f' : Nat} (h : f ≤ f') (p : Parser) (q : Int) :
    FuelLe (parseExpression f p q) (parseExpression f' p q) :=
  FuelLe.of_le (fun f => parseExpression f p q) (fun f => (expression_fuel_succ f).2.2.2.1 p q) h

theorem binaryOperationLoop_fuel {f f' : Nat} (h : f ≤ f') (p : Parser) (q : Int)
    (l : ASTNode) : FuelLe (binaryOperationLoop f p q l) (binaryOperationLoop f' p q l) :=
  FuelLe.of_le (fun f => binaryOperationLoop f p q l)
    (fun f => (expression_fuel_succ f).2.2.2.2 p q l) h

theorem parseAssignmentStatement_fuel {f f' : Nat} (h : f ≤ f') (p : Parser) (e : ASTNode) :
    FuelLe (parseAssignmentStatement f p e) (parseAssignmentStatement f' p e) := by
  unfold parseAssignmentStatement
  with_reducible repeat' (first
    | exact FuelLe.refl _ | exact parseExpression_fuel h _ _
    | apply FuelLe.bind | apply FuelLe.ite | intro _)

theorem parseVariableDeclarationStatement_fuel {f f' : Nat} (h : f ≤ f') (p : Parser) :
    FuelLe (parseVariableDeclarationStatement f p) (parseVariableDeclarationStatement f' p) := by
  unfold parseVariableDeclarationStatement
  with_reducible repeat' (first
    | exact FuelLe.refl _ | exact parseExpression_fuel h _ _
    | apply FuelLe.bind | apply FuelLe.ite | intro _)

theorem parseGlobalDeclarationStatement_fuel {f f' : Nat} (h : f ≤ f') (p : Parser) :
    FuelLe (parseGlobalDeclarationStatement f p) (parseGlobalDeclarationStatement f' p) := by
  unfold parseGlobalDeclarationStatement
  with_reducible repeat' (first
    | exact FuelLe.refl _ | exact parseExpression_fuel h _ _
    | apply FuelLe.bind | apply FuelLe.ite | intro _)

theorem parseReturnStatement_fuel {f f' : Nat} (h : f ≤ f') (p : Parser) :
    FuelLe (parseReturnStatement f p) (parseReturnStatement f' p) := by
  unfold parseReturnStatement
  with_reducible repeat' (first
    | exact FuelLe.refl _ | exact parseExpression_fuel h _ _
    | apply FuelLe.bind | apply FuelLe.ite | intro _)

theorem statement_fuel_succ (f : Nat) :
    (∀ p, FuelLe (parseIfStatement f p) (parseIfStatement (f + 1) p)) ∧
    (∀ p l, FuelLe (elseifLoop f p l) (elseifLoop (f + 1) p l)) ∧
    (∀ p, FuelLe (parseWhileStatement f p) (parseWhileStatement (f + 1) p)) ∧
    (∀ p l, FuelLe (statementLoop f p l) (statementLoop (f + 1) p l)) ∧
    (∀ p b, FuelLe (parseStatement f p b) (parseStatement (f + 1) p b)) := by
  induction f with
  | zero =>
    refine ⟨?_, ?_, ?_, ?_, ?_⟩ <;> intros <;> intro h <;>
      simp [parseIfStatement, elseifLoop, parseWhileStatement, statementLoop,
        parseStatement] at h
  | succ f ih =>
    obtain ⟨ih1, ih2, ih3, ih4, ih5⟩ := ih
    have hle : f ≤ f + 1 := Nat.le_succ f
    refine ⟨?_, ?_, ?_, ?_, ?_⟩
    · intro p
      rw [parseIfStatement, parseIfStatement]
      with_reducible repeat' (first
        | exact FuelLe.refl _ | exact ih2 _ _ | exact ih5 _ _
        | exact parseExpression_fuel hle _ _
        | apply FuelLe.bind | apply FuelLe.ite | intro _)
    · intro p l
      rw [elseifLoop, elseifLoop]
      with_reducible repeat' (first
        | exact FuelLe.refl _ | exact ih2 _ _ | exact ih5 _ _
        | exact parseExpression_fuel hle _ _
        | apply FuelLe.bind | apply FuelLe.ite | intro _)
    · intro p
      rw [parseWhileStatement, parseWhileStatement]
      with_reducible repeat' (first
        | exact FuelLe.refl _ | exact ih5 _ _
        | exact parseExpression_fuel hle _ _
        | apply FuelLe.bind | apply FuelLe.ite | intro _)
    · intro p l
      rw [statementLoop, statementLoop]
      with_reducible repeat' (first
        | exact FuelLe.refl _ | exact ih1 _ | exact ih3 _ | exact ih4 _ _
        | exact parsePrimary_fuel hle _
        | exact parseAssignmentStatement_fuel hle _ _
        | exact parseVariableDeclarationStatement_fuel hle _
        | exact parseGlobalDeclarationStatement_fuel hle _
        | exact parseReturnStatement_fuel hle _
        | apply FuelLe.bind | apply FuelLe.ite | intro _)
    · intro p b
      rw [parseStatement, parseStatement]
      with_reducible repeat' (first
        | exact FuelLe.refl _ | exact ih4 _ _
        | apply FuelLe.bind | apply FuelLe.ite | intro _)

theorem parseIfStatement_fuel {f f' : Nat} (h : f ≤ f') (p : Parser) :
    FuelLe (parseIfStatement f p) (parseIfStatement f' p) :=
  FuelLe.of_le (fun f => parseIfStatement f p) (fun f => (statement_fuel_succ f).1 p) h

theorem elseifLoop_fuel {f f' : Nat} (h : f ≤ f') (p : Parser) (l : List ASTNode) :
    FuelLe (elseifLoop f p l) (elseifLoop f' p l) :=
  FuelLe.of_le (fun f => elseifLoop f p l) (fun f => (statement_fuel_succ f).2.1 p l) h

theorem parseWhileStatement_fuel {f f' : Nat} (h : f ≤ f') (p : Parser) :
    FuelLe (parseWhileStatement f p) (parseWhileStatement f' p) :=
  FuelLe.of_le (fun f => parseWhileStatement f p) (fun f => (statement_fuel_succ f).2.2.1 p) h

theorem statementLoop_fuel {f f' : Nat} (h : f ≤ f') (p : Parser) (l : List ASTNode) :
    FuelLe (statementLoop f p l) (statementLoop f' p l) :=
  FuelLe.of_le (fun f => statementLoop f p l) (fun f => (statement_fuel_succ f).2.2.2.1 p l) h

theorem parseStatement_fuel {f f' : Nat} (h : f ≤ f') (p : Parser) (b : Bool) :
    FuelLe (parseStatement f p b) (parseStatement f' p b) :=
  FuelLe.of_le (fun f => parseStatement f p b) (fun f => (statement_fuel_succ f).2.2.2.2 p b) h

theorem parseLoop_fuel_succ (f : Nat) :
    ∀ p l, FuelLe (parseLoop f p l) (parseLoop (f + 1) p l) := by
  induction f with
  | zero => intro p l h; simp [parseLoop] at h
  | succ f ih =>
    intro p l
    rw [parseLoop, parseLoop]
    with_reducible repeat' (first
      | exact FuelLe.refl _ | exact ih _ _
      | exact parseStatement_fuel (Nat.le_succ f) _ _
      | apply FuelLe.bind | apply FuelLe.ite | intro _)

theorem parseLoop_fuel {f f' : Nat} (h : f ≤ f') (p : Parser) (l : List ASTNode) :
    FuelLe (parseLoop f p l) (parseLoop f' p l) :=
  FuelLe.of_le (fun f => parseLoop f p l) (fun f => parseLoop_fuel_succ f p l) h

theorem parse_fuel {f f' : Nat} (h : f ≤ f') (tokens : List Token) :
    FuelLe (parse f tokens) (parse f' tokens) := by
  unfold parse
  with_reducible repeat' (first
    | exact FuelLe.refl _ | exact parseLoop_fuel h _ _
    | apply FuelLe.bind | apply FuelLe.ite | intro _)

/-! ## Expressions -/

theorem isdigit_not_isspace {c : Char} (h : isdigit c = true) : isspace c = false := by
  simp only [isdigit, Bool.and_eq_true, decide_eq_true_eq] at h
  simp only [isspace, Bool.or_eq_false_iff, decide_eq_false_iff_not, Bool.and_eq_false_imp,
    decide_eq_true_eq]
  omega

theorem stoi_digits {digits : List Char} (hne : digits ≠ [])
    (hdigits : ∀ c ∈ digits, isdigit c = true) (hrange : digitsValue digits ≤ 2147483647) :
    stoi digits = .ok (digitsValue digits) := by
  obtain ⟨d, ds, rfl⟩ := List.exists_cons_of_ne_nil hne
  have hd : isdigit d = true := hdigits d (List.mem_cons_self _ _)
  have hsp : isspace d = false := isdigit_not_isspace hd
  have hminus : d ≠ '-' := by
    intro h; rw [h] at hd; exact absurd hd (by decide)
  have hplus : d ≠ '+' := by
    intro h; rw [h] at hd; exact absurd hd (by decide)
  have htake : List.takeWhile isdigit (d :: ds) = d :: ds := by
    rw [List.takeWhile_eq_self_iff]
    exact hdigits
  have hnn : ¬ ((digitsValue (d :: ds) : Int) < -2147483648) := by omega
  have hmax : ¬ (2147483647 < (digitsValue (d :: ds) : Int)) := by omega
  simp only [stoi, List.dropWhile_cons, hsp, List.head?_cons, Option.some.injEq, hminus, hplus,
    or_self, if_false, htake, List.isEmpty_cons, Bool.false_eq_true, decide_False, hnn, hmax]

theorem parsePrimary_operand {x : Token} {e : ASTNode} (hx : IsOperand x e) (f : Nat)
    {p : Parser} {r : Token} {rest : List Token} (hp : p.remaining = x :: r :: rest)
    (hr : r.type ≠ TOK_DOT) : parsePrimary (f + 2) p = .ok (e, p.advance 1) := by
  have hcur := currentToken_of_remaining hp
  have hnext : (p.advance 1).remaining = r :: rest := by simp [remaining_advance, hp]
  cases hx with
  | identifier name pos =>
    simp [parsePrimary, hcur, bind, Except.bind, consume_of_remaining hp, memberAccessLoop,
      lookCurrent_of_remaining hnext, hr]
  | number digits pos hne hdigits hrange =>
    simp [parsePrimary, hcur, bind, Except.bind, consume_of_remaining hp,
      stoi_digits hne hdigits hrange]
  | string text pos =>
    simp [parsePrimary, hcur, bind, Except.bind, consume_of_remaining hp]
  | true text pos =>
    simp [parsePrimary, hcur, bind, Except.bind, consume_of_remaining hp]
  | false text pos =>
    simp [parsePrimary, hcur, bind, Except.bind, consume_of_remaining hp]

theorem binaryOperationLoop_stop (f : Nat) {p : Parser} {r : Token} {rest : List Token}
    (hp : p.remaining = r :: rest) (q : Int) (left : ASTNode)
    (hr : r.value ∈ rightNeededExpressionSet → getOperatorPrecedence r.type < q) :
    binaryOperationLoop (f + 1) p q left = .ok (left, p) := by
  have hcur := currentToken_of_remaining hp
  simp only [binaryOperationLoop, hcur, bind, Except.bind]
  rw [if_neg]
  rintro ⟨hmem, hge⟩
  have := hr hmem
  omega

theorem binaryOperationLoop_step (f : Nat) {p : Parser} {op : Token} {rest : List Token}
    (hp : p.remaining = op :: rest) (q : Int) (left : ASTNode)
    (hmem : op.value ∈ rightNeededExpressionSet) (hq : q ≤ getOperatorPrecedence op.type) :
    binaryOperationLoop (f + 1) p q left =
      (parseExpression f (p.advance 1) (getOperatorPrecedence op.type + 1) >>= fun x =>
        binaryOperationLoop f x.2 q (.BinaryOperation left op.type x.1)) := by
  have hcur := currentToken_of_remaining hp
  simp only [binaryOperationLoop, hcur, bind, Except.bind]
  rw [if_pos ⟨hmem, hq⟩]
  simp only [consume_of_remaining hp rfl]

theorem closeParen_not_operator : ")".toList ∉ rightNeededExpressionSet := by decide

theorem parseExpression_of_primary {f1 f2 : Nat} {p p1 : Parser} {e : ASTNode} {q : Int}
    {v : ASTNode × Parser} (h1 : parsePrimary f1 p = .ok (e, p1))
    (h2 : binaryOperationLoop f2 p1 q e = .ok v) :
    ∃ f, parseExpression f p q = .ok v := by
  refine ⟨max f1 f2 + 1, ?_⟩
  have h1' := (parsePrimary_fuel (le_max_left f1 f2) p).ok h1
  have h2' := (binaryOperationLoop_fuel (le_max_right f1 f2) p1 q e).ok h2
  simp [parseExpression, h1', bind, Except.bind, h2']

theorem binaryOperationLoop_of_step {g f : Nat} {p1 p2 : Parser} {op : Token}
    {rest : List Token} {q : Int} {e1 e2 : ASTNode} {v : ASTNode × Parser}
    (hp : p1.remaining = op :: rest) (hmem : op.value ∈ rightNeededExpressionSet)
    (hq : q ≤ getOperatorPrecedence op.type)
    (hright : parseExpression g (p1.advance 1) (getOperatorPrecedence op.type + 1) = .ok (e2, p2))
    (hloop : binaryOperationLoop f p2 q (.BinaryOperation e1 op.type e2) = .ok v) :
    ∃ f1, binaryOperationLoop f1 p1 q e1 = .ok v := by
  refine ⟨max g f + 1, ?_⟩
  have h1 := (parseExpression_fuel (le_max_left g f) _ _).ok hright
  have h2 := (binaryOperationLoop_fuel (le_max_right g f) _ _ _).ok hloop
  rw [binaryOperationLoop_step _ hp q e1 hmem hq, h1]
  exact h2

theorem parsePrimary_paren {f : Nat} {p p1 : Parser} {e : ASTNode}
    (hopen : lookCurrent p TOK_OPEN_PAREN = .ok true)
    (hexpr : parseExpression f (p.advance 1) 0 = .ok (e, p1))
    (hclose : lookCurrent p1 TOK_CLOSE_PAREN = .ok true) :
    parsePrimary (f + 1) p = .ok (e, p1.advance 1) := by
  obtain ⟨t, ht, hty⟩ := currentToken_of_look hopen
  obtain ⟨c, hc, hcty⟩ := currentToken_of_look hclose
  simp [parsePrimary, ht, hty, bind, Except.bind, consume_of_look hopen, hexpr, hc, hcty,
    consume_of_look hclose]

/-- Parsing a phrase of the reference grammar at a minimum precedence not
above its level amounts to continuing the operator loop behind the phrase with
its tree as left operand. -/
theorem derivesLeft_continue {s : Sym} {ts : List Token} {e : ASTNode} (h : DerivesLeft s ts e) :
    ∀ (p : Parser) (r : Token) (rest : List Token) (q : Int) (f : Nat) (v : ASTNode × Parser),
      p.remaining = ts ++ r :: rest → r.type ≠ TOK_DOT →
      (r.value ∈ rightNeededExpressionSet → getOperatorPrecedence r.type ≤ s.stopLevel) →
      q ≤ s.level →
      binaryOperationLoop f (p.advance ts.length) q e = .ok v →
      ∃ f', parseExpression f' p q = .ok v := by
  induction h with
  | int digits pos hne hdigits hrange =>
    intro p r rest q f v hp hr _ _ hloop
    exact parseExpression_of_primary
      (parsePrimary_operand (IsOperand.number digits pos hne hdigits hrange) 0 hp hr) hloop
  | id name pos =>
    intro p r rest q f v hp hr _ _ hloop
    exact parseExpression_of_primary
      (parsePrimary_operand (IsOperand.identifier name pos) 0 hp hr) hloop
  | @paren openPos closePos ts e _ ih =>
    intro p r rest q f v hp hr _ _ hloop
    have hp' : p.remaining =
        ⟨"(".toList, TOK_OPEN_PAREN, openPos⟩ ::
          (ts ++ ⟨")".toList, TOK_CLOSE_PAREN, closePos⟩ :: r :: rest) := by
      simpa using hp
    have hopen : lookCurrent p TOK_OPEN_PAREN = .ok true := by
      simp [lookCurrent_of_remaining hp']
    have hin : (p.advance 1).remaining =
        ts ++ ⟨")".toList, TOK_CLOSE_PAREN, closePos⟩ :: r :: rest := by
      simp [remaining_advance, hp']
    have hafter : ((p.advance 1).advance ts.length).remaining =
        ⟨")".toList, TOK_CLOSE_PAREN, closePos⟩ :: r :: rest := by
      simp [remaining_advance, hin]
    obtain ⟨g, hg⟩ := ih (p.advance 1) _ _ 0 1 _ hin (fun h => TokenType.noConfusion h)
      (fun hmem => absurd hmem closeParen_not_operator) (by decide)
      (binaryOperationLoop_stop 0 hafter 0 e (fun hmem => absurd hmem closeParen_not_operator))
    have hclose : lookCurrent ((p.advance 1).advance ts.length) TOK_CLOSE_PAREN = .ok true := by
      simp [lookCurrent_of_remaining hafter]
    have hprim := parsePrimary_paren hopen hg hclose
    have hadv : (((p.advance 1).advance ts.length).advance 1) =
        p.advance (Token.mk "(".toList TOK_OPEN_PAREN openPos :: ts ++
          [Token.mk ")".toList TOK_CLOSE_PAREN closePos]).length := by
      simp only [advance_advance, List.length_append, List.length_cons, List.length_nil]
      congr 1
      omega
    rw [hadv] at hprim
    exact parseExpression_of_primary hprim hloop
  | factor _ ih =>
    intro p r rest q f v hp hr hstop hq hloop
    exact ih p r rest q f v hp hr hstop (le_trans hq (by decide)) hloop
  | term _ ih =>
    intro p r rest q f v hp hr hstop hq hloop
    exact ih p r rest q f v hp hr (fun hmem => le_trans (hstop hmem) (by decide))
      (le_trans hq (by decide)) hloop
  | @mul ts1 ts2 e1 e2 op _ hop _ ih1 ih2 =>
    intro p r rest q f v hp hr hstop hq hloop
    have hprec : getOperatorPrecedence op.type = 13 := by
      rcases hop with ⟨_, h⟩ | ⟨_, h⟩ <;> rw [h] <;> rfl
    have hmem : op.value ∈ rightNeededExpressionSet := by
      rcases hop with ⟨h, _⟩ | ⟨h, _⟩ <;> rw [h] <;> decide
    have hdot : op.type ≠ TOK_DOT := by
      rcases hop with ⟨_, h⟩ | ⟨_, h⟩ <;> rw [h] <;> decide
    have hp1 : p.remaining = ts1 ++ op :: (ts2 ++ r :: rest) := by simpa using hp
    have hat : (p.advance ts1.length).remaining = op :: (ts2 ++ r :: rest) := by
      simp [remaining_advance, hp1]
    have hin : ((p.advance ts1.length).advance 1).remaining = ts2 ++ r :: rest := by
      simp [remaining_advance, hat]
    have hadv : ((p.advance ts1.length).advance 1).advance ts2.length =
        p.advance (ts1 ++ op :: ts2).length := by
      simp only [advance_advance, List.length_append, List.length_cons]
      congr 1
      omega
    have hend : (p.advance (ts1 ++ op :: ts2).length).remaining = r :: rest := by
      rw [← hadv]; simp [remaining_advance, hin]
    have hstop' : r.value ∈ rightNeededExpressionSet →
        getOperatorPrecedence r.type < getOperatorPrecedence op.type + 1 := by
      intro hm
      have := hstop hm
      simp only [Sym.stopLevel] at this
      omega
    obtain ⟨g, hg⟩ := ih2 ((p.advance ts1.length).advance 1) r rest
      (getOperatorPrecedence op.type + 1) 1 _ hin hr hstop (by rw [hprec]; decide)
      (by rw [hadv]; exact binaryOperationLoop_stop 0 hend _ e2 hstop')
    obtain ⟨f1, hf1⟩ := binaryOperationLoop_of_step hat hmem
      (by rw [hprec]; exact hq) hg hloop
    exact ih1 p op _ q f1 v hp1 hdot (fun _ => by rw [hprec]; decide) hq hf1
  | @add ts1 ts2 e1 e2 op _ hop _ ih1 ih2 =>
    intro p r rest q f v hp hr hstop hq hloop
    have hprec : getOperatorPrecedence op.type = 12 := by
      rcases hop with ⟨_, h⟩ | ⟨_, h⟩ <;> rw [h] <;> rfl
    have hmem : op.value ∈ rightNeededExpressionSet := by
      rcases hop with ⟨h, _⟩ | ⟨h, _⟩ <;> rw [h] <;> decide
    have hdot : op.type ≠ TOK_DOT := by
      rcases hop with ⟨_, h⟩ | ⟨_, h⟩ <;> rw [h] <;> decide
    have hp1 : p.remaining = ts1 ++ op :: (ts2 ++ r :: rest) := by simpa using hp
    have hat : (p.advance ts1.length).remaining = op :: (ts2 ++ r :: rest) := by
      simp [remaining_advance, hp1]
    have hin : ((p.advance ts1.length).advance 1).remaining = ts2 ++ r :: rest := by
      simp [remaining_advance, hat]
    have hadv : ((p.advance ts1.length).advance 1).advance ts2.length =
        p.advance (ts1 ++ op :: ts2).length := by
      simp only [advance_advance, List.length_append, List.length_cons]
      congr 1
      omega
    have hend : (p.advance (ts1 ++ op :: ts2).length).remaining = r :: rest := by
      rw [← hadv]; simp [remaining_advance, hin]
    have hstop' : r.value ∈ rightNeededExpressionSet →
        getOperatorPrecedence r.type < getOperatorPrecedence op.type + 1 := by
      intro hm
      have := hstop hm
      simp only [Sym.stopLevel] at this
      omega
    obtain ⟨g, hg⟩ := ih2 ((p.advance ts1.length).advance 1) r rest
      (getOperatorPrecedence op.type + 1) 1 _ hin hr
      (fun hm => le_trans (hstop hm) (by decide)) (by rw [hprec]; decide)
      (by rw [hadv]; exact binaryOperationLoop_stop 0 hend _ e2 hstop')
    obtain ⟨f1, hf1⟩ := binaryOperationLoop_of_step hat hmem
      (by rw [hprec]; exact hq) hg hloop
    exact ih1 p op _ q f1 v hp1 hdot (fun _ => by rw [hprec]; decide) hq hf1

theorem derivesLeft_term_repetitions (rest : List Repetition) :
    ∀ (ts : List Token) (e : ASTNode), DerivesLeft Sym.T ts e →
      (∀ r ∈ rest, isMultiplicative r.op) → (∀ r ∈ rest, DerivesLeft Sym.F r.tokens r.tree) →
      DerivesLeft Sym.T (ts ++ repetitionTokens rest) (repetitionTree e rest) := by
  induction rest with
  | nil =>
    intro ts e h _ _
    simpa [repetitionTokens, repetitionTree] using h
  | cons r rs ih =>
    intro ts e h hops hrest
    have hstep : DerivesLeft Sym.T (ts ++ r.op :: r.tokens)
        (.BinaryOperation e r.op.type r.tree) :=
      DerivesLeft.mul r.op h (hops r (List.mem_cons_self _ _)) (hrest r (List.mem_cons_self _ _))
    have := ih _ _ hstep (fun x hx => hops x (List.mem_cons_of_mem _ hx))
      (fun x hx => hrest x (List.mem_cons_of_mem _ hx))
    simpa [repetitionTokens, repetitionTree, List.append_assoc] using this

theorem derivesLeft_expr_repetitions (rest : List Repetition) :
    ∀ (ts : List Token) (e : ASTNode), DerivesLeft Sym.E ts e →
      (∀ r ∈ rest, isAdditive r.op) → (∀ r ∈ rest, DerivesLeft Sym.T r.tokens r.tree) →
      DerivesLeft Sym.E (ts ++ repetitionTokens rest) (repetitionTree e rest) := by
  induction rest with
  | nil =>
    intro ts e h _ _
    simpa [repetitionTokens, repetitionTree] using h
  | cons r rs ih =>
    intro ts e h hops hrest
    have hstep : DerivesLeft Sym.E (ts ++ r.op :: r.tokens)
        (.BinaryOperation e r.op.type r.tree) :=
      DerivesLeft.add r.op h (hops r (List.mem_cons_self _ _)) (hrest r (List.mem_cons_self _ _))
    have := ih _ _ hstep (fun x hx => hops x (List.mem_cons_of_mem _ hx))
      (fun x hx => hrest x (List.mem_cons_of_mem _ hx))
    simpa [repetitionTokens, repetitionTree, List.append_assoc] using this

theorem derivesLeft_of_derives {s : Sym} {ts : List Token} {e : ASTNode} (h : Derives s ts e) :
    DerivesLeft s ts e := by
  induction h with
  | int digits pos hne hdigits hrange => exact DerivesLeft.int digits pos hne hdigits hrange
  | id name pos => exact DerivesLeft.id name pos
  | paren openPos closePos _ ih => exact DerivesLeft.paren openPos closePos ih
  | term _ rest hops _ ih ihrest =>
    exact derivesLeft_term_repetitions rest _ _ (DerivesLeft.factor ih) hops ihrest
  | expr _ rest hops _ ih ihrest =>
    exact derivesLeft_expr_repetitions rest _ _ (DerivesLeft.term ih) hops ihrest

theorem binaryOperatorTable_all :
    ∀ x ∈ binaryOperatorTable,
      x.1 ∈ rightNeededExpressionSet ∧ getOperatorPrecedence x.2.1 = x.2.2 ∧
        0 ≤ x.2.2 ∧ x.2.1 ≠ TOK_DOT := by
  decide

theorem parseExpression_operand {x : Token} {e : ASTNode} (hx : IsOperand x e) (f : Nat)
    {p : Parser} {r : Token} {rest : List Token} (hp : p.remaining = x :: r :: rest)
    (hr : r.type ≠ TOK_DOT) (q : Int) :
    parseExpression (f + 3) p q = binaryOperationLoop (f + 2) (p.advance 1) q e := by
  rw [parseExpression, parsePrimary_operand hx f hp hr]
  rfl

theorem eof_not_operator : ([] : List Char) ∉ rightNeededExpressionSet := by decide

/-- C1: for every well-formed arithmetic expression (integer literals within
the `int` range, identifiers, `+ - * /`, balanced parentheses) followed by an
end-of-input token, `parseExpression(0)` succeeds under every sufficiently
large recursion budget, stops exactly on the end-of-input token, and returns
the tree of the reference grammar. -/
theorem C1_parseExpression_reference_grammar {ts : List Token} {e : ASTNode}
    (h : Derives Sym.E ts e) (pos : Nat) :
    ∃ N, ∀ fuel, N ≤ fuel →
      parseExpression fuel ⟨ts ++ [⟨[], TOK_EOF, pos⟩], 0⟩ 0 =
        .ok (e, ⟨ts ++ [⟨[], TOK_EOF, pos⟩], ts.length⟩) ∧
      currentToken ⟨ts ++ [⟨[], TOK_EOF, pos⟩], ts.length⟩ = .ok ⟨[], TOK_EOF, pos⟩ := by
  have hp : (Parser.mk (ts ++ [⟨[], TOK_EOF, pos⟩]) 0).remaining =
      ts ++ ⟨[], TOK_EOF, pos⟩ :: [] := by
    simp [Parser.remaining]
  have hadv : (Parser.mk (ts ++ [⟨[], TOK_EOF, pos⟩]) 0).advance ts.length =
      ⟨ts ++ [⟨[], TOK_EOF, pos⟩], ts.length⟩ := by
    simp [Parser.advance]
  have hend : (Parser.mk (ts ++ [⟨[], TOK_EOF, pos⟩]) ts.length).remaining =
      [⟨[], TOK_EOF, pos⟩] := by
    simp [Parser.remaining]
  obtain ⟨N, hN⟩ := derivesLeft_continue (derivesLeft_of_derives h) _ _ _ 0 1 _ hp (fun h => TokenType.noConfusion h)
    (fun hmem => absurd hmem eof_not_operator) (by decide)
    (by rw [hadv]
        exact binaryOperationLoop_stop 0 hend 0 e (fun hmem => absurd hmem eof_not_operator))
  exact ⟨N, fun fuel hle => ⟨(parseExpression_fuel hle _ _).ok hN,
    currentToken_of_remaining hend⟩⟩

/-- C1, at the expression `1 + 2 * 3` as `tokenize` delivers it. -/
theorem C1_parseExpression_reference_grammar_witness :
    Derives Sym.E
      [⟨"1".toList, TOK_NUMBER, 1⟩, ⟨"+".toList, TOK_ADDITION, 2⟩, ⟨"2".toList, TOK_NUMBER, 5⟩,
        ⟨"*".toList, TOK_MULTIPLICATION, 6⟩, ⟨"3".toList, TOK_NUMBER, 9⟩]
      (.BinaryOperation (.Literal LITERAL_NUMBER (.Number 1)) TOK_ADDITION
        (.BinaryOperation (.Literal LITERAL_NUMBER (.Number 2)) TOK_MULTIPLICATION
          (.Literal LITERAL_NUMBER (.Number 3)))) ∧
    ∃ N, ∀ fuel, N ≤ fuel →
      parseExpression fuel ⟨tokenize "1 + 2 * 3".toList, 0⟩ 0 =
        .ok (.BinaryOperation (.Literal LITERAL_NUMBER (.Number 1)) TOK_ADDITION
          (.BinaryOperation (.Literal LITERAL_NUMBER (.Number 2)) TOK_MULTIPLICATION
            (.Literal LITERAL_NUMBER (.Number 3))), ⟨tokenize "1 + 2 * 3".toList, 5⟩) ∧
      currentToken ⟨tokenize "1 + 2 * 3".toList, 5⟩ = .ok ⟨[], TOK_EOF, 9⟩ :=
  have h1 : Derives Sym.T [⟨"1".toList, TOK_NUMBER, 1⟩] (.Literal LITERAL_NUMBER (.Number 1)) :=
    Derives.term (Derives.int "1".toList 1 (by decide) (by decide) (by decide)) []
      (fun _ h => nomatch h) (fun _ h => nomatch h)
  have h3 : ∀ r ∈ [Repetition.mk ⟨"*".toList, TOK_MULTIPLICATION, 6⟩
      [⟨"3".toList, TOK_NUMBER, 9⟩] (.Literal LITERAL_NUMBER (.Number 3))],
      Derives Sym.F r.tokens r.tree := by
    intro r hr
    rw [List.mem_singleton] at hr
    subst hr
    exact Derives.int "3".toList 9 (by decide) (by decide) (by decide)
  have h23 : Derives Sym.T
      [⟨"2".toList, TOK_NUMBER, 5⟩, ⟨"*".toList, TOK_MULTIPLICATION, 6⟩,
        ⟨"3".toList, TOK_NUMBER, 9⟩]
      (.BinaryOperation (.Literal LITERAL_NUMBER (.Number 2)) TOK_MULTIPLICATION
        (.Literal LITERAL_NUMBER (.Number 3))) :=
    Derives.term (Derives.int "2".toList 5 (by decide) (by decide) (by decide))
      [⟨⟨"*".toList, TOK_MULTIPLICATION, 6⟩, [⟨"3".toList, TOK_NUMBER, 9⟩],
        .Literal LITERAL_NUMBER (.Number 3)⟩]
      (by intro r hr; rw [List.mem_singleton] at hr; subst hr; exact Or.inl ⟨rfl, rfl⟩) h3
  have hd : Derives Sym.E
      [⟨"1".toList, TOK_NUMBER, 1⟩, ⟨"+".toList, TOK_ADDITION, 2⟩, ⟨"2".toList, TOK_NUMBER, 5⟩,
        ⟨"*".toList, TOK_MULTIPLICATION, 6⟩, ⟨"3".toList, TOK_NUMBER, 9⟩]
      (.BinaryOperation (.Literal LITERAL_NUMBER (.Number 1)) TOK_ADDITION
        (.BinaryOperation (.Literal LITERAL_NUMBER (.Number 2)) TOK_MULTIPLICATION
          (.Literal LITERAL_NUMBER (.Number 3)))) :=
    Derives.expr h1
      [⟨⟨"+".toList, TOK_ADDITION, 2⟩,
        [⟨"2".toList, TOK_NUMBER, 5⟩, ⟨"*".toList, TOK_MULTIPLICATION, 6⟩,
          ⟨"3".toList, TOK_NUMBER, 9⟩],
        .BinaryOperation (.Literal LITERAL_NUMBER (.Number 2)) TOK_MULTIPLICATION
          (.Literal LITERAL_NUMBER (.Number 3))⟩]
      (by intro r hr; rw [List.mem_singleton] at hr; subst hr; exact Or.inl ⟨rfl, rfl⟩)
      (by intro r hr; rw [List.mem_singleton] at hr; subst hr; exact h23)
  ⟨hd, C1_parseExpression_reference_grammar hd 9⟩

theorem parseExpression_two_operators {x y z op1 op2 r : Token} {rest : List Token}
    {ex ey ez : ASTNode} {k1 k2 : Int}
    (hx : IsOperand x ex) (hy : IsOperand y ey) (hz : IsOperand z ez)
    (h1 : (op1.value, op1.type, k1) ∈ binaryOperatorTable)
    (h2 : (op2.value, op2.type, k2) ∈ binaryOperatorTable)
    (hr : r.type ≠ TOK_DOT) (hstop : r.value ∉ rightNeededExpressionSet)
    (p : Parser) (hp : p.remaining = x :: op1 :: y :: op2 :: z :: r :: rest) :
    parseExpression 7 p 0 =
      .ok (if k2 > k1 then .BinaryOperation ex op1.type (.BinaryOperation ey op2.type ez)
          else .BinaryOperation (.BinaryOperation ex op1.type ey) op2.type ez,
        p.advance 5) := by
  obtain ⟨hmem1, hprec1, hk1, hdot1⟩ := binaryOperatorTable_all _ h1
  obtain ⟨hmem2, hprec2, hk2, hdot2⟩ := binaryOperatorTable_all _ h2
  simp only at hmem1 hprec1 hk1 hdot1 hmem2 hprec2 hk2 hdot2
  have hp1 : (p.advance 1).remaining = op1 :: y :: op2 :: z :: r :: rest := by
    simp [remaining_advance, hp]
  have hp2 : (p.advance 2).remaining = y :: op2 :: z :: r :: rest := by
    simp [remaining_advance, hp]
  have hp3 : (p.advance 3).remaining = op2 :: z :: r :: rest := by
    simp [remaining_advance, hp]
  have hp4 : (p.advance 4).remaining = z :: r :: rest := by
    simp [remaining_advance, hp]
  have hp5 : (p.advance 5).remaining = r :: rest := by
    simp [remaining_advance, hp]
  have hend : ∀ (f : Nat) (q : Int) (l : ASTNode),
      binaryOperationLoop (f + 1) (p.advance 5) q l = .ok (l, p.advance 5) :=
    fun f q l => binaryOperationLoop_stop f hp5 q l (fun hm => absurd hm hstop)
  have hzq : ∀ (f : Nat) (q : Int),
      parseExpression (f + 3) (p.advance 4) q = .ok (ez, p.advance 5) := by
    intro f q
    rw [parseExpression_operand hz f hp4 hr q, advance_advance]
    exact hend _ _ _
  rw [parseExpression_operand hx 4 hp hdot1 0,
    binaryOperationLoop_step 5 hp1 0 ex hmem1 (by rw [hprec1]; exact hk1), advance_advance,
    parseExpression_operand hy 2 hp2 hdot2, advance_advance]
  by_cases hk : k2 > k1
  · rw [if_pos hk, binaryOperationLoop_step 3 hp3 _ ey hmem2 (by rw [hprec1, hprec2]; omega),
      advance_advance, hzq 0]
    simp only [bind, Except.bind]
    rw [hend 2]
    simp only []
    rw [hend 4]
  · rw [if_neg hk, binaryOperationLoop_stop 3 hp3 _ ey (fun _ => by rw [hprec1, hprec2]; omega)]
    simp only [bind, Except.bind]
    rw [binaryOperationLoop_step 4 hp3 0 _ hmem2 (by rw [hprec2]; exact hk2), advance_advance,
      hzq 1]
    simp only [bind, Except.bind]
    rw [hend 3]

/-- C2: on `x op1 y op2 z` followed by the end-of-input token, with operands
that are identifiers or literals and two of the eighteen non-assignment binary
operators of tabulated precedences `k1` and `k2`, `parseExpression(0)` returns
`BinaryOperation(x, op1, BinaryOperation(y, op2, z))` when `k2 > k1` and
`BinaryOperation(BinaryOperation(x, op1, y), op2, z)` otherwise, and stops on
the end-of-input token; the tabulated precedences are those of
`getOperatorPrecedence`. -/
theorem C2_two_operators (x y z op1 op2 : Token) (ex ey ez : ASTNode) (k1 k2 : Int)
    (hx : IsOperand x ex) (hy : IsOperand y ey) (hz : IsOperand z ez)
    (h1 : (op1.value, op1.type, k1) ∈ binaryOperatorTable)
    (h2 : (op2.value, op2.type, k2) ∈ binaryOperatorTable) (pos : Nat) (fuel : Nat)
    (hfuel : 7 ≤ fuel) :
    parseExpression fuel ⟨[x, op1, y, op2, z, ⟨[], TOK_EOF, pos⟩], 0⟩ 0 =
      .ok (if k2 > k1 then .BinaryOperation ex op1.type (.BinaryOperation ey op2.type ez)
          else .BinaryOperation (.BinaryOperation ex op1.type ey) op2.type ez,
        ⟨[x, op1, y, op2, z, ⟨[], TOK_EOF, pos⟩], 5⟩) ∧
      getOperatorPrecedence op1.type = k1 ∧ getOperatorPrecedence op2.type = k2 :=
  ⟨(parseExpression_fuel hfuel _ _).ok
      (parseExpression_two_operators hx hy hz h1 h2 (fun h => TokenType.noConfusion h)
        eof_not_operator ⟨[x, op1, y, op2, z, ⟨[], TOK_EOF, pos⟩], 0⟩ rfl),
    (binaryOperatorTable_all _ h1).2.1, (binaryOperatorTable_all _ h2).2.1⟩

/-- C2, at `a + b * c`. -/
theorem C2_two_operators_witness :
    parseExpression 7 ⟨[⟨"a".toList, TOK_IDENTIFIER, 1⟩, ⟨"+".toList, TOK_ADDITION, 2⟩,
        ⟨"b".toList, TOK_IDENTIFIER, 5⟩, ⟨"*".toList, TOK_MULTIPLICATION, 6⟩,
        ⟨"c".toList, TOK_IDENTIFIER, 9⟩, ⟨[], TOK_EOF, 9⟩], 0⟩ 0 =
      .ok (if (13 : Int) > 12 then
            .BinaryOperation (.Variable "a".toList) TOK_ADDITION
              (.BinaryOperation (.Variable "b".toList) TOK_MULTIPLICATION (.Variable "c".toList))
          else
            .BinaryOperation
              (.BinaryOperation (.Variable "a".toList) TOK_ADDITION (.Variable "b".toList))
              TOK_MULTIPLICATION (.Variable "c".toList),
        ⟨[⟨"a".toList, TOK_IDENTIFIER, 1⟩, ⟨"+".toList, TOK_ADDITION, 2⟩,
          ⟨"b".toList, TOK_IDENTIFIER, 5⟩, ⟨"*".toList, TOK_MULTIPLICATION, 6⟩,
          ⟨"c".toList, TOK_IDENTIFIER, 9⟩, ⟨[], TOK_EOF, 9⟩], 5⟩) ∧
      getOperatorPrecedence TOK_ADDITION = 12 ∧ getOperatorPrecedence TOK_MULTIPLICATION = 13 :=
  C2_two_operators ⟨"a".toList, TOK_IDENTIFIER, 1⟩ ⟨"b".toList, TOK_IDENTIFIER, 5⟩
    ⟨"c".toList, TOK_IDENTIFIER, 9⟩ ⟨"+".toList, TOK_ADDITION, 2⟩
    ⟨"*".toList, TOK_MULTIPLICATION, 6⟩ _ _ _ 12 13
    (IsOperand.identifier _ _) (IsOperand.identifier _ _) (IsOperand.identifier _ _)
    (by decide) (by decide) 9 7 (Nat.le_refl 7)

/-- C3: parentheses are resolved structurally. When the cursor is on an
open parenthesis and `parseExpression(0)` behind it returns the tree `e`,
`parsePrimary` returns exactly `e` and consumes both parentheses if the
expression stopped on a close parenthesis, and fails otherwise (on another
token, or at the end of the token vector); the tokens of `(1 + 2) * 3` yield
`BinaryOperation(BinaryOperation(1, +, 2), *, 3)`. -/
theorem C3_parentheses (fuel : Nat) (p p1 : Parser) (e : ASTNode)
    (hopen : lookCurrent p TOK_OPEN_PAREN = .ok true)
    (hexpr : parseExpression fuel (p.advance 1) 0 = .ok (e, p1)) :
    (lookCurrent p1 TOK_CLOSE_PAREN = .ok true →
      parsePrimary (fuel + 1) p = .ok (e, p1.advance 1)) ∧
    (lookCurrent p1 TOK_CLOSE_PAREN = .ok false →
      parsePrimary (fuel + 1) p = .error (.thrown .expectedCloseParen)) ∧
    (lookCurrent p1 TOK_CLOSE_PAREN = .error .outOfBounds →
      parsePrimary (fuel + 1) p = .error (.thrown .unexpectedEndOfTokens)) ∧
    parseExpression 6 ⟨tokenize "(1 + 2) * 3".toList, 0⟩ 0 =
      .ok (.BinaryOperation
          (.BinaryOperation (.Literal LITERAL_NUMBER (.Number 1)) TOK_ADDITION
            (.Literal LITERAL_NUMBER (.Number 2)))
          TOK_MULTIPLICATION (.Literal LITERAL_NUMBER (.Number 3)),
        ⟨tokenize "(1 + 2) * 3".toList, 7⟩) := by
  obtain ⟨t, ht, hty⟩ := currentToken_of_look hopen
  refine ⟨parsePrimary_paren hopen hexpr, ?_, ?_, by rfl⟩
  · intro hclose
    have hc : ∃ c, currentToken p1 = .ok c ∧ c.type ≠ TOK_CLOSE_PAREN := by
      unfold lookCurrent at hclose
      unfold currentToken
      split at hclose
      · simp at hclose
      · rename_i c hc
        exact ⟨c, by simp [hc], by simpa using hclose⟩
    obtain ⟨c, hc, hcty⟩ := hc
    simp [parsePrimary, ht, hty, bind, Except.bind, consume_of_look hopen, hexpr, hc, hcty]
  · intro hclose
    have hc : currentToken p1 = .error (.thrown .unexpectedEndOfTokens) := by
      unfold lookCurrent at hclose
      unfold currentToken
      split at hclose
      · rename_i hnone
        simp [hnone]
      · simp at hclose
    simp [parsePrimary, ht, hty, bind, Except.bind, consume_of_look hopen, hexpr, hc]

/-- C3, at `(1 + 2) * 3` as `tokenize` delivers it. -/
theorem C3_parentheses_witness :
    lookCurrent ⟨tokenize "(1 + 2) * 3".toList, 0⟩ TOK_OPEN_PAREN = .ok true ∧
    parseExpression 4 ((Parser.mk (tokenize "(1 + 2) * 3".toList) 0).advance 1) 0 =
      .ok (.BinaryOperation (.Literal LITERAL_NUMBER (.Number 1)) TOK_ADDITION
        (.Literal LITERAL_NUMBER (.Number 2)), ⟨tokenize "(1 + 2) * 3".toList, 4⟩) ∧
    parsePrimary 5 ⟨tokenize "(1 + 2) * 3".toList, 0⟩ =
      .ok (.BinaryOperation (.Literal LITERAL_NUMBER (.Number 1)) TOK_ADDITION
        (.Literal LITERAL_NUMBER (.Number 2)), ⟨tokenize "(1 + 2) * 3".toList, 5⟩) :=
  ⟨by rfl, by rfl,
    (C3_parentheses 4 ⟨tokenize "(1 + 2) * 3".toList, 0⟩ ⟨tokenize "(1 + 2) * 3".toList, 4⟩ _
      (by rfl) (by rfl)).1 (by rfl)⟩

/-! ## The tokenizer -/

/-- C4: `tokenize("var x = 1;")` is exactly six tokens, and their positions
3, 5, 6, 9, 9, 10 are non-decreasing. -/
theorem C4_tokenize_var_declaration :
    tokenize "var x = 1;".toList =
      [⟨"var".toList, TOK_VAR, 3⟩, ⟨"x".toList, TOK_IDENTIFIER, 5⟩,
        ⟨"=".toList, TOK_ASSIGNMENT, 6⟩, ⟨"1".toList, TOK_NUMBER, 9⟩,
        ⟨";".toList, TOK_SEMICOLON, 9⟩, ⟨"".toList, TOK_EOF, 10⟩] ∧
    (tokenize "var x = 1;".toList).map Token.position = [3, 5, 6, 9, 9, 10] ∧
    List.Pairwise (fun a b => a ≤ b) ((tokenize "var x = 1;".toList).map Token.position) := by
  decide

theorem ite_ne_of {α : Type} {c : Prop} [Decidable c] {a b x : α} (ha : a ≠ x) (hb : b ≠ x) :
    (if c then a else b) ≠ x := by
  split <;> assumption

theorem getTokenType_ne_eof (w : List Char) : getTokenType w ≠ TOK_EOF := by
  unfold getTokenType
  repeat (first | decide | refine ite_ne_of (by decide) ?_)

theorem getOperatorType_ne_eof (w : List Char) : getOperatorType w ≠ TOK_EOF :=
  ite_ne_of (getTokenType_ne_eof w) (by decide)

theorem getStatementType_ne_eof (w : List Char) : getStatementType w ≠ TOK_EOF := by
  unfold getStatementType
  repeat (first | decide | refine ite_ne_of (by decide) ?_)

theorem getDataType_ne_eof (w : List Char) : getDataType w ≠ TOK_EOF := by
  unfold getDataType
  repeat (first | decide | refine ite_ne_of (by decide) ?_)

theorem getBooleanType_ne_eof (w : List Char) : getBooleanType w ≠ TOK_EOF := by
  unfold getBooleanType
  repeat' (first | decide | apply ite_ne_of)

theorem checkTypedVariable_ne_eof (w : List Char) : checkTypedVariable w ≠ TOK_EOF := by
  unfold checkTypedVariable
  dsimp only
  repeat' (first | decide | apply ite_ne_of)

theorem classifyWord_ne_eof (w : List Char) : classifyWord w ≠ TOK_EOF := by
  unfold classifyWord
  refine ite_ne_of (ite_ne_of (ite_ne_of (ite_ne_of ?_ ?_) ?_) ?_) ?_
  · exact getBooleanType_ne_eof w
  · decide
  · exact ite_ne_of (by decide) (getStatementType_ne_eof w)
  · exact getDataType_ne_eof w
  · exact checkTypedVariable_ne_eof w

theorem punctuationType_ne_eof (ch : Char) (ty : TokenType) (h : punctuationType ch = some ty) :
    ty ≠ TOK_EOF := by
  unfold punctuationType at h
  split_ifs at h <;> simp at h <;> subst h <;> decide

theorem proper_append (ts : List Token) (t : Token) (h : ∀ t ∈ ts, t.proper) (ht : t.proper) :
    ∀ u ∈ ts ++ [t], u.proper := by
  intro u hu
  simp only [List.mem_append, List.mem_singleton] at hu
  rcases hu with hu | hu
  · exact h u hu
  · subst hu; exact ht

theorem flushWord_proper (st : TokState) (i : Nat) (h : ∀ t ∈ st.tokens, t.proper) :
    ∀ t ∈ (flushWord st i).tokens, t.proper := by
  unfold flushWord
  split
  · exact h
  · rename_i hne
    refine proper_append _ _ h ⟨classifyWord_ne_eof _, ?_⟩
    intro h0
    exact hne (by simpa using h0)

theorem emplace_back_proper (st : TokState) (v : List Char) (ty : TokenType) (i : Nat)
    (h : ∀ t ∈ st.tokens, t.proper) (hty : ty ≠ TOK_EOF) (hv : v ≠ []) :
    ∀ t ∈ (st.emplace_back v ty i).tokens, t.proper :=
  proper_append _ _ h ⟨hty, hv⟩

theorem tokenizeStep_proper (ch : Char) (next : Option Char) (i : Nat) (st : TokState)
    (h : ∀ t ∈ st.tokens, t.proper) :
    ∀ t ∈ (tokenizeStep ch next i st).1.tokens, t.proper := by
  unfold tokenizeStep
  split
  · split
    · exact proper_append _ _ h ⟨by simp, by simp⟩
    · exact h
  · split
    · exact h
    · split
      · exact flushWord_proper st i h
      · split
        · exact h
        · have hf := flushWord_proper st i h
          split
          · rename_i ty hp
            exact emplace_back_proper _ _ _ _ hf (punctuationType_ne_eof ch ty hp) (by simp)
          · split
            · split
              · exact emplace_back_proper _ _ _ _ hf (getOperatorType_ne_eof _) (by simp)
              · exact emplace_back_proper _ _ _ _ hf (getOperatorType_ne_eof _) (by simp)
            · exact emplace_back_proper _ _ _ _ hf (getOperatorType_ne_eof _) (by simp)

theorem tokenizeLoop_proper (src : List Char) (i : Nat) (st : TokState)
    (h : ∀ t ∈ st.tokens, t.proper) : ∀ t ∈ (tokenizeLoop src i st).tokens, t.proper := by
  induction src, i, st using tokenizeLoop.induct with
  | case1 i st => simpa [tokenizeLoop] using h
  | case2 ch i st =>
    simp only [tokenizeLoop]
    exact tokenizeStep_proper ch none i st h
  | case3 ch nextChar rest i st hskip ih =>
    simp only [tokenizeLoop, hskip, if_true]
    exact ih (tokenizeStep_proper ch _ i st h)
  | case4 ch nextChar rest i st hskip ih =>
    simp only [tokenizeLoop, hskip]
    exact ih (tokenizeStep_proper ch _ i st h)

/-- C5: for every source text the output of `tokenize` is a list of tokens
that are neither end-of-input tokens nor empty, followed by one end-of-input
token with empty text whose position is the length of the text. -/
theorem C5_tokenize_ends_with_eof (sourceCode : List Char) :
    ∃ front : List Token,
      tokenize sourceCode = front ++ [⟨[], TOK_EOF, sourceCode.length⟩] ∧
      ∀ t ∈ front, t.type ≠ TOK_EOF ∧ t.value ≠ [] :=
  ⟨(flushWord (tokenizeLoop sourceCode 0 ⟨[], [], false, []⟩) sourceCode.length).tokens, rfl,
    flushWord_proper _ _ (tokenizeLoop_proper _ _ _ (by simp))⟩

/-! ## Statements -/

theorem statementLoop_for (fuel : Nat) (p : Parser) (statements : List ASTNode)
    (h : lookCurrent p TOK_FOR_STATEMENT = .ok true) :
    statementLoop (fuel + 1) p statements = .error (.thrown .forLoopNotImplemented) := by
  obtain ⟨t, ht, hty⟩ := lookCurrent_eq_true h
  simp [statementLoop, lookCurrent, ht, hty, bind, Except.bind, parseForStatement]

theorem sizeMinusOne_pos {n : Nat} (h1 : 2 ≤ n) (h2 : n < 18446744073709551616) :
    0 < sizeMinusOne n := by
  unfold sizeMinusOne
  omega

/-- C7: when the token at statement position is the `for` keyword, the
statement loop, `parseStatement` and (from the start of a token vector that
holds at least one more token) `parse` fail with the exception of
`parseForStatement`, whatever tokens follow and whatever the recursion
budget. -/
theorem C7_for_statement_fails (fuel : Nat) (p : Parser) (statements : List ASTNode)
    (h : lookCurrent p TOK_FOR_STATEMENT = .ok true) :
    statementLoop (fuel + 1) p statements = .error (.thrown .forLoopNotImplemented) ∧
    parseStatement (fuel + 2) p true = .error (.thrown .forLoopNotImplemented) ∧
    (p.current = 0 → 2 ≤ p.tokens.length → p.tokens.length < 18446744073709551616 →
      parse (fuel + 3) p.tokens = .error (.thrown .forLoopNotImplemented)) := by
  have hloop := statementLoop_for fuel p [] h
  have hstmt : parseStatement (fuel + 2) p true = .error (.thrown .forLoopNotImplemented) := by
    rw [parseStatement]
    simp only [if_true, hloop, bind, Except.bind]
  refine ⟨statementLoop_for fuel p statements h, hstmt, ?_⟩
  intro hcur hlen hmax
  have hp : (⟨p.tokens, 0⟩ : Parser) = p := by
    cases p
    simp only [Parser.mk.injEq, true_and]
    exact hcur.symm
  have hcond : 0 < sizeMinusOne p.tokens.length := sizeMinusOne_pos hlen hmax
  rw [parse, parseLoop, hp, if_pos (by rw [hcur]; exact hcond)]
  simp only [hstmt, bind, Except.bind]

/-- C7, at the tokens of `for (;;) {}`. -/
theorem C7_for_statement_fails_witness :
    lookCurrent ⟨tokenize "for (;;) {}".toList, 0⟩ TOK_FOR_STATEMENT = .ok true ∧
    parse 3 (tokenize "for (;;) {}".toList) = .error (.thrown .forLoopNotImplemented) :=
  ⟨by rfl,
    (C7_for_statement_fails 0 ⟨tokenize "for (;;) {}".toList, 0⟩ [] (by rfl)).2.2 rfl
      (by decide)
      (Nat.lt_of_lt_of_le (by decide : (tokenize "for (;;) {}".toList).length < 9)
        (by decide))⟩

theorem statementLoop_switch (fuel : Nat) (p : Parser) (statements : List ASTNode)
    (h : lookCurrent p TOK_SWITCH_STATEMENT = .ok true) :
    statementLoop (fuel + 1) p statements = statementLoop fuel (p.advance 1) statements := by
  obtain ⟨t, ht, hty⟩ := lookCurrent_eq_true h
  simp [statementLoop, lookCurrent, currentToken, consume, ht, hty, bind, Except.bind,
    Parser.advance]

/-- C8 does not hold: `parse` of `tokenize("switch;")` returns an AST, and no
recursion budget makes it throw. -/
theorem C8_switch_counterexample :
    parse 5 (tokenize "switch;".toList) = .ok [.Block [.Empty]] ∧
    ∀ (fuel : Nat) (e : ParseError),
      parse fuel (tokenize "switch;".toList) ≠ .error (.thrown e) := by
  have h5 : parse 5 (tokenize "switch;".toList) = .ok [.Block [.Empty]] := by rfl
  refine ⟨h5, ?_⟩
  intro fuel e he
  rcases Nat.le_total fuel 5 with hle | hle
  · have := (parse_fuel hle _).thrown he
    rw [h5] at this
    cases this
  · have := (parse_fuel hle _).ok h5
    rw [he] at this
    cases this

/-- C8, amended: a `switch` keyword at statement position is consumed and
discarded like any other token that starts no statement; the statement loop
goes on behind it with the statements collected so far, and does not fail
because of it. -/
theorem C8_switch_is_skipped (fuel : Nat) (p : Parser) (statements : List ASTNode)
    (h : lookCurrent p TOK_SWITCH_STATEMENT = .ok true) :
    statementLoop (fuel + 1) p statements = statementLoop fuel (p.advance 1) statements ∧
    ((∃ e, statementLoop (fuel + 1) p statements = .error (.thrown e)) →
      ∃ e, statementLoop fuel (p.advance 1) statements = .error (.thrown e)) := by
  have hskip := statementLoop_switch fuel p statements h
  exact ⟨hskip, fun ⟨e, he⟩ => ⟨e, by rw [← hskip]; exact he⟩⟩

/-- C8 amended, at the tokens of `switch;`. -/
theorem C8_switch_is_skipped_witness :
    lookCurrent ⟨tokenize "switch;".toList, 0⟩ TOK_SWITCH_STATEMENT = .ok true ∧
    statementLoop 3 ⟨tokenize "switch;".toList, 0⟩ [] =
      statementLoop 2 ((Parser.mk (tokenize "switch;".toList) 0).advance 1) [] ∧
    statementLoop 3 ⟨tokenize "switch;".toList, 0⟩ [] = .ok ([], ⟨tokenize "switch;".toList, 2⟩) :=
  ⟨by rfl, (C8_switch_is_skipped 2 ⟨tokenize "switch;".toList, 0⟩ [] (by rfl)).1, by rfl⟩

/-! ## The if / elseif / else chain -/

theorem consume2_of_look {p : Parser} {ty1 ty2 : TokenType}
    (h1 : lookCurrent p ty1 = .ok true) (h2 : lookCurrent (p.advance 1) ty2 = .ok true) :
    (consume p ty1 >>= fun p => consume p ty2) = .ok (p.advance 2) := by
  rw [consume_of_look h1]
  show consume (p.advance 1) ty2 = _
  rw [consume_of_look h2, advance_advance]

theorem elseifLoop_stop (fuel : Nat) {p : Parser} (elseifBodies : List ASTNode)
    (h : lookCurrent p TOK_ELSEIF_STATEMENT = .ok false) :
    elseifLoop (fuel + 1) p elseifBodies = .ok (elseifBodies, p) := by
  rw [elseifLoop]
  simp only [h, bind, Except.bind]
  rfl

theorem elseifLoop_clause {fuel : Nat} {p p1 p2 : Parser} {c b : ASTNode}
    (elseifBodies : List ASTNode)
    (hkeyword : lookCurrent p TOK_ELSEIF_STATEMENT = .ok true)
    (hopen : lookCurrent (p.advance 1) TOK_OPEN_PAREN = .ok true)
    (hcondition : parseExpression fuel (p.advance 2) 0 = .ok (c, p1))
    (hclose : lookCurrent p1 TOK_CLOSE_PAREN = .ok true)
    (hbrace : lookCurrent (p1.advance 1) TOK_OPEN_BRACE = .ok true)
    (hbody : parseStatement fuel (p1.advance 2) true = .ok (b, p2))
    (hend : lookCurrent p2 TOK_CLOSE_BRACE = .ok true) :
    elseifLoop (fuel + 1) p elseifBodies =
      elseifLoop fuel (p2.advance 1) (elseifBodies ++ [.ElseIf c b]) := by
  rw [elseifLoop]
  simp only [hkeyword, bind, Except.bind, consume_of_look hkeyword, consume_of_look hopen,
    advance_advance, hcondition, consume_of_look hclose, consume_of_look hbrace, hbody,
    consume_of_look hend, if_true]

theorem elseifLoop_clauses {fuel : Nat} {p p' : Parser} {clauses : List (ASTNode × ASTNode)}
    (h : ElseIfClauses fuel p clauses p')
    (hstop : lookCurrent p' TOK_ELSEIF_STATEMENT = .ok false) (elseifBodies : List ASTNode) :
    elseifLoop (fuel + clauses.length + 1) p elseifBodies =
      .ok (elseifBodies ++ clauses.map (fun cb => ASTNode.ElseIf cb.1 cb.2), p') := by
  induction h generalizing elseifBodies with
  | nil p => simpa using elseifLoop_stop fuel elseifBodies hstop
  | @cons p p1 p2 p' c b clauses hkeyword hopen hcondition hclose hbrace hbody hend _ ih =>
    have hle : fuel ≤ fuel + clauses.length + 1 := by omega
    have h1 := (parseExpression_fuel hle _ _).ok hcondition
    have h2 := (parseStatement_fuel hle _ _).ok hbody
    have hstep := elseifLoop_clause elseifBodies hkeyword hopen h1 hclose hbrace h2 hend
    have hlen : fuel + ((c, b) :: clauses).length + 1 = fuel + clauses.length + 1 + 1 := by
      simp only [List.length_cons]
      omega
    rw [hlen, hstep, ih hstop]
    simp

theorem elseClause_not_elseif {fuel : Nat} {p p' : Parser} {e : Option ASTNode}
    (h : ElseClause fuel p e p') : lookCurrent p TOK_ELSEIF_STATEMENT = .ok false := by
  cases h with
  | absent h1 _ => exact h1
  | present hkeyword _ _ _ => exact lookCurrent_of_look hkeyword (by decide)

theorem lookCurrent_ok_of_parseStatement {fuel : Nat} {q : Parser} {r : ASTNode × Parser}
    (h : parseStatement fuel q true = .ok r) (ty : TokenType) :
    ∃ v, lookCurrent q ty = .ok v := by
  cases hq : q.tokens[q.current]? with
  | some t => exact ⟨t.type == ty, by simp only [lookCurrent, hq]⟩
  | none =>
    exfalso
    have hlook : ∀ ty, lookCurrent q ty = .error .outOfBounds := by
      intro ty
      simp only [lookCurrent, hq]
    cases fuel with
    | zero => simp [parseStatement] at h
    | succ f =>
      rw [parseStatement] at h
      cases f with
      | zero => simp [statementLoop, bind, Except.bind] at h
      | succ f =>
        rw [statementLoop] at h
        simp [hlook, bind, Except.bind] at h

/-- C6: on `if (c0) { b0 }` followed by `N` clauses `elseif (ci) { bi }` and
an optional `else { e }`, `parseIfStatement` returns one `If` node whose
condition is the tree of `c0`, whose body is the Block of `b0`, whose elseif
list is `ElseIf(c1, b1), ..., ElseIf(cN, bN)` in source order (so of length
`N`), and whose else-body is the Block of `e` when the else clause is there
and absent otherwise. -/
theorem C6_if_elseif_else_chain (fuel : Nat) (p p1 p2 p3 p4 : Parser) (c0 b0 : ASTNode)
    (clauses : List (ASTNode × ASTNode)) (e : Option ASTNode)
    (hif : lookCurrent p TOK_IF_STATEMENT = .ok true)
    (hopen : lookCurrent (p.advance 1) TOK_OPEN_PAREN = .ok true)
    (hcondition : parseExpression fuel (p.advance 2) 0 = .ok (c0, p1))
    (hclose : lookCurrent p1 TOK_CLOSE_PAREN = .ok true)
    (hbrace : lookCurrent (p1.advance 1) TOK_OPEN_BRACE = .ok true)
    (hbody : parseStatement fuel (p1.advance 2) true = .ok (b0, p2))
    (hend : lookCurrent p2 TOK_CLOSE_BRACE = .ok true)
    (hclauses : ElseIfClauses fuel (p2.advance 1) clauses p3)
    (helse : ElseClause fuel p3 e p4) :
    parseIfStatement (fuel + clauses.length + 2) p =
      .ok (.If c0 b0 (clauses.map (fun cb => ASTNode.ElseIf cb.1 cb.2)) e, p4) ∧
    (clauses.map (fun cb => ASTNode.ElseIf cb.1 cb.2)).length = clauses.length := by
  refine ⟨?_, List.length_map _ _⟩
  have hle : fuel ≤ fuel + clauses.length + 1 := by omega
  have h1 := (parseExpression_fuel hle _ _).ok hcondition
  have h2 := (parseStatement_fuel hle _ _).ok hbody
  have h3 := elseifLoop_clauses hclauses (elseClause_not_elseif helse) []
  obtain ⟨v, hv⟩ := lookCurrent_ok_of_parseStatement hbody TOK_CLOSE_BRACE
  rw [show fuel + clauses.length + 2 = fuel + clauses.length + 1 + 1 from rfl, parseIfStatement]
  simp only [bind, Except.bind, consume_of_look hif, consume_of_look hopen, advance_advance,
    h1, consume_of_look hclose, consume_of_look hbrace, hv, h2, consume_of_look hend, h3,
    List.nil_append]
  cases helse with
  | absent hnoelseif hnoelse =>
    simp only [hnoelse, Bool.false_eq_true, if_false]
  | @present p5 b hkeyword hbrace2 hbody2 hend2 =>
    have h4 := (parseStatement_fuel hle _ _).ok hbody2
    simp only [hkeyword, if_true, consume_of_look hkeyword, consume_of_look hbrace2,
      advance_advance, h4, consume_of_look hend2]

/-- C6, at `if (a) { } elseif (b) { x = 1; } elseif (c) { } else { y = 2; }`
as `tokenize` delivers it. -/
theorem C6_if_elseif_else_chain_witness :
    parseIfStatement (6 + 2 + 2) ⟨ifChainExample, 0⟩ =
      .ok (.If (.Variable "a".toList) (.Block [.Empty])
          [.ElseIf (.Variable "b".toList)
              (.Block [.Assignment (.Variable "x".toList) (.Literal LITERAL_NUMBER (.Number 1))]),
            .ElseIf (.Variable "c".toList) (.Block [.Empty])]
          (some (.Block
            [.Assignment (.Variable "y".toList) (.Literal LITERAL_NUMBER (.Number 2))])),
        ⟨ifChainExample, 29⟩) ∧
    [ASTNode.ElseIf (.Variable "b".toList)
        (.Block [.Assignment (.Variable "x".toList) (.Literal LITERAL_NUMBER (.Number 1))]),
      ASTNode.ElseIf (.Variable "c".toList) (.Block [.Empty])].length = 2 :=
  C6_if_elseif_else_chain 6 ⟨ifChainExample, 0⟩ ⟨ifChainExample, 3⟩ ⟨ifChainExample, 5⟩
    ⟨ifChainExample, 22⟩ ⟨ifChainExample, 29⟩ (.Variable "a".toList) (.Block [.Empty])
    [(.Variable "b".toList,
        .Block [.Assignment (.Variable "x".toList) (.Literal LITERAL_NUMBER (.Number 1))]),
      (.Variable "c".toList, .Block [.Empty])]
    (some (.Block [.Assignment (.Variable "y".toList) (.Literal LITERAL_NUMBER (.Number 2))]))
    (by rfl) (by rfl) (by rfl) (by rfl) (by rfl) (by rfl) (by rfl)
    (@ElseIfClauses.cons 6 ⟨ifChainExample, 6⟩ ⟨ifChainExample, 9⟩ ⟨ifChainExample, 15⟩
      ⟨ifChainExample, 22⟩ _ _ _ (by rfl) (by rfl) (by rfl) (by rfl) (by rfl) (by rfl) (by rfl)
      (@ElseIfClauses.cons 6 ⟨ifChainExample, 16⟩ ⟨ifChainExample, 19⟩ ⟨ifChainExample, 21⟩
        ⟨ifChainExample, 22⟩ _ _ _ (by rfl) (by rfl) (by rfl) (by rfl) (by rfl) (by rfl)
        (by rfl) (ElseIfClauses.nil _)))
    (@ElseClause.present 6 ⟨ifChainExample, 22⟩ ⟨ifChainExample, 28⟩ _ (by rfl) (by rfl)
      (by rfl) (by rfl))

/-! ## Tokens in front of the cursor are never read -/

theorem shift_getElem? (pre : List Token) (p : Parser) :
    (p.shift pre).tokens[(p.shift pre).current]? = p.tokens[p.current]? := by
  simp [Parser.shift, List.getElem?_append_right]

theorem currentToken_shift (pre : List Token) (p : Parser) :
    currentToken (p.shift pre) = currentToken p := by
  simp only [currentToken, shift_getElem?]

theorem lookCurrent_shift (pre : List Token) (p : Parser) (ty : TokenType) :
    lookCurrent (p.shift pre) ty = lookCurrent p ty := by
  simp only [lookCurrent, shift_getElem?]

theorem expect_shift (pre : List Token) (p : Parser) (ty : TokenType) :
    expect (p.shift pre) ty = expect p ty := by
  simp only [expect, currentToken_shift]

theorem consume_shift (pre : List Token) (p : Parser) (ty : TokenType) :
    consume (p.shift pre) ty = (consume p ty).map (Parser.shift pre) := by
  simp only [consume, currentToken_shift]
  cases currentToken p with
  | error e => rfl
  | ok t =>
    simp only []
    split
    · rfl
    · simp [Except.map, Parser.shift, Nat.add_assoc]

theorem ShiftRel.shift_ok (pre : List Token) {α : Type} (a : α) (q : Parser) :
    ShiftRel pre (.ok (a, q)) (.ok (a, q.shift pre)) := rfl

theorem ShiftRel.shift_error (pre : List Token) {α : Type} (e : Failure) :
    ShiftRel pre (.error e : Outcome (α × Parser)) (.error e) := rfl

theorem ShiftRel.bind_value (pre : List Token) {α β : Type} {x x' : Outcome α}
    {f f' : α → Outcome (β × Parser)} (hx : x' = x) (hf : ∀ a, ShiftRel pre (f a) (f' a)) :
    ShiftRel pre (x >>= f) (x' >>= f') := by
  subst hx
  cases x' with
  | error e => rfl
  | ok a => exact hf a

theorem ShiftRel.bind_state (pre : List Token) {β : Type} {x x' : Outcome Parser}
    {f f' : Parser → Outcome (β × Parser)} (hx : x' = x.map (Parser.shift pre))
    (hf : ∀ q, ShiftRel pre (f q) (f' (q.shift pre))) :
    ShiftRel pre (x >>= f) (x' >>= f') := by
  subst hx
  cases x with
  | error e => rfl
  | ok q => exact hf q

theorem ShiftRel.shift_bind {pre : List Token} {α β : Type} {x x' : Outcome (α × Parser)}
    {f f' : α × Parser → Outcome (β × Parser)} (hx : ShiftRel pre x x')
    (hf : ∀ a q, ShiftRel pre (f (a, q)) (f' (a, q.shift pre))) :
    ShiftRel pre (x >>= f) (x' >>= f') := by
  unfold ShiftRel at hx
  subst hx
  cases x with
  | error e => rfl
  | ok v => exact hf v.1 v.2

theorem ShiftRel.shift_ite {pre : List Token} {α : Type} {c : Prop} [Decidable c]
    {a a' b b' : Outcome (α × Parser)}
    (ha : c → ShiftRel pre a a') (hb : ¬c → ShiftRel pre b b') :
    ShiftRel pre (if c then a else b) (if c then a' else b') := by
  split
  · exact ha ‹_›
  · exact hb ‹_›

theorem expression_shift (pre : List Token) (fuel : Nat) :
    (∀ p, ShiftRel pre (parsePrimary fuel p) (parsePrimary fuel (p.shift pre))) ∧
    (∀ p e, ShiftRel pre (memberAccessLoop fuel p e) (memberAccessLoop fuel (p.shift pre) e)) ∧
    (∀ p a, ShiftRel pre (argumentLoop fuel p a) (argumentLoop fuel (p.shift pre) a)) ∧
    (∀ p q, ShiftRel pre (parseExpression fuel p q) (parseExpression fuel (p.shift pre) q)) ∧
    (∀ p q l, ShiftRel pre (binaryOperationLoop fuel p q l)
      (binaryOperationLoop fuel (p.shift pre) q l)) := by
  induction fuel with
  | zero =>
    refine ⟨?_, ?_, ?_, ?_, ?_⟩ <;> intros <;> rfl
  | succ f ih =>
    obtain ⟨ih1, ih2, ih3, ih4, ih5⟩ := ih
    refine ⟨?_, ?_, ?_, ?_, ?_⟩
    · intro p
      rw [parsePrimary, parsePrimary]
      with_reducible repeat' (first
        | exact ShiftRel.shift_ok _ _ _ | exact ShiftRel.shift_error _ _
        | exact ih1 _ | exact ih2 _ _ | exact ih3 _ _ | exact ih4 _ _ | exact ih5 _ _ _
        | exact currentToken_shift _ _ | exact lookCurrent_shift _ _ _
        | exact expect_shift _ _ _ | exact consume_shift _ _ _ | rfl
        | apply ShiftRel.shift_bind | apply ShiftRel.bind_state | apply ShiftRel.bind_value
        | apply ShiftRel.shift_ite | intro _)
    · intro p e
      rw [memberAccessLoop, memberAccessLoop]
      with_reducible repeat' (first
        | exact ShiftRel.shift_ok _ _ _ | exact ShiftRel.shift_error _ _
        | exact ih1 _ | exact ih2 _ _ | exact ih3 _ _ | exact ih4 _ _ | exact ih5 _ _ _
        | exact currentToken_shift _ _ | exact lookCurrent_shift _ _ _
        | exact expect_shift _ _ _ | exact consume_shift _ _ _ | rfl
        | apply ShiftRel.shift_bind | apply ShiftRel.bind_state | apply ShiftRel.bind_value
        | apply ShiftRel.shift_ite | intro _)
    · intro p a
      rw [argumentLoop, argumentLoop]
      with_reducible repeat' (first
        | exact ShiftRel.shift_ok _ _ _ | exact ShiftRel.shift_error _ _
        | exact ih1 _ | exact ih2 _ _ | exact ih3 _ _ | exact ih4 _ _ | exact ih5 _ _ _
        | exact currentToken_shift _ _ | exact lookCurrent_shift _ _ _
        | exact expect_shift _ _ _ | exact consume_shift _ _ _ | rfl
        | apply ShiftRel.shift_bind | apply ShiftRel.bind_state | apply ShiftRel.bind_value
        | apply ShiftRel.shift_ite | intro _)
    · intro p q
      rw [parseExpression, parseExpression]
      with_reducible repeat' (first
        | exact ShiftRel.shift_ok _ _ _ | exact ShiftRel.shift_error _ _
        | exact ih1 _ | exact ih2 _ _ | exact ih3 _ _ | exact ih4 _ _ | exact ih5 _ _ _
        | exact currentToken_shift _ _ | exact lookCurrent_shift _ _ _
        | exact expect_shift _ _ _ | exact consume_shift _ _ _ | rfl
        | apply ShiftRel.shift_bind | apply ShiftRel.bind_state | apply ShiftRel.bind_value
        | apply ShiftRel.shift_ite | intro _)
    · intro p q l
      rw [binaryOperationLoop, binaryOperationLoop]
      with_reducible repeat' (first
        | exact ShiftRel.shift_ok _ _ _ | exact ShiftRel.shift_error _ _
        | exact ih1 _ | exact ih2 _ _ | exact ih3 _ _ | exact ih4 _ _ | exact ih5 _ _ _
        | exact currentToken_shift _ _ | exact lookCurrent_shift _ _ _
        | exact expect_shift _ _ _ | exact consume_shift _ _ _ | rfl
        | apply ShiftRel.shift_bind | apply ShiftRel.bind_state | apply ShiftRel.bind_value
        | apply ShiftRel.shift_ite | intro _)

theorem parsePrimary_shift (pre : List Token) (fuel : Nat) (p : Parser) :
    ShiftRel pre (parsePrimary fuel p) (parsePrimary fuel (p.shift pre)) :=
  (expression_shift pre fuel).1 p

theorem parseExpression_shift (pre : List Token) (fuel : Nat) (p : Parser) (q : Int) :
    ShiftRel pre (parseExpression fuel p q) (parseExpression fuel (p.shift pre) q) :=
  (expression_shift pre fuel).2.2.2.1 p q

theorem parseAssignmentStatement_shift (pre : List Token) (fuel : Nat) (p : Parser)
    (e : ASTNode) :
    ShiftRel pre (parseAssignmentStatement fuel p e)
      (parseAssignmentStatement fuel (p.shift pre) e) := by
  unfold parseAssignmentStatement
  with_reducible repeat' (first
    | exact ShiftRel.shift_ok _ _ _ | exact ShiftRel.shift_error _ _
    | exact parseExpression_shift _ _ _ _
    | exact currentToken_shift _ _ | exact lookCurrent_shift _ _ _
    | exact expect_shift _ _ _ | exact consume_shift _ _ _ | rfl
    | apply ShiftRel.shift_bind | apply ShiftRel.bind_state | apply ShiftRel.bind_value
    | apply ShiftRel.shift_ite | intro _)

theorem parseVariableDeclarationStatement_shift (pre : List Token) (fuel : Nat) (p : Parser) :
    ShiftRel pre (parseVariableDeclarationStatement fuel p)
      (parseVariableDeclarationStatement fuel (p.shift pre)) := by
  unfold parseVariableDeclarationStatement
  refine ShiftRel.bind_state pre (consume_shift _ _ _) (fun q => ?_)
  refine ShiftRel.bind_value pre (currentToken_shift _ _) (fun t => ?_)
  refine ShiftRel.bind_state pre ?_ (fun q => ?_)
  · simp only [lookCurrent_shift, bind, Except.bind]
    cases lookCurrent q TOK_ELSEIF_STATEMENT with
    | error e => rfl
    | ok b =>
      simp only []
      split
      · exact consume_shift _ _ _
      · rfl
  with_reducible repeat' (first
    | exact ShiftRel.shift_ok _ _ _ | exact ShiftRel.shift_error _ _
    | exact parseExpression_shift _ _ _ _
    | exact currentToken_shift _ _ | exact lookCurrent_shift _ _ _
    | exact expect_shift _ _ _ | exact consume_shift _ _ _ | rfl
    | apply ShiftRel.shift_bind | apply ShiftRel.bind_state | apply ShiftRel.bind_value
    | apply ShiftRel.shift_ite | intro _)

theorem parseGlobalDeclarationStatement_shift (pre : List Token) (fuel : Nat) (p : Parser) :
    ShiftRel pre (parseGlobalDeclarationStatement fuel p)
      (parseGlobalDeclarationStatement fuel (p.shift pre)) := by
  unfold parseGlobalDeclarationStatement
  with_reducible repeat' (first
    | exact ShiftRel.shift_ok _ _ _ | exact ShiftRel.shift_error _ _
    | exact parseExpression_shift _ _ _ _
    | exact currentToken_shift _ _ | exact lookCurrent_shift _ _ _
    | exact expect_shift _ _ _ | exact consume_shift _ _ _ | rfl
    | apply ShiftRel.shift_bind | apply ShiftRel.bind_state | apply ShiftRel.bind_value
    | apply ShiftRel.shift_ite | intro _)

theorem parseReturnStatement_shift (pre : List Token) (fuel : Nat) (p : Parser) :
    ShiftRel pre (parseReturnStatement fuel p) (parseReturnStatement fuel (p.shift pre)) := by
  unfold parseReturnStatement
  with_reducible repeat' (first
    | exact ShiftRel.shift_ok _ _ _ | exact ShiftRel.shift_error _ _
    | exact parseExpression_shift _ _ _ _
    | exact currentToken_shift _ _ | exact lookCurrent_shift _ _ _
    | exact expect_shift _ _ _ | exact consume_shift _ _ _ | rfl
    | apply ShiftRel.shift_bind | apply ShiftRel.bind_state | apply ShiftRel.bind_value
    | apply ShiftRel.shift_ite | intro _)

theorem parseForStatement_shift (pre : List Token) (p : Parser) :
    ShiftRel pre (parseForStatement p) (parseForStatement (p.shift pre)) := rfl

theorem statement_shift (pre : List Token) (fuel : Nat) :
    (∀ p, ShiftRel pre (parseIfStatement fuel p) (parseIfStatement fuel (p.shift pre))) ∧
    (∀ p l, ShiftRel pre (elseifLoop fuel p l) (elseifLoop fuel (p.shift pre) l)) ∧
    (∀ p, ShiftRel pre (parseWhileStatement fuel p) (parseWhileStatement fuel (p.shift pre))) ∧
    (∀ p l, ShiftRel pre (statementLoop fuel p l) (statementLoop fuel (p.shift pre) l)) ∧
    (∀ p b, ShiftRel pre (parseStatement fuel p b) (parseStatement fuel (p.shift pre) b)) := by
  induction fuel with
  | zero =>
    refine ⟨?_, ?_, ?_, ?_, ?_⟩ <;> intros <;> rfl
  | succ f ih =>
    obtain ⟨ih1, ih2, ih3, ih4, ih5⟩ := ih
    refine ⟨?_, ?_, ?_, ?_, ?_⟩
    · intro p
      rw [parseIfStatement, parseIfStatement]
      with_reducible repeat' (first
        | exact ShiftRel.shift_ok _ _ _ | exact ShiftRel.shift_error _ _
        | exact ih1 _ | exact ih2 _ _ | exact ih3 _ | exact ih4 _ _ | exact ih5 _ _
        | exact parseExpression_shift _ _ _ _ | exact parsePrimary_shift _ _ _
        | exact parseAssignmentStatement_shift _ _ _ _
        | exact parseVariableDeclarationStatement_shift _ _ _
        | exact parseGlobalDeclarationStatement_shift _ _ _
        | exact parseReturnStatement_shift _ _ _ | exact parseForStatement_shift _ _
        | exact currentToken_shift _ _ | exact lookCurrent_shift _ _ _
        | exact expect_shift _ _ _ | exact consume_shift _ _ _ | rfl
        | apply ShiftRel.shift_bind | apply ShiftRel.bind_state | apply ShiftRel.bind_value
        | apply ShiftRel.shift_ite | intro _)
    · intro p l
      rw [elseifLoop, elseifLoop]
      with_reducible repeat' (first
        | exact ShiftRel.shift_ok _ _ _ | exact ShiftRel.shift_error _ _
        | exact ih1 _ | exact ih2 _ _ | exact ih3 _ | exact ih4 _ _ | exact ih5 _ _
        | exact parseExpression_shift _ _ _ _ | exact parsePrimary_shift _ _ _
        | exact parseAssignmentStatement_shift _ _ _ _
        | exact parseVariableDeclarationStatement_shift _ _ _
        | exact parseGlobalDeclarationStatement_shift _ _ _
        | exact parseReturnStatement_shift _ _ _ | exact parseForStatement_shift _ _
        | exact currentToken_shift _ _ | exact lookCurrent_shift _ _ _
        | exact expect_shift _ _ _ | exact consume_shift _ _ _ | rfl
        | apply ShiftRel.shift_bind | apply ShiftRel.bind_state | apply ShiftRel.bind_value
        | apply ShiftRel.shift_ite | intro _)
    · intro p
      rw [parseWhileStatement, parseWhileStatement]
      with_reducible repeat' (first
        | exact ShiftRel.shift_ok _ _ _ | exact ShiftRel.shift_error _ _
        | exact ih1 _ | exact ih2 _ _ | exact ih3 _ | exact ih4 _ _ | exact ih5 _ _
        | exact parseExpression_shift _ _ _ _ | exact parsePrimary_shift _ _ _
        | exact parseAssignmentStatement_shift _ _ _ _
        | exact parseVariableDeclarationStatement_shift _ _ _
        | exact parseGlobalDeclarationStatement_shift _ _ _
        | exact parseReturnStatement_shift _ _ _ | exact parseForStatement_shift _ _
        | exact currentToken_shift _ _ | exact lookCurrent_shift _ _ _
        | exact expect_shift _ _ _ | exact consume_shift _ _ _ | rfl
        | apply ShiftRel.shift_bind | apply ShiftRel.bind_state | apply ShiftRel.bind_value
        | apply ShiftRel.shift_ite | intro _)
    · intro p l
      rw [statementLoop, statementLoop]
      with_reducible repeat' (first
        | exact ShiftRel.shift_ok _ _ _ | exact ShiftRel.shift_error _ _
        | exact ih1 _ | exact ih2 _ _ | exact ih3 _ | exact ih4 _ _ | exact ih5 _ _
        | exact parseExpression_shift _ _ _ _ | exact parsePrimary_shift _ _ _
        | exact parseAssignmentStatement_shift _ _ _ _
        | exact parseVariableDeclarationStatement_shift _ _ _
        | exact parseGlobalDeclarationStatement_shift _ _ _
        | exact parseReturnStatement_shift _ _ _ | exact parseForStatement_shift _ _
        | exact currentToken_shift _ _ | exact lookCurrent_shift _ _ _
        | exact expect_shift _ _ _ | exact consume_shift _ _ _ | rfl
        | apply ShiftRel.shift_bind | apply ShiftRel.bind_state | apply ShiftRel.bind_value
        | apply ShiftRel.shift_ite | intro _)
    · intro p b
      rw [parseStatement, parseStatement]
      cases b with
      | false => rfl
      | true =>
        simp only [if_true]
        with_reducible repeat' (first
          | exact ShiftRel.shift_ok _ _ _ | exact ShiftRel.shift_error _ _
          | exact ih1 _ | exact ih2 _ _ | exact ih3 _ | exact ih4 _ _ | exact ih5 _ _
          | exact parseExpression_shift _ _ _ _ | exact parsePrimary_shift _ _ _
          | exact parseAssignmentStatement_shift _ _ _ _
          | exact parseVariableDeclarationStatement_shift _ _ _
          | exact parseGlobalDeclarationStatement_shift _ _ _
          | exact parseReturnStatement_shift _ _ _ | exact parseForStatement_shift _ _
          | exact currentToken_shift _ _ | exact lookCurrent_shift _ _ _
          | exact expect_shift _ _ _ | exact consume_shift _ _ _ | rfl
          | apply ShiftRel.shift_bind | apply ShiftRel.bind_state | apply ShiftRel.bind_value
          | apply ShiftRel.shift_ite | intro _)

theorem statementLoop_shift (pre : List Token) (fuel : Nat) (p : Parser) (l : List ASTNode) :
    ShiftRel pre (statementLoop fuel p l) (statementLoop fuel (p.shift pre) l) :=
  (statement_shift pre fuel).2.2.2.1 p l

theorem parseStatement_shift (pre : List Token) (fuel : Nat) (p : Parser) (b : Bool) :
    ShiftRel pre (parseStatement fuel p b) (parseStatement fuel (p.shift pre) b) :=
  (statement_shift pre fuel).2.2.2.2 p b

theorem statementLoop_skip (fuel : Nat) (p : Parser) (statements : List ASTNode) {t : Token}
    (ht : p.tokens[p.current]? = some t)
    (hty : t.type ≠ TOK_EOF ∧ t.type ≠ TOK_CLOSE_BRACE ∧ t.type ≠ TOK_VAR ∧
      t.type ≠ TOK_GLOBAL_VAR ∧ t.type ≠ TOK_FOR_STATEMENT ∧ t.type ≠ TOK_WHILE_STATEMENT ∧
      t.type ≠ TOK_IF_STATEMENT ∧ t.type ≠ TOK_RETURN_STATEMENT ∧ t.type ≠ TOK_IDENTIFIER ∧
      t.type ≠ TOK_BREAK_STATEMENT ∧ t.type ≠ TOK_CONTINUE_STATEMENT) :
    statementLoop (fuel + 1) p statements = statementLoop fuel (p.advance 1) statements := by
  obtain ⟨h1, h2, h3, h4, h5, h6, h7, h8, h9, h10, h11⟩ := hty
  rw [statementLoop]
  simp [lookCurrent, currentToken, consume, ht, h1, h2, h3, h4, h5, h6, h7, h8, h9, h10, h11,
    bind, Except.bind, Parser.advance]

theorem parseStatement_skip (fuel : Nat) (u : Token) (ts : List Token)
    (hty : u.type ≠ TOK_EOF ∧ u.type ≠ TOK_CLOSE_BRACE ∧ u.type ≠ TOK_VAR ∧
      u.type ≠ TOK_GLOBAL_VAR ∧ u.type ≠ TOK_FOR_STATEMENT ∧ u.type ≠ TOK_WHILE_STATEMENT ∧
      u.type ≠ TOK_IF_STATEMENT ∧ u.type ≠ TOK_RETURN_STATEMENT ∧ u.type ≠ TOK_IDENTIFIER ∧
      u.type ≠ TOK_BREAK_STATEMENT ∧ u.type ≠ TOK_CONTINUE_STATEMENT) :
    parseStatement (fuel + 1) ⟨u :: ts, 0⟩ true =
      (parseStatement fuel ⟨ts, 0⟩ true).map (fun x => (x.1, x.2.shift [u])) := by
  cases fuel with
  | zero => rfl
  | succ f =>
    have hcur : (Parser.mk (u :: ts) 0).tokens[(Parser.mk (u :: ts) 0).current]? = some u := by
      simp
    have hskip := statementLoop_skip f ⟨u :: ts, 0⟩ [] hcur hty
    have hshift : statementLoop f ((Parser.mk (u :: ts) 0).advance 1) [] =
        (statementLoop f ⟨ts, 0⟩ []).map (fun x => (x.1, x.2.shift [u])) :=
      statementLoop_shift [u] f ⟨ts, 0⟩ []
    rw [parseStatement, parseStatement]
    simp only [if_true, hskip, hshift]
    cases statementLoop f ⟨ts, 0⟩ [] with
    | error e => rfl
    | ok v =>
      simp only [Except.map, bind, Except.bind]
      split <;> rfl

/-- C9: skipping is transparent. For every token list `ts` and every token
`u` of kind unknown, `parseStatement(true)` started on `u` followed by `ts`
ends exactly as `parseStatement(true)` started on `ts` alone does (with one
unit of recursion budget less): the same Block with the cursor on the same
token, or the same failure. Hence nothing of `u` reaches the result: any two
unknown tokens in front of `ts` give the same Block. -/
theorem C9_skip_unknown_token (fuel : Nat) (u : Token) (ts : List Token)
    (hu : u.type = TOK_UNKNOWN) :
    parseStatement (fuel + 1) ⟨u :: ts, 0⟩ true =
      (parseStatement fuel ⟨ts, 0⟩ true).map (fun x => (x.1, x.2.shift [u])) ∧
    (∀ (b : ASTNode) (q : Parser), parseStatement fuel ⟨ts, 0⟩ true = .ok (b, q) →
      parseStatement (fuel + 1) ⟨u :: ts, 0⟩ true = .ok (b, ⟨u :: q.tokens, 1 + q.current⟩)) ∧
    (∀ e : ParseError, parseStatement (fuel + 1) ⟨u :: ts, 0⟩ true = .error (.thrown e) →
      parseStatement fuel ⟨ts, 0⟩ true = .error (.thrown e)) ∧
    (∀ u' : Token, u'.type = TOK_UNKNOWN →
      (parseStatement (fuel + 1) ⟨u' :: ts, 0⟩ true).map Prod.fst =
        (parseStatement (fuel + 1) ⟨u :: ts, 0⟩ true).map Prod.fst) := by
  have hty : ∀ v : Token, v.type = TOK_UNKNOWN →
      v.type ≠ TOK_EOF ∧ v.type ≠ TOK_CLOSE_BRACE ∧ v.type ≠ TOK_VAR ∧
      v.type ≠ TOK_GLOBAL_VAR ∧ v.type ≠ TOK_FOR_STATEMENT ∧ v.type ≠ TOK_WHILE_STATEMENT ∧
      v.type ≠ TOK_IF_STATEMENT ∧ v.type ≠ TOK_RETURN_STATEMENT ∧ v.type ≠ TOK_IDENTIFIER ∧
      v.type ≠ TOK_BREAK_STATEMENT ∧ v.type ≠ TOK_CONTINUE_STATEMENT := by
    intro v hv
    rw [hv]
    decide
  have hmain := parseStatement_skip fuel u ts (hty u hu)
  refine ⟨hmain, ?_, ?_, ?_⟩
  · intro b q h
    rw [hmain, h]
    rfl
  · intro e h
    rw [hmain] at h
    cases hr : parseStatement fuel ⟨ts, 0⟩ true with
    | error e' =>
      rw [hr] at h
      exact h
    | ok v =>
      rw [hr] at h
      cases h
  · intro u' hu'
    rw [hmain, parseStatement_skip fuel u' ts (hty u' hu')]
    cases parseStatement fuel ⟨ts, 0⟩ true <;> rfl

/-- C9, at the token for `@` in front of the tokens of `x = 1;`. -/
theorem C9_skip_unknown_token_witness :
    (Token.mk "@".toList TOK_UNKNOWN 0).type = TOK_UNKNOWN ∧
    parseStatement 6 ⟨⟨"@".toList, TOK_UNKNOWN, 0⟩ :: tokenize "x = 1;".toList, 0⟩ true =
      .ok (.Block [.Assignment (.Variable "x".toList) (.Literal LITERAL_NUMBER (.Number 1))],
        ⟨⟨"@".toList, TOK_UNKNOWN, 0⟩ :: tokenize "x = 1;".toList, 5⟩) :=
  ⟨rfl, (C9_skip_unknown_token 5 ⟨"@".toList, TOK_UNKNOWN, 0⟩ (tokenize "x = 1;".toList)
    rfl).2.1 _ ⟨tokenize "x = 1;".toList, 4⟩ (by rfl)⟩

/-! ## Blocks are never empty -/

set_option linter.unusedTactic false

set_option linter.unreachableTactic false

theorem Sat.sat_ok {α : Type} {P : α → Prop} {a : α} (h : P a) : Sat P (.ok a) := by
  intro b hb
  cases hb
  exact h

theorem Sat.sat_error {α : Type} (P : α → Prop) (e : Failure) : Sat P (.error e) := by
  intro b hb
  cases hb

theorem Sat.sat_bind {α β : Type} {P : α → Prop} {Q : β → Prop} {x : Outcome α}
    {f : α → Outcome β} (hx : Sat P x) (hf : ∀ a, P a → Sat Q (f a)) : Sat Q (x >>= f) := by
  cases x with
  | error e => exact Sat.sat_error _ _
  | ok a => exact hf a (hx a rfl)

theorem Sat.bind_any {α β : Type} {Q : β → Prop} {x : Outcome α}
    {f : α → Outcome β} (hf : ∀ a, Sat Q (f a)) : Sat Q (x >>= f) := by
  cases x with
  | error e => exact Sat.sat_error _ _
  | ok a => exact hf a

theorem Sat.sat_ite {α : Type} {P : α → Prop} {c : Prop} [Decidable c] {a b : Outcome α}
    (ha : c → Sat P a) (hb : ¬c → Sat P b) : Sat P (if c then a else b) := by
  split
  · exact ha ‹_›
  · exact hb ‹_›

theorem allBlocksNonEmpty_append (a b : List ASTNode) :
    allBlocksNonEmpty (a ++ b) = (allBlocksNonEmpty a && allBlocksNonEmpty b) := by
  induction a with
  | nil => simp [allBlocksNonEmpty]
  | cons x xs ih => simp [allBlocksNonEmpty, ih, Bool.and_assoc]

theorem allBlocksNonEmpty_nil : allBlocksNonEmpty [] = true := rfl

theorem expression_blocksNonEmpty (fuel : Nat) :
    (∀ p, Sat (fun x => x.1.blocksNonEmpty = true) (parsePrimary fuel p)) ∧
    (∀ p e, e.blocksNonEmpty = true →
      Sat (fun x => x.1.blocksNonEmpty = true) (memberAccessLoop fuel p e)) ∧
    (∀ p a, allBlocksNonEmpty a = true →
      Sat (fun x => allBlocksNonEmpty x.1 = true) (argumentLoop fuel p a)) ∧
    (∀ p q, Sat (fun x => x.1.blocksNonEmpty = true) (parseExpression fuel p q)) ∧
    (∀ p q l, l.blocksNonEmpty = true →
      Sat (fun x => x.1.blocksNonEmpty = true) (binaryOperationLoop fuel p q l)) := by
  induction fuel with
  | zero =>
    refine ⟨?_, ?_, ?_, ?_, ?_⟩ <;> intros <;> exact Sat.sat_error _ _
  | succ f ih =>
    obtain ⟨ih1, ih2, ih3, ih4, ih5⟩ := ih
    refine ⟨?_, ?_, ?_, ?_, ?_⟩
    · intro p
      rw [parsePrimary]
      repeat' (first
        | with_reducible exact Sat.sat_error _ _
        | ((with_reducible refine Sat.sat_ok ?_) <;> (simp_all [ASTNode.blocksNonEmpty, allBlocksNonEmpty, optionBlocksNonEmpty, allBlocksNonEmpty_append]; done))
        | with_reducible exact ih1 _
        | with_reducible exact ih4 _ _
        | ((with_reducible refine ih2 _ _ ?_) <;> (simp_all [ASTNode.blocksNonEmpty, allBlocksNonEmpty, optionBlocksNonEmpty, allBlocksNonEmpty_append]; done))
        | ((with_reducible refine ih3 _ _ ?_) <;> (simp_all [ASTNode.blocksNonEmpty, allBlocksNonEmpty, optionBlocksNonEmpty, allBlocksNonEmpty_append]; done))
        | ((with_reducible refine ih5 _ _ _ ?_) <;> (simp_all [ASTNode.blocksNonEmpty, allBlocksNonEmpty, optionBlocksNonEmpty, allBlocksNonEmpty_append]; done))
        | with_reducible apply Sat.sat_bind (ih1 _)
        | with_reducible apply Sat.sat_bind (ih4 _ _)
        | with_reducible apply Sat.sat_bind (ih3 _ _ allBlocksNonEmpty_nil)
        | with_reducible apply Sat.bind_any
        | with_reducible apply Sat.sat_ite
        | with_reducible intro _)
    · intro p e he
      rw [memberAccessLoop]
      repeat' (first
        | with_reducible exact Sat.sat_error _ _
        | ((with_reducible refine Sat.sat_ok ?_) <;> (simp_all [ASTNode.blocksNonEmpty, allBlocksNonEmpty, optionBlocksNonEmpty, allBlocksNonEmpty_append]; done))
        | with_reducible exact ih1 _
        | with_reducible exact ih4 _ _
        | ((with_reducible refine ih2 _ _ ?_) <;> (simp_all [ASTNode.blocksNonEmpty, allBlocksNonEmpty, optionBlocksNonEmpty, allBlocksNonEmpty_append]; done))
        | ((with_reducible refine ih3 _ _ ?_) <;> (simp_all [ASTNode.blocksNonEmpty, allBlocksNonEmpty, optionBlocksNonEmpty, allBlocksNonEmpty_append]; done))
        | ((with_reducible refine ih5 _ _ _ ?_) <;> (simp_all [ASTNode.blocksNonEmpty, allBlocksNonEmpty, optionBlocksNonEmpty, allBlocksNonEmpty_append]; done))
        | with_reducible apply Sat.sat_bind (ih1 _)
        | with_reducible apply Sat.sat_bind (ih4 _ _)
        | with_reducible apply Sat.sat_bind (ih3 _ _ allBlocksNonEmpty_nil)
        | with_reducible apply Sat.bind_any
        | with_reducible apply Sat.sat_ite
        | with_reducible intro _)
    · intro p a ha
      rw [argumentLoop]
      repeat' (first
        | with_reducible exact Sat.sat_error _ _
        | ((with_reducible refine Sat.sat_ok ?_) <;> (simp_all [ASTNode.blocksNonEmpty, allBlocksNonEmpty, optionBlocksNonEmpty, allBlocksNonEmpty_append]; done))
        | with_reducible exact ih1 _
        | with_reducible exact ih4 _ _
        | ((with_reducible refine ih2 _ _ ?_) <;> (simp_all [ASTNode.blocksNonEmpty, allBlocksNonEmpty, optionBlocksNonEmpty, allBlocksNonEmpty_append]; done))
        | ((with_reducible refine ih3 _ _ ?_) <;> (simp_all [ASTNode.blocksNonEmpty, allBlocksNonEmpty, optionBlocksNonEmpty, allBlocksNonEmpty_append]; done))
        | ((with_reducible refine ih5 _ _ _ ?_) <;> (simp_all [ASTNode.blocksNonEmpty, allBlocksNonEmpty, optionBlocksNonEmpty, allBlocksNonEmpty_append]; done))
        | with_reducible apply Sat.sat_bind (ih1 _)
        | with_reducible apply Sat.sat_bind (ih4 _ _)
        | with_reducible apply Sat.sat_bind (ih3 _ _ allBlocksNonEmpty_nil)
        | with_reducible apply Sat.bind_any
        | with_reducible apply Sat.sat_ite
        | with_reducible intro _)
    · intro p q
      rw [parseExpression]
      repeat' (first
        | with_reducible exact Sat.sat_error _ _
        | ((with_reducible refine Sat.sat_ok ?_) <;> (simp_all [ASTNode.blocksNonEmpty, allBlocksNonEmpty, optionBlocksNonEmpty, allBlocksNonEmpty_append]; done))
        | with_reducible exact ih1 _
        | with_reducible exact ih4 _ _
        | ((with_reducible refine ih2 _ _ ?_) <;> (simp_all [ASTNode.blocksNonEmpty, allBlocksNonEmpty, optionBlocksNonEmpty, allBlocksNonEmpty_append]; done))
        | ((with_reducible refine ih3 _ _ ?_) <;> (simp_all [ASTNode.blocksNonEmpty, allBlocksNonEmpty, optionBlocksNonEmpty, allBlocksNonEmpty_append]; done))
        | ((with_reducible refine ih5 _ _ _ ?_) <;> (simp_all [ASTNode.blocksNonEmpty, allBlocksNonEmpty, optionBlocksNonEmpty, allBlocksNonEmpty_append]; done))
        | with_reducible apply Sat.sat_bind (ih1 _)
        | with_reducible apply Sat.sat_bind (ih4 _ _)
        | with_reducible apply Sat.sat_bind (ih3 _ _ allBlocksNonEmpty_nil)
        | with_reducible apply Sat.bind_any
        | with_reducible apply Sat.sat_ite
        | with_reducible intro _)
    · intro p q l hl
      rw [binaryOperationLoop]
      repeat' (first
        | with_reducible exact Sat.sat_error _ _
        | ((with_reducible refine Sat.sat_ok ?_) <;> (simp_all [ASTNode.blocksNonEmpty, allBlocksNonEmpty, optionBlocksNonEmpty, allBlocksNonEmpty_append]; done))
        | with_reducible exact ih1 _
        | with_reducible exact ih4 _ _
        | ((with_reducible refine ih2 _ _ ?_) <;> (simp_all [ASTNode.blocksNonEmpty, allBlocksNonEmpty, optionBlocksNonEmpty, allBlocksNonEmpty_append]; done))
        | ((with_reducible refine ih3 _ _ ?_) <;> (simp_all [ASTNode.blocksNonEmpty, allBlocksNonEmpty, optionBlocksNonEmpty, allBlocksNonEmpty_append]; done))
        | ((with_reducible refine ih5 _ _ _ ?_) <;> (simp_all [ASTNode.blocksNonEmpty, allBlocksNonEmpty, optionBlocksNonEmpty, allBlocksNonEmpty_append]; done))
        | with_reducible apply Sat.sat_bind (ih1 _)
        | with_reducible apply Sat.sat_bind (ih4 _ _)
        | with_reducible apply Sat.sat_bind (ih3 _ _ allBlocksNonEmpty_nil)
        | with_reducible apply Sat.bind_any
        | with_reducible apply Sat.sat_ite
        | with_reducible intro _)

theorem parsePrimary_blocksNonEmpty (fuel : Nat) (p : Parser) :
    Sat (fun x => x.1.blocksNonEmpty = true) (parsePrimary fuel p) :=
  (expression_blocksNonEmpty fuel).1 p

theorem parseExpression_blocksNonEmpty (fuel : Nat) (p : Parser) (q : Int) :
    Sat (fun x => x.1.blocksNonEmpty = true) (parseExpression fuel p q) :=
  (expression_blocksNonEmpty fuel).2.2.2.1 p q

theorem parseAssignmentStatement_blocksNonEmpty (fuel : Nat) (p : Parser) (e : ASTNode)
    (he : e.blocksNonEmpty = true) :
    Sat (fun x => x.1.blocksNonEmpty = true) (parseAssignmentStatement fuel p e) := by
  unfold parseAssignmentStatement
  repeat' (first
    | with_reducible exact Sat.sat_error _ _
    | ((with_reducible refine Sat.sat_ok ?_) <;> (simp_all [ASTNode.blocksNonEmpty, allBlocksNonEmpty, optionBlocksNonEmpty, allBlocksNonEmpty_append]; done))
    | with_reducible apply Sat.sat_bind (parseExpression_blocksNonEmpty _ _ _)
    | with_reducible apply Sat.bind_any
    | with_reducible apply Sat.sat_ite
    | with_reducible intro _)

theorem parseVariableDeclarationStatement_blocksNonEmpty (fuel : Nat) (p : Parser) :
    Sat (fun x => x.1.blocksNonEmpty = true) (parseVariableDeclarationStatement fuel p) := by
  unfold parseVariableDeclarationStatement
  repeat' (first
    | with_reducible exact Sat.sat_error _ _
    | ((with_reducible refine Sat.sat_ok ?_) <;> (simp_all [ASTNode.blocksNonEmpty, allBlocksNonEmpty, optionBlocksNonEmpty, allBlocksNonEmpty_append]; done))
    | with_reducible apply Sat.sat_bind (parseExpression_blocksNonEmpty _ _ _)
    | with_reducible apply Sat.bind_any
    | with_reducible apply Sat.sat_ite
    | with_reducible intro _)

theorem parseGlobalDeclarationStatement_blocksNonEmpty (fuel : Nat) (p : Parser) :
    Sat (fun x => x.1.blocksNonEmpty = true) (parseGlobalDeclarationStatement fuel p) := by
  unfold parseGlobalDeclarationStatement
  repeat' (first
    | with_reducible exact Sat.sat_error _ _
    | ((with_reducible refine Sat.sat_ok ?_) <;> (simp_all [ASTNode.blocksNonEmpty, allBlocksNonEmpty, optionBlocksNonEmpty, allBlocksNonEmpty_append]; done))
    | with_reducible apply Sat.sat_bind (parseExpression_blocksNonEmpty _ _ _)
    | with_reducible apply Sat.bind_any
    | with_reducible apply Sat.sat_ite
    | with_reducible intro _)

theorem parseReturnStatement_blocksNonEmpty (fuel : Nat) (p : Parser) :
    Sat (fun x => x.1.blocksNonEmpty = true) (parseReturnStatement fuel p) := by
  unfold parseReturnStatement
  repeat' (first
    | with_reducible exact Sat.sat_error _ _
    | ((with_reducible refine Sat.sat_ok ?_) <;> (simp_all [ASTNode.blocksNonEmpty, allBlocksNonEmpty, optionBlocksNonEmpty, allBlocksNonEmpty_append]; done))
    | with_reducible apply Sat.sat_bind (parseExpression_blocksNonEmpty _ _ _)
    | with_reducible apply Sat.bind_any
    | with_reducible apply Sat.sat_ite
    | with_reducible intro _)

theorem parseForStatement_blocksNonEmpty (p : Parser) :
    Sat (fun x => x.1.blocksNonEmpty = true) (parseForStatement p) :=
  Sat.sat_error _ _

theorem statement_blocksNonEmpty (fuel : Nat) :
    (∀ p, Sat (fun x => x.1.blocksNonEmpty = true) (parseIfStatement fuel p)) ∧
    (∀ p l, allBlocksNonEmpty l = true →
      Sat (fun x => allBlocksNonEmpty x.1 = true) (elseifLoop fuel p l)) ∧
    (∀ p, Sat (fun x => x.1.blocksNonEmpty = true) (parseWhileStatement fuel p)) ∧
    (∀ p l, allBlocksNonEmpty l = true →
      Sat (fun x => allBlocksNonEmpty x.1 = true) (statementLoop fuel p l)) ∧
    (∀ p b, Sat (fun x => x.1.blocksNonEmpty = true) (parseStatement fuel p b)) := by
  induction fuel with
  | zero =>
    refine ⟨?_, ?_, ?_, ?_, ?_⟩ <;> intros <;> exact Sat.sat_error _ _
  | succ f ih =>
    obtain ⟨ih1, ih2, ih3, ih4, ih5⟩ := ih
    refine ⟨?_, ?_, ?_, ?_, ?_⟩
    · intro p
      rw [parseIfStatement]
      repeat' (first
        | with_reducible exact Sat.sat_error _ _
        | ((with_reducible refine Sat.sat_ok ?_) <;> (simp_all [ASTNode.blocksNonEmpty, allBlocksNonEmpty, optionBlocksNonEmpty, allBlocksNonEmpty_append]; done))
        | with_reducible exact ih1 _
        | with_reducible exact ih3 _
        | with_reducible exact ih5 _ _
        | ((with_reducible refine ih2 _ _ ?_) <;> (simp_all [ASTNode.blocksNonEmpty, allBlocksNonEmpty, optionBlocksNonEmpty, allBlocksNonEmpty_append]; done))
        | ((with_reducible refine ih4 _ _ ?_) <;> (simp_all [ASTNode.blocksNonEmpty, allBlocksNonEmpty, optionBlocksNonEmpty, allBlocksNonEmpty_append]; done))
        | with_reducible apply Sat.sat_bind (ih1 _)
        | with_reducible apply Sat.sat_bind (ih3 _)
        | with_reducible apply Sat.sat_bind (ih5 _ _)
        | with_reducible apply Sat.sat_bind (ih2 _ _ allBlocksNonEmpty_nil)
        | with_reducible apply Sat.sat_bind (parseExpression_blocksNonEmpty _ _ _)
        | with_reducible apply Sat.sat_bind (parsePrimary_blocksNonEmpty _ _)
        | with_reducible apply Sat.sat_bind (parseVariableDeclarationStatement_blocksNonEmpty _ _)
        | with_reducible apply Sat.sat_bind (parseGlobalDeclarationStatement_blocksNonEmpty _ _)
        | with_reducible apply Sat.sat_bind (parseReturnStatement_blocksNonEmpty _ _)
        | with_reducible apply Sat.sat_bind (parseForStatement_blocksNonEmpty _)
        | ((with_reducible refine Sat.sat_bind (parseAssignmentStatement_blocksNonEmpty _ _ _ ?_) ?_) <;> (first | (simp_all [ASTNode.blocksNonEmpty, allBlocksNonEmpty, optionBlocksNonEmpty, allBlocksNonEmpty_append]; done) | skip))
        | with_reducible apply Sat.bind_any
        | with_reducible apply Sat.sat_ite
        | with_reducible intro _)
    · intro p l hl
      rw [elseifLoop]
      repeat' (first
        | with_reducible exact Sat.sat_error _ _
        | ((with_reducible refine Sat.sat_ok ?_) <;> (simp_all [ASTNode.blocksNonEmpty, allBlocksNonEmpty, optionBlocksNonEmpty, allBlocksNonEmpty_append]; done))
        | with_reducible exact ih1 _
        | with_reducible exact ih3 _
        | with_reducible exact ih5 _ _
        | ((with_reducible refine ih2 _ _ ?_) <;> (simp_all [ASTNode.blocksNonEmpty, allBlocksNonEmpty, optionBlocksNonEmpty, allBlocksNonEmpty_append]; done))
        | ((with_reducible refine ih4 _ _ ?_) <;> (simp_all [ASTNode.blocksNonEmpty, allBlocksNonEmpty, optionBlocksNonEmpty, allBlocksNonEmpty_append]; done))
        | with_reducible apply Sat.sat_bind (ih1 _)
        | with_reducible apply Sat.sat_bind (ih3 _)
        | with_reducible apply Sat.sat_bind (ih5 _ _)
        | with_reducible apply Sat.sat_bind (ih2 _ _ allBlocksNonEmpty_nil)
        | with_reducible apply Sat.sat_bind (parseExpression_blocksNonEmpty _ _ _)
        | with_reducible apply Sat.sat_bind (parsePrimary_blocksNonEmpty _ _)
        | with_reducible apply Sat.sat_bind (parseVariableDeclarationStatement_blocksNonEmpty _ _)
        | with_reducible apply Sat.sat_bind (parseGlobalDeclarationStatement_blocksNonEmpty _ _)
        | with_reducible apply Sat.sat_bind (parseReturnStatement_blocksNonEmpty _ _)
        | with_reducible apply Sat.sat_bind (parseForStatement_blocksNonEmpty _)
        | ((with_reducible refine Sat.sat_bind (parseAssignmentStatement_blocksNonEmpty _ _ _ ?_) ?_) <;> (first | (simp_all [ASTNode.blocksNonEmpty, allBlocksNonEmpty, optionBlocksNonEmpty, allBlocksNonEmpty_append]; done) | skip))
        | with_reducible apply Sat.bind_any
        | with_reducible apply Sat.sat_ite
        | with_reducible intro _)
    · intro p
      rw [parseWhileStatement]
      repeat' (first
        | with_reducible exact Sat.sat_error _ _
        | ((with_reducible refine Sat.sat_ok ?_) <;> (simp_all [ASTNode.blocksNonEmpty, allBlocksNonEmpty, optionBlocksNonEmpty, allBlocksNonEmpty_append]; done))
        | with_reducible exact ih1 _
        | with_reducible exact ih3 _
        | with_reducible exact ih5 _ _
        | ((with_reducible refine ih2 _ _ ?_) <;> (simp_all [ASTNode.blocksNonEmpty, allBlocksNonEmpty, optionBlocksNonEmpty, allBlocksNonEmpty_append]; done))
        | ((with_reducible refine ih4 _ _ ?_) <;> (simp_all [ASTNode.blocksNonEmpty, allBlocksNonEmpty, optionBlocksNonEmpty, allBlocksNonEmpty_append]; done))
        | with_reducible apply Sat.sat_bind (ih1 _)
        | with_reducible apply Sat.sat_bind (ih3 _)
        | with_reducible apply Sat.sat_bind (ih5 _ _)
        | with_reducible apply Sat.sat_bind (ih2 _ _ allBlocksNonEmpty_nil)
        | with_reducible apply Sat.sat_bind (parseExpression_blocksNonEmpty _ _ _)
        | with_reducible apply Sat.sat_bind (parsePrimary_blocksNonEmpty _ _)
        | with_reducible apply Sat.sat_bind (parseVariableDeclarationStatement_blocksNonEmpty _ _)
        | with_reducible apply Sat.sat_bind (parseGlobalDeclarationStatement_blocksNonEmpty _ _)
        | with_reducible apply Sat.sat_bind (parseReturnStatement_blocksNonEmpty _ _)
        | with_reducible apply Sat.sat_bind (parseForStatement_blocksNonEmpty _)
        | ((with_reducible refine Sat.sat_bind (parseAssignmentStatement_blocksNonEmpty _ _ _ ?_) ?_) <;> (first | (simp_all [ASTNode.blocksNonEmpty, allBlocksNonEmpty, optionBlocksNonEmpty, allBlocksNonEmpty_append]; done) | skip))
        | with_reducible apply Sat.bind_any
        | with_reducible apply Sat.sat_ite
        | with_reducible intro _)
    · intro p l hl
      rw [statementLoop]
      repeat' (first
        | with_reducible exact Sat.sat_error _ _
        | ((with_reducible refine Sat.sat_ok ?_) <;> (simp_all [ASTNode.blocksNonEmpty, allBlocksNonEmpty, optionBlocksNonEmpty, allBlocksNonEmpty_append]; done))
        | with_reducible exact ih1 _
        | with_reducible exact ih3 _
        | with_reducible exact ih5 _ _
        | ((with_reducible refine ih2 _ _ ?_) <;> (simp_all [ASTNode.blocksNonEmpty, allBlocksNonEmpty, optionBlocksNonEmpty, allBlocksNonEmpty_append]; done))
        | ((with_reducible refine ih4 _ _ ?_) <;> (simp_all [ASTNode.blocksNonEmpty, allBlocksNonEmpty, optionBlocksNonEmpty, allBlocksNonEmpty_append]; done))
        | with_reducible apply Sat.sat_bind (ih1 _)
        | with_reducible apply Sat.sat_bind (ih3 _)
        | with_reducible apply Sat.sat_bind (ih5 _ _)
        | with_reducible apply Sat.sat_bind (ih2 _ _ allBlocksNonEmpty_nil)
        | with_reducible apply Sat.sat_bind (parseExpression_blocksNonEmpty _ _ _)
        | with_reducible apply Sat.sat_bind (parsePrimary_blocksNonEmpty _ _)
        | with_reducible apply Sat.sat_bind (parseVariableDeclarationStatement_blocksNonEmpty _ _)
        | with_reducible apply Sat.sat_bind (parseGlobalDeclarationStatement_blocksNonEmpty _ _)
        | with_reducible apply Sat.sat_bind (parseReturnStatement_blocksNonEmpty _ _)
        | with_reducible apply Sat.sat_bind (parseForStatement_blocksNonEmpty _)
        | ((with_reducible refine Sat.sat_bind (parseAssignmentStatement_blocksNonEmpty _ _ _ ?_) ?_) <;> (first | (simp_all [ASTNode.blocksNonEmpty, allBlocksNonEmpty, optionBlocksNonEmpty, allBlocksNonEmpty_append]; done) | skip))
        | with_reducible apply Sat.bind_any
        | with_reducible apply Sat.sat_ite
        | with_reducible intro _)
    · intro p b
      rw [parseStatement]
      refine @Sat.sat_bind _ _ (fun x => allBlocksNonEmpty x.1 = true) _ _ _ ?_ ?_
      · exact Sat.sat_ite (fun _ => ih4 _ _ allBlocksNonEmpty_nil) (fun _ => Sat.sat_ok rfl)
      · intro a ha
        repeat' (first
          | with_reducible exact Sat.sat_error _ _
          | ((with_reducible refine Sat.sat_ok ?_) <;> (simp_all [ASTNode.blocksNonEmpty, allBlocksNonEmpty, optionBlocksNonEmpty, allBlocksNonEmpty_append]; done))
          | with_reducible exact ih1 _
          | with_reducible exact ih3 _
          | with_reducible exact ih5 _ _
          | ((with_reducible refine ih2 _ _ ?_) <;> (simp_all [ASTNode.blocksNonEmpty, allBlocksNonEmpty, optionBlocksNonEmpty, allBlocksNonEmpty_append]; done))
          | ((with_reducible refine ih4 _ _ ?_) <;> (simp_all [ASTNode.blocksNonEmpty, allBlocksNonEmpty, optionBlocksNonEmpty, allBlocksNonEmpty_append]; done))
          | with_reducible apply Sat.sat_bind (ih1 _)
          | with_reducible apply Sat.sat_bind (ih3 _)
          | with_reducible apply Sat.sat_bind (ih5 _ _)
          | with_reducible apply Sat.sat_bind (ih2 _ _ allBlocksNonEmpty_nil)
          | with_reducible apply Sat.sat_bind (parseExpression_blocksNonEmpty _ _ _)
          | with_reducible apply Sat.sat_bind (parsePrimary_blocksNonEmpty _ _)
          | with_reducible apply Sat.sat_bind (parseVariableDeclarationStatement_blocksNonEmpty _ _)
          | with_reducible apply Sat.sat_bind (parseGlobalDeclarationStatement_blocksNonEmpty _ _)
          | with_reducible apply Sat.sat_bind (parseReturnStatement_blocksNonEmpty _ _)
          | with_reducible apply Sat.sat_bind (parseForStatement_blocksNonEmpty _)
          | ((with_reducible refine Sat.sat_bind (parseAssignmentStatement_blocksNonEmpty _ _ _ ?_) ?_) <;> (first | (simp_all [ASTNode.blocksNonEmpty, allBlocksNonEmpty, optionBlocksNonEmpty, allBlocksNonEmpty_append]; done) | skip))
          | with_reducible apply Sat.bind_any
          | with_reducible apply Sat.sat_ite
          | with_reducible intro _)

theorem parseStatement_blocksNonEmpty (fuel : Nat) (p : Parser) (b : Bool) :
    Sat (fun x => x.1.blocksNonEmpty = true) (parseStatement fuel p b) :=
  (statement_blocksNonEmpty fuel).2.2.2.2 p b

theorem parseLoop_blocksNonEmpty (fuel : Nat) :
    ∀ p l, allBlocksNonEmpty l = true →
      Sat (fun x => allBlocksNonEmpty x.1 = true) (parseLoop fuel p l) := by
  induction fuel with
  | zero => intros; exact Sat.sat_error _ _
  | succ f ih =>
    intro p l hl
    rw [parseLoop]
    repeat' (first
      | with_reducible exact Sat.sat_error _ _
      | ((with_reducible refine Sat.sat_ok ?_) <;> (simp_all [ASTNode.blocksNonEmpty, allBlocksNonEmpty, optionBlocksNonEmpty, allBlocksNonEmpty_append]; done))
      | ((with_reducible refine ih _ _ ?_) <;> (simp_all [ASTNode.blocksNonEmpty, allBlocksNonEmpty, optionBlocksNonEmpty, allBlocksNonEmpty_append]; done))
      | with_reducible apply Sat.sat_bind (parseStatement_blocksNonEmpty _ _ _)
      | with_reducible apply Sat.bind_any
      | with_reducible apply Sat.sat_ite
      | with_reducible intro _)

theorem parse_blocksNonEmpty (fuel : Nat) (tokens : List Token) :
    Sat (fun roots => allBlocksNonEmpty roots = true) (parse fuel tokens) := by
  unfold parse
  repeat' (first
    | with_reducible exact Sat.sat_error _ _
    | ((with_reducible refine Sat.sat_ok ?_) <;> (simp_all [ASTNode.blocksNonEmpty, allBlocksNonEmpty, optionBlocksNonEmpty, allBlocksNonEmpty_append]; done))
    | with_reducible apply Sat.sat_bind (parseLoop_blocksNonEmpty _ _ _ allBlocksNonEmpty_nil)
    | with_reducible apply Sat.bind_any
    | with_reducible apply Sat.sat_ite
    | with_reducible intro _)

theorem allBlocksNonEmpty_mem {nodes : List ASTNode} (h : allBlocksNonEmpty nodes = true) :
    ∀ node ∈ nodes, node.blocksNonEmpty = true := by
  induction nodes with
  | nil => intro node hn; cases hn
  | cons x xs ih =>
    simp only [allBlocksNonEmpty, Bool.and_eq_true] at h
    intro node hn
    rcases List.mem_cons.1 hn with rfl | hn
    · exact h.1
    · exact ih h.2 node hn

theorem parseStatement_empty (fuel : Nat) (p p' : Parser)
    (h : statementLoop fuel p [] = .ok ([], p')) :
    parseStatement (fuel + 1) p true = .ok (.Block [.Empty], p') := by
  rw [parseStatement]
  simp only [if_true, h, bind, Except.bind]
  rfl

theorem statementLoop_close_brace (fuel : Nat) (p : Parser) (statements : List ASTNode)
    (h : lookCurrent p TOK_CLOSE_BRACE = .ok true) :
    statementLoop (fuel + 1) p statements = .ok (statements, p) := by
  rw [statementLoop]
  simp only [h, lookCurrent_of_look h (show TOK_CLOSE_BRACE ≠ TOK_EOF by decide), bind,
    Except.bind]
  rfl

/-- C10: every `Block` node anywhere in an AST returned by a successful
`parse` has a non-empty statement list; a body in which the statement loop
produced nothing is the Block of exactly one `Empty` node, and that is what
`parseStatement(true)` returns when the cursor is on a closing brace, as for
the bodies of `while (c) { }` and `if (c) { }`. -/
theorem C10_blocks_non_empty (fuel : Nat) (tokens : List Token) (roots : List ASTNode)
    (h : parse fuel tokens = .ok roots) :
    (∀ root ∈ roots, root.blocksNonEmpty = true) ∧
    (∀ (f : Nat) (p p' : Parser), statementLoop f p [] = .ok ([], p') →
      parseStatement (f + 1) p true = .ok (.Block [.Empty], p')) ∧
    (∀ (f : Nat) (p : Parser), lookCurrent p TOK_CLOSE_BRACE = .ok true →
      parseStatement (f + 2) p true = .ok (.Block [.Empty], p)) :=
  ⟨allBlocksNonEmpty_mem (parse_blocksNonEmpty fuel tokens roots h), parseStatement_empty,
    fun f p hp => parseStatement_empty (f + 1) p p (statementLoop_close_brace f p [] hp)⟩

/-- C10, at `while (c) { } if (c) { }` as `tokenize` delivers it. -/
theorem C10_blocks_non_empty_witness :
    parse 8 (tokenize "while (c) { } if (c) { }".toList) =
      .ok [.Block [.While (.Variable "c".toList) (.Block [.Empty]),
        .If (.Variable "c".toList) (.Block [.Empty]) [] none]] ∧
    ∀ root ∈ [ASTNode.Block [.While (.Variable "c".toList) (.Block [.Empty]),
        .If (.Variable "c".toList) (.Block [.Empty]) [] none]],
      root.blocksNonEmpty = true :=
  ⟨by rfl, (C10_blocks_non_empty 8 (tokenize "while (c) { } if (c) { }".toList) _ (by rfl)).1⟩

/-! ## The scan loop, one character class at a time -/

theorem tokenizeStep_none_snd (ch : Char) (i : Nat) (st : TokState) :
    (tokenizeStep ch none i st).2 = false := by
  unfold tokenizeStep
  repeat' split
  all_goals first | rfl | simp_all

theorem tokenizeLoop_cons (ch : Char) (rest : List Char) (i : Nat) (st : TokState)
    (h : (tokenizeStep ch rest.head? i st).2 = false) :
    tokenizeLoop (ch :: rest) i st = tokenizeLoop rest (i + 1) (tokenizeStep ch rest.head? i st).1 := by
  cases rest with
  | nil => simp [tokenizeLoop]
  | cons d rest =>
    simp only [List.head?_cons] at h
    simp only [tokenizeLoop, h, List.head?_cons, Bool.false_eq_true, if_false]

theorem tokenizeLoop_cons_skip (ch d : Char) (rest : List Char) (i : Nat) (st : TokState)
    (h : (tokenizeStep ch (some d) i st).2 = true) :
    tokenizeLoop (ch :: d :: rest) i st =
      tokenizeLoop rest (i + 2) (tokenizeStep ch (some d) i st).1 := by
  simp only [tokenizeLoop, h, if_true]

theorem tokenizeStep_open_quote {ch : Char} (hq : isQuote ch = true) (next : Option Char) (i : Nat)
    {st : TokState} (hst : st.insideString = false) :
    tokenizeStep ch next i st =
      ({ st with insideString := true, currentString := st.currentString ++ [ch] }, false) := by
  simp only [isQuote, decide_eq_true_eq, decide_eq_false_iff_not] at hq
  simp [tokenizeStep, hq, hst]

theorem tokenizeStep_close_quote {ch : Char} (hq : isQuote ch = true) (next : Option Char) (i : Nat)
    {st : TokState} (hst : st.insideString = true) :
    tokenizeStep ch next i st =
      ({ st with
          tokens := st.tokens ++ [⟨st.currentString ++ [ch], TOK_STRING, i⟩],
          insideString := false,
          currentString := [] }, false) := by
  simp only [isQuote, decide_eq_true_eq, decide_eq_false_iff_not] at hq
  simp [tokenizeStep, hq, hst]

theorem tokenizeStep_inside_string {ch : Char} (hq : isQuote ch = false) (next : Option Char)
    (i : Nat) {st : TokState} (hst : st.insideString = true) :
    tokenizeStep ch next i st = ({ st with currentString := st.currentString ++ [ch] }, false) := by
  simp only [isQuote, decide_eq_true_eq, decide_eq_false_iff_not] at hq
  simp [tokenizeStep, hq, hst]

theorem tokenizeStep_word_char {ch : Char} (hq : isQuote ch = false) (hw : isWordChar ch = true)
    (hsp : isspace ch = false) (next : Option Char)
    (i : Nat) {st : TokState} (hst : st.insideString = false) :
    tokenizeStep ch next i st = ({ st with currentWord := st.currentWord ++ [ch] }, false) := by
  simp only [isQuote, decide_eq_true_eq, decide_eq_false_iff_not] at hq
  simp only [isWordChar, decide_eq_true_eq] at hw
  simp [tokenizeStep, hq, hst, hsp, hw]

theorem tokenizeStep_space {ch : Char} (hq : isQuote ch = false) (hsp : isspace ch = true)
    (next : Option Char) (i : Nat) {st : TokState} (hst : st.insideString = false) :
    tokenizeStep ch next i st = (flushWord st i, false) := by
  simp only [isQuote, decide_eq_true_eq, decide_eq_false_iff_not] at hq
  simp [tokenizeStep, hq, hst, hsp]

theorem isWordChar_not_isQuote {ch : Char} (h : isWordChar ch = true) : isQuote ch = false := by
  simp only [isWordChar, decide_eq_true_eq] at h
  simp only [isQuote, decide_eq_false_iff_not]
  intro hq
  rcases hq with rfl | rfl <;> rcases h with h | h <;> revert h <;> decide

theorem isWordChar_not_isspace {ch : Char} (h : isWordChar ch = true) : isspace ch = false := by
  simp only [isWordChar, decide_eq_true_eq] at h
  rcases h with h | rfl
  · simp only [isalnum, isdigit, Bool.or_eq_true, Bool.and_eq_true, decide_eq_true_eq] at h
    simp only [isspace, Bool.or_eq_false_iff, decide_eq_false_iff_not, Bool.and_eq_false_imp,
      decide_eq_true_eq]
    omega
  · decide

/-- Inside a string, a run of characters without a quote goes to the string
buffer. -/
theorem tokenizeLoop_inside_string (t : List Char) (ht : ∀ c ∈ t, isQuote c = false) :
    ∀ (rest : List Char) (i : Nat) (st : TokState), st.insideString = true →
      tokenizeLoop (t ++ rest) i st =
        tokenizeLoop rest (i + t.length) { st with currentString := st.currentString ++ t } := by
  induction t with
  | nil => intro rest i st _; simp
  | cons c t ih =>
    intro rest i st hst
    have hc : isQuote c = false := ht c (List.mem_cons_self _ _)
    have hstep := tokenizeStep_inside_string hc (t ++ rest).head? i hst
    rw [List.cons_append, tokenizeLoop_cons _ _ _ _ (by rw [hstep]), hstep]
    dsimp only
    rw [ih (fun x hx => ht x (List.mem_cons_of_mem _ hx)) rest (i + 1)
      { st with currentString := st.currentString ++ [c] } hst]
    simp [Nat.add_assoc, Nat.add_comm 1]

/-- Outside a string, a run of word characters goes to the word buffer. -/
theorem tokenizeLoop_word (w : List Char) (hw : ∀ c ∈ w, isWordChar c = true) :
    ∀ (rest : List Char) (i : Nat) (st : TokState), st.insideString = false →
      tokenizeLoop (w ++ rest) i st =
        tokenizeLoop rest (i + w.length) { st with currentWord := st.currentWord ++ w } := by
  induction w with
  | nil => intro rest i st _; simp
  | cons c w ih =>
    intro rest i st hst
    have hc : isWordChar c = true := hw c (List.mem_cons_self _ _)
    have hstep := tokenizeStep_word_char (isWordChar_not_isQuote hc) hc
      (isWordChar_not_isspace hc) (w ++ rest).head? i hst
    rw [List.cons_append, tokenizeLoop_cons _ _ _ _ (by rw [hstep]), hstep]
    dsimp only
    rw [ih (fun x hx => hw x (List.mem_cons_of_mem _ hx)) rest (i + 1)
      { st with currentWord := st.currentWord ++ [c] } hst]
    simp [Nat.add_assoc, Nat.add_comm 1]


theorem tokenizeLoop_string {q1 q2 : Char} (h1 : isQuote q1 = true) (h2 : isQuote q2 = true)
    (t : List Char) (ht : ∀ c ∈ t, isQuote c = false) (rest : List Char) (i : Nat)
    (tokens : List Token) (word : List Char) :
    tokenizeLoop (q1 :: (t ++ q2 :: rest)) i ⟨tokens, word, false, []⟩ =
      tokenizeLoop rest (i + t.length + 2)
        ⟨tokens ++ [⟨q1 :: (t ++ [q2]), TOK_STRING, i + t.length + 1⟩], word, false, []⟩ := by
  have hopen := tokenizeStep_open_quote h1 (t ++ q2 :: rest).head? i
    (show (TokState.mk tokens word false []).insideString = false from rfl)
  rw [tokenizeLoop_cons _ _ _ _ (by rw [hopen]), hopen]
  dsimp only
  rw [tokenizeLoop_inside_string t ht (q2 :: rest) (i + 1) _ rfl]
  dsimp only
  have hclose := tokenizeStep_close_quote h2 rest.head? (i + 1 + t.length)
    (show (TokState.mk tokens word true ([] ++ [q1] ++ t)).insideString = true from rfl)
  rw [tokenizeLoop_cons _ _ _ _ (by rw [hclose]), hclose]
  simp [Nat.add_assoc, Nat.add_comm 1]

theorem isspace_not_isQuote {c : Char} (h : isspace c = true) : isQuote c = false := by
  simp only [isQuote, decide_eq_false_iff_not]
  intro hq
  rcases hq with rfl | rfl <;> revert h <;> decide

/-! ## Strings -/

theorem tokenizeLoop_open_string {q : Char} (hq : isQuote q = true) (t rest : List Char)
    (ht : ∀ c ∈ t, isQuote c = false) :
    tokenizeLoop (q :: (t ++ rest)) 0 ⟨[], [], false, []⟩ =
      tokenizeLoop rest (t.length + 1) ⟨[], [], true, q :: t⟩ := by
  have hstep := tokenizeStep_open_quote hq (t ++ rest).head? 0
    (show (TokState.mk [] [] false []).insideString = false from rfl)
  rw [tokenizeLoop_cons _ _ _ _ (by rw [hstep]), hstep]
  dsimp only
  rw [tokenizeLoop_inside_string t ht rest (0 + 1) _ rfl]
  simp [Nat.add_comm]

/-- C11 fails on the code: for every quote character `q` and every text `t`
without a quote, `tokenize` of `q` followed by `t` is the end-of-input token
alone. The captured run is dropped, because the end of `tokenize` flushes the
word buffer only. -/
theorem C11_unterminated_string_dropped (q : Char) (t : List Char) (hq : isQuote q = true)
    (ht : ∀ c ∈ t, isQuote c = false) :
    tokenize (q :: t) = [⟨[], TOK_EOF, t.length + 1⟩] ∧
    ∀ tok ∈ tokenize (q :: t), tok.type ≠ TOK_STRING := by
  have hloop := tokenizeLoop_open_string hq t [] ht
  rw [List.append_nil] at hloop
  have h : tokenize (q :: t) = [⟨[], TOK_EOF, t.length + 1⟩] := by
    simp only [tokenize, hloop, tokenizeLoop, flushWord, List.isEmpty_nil, if_true,
      List.nil_append, List.length_cons]
  refine ⟨h, ?_⟩
  intro tok htok
  rw [h, List.mem_singleton] at htok
  rw [htok]
  exact fun h => TokenType.noConfusion h

/-- C11 fails, at a double quote followed by `abc`. -/
theorem C11_unterminated_string_dropped_witness :
    isQuote dquote = true ∧ (∀ c ∈ "abc".toList, isQuote c = false) ∧
    tokenize (dquote :: "abc".toList) = [⟨[], TOK_EOF, 4⟩] :=
  ⟨by decide, by decide,
    (C11_unterminated_string_dropped dquote "abc".toList (by decide) (by decide)).1⟩

/-- C12: for every text `t` without a quote and all quote characters `q1`,
`q2` (equal or not), `tokenize` of `q1 t q2` is exactly one string token with
text `q1 t q2`, positioned at the index of the closing quote, followed by the
end-of-input token. -/
theorem C12_string_token (q1 q2 : Char) (t : List Char) (h1 : isQuote q1 = true) (h2 : isQuote q2 = true)
    (ht : ∀ c ∈ t, isQuote c = false) :
    tokenize (q1 :: (t ++ [q2])) =
      [⟨q1 :: (t ++ [q2]), TOK_STRING, t.length + 1⟩, ⟨[], TOK_EOF, t.length + 2⟩] := by
  have hloop := tokenizeLoop_open_string h1 t [q2] ht
  have hstep := tokenizeStep_close_quote h2 none (t.length + 1)
    (show (TokState.mk [] [] true (q1 :: t)).insideString = true from rfl)
  simp only [tokenize, hloop, tokenizeLoop, hstep, flushWord, List.isEmpty_nil, if_true,
    List.nil_append, List.length_cons, List.length_append, List.length_nil, List.cons_append,
    List.singleton_append]

/-- C12, at a string opened by a single quote and closed by a double quote,
with whitespace and an operator inside. -/
theorem C12_string_token_witness :
    isQuote squote = true ∧ isQuote dquote = true ∧
    (∀ c ∈ "a + b".toList, isQuote c = false) ∧
    tokenize (squote :: ("a + b".toList ++ [dquote])) =
      [⟨squote :: ("a + b".toList ++ [dquote]), TOK_STRING, 6⟩, ⟨[], TOK_EOF, 7⟩] :=
  ⟨by decide, by decide, by decide,
    C12_string_token squote dquote "a + b".toList (by decide) (by decide) (by decide)⟩

/-! ## Operators -/

theorem twoCharOperatorTable_kind :
    ∀ x ∈ twoCharOperatorTable, getOperatorType x.1 = x.2 ∧ x.2 ≠ TOK_UNKNOWN := by
  decide

theorem singleCharOperatorTable_kind :
    ∀ x ∈ singleCharOperatorTable, getOperatorType x.1 = x.2 := by
  decide

theorem isOperator_length_two :
    ∀ w ∈ ["=".toList, "+".toList, "-".toList, "*".toList, "/".toList, "%".toList,
        "+=".toList, "-=".toList, "*=".toList, "/=".toList, "%=".toList,
        "++".toList, "--".toList,
        "==".toList, "!=".toList, ">".toList, "<".toList, ">=".toList, "<=".toList,
        "&&".toList, "||".toList, "!".toList, "&".toList, "|".toList, "^".toList,
        "~".toList, "<<".toList, ">>".toList],
      (w.length = 2 → w ∈ twoCharOperatorTable.map Prod.fst) ∧
        (w.length = 1 → w ∈ singleCharOperatorTable.map Prod.fst) := by
  decide

theorem getOperatorType_unknown_of_not_operator {w : List Char} (h : isOperator w = false) :
    getOperatorType w = TOK_UNKNOWN := by
  simp [getOperatorType, h]

theorem getOperatorType_two {c d : Char}
    (h : [c, d] ∉ twoCharOperatorTable.map Prod.fst) : getOperatorType [c, d] = TOK_UNKNOWN := by
  apply getOperatorType_unknown_of_not_operator
  cases hop : isOperator [c, d] with
  | false => rfl
  | true =>
    simp only [isOperator, decide_eq_true_eq] at hop
    exact absurd ((isOperator_length_two _ hop).1 rfl) h

theorem getOperatorType_one {c : Char}
    (h : [c] ∉ singleCharOperatorTable.map Prod.fst) : getOperatorType [c] = TOK_UNKNOWN := by
  apply getOperatorType_unknown_of_not_operator
  cases hop : isOperator [c] with
  | false => rfl
  | true =>
    simp only [isOperator, decide_eq_true_eq] at hop
    exact absurd ((isOperator_length_two _ hop).2 rfl) h

theorem tokenizeStep_two_char {c d : Char} (i : Nat) {st : TokState}
    (hst : st.insideString = false) (hq : isQuote c = false) (hsp : isspace c = false)
    (hw : isWordChar c = false) (hp : punctuationType c = none)
    (hop : getOperatorType [c, d] ≠ TOK_UNKNOWN) :
    tokenizeStep c (some d) i st =
      ((flushWord st i).emplace_back [c, d] (getOperatorType [c, d]) i, true) := by
  simp only [isQuote, decide_eq_false_iff_not] at hq
  simp only [isWordChar, decide_eq_false_iff_not] at hw
  simp [tokenizeStep, hq, hst, hsp, hw, hp, hop]

theorem tokenizeStep_one_char {c : Char} (next : Option Char) (i : Nat) {st : TokState}
    (hst : st.insideString = false) (hq : isQuote c = false) (hsp : isspace c = false)
    (hw : isWordChar c = false) (hp : punctuationType c = none)
    (hop : ∀ d, next = some d → getOperatorType [c, d] = TOK_UNKNOWN) :
    tokenizeStep c next i st =
      ((flushWord st i).emplace_back [c] (getOperatorType [c]) i, false) := by
  simp only [isQuote, decide_eq_false_iff_not] at hq
  simp only [isWordChar, decide_eq_false_iff_not] at hw
  cases next with
  | none => simp [tokenizeStep, hq, hst, hsp, hw, hp]
  | some d => simp [tokenizeStep, hq, hst, hsp, hw, hp, hop d rfl]

/-- C13: outside a string, for a character `c` at index `i` that is not
alphanumeric, underscore, whitespace, a quote or a punctuation character:
when `c` and the next character `d` form one of the fifteen two-character
operators, one token with text `cd` and that operator's kind is pushed (behind
the token of a pending word, if any) and the scan resumes behind `d`;
otherwise one token with text `c` is pushed and the scan resumes behind `c`,
its kind being the kind of the single-character operator `c`, or unknown when
`c` is no operator. -/
theorem C13_operator_tokens (c : Char) (i : Nat) (st : TokState)
    (hst : st.insideString = false) (hq : isQuote c = false) (hsp : isspace c = false)
    (hw : isWordChar c = false) (hp : punctuationType c = none) :
    (∀ (d : Char) (ty : TokenType) (rest : List Char), ([c, d], ty) ∈ twoCharOperatorTable →
      (tokenizeStep c (some d) i st).1.tokens = (flushWord st i).tokens ++ [⟨[c, d], ty, i⟩] ∧
      tokenizeLoop (c :: d :: rest) i st =
        tokenizeLoop rest (i + 2) ((flushWord st i).emplace_back [c, d] ty i)) ∧
    (∀ rest : List Char,
      (∀ d, rest.head? = some d → [c, d] ∉ twoCharOperatorTable.map Prod.fst) →
      (tokenizeStep c rest.head? i st).1.tokens =
        (flushWord st i).tokens ++ [⟨[c], getOperatorType [c], i⟩] ∧
      tokenizeLoop (c :: rest) i st =
        tokenizeLoop rest (i + 1) ((flushWord st i).emplace_back [c] (getOperatorType [c]) i)) ∧
    (∀ ty : TokenType, ([c], ty) ∈ singleCharOperatorTable → getOperatorType [c] = ty) ∧
    ([c] ∉ singleCharOperatorTable.map Prod.fst → getOperatorType [c] = TOK_UNKNOWN) := by
  refine ⟨?_, ?_, ?_, getOperatorType_one⟩
  · intro d ty rest hmem
    obtain ⟨hkind, hne⟩ := twoCharOperatorTable_kind _ hmem
    simp only at hkind hne
    have hstep := tokenizeStep_two_char i hst hq hsp hw hp (by rw [hkind]; exact hne)
    rw [hkind] at hstep
    refine ⟨by rw [hstep]; rfl, ?_⟩
    rw [tokenizeLoop_cons_skip _ _ _ _ _ (by rw [hstep]), hstep]
  · intro rest hrest
    have hstep := tokenizeStep_one_char rest.head? i hst hq hsp hw hp
      (fun d hd => getOperatorType_two (hrest d hd))
    refine ⟨by rw [hstep]; rfl, ?_⟩
    rw [tokenizeLoop_cons _ _ _ _ (by rw [hstep]), hstep]
  · intro ty hmem
    exact singleCharOperatorTable_kind _ hmem

/-- C13, at `<` followed by `=`, with `tokenize` run on `<=`, `<`, `@` and `=@`. -/
theorem C13_operator_tokens_witness :
    tokenizeLoop ('<' :: '=' :: []) 0 ⟨[], [], false, []⟩ =
      tokenizeLoop [] (0 + 2)
        ((flushWord ⟨[], [], false, []⟩ 0).emplace_back ['<', '='] TOK_LESS_EQUAL 0) ∧
    tokenize "<=".toList = [⟨"<=".toList, TOK_LESS_EQUAL, 0⟩, ⟨[], TOK_EOF, 2⟩] ∧
    tokenize "<".toList = [⟨"<".toList, TOK_LESS, 0⟩, ⟨[], TOK_EOF, 1⟩] ∧
    tokenize "@".toList = [⟨"@".toList, TOK_UNKNOWN, 0⟩, ⟨[], TOK_EOF, 1⟩] ∧
    tokenize "=@".toList =
      [⟨"=".toList, TOK_ASSIGNMENT, 0⟩, ⟨"@".toList, TOK_UNKNOWN, 1⟩, ⟨[], TOK_EOF, 2⟩] :=
  ⟨((C13_operator_tokens '<' 0 ⟨[], [], false, []⟩ rfl (by decide) (by decide) (by decide)
      (by decide)).1 '=' TOK_LESS_EQUAL [] (by decide)).2,
    by decide, by decide, by decide, by decide⟩

/-! ## Words -/

theorem checkTypedVariable_word {w : List Char} (hw : ∀ c ∈ w, isWordChar c = true) :
    checkTypedVariable w = TOK_UNKNOWN := by
  have hnot : '<' ∉ w := by
    intro hmem
    exact absurd (hw _ hmem) (by decide)
  have hidx : List.indexOf '<' w = w.length := List.indexOf_eq_length.2 hnot
  simp [checkTypedVariable, hidx]

theorem classifyWord_reserved :
    ∀ w ∈ reservedWords, classifyWord w = referenceWordKind w ∧ classifyWord w ≠ TOK_UNKNOWN := by
  decide

theorem classifyWord_not_reserved {w : List Char} (hne : w ≠ [])
    (hw : ∀ c ∈ w, isWordChar c = true) (hres : w ∉ reservedWords) :
    classifyWord w = (if w.all isdigit then TOK_NUMBER else TOK_IDENTIFIER) ∧
      referenceWordKind w = (if w.all isdigit then TOK_NUMBER else TOK_IDENTIFIER) := by
  have hempty : w.isEmpty = false := by
    cases w with
    | nil => exact absurd rfl hne
    | cons _ _ => rfl
  simp only [reservedWords, List.mem_cons, List.mem_singleton, not_or, List.not_mem_nil,
    not_false_eq_true, and_true] at hres
  obtain ⟨h1, h2, h3, h4, h5, h6, h7, h8, h9, h10, h11, h12, h13, h14, h15, h16, h17, h18,
    h19⟩ := hres
  constructor
  · simp only [classifyWord, checkTypedVariable_word hw, if_true, getDataType, h1, h2, h3, h4,
      h5, h6, if_false, decide_False, Bool.or_self, Bool.false_eq_true, isNumber, hempty,
      Bool.not_false, Bool.true_and, getStatementType, h7, h8, h9, h10, h11, h12, h13, h14, h15,
      h16, h17, isBoolean, h18, h19]
    by_cases hd : w.all isdigit = true
    · simp [hd]
    · simp [hd]
  · simp only [referenceWordKind, h1, h2, h3, h4, h5, h6, if_false, or_self, h7, h8, h9, h10,
      h11, h12, h13, h14, h15, h16, h17, h18, h19]

theorem classifyWord_eq_reference {w : List Char} (hne : w ≠ [])
    (hw : ∀ c ∈ w, isWordChar c = true) :
    classifyWord w = referenceWordKind w ∧ classifyWord w ≠ TOK_UNKNOWN := by
  by_cases hres : w ∈ reservedWords
  · exact classifyWord_reserved w hres
  · obtain ⟨h1, h2⟩ := classifyWord_not_reserved hne hw hres
    refine ⟨h1.trans h2.symm, ?_⟩
    rw [h1]
    split <;> exact fun h => TokenType.noConfusion h

theorem flushWord_pending {st : TokState} (i : Nat) (h : st.currentWord.isEmpty = false) :
    flushWord st i =
      { st with
          tokens := st.tokens ++ [⟨st.currentWord, classifyWord st.currentWord, i⟩],
          currentWord := [] } := by
  simp [flushWord, h]

theorem flushWord_nothing_pending {st : TokState} (i : Nat) (h : st.currentWord = []) :
    flushWord st i = st := by
  simp [flushWord, h]

theorem isEmpty_eq_false_of_ne_nil {w : List Char} (h : w ≠ []) : w.isEmpty = false := by
  cases w with
  | nil => exact absurd rfl h
  | cons _ _ => rfl

/-- The tokens of `name<word>`: the angle brackets are operator characters,
so they end the pending word and the text is cut into four tokens. -/
theorem tokenize_angle_brackets (name : List Char) (hne : name ≠ [])
    (hn : ∀ c ∈ name, isWordChar c = true) (d : Char) (ty : List Char)
    (hty : ∀ c ∈ d :: ty, isWordChar c = true)
    (hop : getOperatorType ['<', d] = TOK_UNKNOWN) :
    tokenize (name ++ '<' :: ((d :: ty) ++ ['>'])) =
      [⟨name, classifyWord name, name.length⟩,
       ⟨['<'], TOK_LESS, name.length⟩,
       ⟨d :: ty, classifyWord (d :: ty), name.length + 1 + (d :: ty).length⟩,
       ⟨['>'], TOK_GREATER, name.length + 1 + (d :: ty).length⟩,
       ⟨[], TOK_EOF, (name ++ '<' :: ((d :: ty) ++ ['>'])).length⟩] := by
  have hname := isEmpty_eq_false_of_ne_nil hne
  have h1 : tokenizeLoop (name ++ '<' :: ((d :: ty) ++ ['>'])) 0 ⟨[], [], false, []⟩ =
      tokenizeLoop ('<' :: ((d :: ty) ++ ['>'])) name.length ⟨[], name, false, []⟩ := by
    rw [tokenizeLoop_word name hn _ 0 _ rfl]
    simp
  have h2 : tokenizeStep '<' (some d) name.length ⟨[], name, false, []⟩ =
      (⟨[⟨name, classifyWord name, name.length⟩, ⟨['<'], TOK_LESS, name.length⟩],
        [], false, []⟩, false) := by
    rw [tokenizeStep_one_char (some d) name.length rfl (by decide) (by decide) (by decide)
      (by decide) (by intro e he; cases he; exact hop)]
    rw [flushWord_pending _ hname]
    rfl
  have h3 : tokenizeLoop ('<' :: ((d :: ty) ++ ['>'])) name.length ⟨[], name, false, []⟩ =
      tokenizeLoop ((d :: ty) ++ ['>']) (name.length + 1)
        ⟨[⟨name, classifyWord name, name.length⟩, ⟨['<'], TOK_LESS, name.length⟩],
          [], false, []⟩ := by
    rw [tokenizeLoop_cons _ _ _ _ (by simp only [List.cons_append, List.head?_cons, h2])]
    simp only [List.cons_append, List.head?_cons, h2]
  have h4 : tokenizeLoop ((d :: ty) ++ ['>']) (name.length + 1)
        ⟨[⟨name, classifyWord name, name.length⟩, ⟨['<'], TOK_LESS, name.length⟩],
          [], false, []⟩ =
      tokenizeLoop ['>'] (name.length + 1 + (d :: ty).length)
        ⟨[⟨name, classifyWord name, name.length⟩, ⟨['<'], TOK_LESS, name.length⟩],
          d :: ty, false, []⟩ := by
    rw [tokenizeLoop_word (d :: ty) hty _ _ _ rfl]
    simp
  have h5 : tokenizeLoop ['>'] (name.length + 1 + (d :: ty).length)
        ⟨[⟨name, classifyWord name, name.length⟩, ⟨['<'], TOK_LESS, name.length⟩],
          d :: ty, false, []⟩ =
      ⟨[⟨name, classifyWord name, name.length⟩, ⟨['<'], TOK_LESS, name.length⟩,
        ⟨d :: ty, classifyWord (d :: ty), name.length + 1 + (d :: ty).length⟩,
        ⟨['>'], TOK_GREATER, name.length + 1 + (d :: ty).length⟩], [], false, []⟩ := by
    simp only [tokenizeLoop]
    rw [tokenizeStep_one_char none _ rfl (by decide) (by decide) (by decide)
      (by decide) (by intro e he; cases he)]
    rw [@flushWord_pending
      ⟨[⟨name, classifyWord name, name.length⟩, ⟨['<'], TOK_LESS, name.length⟩],
        d :: ty, false, []⟩ _ rfl]
    rfl
  simp only [tokenize, h1, h3, h4, h5]
  rw [flushWord_nothing_pending _ rfl]
  rfl

/-- C15 (the code does the opposite): for every non-empty name of word
characters and every type among `number`, `string`, `bool`, `tokenize` of
the text `name<type>` is not one token of the variable-declaration kind but
four tokens, the name, `<` as the less-than operator, the type as a
type keyword and `>` as the greater-than operator, followed by the
end-of-input token; `checkTypedVariable`, which would recognise the text, is
only ever given words without angle brackets and answers unknown on them. -/
theorem C15_typed_variable_split (name ty : List Char) (hne : name ≠ [])
    (hn : ∀ c ∈ name, isWordChar c = true)
    (hty : ty ∈ ["number".toList, "string".toList, "bool".toList]) :
    checkTypedVariable (name ++ '<' :: (ty ++ ['>'])) = TOK_VAR ∧
    checkTypedVariable name = TOK_UNKNOWN ∧
    tokenize (name ++ '<' :: (ty ++ ['>'])) =
      [⟨name, referenceWordKind name, name.length⟩,
       ⟨['<'], TOK_LESS, name.length⟩,
       ⟨ty, TOK_VAR_TYPE, name.length + 1 + ty.length⟩,
       ⟨['>'], TOK_GREATER, name.length + 1 + ty.length⟩,
       ⟨[], TOK_EOF, name.length + ty.length + 2⟩] ∧
    tokenize (name ++ '<' :: (ty ++ ['>'])) ≠
      [⟨name ++ '<' :: (ty ++ ['>']), TOK_VAR, name.length + ty.length + 2⟩,
       ⟨[], TOK_EOF, name.length + ty.length + 2⟩] := by
  have hkind := (classifyWord_eq_reference hne hn).1
  have htok : tokenize (name ++ '<' :: (ty ++ ['>'])) =
      [⟨name, referenceWordKind name, name.length⟩,
       ⟨['<'], TOK_LESS, name.length⟩,
       ⟨ty, TOK_VAR_TYPE, name.length + 1 + ty.length⟩,
       ⟨['>'], TOK_GREATER, name.length + 1 + ty.length⟩,
       ⟨[], TOK_EOF, name.length + ty.length + 2⟩] := by
    simp only [List.mem_cons, List.mem_singleton, List.not_mem_nil, or_false] at hty
    rcases hty with rfl | rfl | rfl
    · have h := tokenize_angle_brackets name hne hn 'n' "umber".toList (by decide) (by decide)
      rw [hkind] at h
      simpa [Nat.add_assoc] using h
    · have h := tokenize_angle_brackets name hne hn 's' "tring".toList (by decide) (by decide)
      rw [hkind] at h
      simpa [Nat.add_assoc] using h
    · have h := tokenize_angle_brackets name hne hn 'b' "ool".toList (by decide) (by decide)
      rw [hkind] at h
      simpa [Nat.add_assoc] using h
  refine ⟨?_, checkTypedVariable_word hn, htok, ?_⟩
  · have hnot : '<' ∉ name := fun hmem => absurd (hn _ hmem) (by decide)
    have hidx : List.indexOf '<' (name ++ '<' :: (ty ++ ['>'])) = name.length := by
      rw [List.indexOf_append_of_not_mem hnot, List.indexOf_cons_self, Nat.add_zero]
    have hlast : (name ++ '<' :: (ty ++ ['>'])).getLast? = some '>' := by
      rw [show name ++ '<' :: (ty ++ ['>']) = (name ++ '<' :: ty) ++ ['>'] by simp]
      exact List.getLast?_concat _
    have hdrop : ((name ++ '<' :: (ty ++ ['>'])).drop (name.length + 1)).take
        ((name ++ '<' :: (ty ++ ['>'])).length - name.length - 2) = ty := by
      rw [show name ++ '<' :: (ty ++ ['>']) = (name ++ ['<']) ++ (ty ++ ['>']) by simp,
        List.drop_left' (by simp)]
      have hlen : ((name ++ ['<']) ++ (ty ++ ['>'])).length - name.length - 2 = ty.length := by
        simp only [List.length_append, List.length_singleton]
        omega
      rw [hlen, List.take_left' rfl]
    simp only [List.mem_cons, List.mem_singleton, List.not_mem_nil, or_false] at hty
    simp only [checkTypedVariable, hidx, hlast, hdrop]
    rcases hty with rfl | rfl | rfl <;> simp
  · rw [htok]
    intro h
    have := congrArg List.length h
    simp at this

/-- C15 at `x<number>`. -/
theorem C15_typed_variable_split_witness :
    tokenize "x<number>".toList =
      [⟨"x".toList, TOK_IDENTIFIER, 1⟩, ⟨"<".toList, TOK_LESS, 1⟩,
       ⟨"number".toList, TOK_VAR_TYPE, 8⟩, ⟨">".toList, TOK_GREATER, 8⟩,
       ⟨[], TOK_EOF, 9⟩] :=
  (C15_typed_variable_split "x".toList "number".toList (by decide) (by decide) (by decide)).2.2.1

/-! ## C16: assignment operators in expressions -/

theorem assignmentOperatorTable_all :
    ∀ x ∈ assignmentOperatorTable,
      x.1 ∈ rightNeededExpressionSet ∧ getOperatorPrecedence x.2 = 1 ∧ x.2 ≠ TOK_DOT ∧
      getOperatorType x.1 = x.2 := by
  decide

/-- C16, counterexample: on the tokens of `a = b`, `parseExpression(0)` does
not stop at `=`; it consumes it and returns the binary operation of `a`, the
assignment operator and `b`, with the cursor on the end-of-input token. -/
theorem C16_assignment_counterexample :
    parseExpression 5 ⟨tokenize "a = b".toList, 0⟩ 0 =
      .ok (.BinaryOperation (.Variable "a".toList) TOK_ASSIGNMENT (.Variable "b".toList),
        ⟨tokenize "a = b".toList, 3⟩) := by
  rfl

/-- C16, as the code has it: when an operand is followed by one of
`= += -= *= /= %=`, `parseExpression` stops and returns the operand without
consuming the operator only at a minimum precedence of 2 or more; at a
minimum precedence of 1 or less (the default 0 included) it consumes the
operator, parses the right-hand side at minimum precedence 2 and goes on with
the binary operation of the operand, that operator and the right-hand side;
so when the right-hand side is one operand followed by a token that is no
binary operator, the result is exactly that binary operation. -/
theorem C16_assignment_in_expression {x op : Token} {e : ASTNode} (hx : IsOperand x e)
    (hop : (op.value, op.type) ∈ assignmentOperatorTable) (f : Nat) {p : Parser}
    {rest : List Token} (hp : p.remaining = x :: op :: rest) (q : Int) :
    (2 ≤ q → parseExpression (f + 5) p q = .ok (e, p.advance 1)) ∧
    (q ≤ 1 → parseExpression (f + 5) p q =
      (parseExpression (f + 3) (p.advance 2) 2 >>= fun r =>
        binaryOperationLoop (f + 3) r.2 q (.BinaryOperation e op.type r.1))) ∧
    (q ≤ 1 → ∀ (y z : Token) (ey : ASTNode) (rest' : List Token), IsOperand y ey →
      rest = y :: z :: rest' → z.type ≠ TOK_DOT → z.value ∉ rightNeededExpressionSet →
      parseExpression (f + 5) p q = .ok (.BinaryOperation e op.type ey, p.advance 3)) := by
  obtain ⟨hmem, hprec, hdot, -⟩ := assignmentOperatorTable_all _ hop
  have hnext : (p.advance 1).remaining = op :: rest := by simp [remaining_advance, hp]
  have hstart : parseExpression (f + 5) p q = binaryOperationLoop (f + 4) (p.advance 1) q e :=
    parseExpression_operand hx (f + 2) hp hdot q
  have hstep : q ≤ 1 → parseExpression (f + 5) p q =
      (parseExpression (f + 3) (p.advance 2) 2 >>= fun r =>
        binaryOperationLoop (f + 3) r.2 q (.BinaryOperation e op.type r.1)) := by
    intro hq
    rw [hstart, binaryOperationLoop_step (f + 3) hnext q e hmem (by rw [hprec]; exact hq),
      advance_advance, hprec]
    rfl
  refine ⟨?_, hstep, ?_⟩
  · intro hq
    rw [hstart]
    exact binaryOperationLoop_stop (f + 3) hnext q e (fun _ => by rw [hprec]; omega)
  · intro hq y z ey rest' hy hrest hz hzop
    have hp2 : (p.advance 2).remaining = y :: z :: rest' := by
      simp [remaining_advance, hp, hrest]
    have hp3 : (p.advance 3).remaining = z :: rest' := by
      simp [remaining_advance, hp, hrest]
    have hright : parseExpression (f + 3) (p.advance 2) 2 = .ok (ey, p.advance 3) := by
      rw [parseExpression_operand hy f hp2 hz 2, advance_advance]
      exact binaryOperationLoop_stop (f + 1) hp3 2 ey (fun h => absurd h hzop)
    rw [hstep hq, hright]
    exact binaryOperationLoop_stop (f + 2) hp3 q _ (fun h => absurd h hzop)

/-- C16 at `a += 1` followed by `;`, at the default minimum precedence 0 and
at minimum precedence 2. -/
theorem C16_assignment_in_expression_witness :
    parseExpression 5 ⟨tokenize "a += 1;".toList, 0⟩ 0 =
      .ok (.BinaryOperation (.Variable "a".toList) TOK_ADDITION_ASSIGNMENT
        (.Literal LITERAL_NUMBER (.Number 1)), ⟨tokenize "a += 1;".toList, 3⟩) ∧
    parseExpression 5 ⟨tokenize "a += 1;".toList, 0⟩ 2 =
      .ok (.Variable "a".toList, ⟨tokenize "a += 1;".toList, 1⟩) :=
  have h := @C16_assignment_in_expression ⟨"a".toList, TOK_IDENTIFIER, 1⟩
    ⟨"+=".toList, TOK_ADDITION_ASSIGNMENT, 2⟩ (.Variable "a".toList)
    (IsOperand.identifier "a".toList 1) (by decide) 0 ⟨tokenize "a += 1;".toList, 0⟩
    [⟨"1".toList, TOK_NUMBER, 6⟩, ⟨";".toList, TOK_SEMICOLON, 6⟩, ⟨[], TOK_EOF, 7⟩] (by decide)
  ⟨h 0 |>.2.2 (by decide) ⟨"1".toList, TOK_NUMBER, 6⟩ ⟨";".toList, TOK_SEMICOLON, 6⟩
      (.Literal LITERAL_NUMBER (.Number 1)) [⟨[], TOK_EOF, 7⟩]
      (IsOperand.number "1".toList 6 (by decide) (by decide) (by decide)) rfl (by decide)
      (by decide),
    h 2 |>.1 (by decide)⟩

/-! ## C17: the return statement -/

theorem statementLoop_return (fuel : Nat) (p : Parser) (statements : List ASTNode)
    (h : lookCurrent p TOK_RETURN_STATEMENT = .ok true) :
    statementLoop (fuel + 1) p statements =
      (parseReturnStatement fuel p >>= fun x =>
        statementLoop fuel x.2 (statements ++ [x.1])) := by
  obtain ⟨t, ht, hty⟩ := lookCurrent_eq_true h
  simp [statementLoop, lookCurrent, ht, hty, bind, Except.bind]

theorem parseReturnStatement_eq (fuel : Nat) (p : Parser)
    (h : lookCurrent p TOK_RETURN_STATEMENT = .ok true) :
    parseReturnStatement fuel p =
      (parseExpression fuel (p.advance 1) 0 >>= fun x =>
        consume x.2 TOK_SEMICOLON >>= fun p1 => .ok (.Return x.1, p1)) := by
  rw [parseReturnStatement, consume_of_look h]
  rfl

theorem statementLoop_stop (fuel : Nat) (p : Parser) (statements : List ASTNode)
    (h : lookCurrent p TOK_EOF = .ok true ∨ lookCurrent p TOK_CLOSE_BRACE = .ok true) :
    statementLoop (fuel + 1) p statements = .ok (statements, p) := by
  rcases h with h | h
  · obtain ⟨t, ht, hty⟩ := lookCurrent_eq_true h
    simp [statementLoop, lookCurrent, ht, hty, bind, Except.bind]
  · obtain ⟨t, ht, hty⟩ := lookCurrent_eq_true h
    simp [statementLoop, lookCurrent, ht, hty, bind, Except.bind]

theorem consume_thrown_of_not_look {p : Parser} {ty : TokenType}
    (h : lookCurrent p ty ≠ .ok true) : ∃ err, consume p ty = .error (.thrown err) := by
  unfold lookCurrent at h
  unfold consume currentToken
  cases ht : p.tokens[p.current]? with
  | none => exact ⟨_, rfl⟩
  | some t =>
    rw [ht] at h
    have hne : t.type ≠ ty := by
      intro heq
      apply h
      simp [heq]
    exact ⟨.unexpectedToken t.type ty t.position t.value,
      by simp only [hne, ne_eq, not_false_eq_true, if_true]⟩

theorem parseExpression_fuel_pos {fuel : Nat} {p : Parser} {q : Int} {v : ASTNode × Parser}
    (h : parseExpression fuel p q = .ok v) : ∃ f, fuel = f + 1 := by
  cases fuel with
  | zero => rw [parseExpression] at h; cases h
  | succ f => exact ⟨f, rfl⟩

/-- C17: at a `return` keyword, (1) when `parseExpression(0)` on the tokens
after the keyword returns the tree `e` and stops on a `;`, the return
statement is `Return(e)` with the `;` consumed, the statement loop goes on
behind the `;` with `Return(e)` appended, and `parseStatement` returns the
block holding `Return(e)` when the block ends there; (2) when the keyword is
immediately followed by `;`, `parseReturnStatement`, the statement loop and
`parseStatement` fail with the unexpected-token exception of `parsePrimary`;
(3) when the expression is not followed by `;`, they fail with an exception
of `consume`. -/
theorem C17_return_statement (fuel : Nat) (p : Parser)
    (hret : lookCurrent p TOK_RETURN_STATEMENT = .ok true) :
    (∀ (e : ASTNode) (p1 : Parser), parseExpression fuel (p.advance 1) 0 = .ok (e, p1) →
      lookCurrent p1 TOK_SEMICOLON = .ok true →
      parseReturnStatement fuel p = .ok (.Return e, p1.advance 1) ∧
      (∀ statements, statementLoop (fuel + 1) p statements =
        statementLoop fuel (p1.advance 1) (statements ++ [.Return e])) ∧
      ((lookCurrent (p1.advance 1) TOK_EOF = .ok true ∨
          lookCurrent (p1.advance 1) TOK_CLOSE_BRACE = .ok true) →
        parseStatement (fuel + 2) p true = .ok (.Block [.Return e], p1.advance 1))) ∧
    (∀ t : Token, currentToken (p.advance 1) = .ok t → t.type = TOK_SEMICOLON →
      parseReturnStatement (fuel + 2) p =
        .error (.thrown (.unexpectedPrimary TOK_SEMICOLON t.position t.value)) ∧
      (∀ statements, statementLoop (fuel + 3) p statements =
        .error (.thrown (.unexpectedPrimary TOK_SEMICOLON t.position t.value))) ∧
      parseStatement (fuel + 4) p true =
        .error (.thrown (.unexpectedPrimary TOK_SEMICOLON t.position t.value))) ∧
    (∀ (e : ASTNode) (p1 : Parser), parseExpression fuel (p.advance 1) 0 = .ok (e, p1) →
      lookCurrent p1 TOK_SEMICOLON ≠ .ok true →
      ∃ err, parseReturnStatement fuel p = .error (.thrown err) ∧
        (∀ statements, statementLoop (fuel + 1) p statements = .error (.thrown err)) ∧
        parseStatement (fuel + 2) p true = .error (.thrown err)) := by
  refine ⟨?_, ?_, ?_⟩
  · intro e p1 hexpr hsemi
    have hr : parseReturnStatement fuel p = .ok (.Return e, p1.advance 1) := by
      rw [parseReturnStatement_eq fuel p hret, hexpr]
      simp only [bind, Except.bind, consume_of_look hsemi]
    have hloop : ∀ statements, statementLoop (fuel + 1) p statements =
        statementLoop fuel (p1.advance 1) (statements ++ [.Return e]) := by
      intro statements
      rw [statementLoop_return fuel p statements hret, hr]
      rfl
    refine ⟨hr, hloop, ?_⟩
    intro hend
    obtain ⟨f, rfl⟩ := parseExpression_fuel_pos hexpr
    rw [parseStatement]
    simp only [if_true, hloop, statementLoop_stop f _ _ hend, bind, Except.bind,
      List.nil_append]
    rfl
  · intro t ht hty
    have hexpr : parseExpression (fuel + 2) (p.advance 1) 0 =
        .error (.thrown (.unexpectedPrimary TOK_SEMICOLON t.position t.value)) := by
      simp [parseExpression, parsePrimary, ht, hty, bind, Except.bind]
    have hr : parseReturnStatement (fuel + 2) p =
        .error (.thrown (.unexpectedPrimary TOK_SEMICOLON t.position t.value)) := by
      rw [parseReturnStatement_eq _ p hret, hexpr]
      rfl
    have hloop : ∀ statements, statementLoop (fuel + 3) p statements =
        .error (.thrown (.unexpectedPrimary TOK_SEMICOLON t.position t.value)) := by
      intro statements
      rw [statementLoop_return _ p statements hret, hr]
      rfl
    refine ⟨hr, hloop, ?_⟩
    rw [parseStatement]
    simp only [if_true, hloop, bind, Except.bind]
  · intro e p1 hexpr hsemi
    obtain ⟨err, herr⟩ := consume_thrown_of_not_look hsemi
    have hr : parseReturnStatement fuel p = .error (.thrown err) := by
      rw [parseReturnStatement_eq fuel p hret, hexpr]
      simp only [bind, Except.bind, herr]
    have hloop : ∀ statements, statementLoop (fuel + 1) p statements =
        .error (.thrown err) := by
      intro statements
      rw [statementLoop_return fuel p statements hret, hr]
      rfl
    refine ⟨err, hr, hloop, ?_⟩
    rw [parseStatement]
    simp only [if_true, hloop, bind, Except.bind]

/-- C17 at the tokens of `return x + 1;`, of `return;` and of `return x`. -/
theorem C17_return_statement_witness :
    parseStatement 6 ⟨tokenize "return x + 1;".toList, 0⟩ true =
      .ok (.Block [.Return (.BinaryOperation (.Variable "x".toList) TOK_ADDITION
        (.Literal LITERAL_NUMBER (.Number 1)))],
        (Parser.mk (tokenize "return x + 1;".toList) 4).advance 1) ∧
    parseStatement 4 ⟨tokenize "return;".toList, 0⟩ true =
      .error (.thrown (.unexpectedPrimary TOK_SEMICOLON 6 ";".toList)) ∧
    (∃ err, parseStatement 6 ⟨tokenize "return x".toList, 0⟩ true = .error (.thrown err)) :=
  ⟨((C17_return_statement 4 ⟨tokenize "return x + 1;".toList, 0⟩ (by rfl)).1 _ _
      (by rfl) (by rfl)).2.2 (Or.inl (by rfl)),
    ((C17_return_statement 0 ⟨tokenize "return;".toList, 0⟩ (by rfl)).2.1
      ⟨";".toList, TOK_SEMICOLON, 6⟩ (by rfl) rfl).2.2,
    by
      obtain ⟨err, _, _, h⟩ := (C17_return_statement 4 ⟨tokenize "return x".toList, 0⟩
        (by rfl)).2.2 (.Variable "x".toList) ⟨tokenize "return x".toList, 2⟩ (by rfl)
        (by
          have h2 : lookCurrent ⟨tokenize "return x".toList, 2⟩ TOK_SEMICOLON = .ok false := rfl
          rw [h2]
          exact fun h => by cases h)
      exact ⟨err, h⟩⟩

/-! ## C18: statements that start with an identifier -/

theorem statementLoop_identifier (fuel : Nat) (p : Parser) (statements : List ASTNode)
    (h : lookCurrent p TOK_IDENTIFIER = .ok true) :
    statementLoop (fuel + 1) p statements =
      (parsePrimary fuel p >>= fun x =>
        lookCurrent x.2 TOK_ASSIGNMENT >>= fun b =>
          if b = true then
            parseAssignmentStatement fuel x.2 x.1 >>= fun y =>
              statementLoop fuel y.2 (statements ++ [y.1])
          else statementLoop fuel x.2 (statements ++ [x.1])) := by
  rw [statementLoop]
  simp only [lookCurrent_of_look h (show TOK_IDENTIFIER ≠ TOK_EOF by decide),
    lookCurrent_of_look h (show TOK_IDENTIFIER ≠ TOK_CLOSE_BRACE by decide),
    lookCurrent_of_look h (show TOK_IDENTIFIER ≠ TOK_VAR by decide),
    lookCurrent_of_look h (show TOK_IDENTIFIER ≠ TOK_GLOBAL_VAR by decide),
    lookCurrent_of_look h (show TOK_IDENTIFIER ≠ TOK_FOR_STATEMENT by decide),
    lookCurrent_of_look h (show TOK_IDENTIFIER ≠ TOK_WHILE_STATEMENT by decide),
    lookCurrent_of_look h (show TOK_IDENTIFIER ≠ TOK_IF_STATEMENT by decide),
    lookCurrent_of_look h (show TOK_IDENTIFIER ≠ TOK_RETURN_STATEMENT by decide),
    h, bind, Except.bind, Bool.or_false, Bool.false_eq_true, if_false, if_true]

/-- C18: at an identifier in statement position, with `e` the tree that
`parsePrimary` returns there: when the token after the primary is `=` and
`parseExpression(0)` on the tokens after it returns `v`, the statement loop
goes on behind the value with `Assignment(e, v)` appended; when the token
after the primary is not `=`, it goes on right behind the primary with `e`
itself appended, unchanged. -/
theorem C18_identifier_statement (fuel : Nat) (p : Parser)
    (hid : lookCurrent p TOK_IDENTIFIER = .ok true) (e : ASTNode) (p1 : Parser)
    (hprim : parsePrimary fuel p = .ok (e, p1)) :
    (lookCurrent p1 TOK_ASSIGNMENT = .ok true →
      ∀ (v : ASTNode) (p2 : Parser), parseExpression fuel (p1.advance 1) 0 = .ok (v, p2) →
        parseAssignmentStatement fuel p1 e = .ok (.Assignment e v, p2) ∧
        ∀ statements, statementLoop (fuel + 1) p statements =
          statementLoop fuel p2 (statements ++ [.Assignment e v])) ∧
    (lookCurrent p1 TOK_ASSIGNMENT = .ok false →
      ∀ statements, statementLoop (fuel + 1) p statements =
        statementLoop fuel p1 (statements ++ [e])) := by
  refine ⟨?_, ?_⟩
  · intro hassign v p2 hexpr
    have ha : parseAssignmentStatement fuel p1 e = .ok (.Assignment e v, p2) := by
      rw [parseAssignmentStatement, consume_of_look hassign]
      simp only [bind, Except.bind, hexpr]
    refine ⟨ha, ?_⟩
    intro statements
    rw [statementLoop_identifier fuel p statements hid, hprim]
    simp only [bind, Except.bind, hassign, ha, if_true]
  · intro hassign statements
    rw [statementLoop_identifier fuel p statements hid, hprim]
    simp only [bind, Except.bind, hassign, Bool.false_eq_true, if_false]

/-- C18 at the tokens of `obj.method();` and of `x = 1;`. -/
theorem C18_identifier_statement_witness :
    parsePrimary 5 ⟨tokenize "obj.method();".toList, 0⟩ =
      .ok (.FunctionCall (.MemberAccess (.Variable "obj".toList) "method".toList) [],
        ⟨tokenize "obj.method();".toList, 5⟩) ∧
    statementLoop 6 ⟨tokenize "obj.method();".toList, 0⟩ [] =
      statementLoop 5 ⟨tokenize "obj.method();".toList, 5⟩
        ([] ++ [.FunctionCall (.MemberAccess (.Variable "obj".toList) "method".toList) []]) ∧
    parseStatement 7 ⟨tokenize "obj.method();".toList, 0⟩ true =
      .ok (.Block [.FunctionCall (.MemberAccess (.Variable "obj".toList) "method".toList) []],
        ⟨tokenize "obj.method();".toList, 6⟩) ∧
    statementLoop 6 ⟨tokenize "x = 1;".toList, 0⟩ [] =
      statementLoop 5 ⟨tokenize "x = 1;".toList, 3⟩
        ([] ++ [.Assignment (.Variable "x".toList) (.Literal LITERAL_NUMBER (.Number 1))]) ∧
    parseStatement 7 ⟨tokenize "x = 1;".toList, 0⟩ true =
      .ok (.Block [.Assignment (.Variable "x".toList) (.Literal LITERAL_NUMBER (.Number 1))],
        ⟨tokenize "x = 1;".toList, 4⟩) :=
  ⟨by rfl,
    (C18_identifier_statement 5 ⟨tokenize "obj.method();".toList, 0⟩ (by rfl) _ _
      (by rfl)).2 (by rfl) [],
    by rfl,
    ((C18_identifier_statement 5 ⟨tokenize "x = 1;".toList, 0⟩ (by rfl)
      (.Variable "x".toList) ⟨tokenize "x = 1;".toList, 1⟩ (by rfl)).1 (by rfl) _ _
      (by rfl)).2 [],
    by rfl⟩

/-! ## C19: variable and global declarations -/

theorem consume_of_currentToken {p : Parser} {t : Token} (h : currentToken p = .ok t)
    {ty : TokenType} (hty : t.type = ty) : consume p ty = .ok (p.advance 1) := by
  simp [consume, h, hty, Parser.advance]

theorem consume_thrown_of_currentToken {p : Parser} {t : Token} (h : currentToken p = .ok t)
    {ty : TokenType} (hty : t.type ≠ ty) :
    consume p ty = .error (.thrown (.unexpectedToken t.type ty t.position t.value)) := by
  simp [consume, h, hty]

theorem lookCurrent_of_currentToken {p : Parser} {t : Token} (h : currentToken p = .ok t)
    (ty : TokenType) : lookCurrent p ty = .ok (t.type == ty) := by
  unfold currentToken at h
  unfold lookCurrent
  cases ht : p.tokens[p.current]? with
  | none => rw [ht] at h; cases h
  | some u =>
    rw [ht] at h
    cases h
    rfl

theorem currentToken_eq_error {p : Parser} {e : Failure} (h : currentToken p = .error e) :
    e = .thrown .unexpectedEndOfTokens := by
  unfold currentToken at h
  cases ht : p.tokens[p.current]? with
  | none => rw [ht] at h; cases h; rfl
  | some u => rw [ht] at h; cases h

theorem consume_error_of_currentToken_error {p : Parser} {e : Failure}
    (h : currentToken p = .error e) (ty : TokenType) : consume p ty = .error e := by
  simp [consume, h]

theorem parseVariableDeclarationStatement_eq_shape (fuel : Nat) (p : Parser) :
    parseVariableDeclarationStatement fuel p =
      (consume p TOK_VAR >>= fun p1 =>
        (declarationShape fuel p1).map (fun x => (.VariableDeclaration x.1.1 x.1.2, x.2))) := by
  unfold parseVariableDeclarationStatement declarationShape
  cases consume p TOK_VAR with
  | error e => rfl
  | ok p1 =>
    simp only [bind, Except.bind]
    cases hcur : currentToken p1 with
    | error e => rfl
    | ok t =>
      simp only [lookCurrent_of_currentToken hcur]
      by_cases hty : t.type = TOK_ELSEIF_STATEMENT
      · have hne : t.type ≠ TOK_IDENTIFIER := by rw [hty]; decide
        simp only [hty, beq_self_eq_true, if_true, consume_thrown_of_currentToken hcur hne]
        rfl
      · have hb : (t.type == TOK_ELSEIF_STATEMENT) = false := by simpa using hty
        simp only [hb, Bool.false_eq_true, if_false]
        cases consume p1 TOK_IDENTIFIER with
        | error e => rfl
        | ok p2 =>
          simp only []
          cases consume p2 TOK_ASSIGNMENT with
          | error e => rfl
          | ok p3 =>
            simp only []
            cases parseExpression fuel p3 0 with
            | error e => rfl
            | ok x =>
              simp only []
              cases consume x.2 TOK_SEMICOLON with
              | error e => rfl
              | ok p4 => rfl

theorem parseGlobalDeclarationStatement_eq_shape (fuel : Nat) (p : Parser) :
    parseGlobalDeclarationStatement fuel p =
      (consume p TOK_GLOBAL_VAR >>= fun p1 =>
        (declarationShape fuel p1).map (fun x => (.GlobalDeclaration x.1.1 x.1.2, x.2))) := by
  unfold parseGlobalDeclarationStatement declarationShape
  cases consume p TOK_GLOBAL_VAR with
  | error e => rfl
  | ok p1 =>
    simp only [bind, Except.bind]
    cases hcur : currentToken p1 with
    | error e => rfl
    | ok t =>
      simp only []
      cases consume p1 TOK_IDENTIFIER with
      | error e => rfl
      | ok p2 =>
        simp only []
        cases consume p2 TOK_ASSIGNMENT with
        | error e => rfl
        | ok p3 =>
          simp only []
          cases parseExpression fuel p3 0 with
          | error e => rfl
          | ok x =>
            simp only []
            cases consume x.2 TOK_SEMICOLON with
            | error e => rfl
            | ok p4 => rfl

theorem declarationShape_shift (pre : List Token) (fuel : Nat) (p : Parser) :
    ShiftRel pre (declarationShape fuel p) (declarationShape fuel (p.shift pre)) := by
  unfold declarationShape
  refine ShiftRel.bind_value pre (currentToken_shift _ _) (fun t => ?_)
  refine ShiftRel.bind_state pre (consume_shift _ _ _) (fun q => ?_)
  refine ShiftRel.bind_state pre (consume_shift _ _ _) (fun q => ?_)
  refine ShiftRel.shift_bind (parseExpression_shift pre fuel _ 0) (fun a q => ?_)
  refine ShiftRel.bind_state pre (consume_shift _ _ _) (fun q => ?_)
  exact ShiftRel.shift_ok _ _ _

theorem consume_first {t : Token} {ty : TokenType} (h : t.type = ty) (rest : List Token) :
    consume ⟨t :: rest, 0⟩ ty = .ok ((Parser.mk rest 0).shift [t]) := by
  simp [consume, currentToken, h, Parser.shift]

theorem statementLoop_var (fuel : Nat) (p : Parser) (statements : List ASTNode)
    (h : lookCurrent p TOK_VAR = .ok true) :
    statementLoop (fuel + 1) p statements =
      (parseVariableDeclarationStatement fuel p >>= fun x =>
        statementLoop fuel x.2 (statements ++ [x.1])) := by
  rw [statementLoop]
  simp only [lookCurrent_of_look h (show TOK_VAR ≠ TOK_EOF by decide),
    lookCurrent_of_look h (show TOK_VAR ≠ TOK_CLOSE_BRACE by decide),
    h, bind, Except.bind, Bool.or_false, Bool.false_eq_true, if_false, if_true]

theorem parseVariableDeclarationStatement_at_var (fuel : Nat) {p : Parser}
    (h : lookCurrent p TOK_VAR = .ok true) :
    parseVariableDeclarationStatement fuel p =
      (declarationShape fuel (p.advance 1)).map
        (fun x => (.VariableDeclaration x.1.1 x.1.2, x.2)) := by
  rw [parseVariableDeclarationStatement_eq_shape, consume_of_look h]
  rfl

/-- C19: (1) on `var n = e ;`, with `e` the tree that `parseExpression(0)`
returns behind `=`, the declaration is `VariableDeclaration(n, e)` with the
`;` consumed, and the statement loop goes on behind it with that node
appended; (2) the declaration fails with an exception when the identifier is
missing, when `=` is missing, when the expression fails (as it does on a `;`
right behind `=`), and when `;` is missing; (3) both declarations have the
shape `declarationShape` of the specification behind their keyword: for every
token list `rest`, the run on `var` followed by `rest` and the run on
`global` followed by `rest` are the images of one and the same run of that
shape on `rest`, so one succeeds exactly when the other does, with the same
name, the same value tree and the same final cursor, tagged
`VariableDeclaration` by the one and `GlobalDeclaration` by the other, and
they fail with the same failure. -/
theorem C19_declarations (fuel : Nat) :
    (∀ (p : Parser) (n : Token) (e : ASTNode) (p1 : Parser),
      lookCurrent p TOK_VAR = .ok true → currentToken (p.advance 1) = .ok n →
      n.type = TOK_IDENTIFIER → lookCurrent (p.advance 2) TOK_ASSIGNMENT = .ok true →
      parseExpression fuel (p.advance 3) 0 = .ok (e, p1) →
      lookCurrent p1 TOK_SEMICOLON = .ok true →
      parseVariableDeclarationStatement fuel p =
        .ok (.VariableDeclaration n.value e, p1.advance 1) ∧
      ∀ statements, statementLoop (fuel + 1) p statements =
        statementLoop fuel (p1.advance 1) (statements ++ [.VariableDeclaration n.value e])) ∧
    (∀ (p : Parser), lookCurrent p TOK_VAR = .ok true →
      ((∀ n, currentToken (p.advance 1) = .ok n → n.type ≠ TOK_IDENTIFIER) →
        ∃ err, parseVariableDeclarationStatement fuel p = .error (.thrown err)) ∧
      (∀ n, currentToken (p.advance 1) = .ok n → n.type = TOK_IDENTIFIER →
        lookCurrent (p.advance 2) TOK_ASSIGNMENT ≠ .ok true →
        ∃ err, parseVariableDeclarationStatement fuel p = .error (.thrown err)) ∧
      (∀ n, currentToken (p.advance 1) = .ok n → n.type = TOK_IDENTIFIER →
        lookCurrent (p.advance 2) TOK_ASSIGNMENT = .ok true →
        (∀ f, parseExpression fuel (p.advance 3) 0 = .error f →
          parseVariableDeclarationStatement fuel p = .error f) ∧
        (∀ t, currentToken (p.advance 3) = .ok t → t.type = TOK_SEMICOLON →
          parseVariableDeclarationStatement (fuel + 2) p =
            .error (.thrown (.unexpectedPrimary TOK_SEMICOLON t.position t.value))) ∧
        (∀ e p1, parseExpression fuel (p.advance 3) 0 = .ok (e, p1) →
          lookCurrent p1 TOK_SEMICOLON ≠ .ok true →
          ∃ err, parseVariableDeclarationStatement fuel p = .error (.thrown err)))) ∧
    (∀ (v g : Token) (rest : List Token), v.type = TOK_VAR → g.type = TOK_GLOBAL_VAR →
      parseVariableDeclarationStatement fuel ⟨v :: rest, 0⟩ =
        (declarationShape fuel ⟨rest, 0⟩).map
          (fun x => (.VariableDeclaration x.1.1 x.1.2, x.2.shift [v])) ∧
      parseGlobalDeclarationStatement fuel ⟨g :: rest, 0⟩ =
        (declarationShape fuel ⟨rest, 0⟩).map
          (fun x => (.GlobalDeclaration x.1.1 x.1.2, x.2.shift [g])) ∧
      (∀ s q, parseVariableDeclarationStatement fuel ⟨v :: rest, 0⟩ = .ok (s, q) →
        ∃ n value q1, s = .VariableDeclaration n value ∧ q1.current = q.current ∧
          parseGlobalDeclarationStatement fuel ⟨g :: rest, 0⟩ =
            .ok (.GlobalDeclaration n value, q1)) ∧
      (∀ s q, parseGlobalDeclarationStatement fuel ⟨g :: rest, 0⟩ = .ok (s, q) →
        ∃ n value q1, s = .GlobalDeclaration n value ∧ q1.current = q.current ∧
          parseVariableDeclarationStatement fuel ⟨v :: rest, 0⟩ =
            .ok (.VariableDeclaration n value, q1)) ∧
      (∀ err, parseVariableDeclarationStatement fuel ⟨v :: rest, 0⟩ = .error err ↔
        parseGlobalDeclarationStatement fuel ⟨g :: rest, 0⟩ = .error err)) := by
  have h2 : ∀ p : Parser, (p.advance 1).advance 1 = p.advance 2 := fun _ => rfl
  have h3 : ∀ p : Parser, (p.advance 2).advance 1 = p.advance 3 := fun _ => rfl
  refine ⟨?_, ?_, ?_⟩
  · intro p n e p1 hvar hn hid hassign hexpr hsemi
    have hr : parseVariableDeclarationStatement fuel p =
        .ok (.VariableDeclaration n.value e, p1.advance 1) := by
      rw [parseVariableDeclarationStatement_at_var fuel hvar]
      simp only [declarationShape, hn, bind, Except.bind, consume_of_currentToken hn hid, h2,
        consume_of_look hassign, h3, hexpr, consume_of_look hsemi, Except.map]
    refine ⟨hr, ?_⟩
    intro statements
    rw [statementLoop_var fuel p statements hvar, hr]
    rfl
  · intro p hvar
    refine ⟨?_, ?_, ?_⟩
    · intro hno
      rw [parseVariableDeclarationStatement_at_var fuel hvar]
      cases hcur : currentToken (p.advance 1) with
      | error f =>
        have hf := currentToken_eq_error hcur
        subst hf
        exact ⟨.unexpectedEndOfTokens,
          by simp only [declarationShape, hcur, bind, Except.bind, Except.map]⟩
      | ok n =>
        exact ⟨.unexpectedToken n.type TOK_IDENTIFIER n.position n.value,
          by simp only [declarationShape, hcur, bind, Except.bind, Except.map,
            consume_thrown_of_currentToken hcur (hno n hcur)]⟩
    · intro n hn hid hassign
      obtain ⟨err, herr⟩ := consume_thrown_of_not_look hassign
      rw [parseVariableDeclarationStatement_at_var fuel hvar]
      exact ⟨err, by simp only [declarationShape, hn, bind, Except.bind,
        consume_of_currentToken hn hid, h2, herr, Except.map]⟩
    · intro n hn hid hassign
      have hprop : ∀ (k : Nat) (f : Failure), parseExpression k (p.advance 3) 0 = .error f →
          parseVariableDeclarationStatement k p = .error f := by
        intro k f hexpr
        rw [parseVariableDeclarationStatement_at_var k hvar]
        simp only [declarationShape, hn, bind, Except.bind, consume_of_currentToken hn hid, h2,
          consume_of_look hassign, h3, hexpr, Except.map]
      refine ⟨hprop fuel, ?_, ?_⟩
      · intro t ht hty
        apply hprop
        simp [parseExpression, parsePrimary, ht, hty, bind, Except.bind]
      · intro e p1 hexpr hsemi
        obtain ⟨err, herr⟩ := consume_thrown_of_not_look hsemi
        rw [parseVariableDeclarationStatement_at_var fuel hvar]
        exact ⟨err, by simp only [declarationShape, hn, bind, Except.bind,
          consume_of_currentToken hn hid, h2, consume_of_look hassign, h3, hexpr, herr,
          Except.map]⟩
  · intro v g rest hv hg
    have hV : parseVariableDeclarationStatement fuel ⟨v :: rest, 0⟩ =
        (declarationShape fuel ⟨rest, 0⟩).map
          (fun x => (.VariableDeclaration x.1.1 x.1.2, x.2.shift [v])) := by
      have hs := declarationShape_shift [v] fuel ⟨rest, 0⟩
      unfold ShiftRel at hs
      rw [parseVariableDeclarationStatement_eq_shape, consume_first hv rest]
      simp only [bind, Except.bind, hs]
      cases declarationShape fuel ⟨rest, 0⟩ <;> rfl
    have hG : parseGlobalDeclarationStatement fuel ⟨g :: rest, 0⟩ =
        (declarationShape fuel ⟨rest, 0⟩).map
          (fun x => (.GlobalDeclaration x.1.1 x.1.2, x.2.shift [g])) := by
      have hs := declarationShape_shift [g] fuel ⟨rest, 0⟩
      unfold ShiftRel at hs
      rw [parseGlobalDeclarationStatement_eq_shape, consume_first hg rest]
      simp only [bind, Except.bind, hs]
      cases declarationShape fuel ⟨rest, 0⟩ <;> rfl
    refine ⟨hV, hG, ?_, ?_, ?_⟩
    · intro s q
      rw [hV, hG]
      cases declarationShape fuel ⟨rest, 0⟩ with
      | error f => intro h; cases h
      | ok x =>
        intro h
        cases h
        exact ⟨x.1.1, x.1.2, x.2.shift [g], rfl, rfl, rfl⟩
    · intro s q
      rw [hV, hG]
      cases declarationShape fuel ⟨rest, 0⟩ with
      | error f => intro h; cases h
      | ok x =>
        intro h
        cases h
        exact ⟨x.1.1, x.1.2, x.2.shift [v], rfl, rfl, rfl⟩
    · intro err
      rw [hV, hG]
      cases declarationShape fuel ⟨rest, 0⟩ with
      | error f => exact ⟨fun h => (by cases h; rfl), fun h => (by cases h; rfl)⟩
      | ok x => exact ⟨fun h => (by cases h), fun h => (by cases h)⟩

/-- C19 at the tokens of `var x = 1;` and `global x = 1;`, and of `var = 1;`
where the identifier is missing. -/
theorem C19_declarations_witness :
    parseVariableDeclarationStatement 4 ⟨tokenize "var x = 1;".toList, 0⟩ =
      .ok (.VariableDeclaration "x".toList (.Literal LITERAL_NUMBER (.Number 1)),
        (Parser.mk (tokenize "var x = 1;".toList) 4).advance 1) ∧
    parseGlobalDeclarationStatement 4 ⟨tokenize "global x = 1;".toList, 0⟩ =
      .ok (.GlobalDeclaration "x".toList (.Literal LITERAL_NUMBER (.Number 1)),
        ⟨tokenize "global x = 1;".toList, 5⟩) ∧
    (parseVariableDeclarationStatement 4 ⟨tokenize "var x = 1".toList, 0⟩ =
        .error (.thrown (.unexpectedToken TOK_EOF TOK_SEMICOLON 9 [])) ↔
      parseGlobalDeclarationStatement 4
          ⟨⟨"global".toList, TOK_GLOBAL_VAR, 6⟩ :: (tokenize "var x = 1".toList).tail, 0⟩ =
        .error (.thrown (.unexpectedToken TOK_EOF TOK_SEMICOLON 9 []))) ∧
    (∃ err, parseVariableDeclarationStatement 4 ⟨tokenize "var = 1;".toList, 0⟩ =
      .error (.thrown err)) :=
  ⟨((C19_declarations 4).1 ⟨tokenize "var x = 1;".toList, 0⟩ ⟨"x".toList, TOK_IDENTIFIER, 5⟩
      _ _ (by rfl) (by rfl) rfl (by rfl) (by rfl) (by rfl)).1,
    by rfl,
    ((C19_declarations 4).2.2 ⟨"var".toList, TOK_VAR, 3⟩ ⟨"global".toList, TOK_GLOBAL_VAR, 6⟩
      (tokenize "var x = 1".toList).tail rfl rfl).2.2.2.2 _,
    ((C19_declarations 4).2.1 ⟨tokenize "var = 1;".toList, 0⟩ (by rfl)).1
      (fun n hn => by
        have h : currentToken ((Parser.mk (tokenize "var = 1;".toList) 0).advance 1) =
            .ok ⟨"=".toList, TOK_ASSIGNMENT, 4⟩ := rfl
        rw [h] at hn
        cases hn
        decide)⟩

/-! ## C20: member chains and calls -/

theorem parsePrimary_identifier (fuel : Nat) {p : Parser} {a : Token}
    (ha : currentToken p = .ok a) (hty : a.type = TOK_IDENTIFIER) :
    parsePrimary (fuel + 1) p = memberAccessLoop fuel (p.advance 1) (.Variable a.value) := by
  rw [parsePrimary]
  simp only [ha, bind, Except.bind, hty, if_true, consume_of_currentToken ha hty]

theorem memberAccessLoop_stop (fuel : Nat) {p : Parser} (e : ASTNode)
    (h : lookCurrent p TOK_DOT = .ok false) :
    memberAccessLoop (fuel + 1) p e = .ok (e, p) := by
  rw [memberAccessLoop]
  simp only [h, bind, Except.bind, Bool.false_eq_true, if_false]

theorem memberAccessLoop_member (fuel : Nat) {p : Parser} (e : ASTNode) {m : Token}
    (hdot : lookCurrent p TOK_DOT = .ok true) (hm : currentToken (p.advance 1) = .ok m)
    (hty : m.type = TOK_IDENTIFIER) (hparen : lookCurrent (p.advance 2) TOK_OPEN_PAREN = .ok false) :
    memberAccessLoop (fuel + 1) p e =
      memberAccessLoop fuel (p.advance 2) (.MemberAccess e m.value) := by
  have h2 : (p.advance 1).advance 1 = p.advance 2 := rfl
  rw [memberAccessLoop]
  simp only [hdot, bind, Except.bind, if_true, consume_of_look hdot, hm, expect, hty, ne_eq,
    not_true_eq_false, if_false, consume_of_currentToken hm hty, h2, hparen,
    Bool.false_eq_true]

theorem memberAccessLoop_call (fuel : Nat) {p p1 : Parser} (e : ASTNode) {m : Token}
    {arguments : List ASTNode}
    (hdot : lookCurrent p TOK_DOT = .ok true) (hm : currentToken (p.advance 1) = .ok m)
    (hty : m.type = TOK_IDENTIFIER) (hparen : lookCurrent (p.advance 2) TOK_OPEN_PAREN = .ok true)
    (hargs : argumentLoop fuel (p.advance 3) [] = .ok (arguments, p1))
    (hclose : lookCurrent p1 TOK_CLOSE_PAREN = .ok true) :
    memberAccessLoop (fuel + 1) p e =
      memberAccessLoop fuel (p1.advance 1)
        (.FunctionCall (.MemberAccess e m.value) arguments) := by
  have h2 : (p.advance 1).advance 1 = p.advance 2 := rfl
  have h3 : (p.advance 2).advance 1 = p.advance 3 := rfl
  rw [memberAccessLoop]
  simp only [hdot, bind, Except.bind, if_true, consume_of_look hdot, hm, expect, hty, ne_eq,
    not_true_eq_false, if_false, consume_of_currentToken hm hty, h2, hparen,
    consume_of_look hparen, h3, hargs, consume_of_look hclose]

theorem memberAccessLoop_not_identifier (fuel : Nat) {p : Parser} (e : ASTNode)
    (hdot : lookCurrent p TOK_DOT = .ok true)
    (hno : ∀ m, currentToken (p.advance 1) = .ok m → m.type ≠ TOK_IDENTIFIER) :
    ∃ err, memberAccessLoop (fuel + 1) p e = .error (.thrown err) := by
  rw [memberAccessLoop]
  cases hcur : currentToken (p.advance 1) with
  | error f =>
    have hf := currentToken_eq_error hcur
    subst hf
    exact ⟨.unexpectedEndOfTokens,
      by simp only [hdot, bind, Except.bind, if_true, consume_of_look hdot, hcur]⟩
  | ok m =>
    exact ⟨.unexpectedToken m.type TOK_IDENTIFIER m.position m.value,
      by simp only [hdot, bind, Except.bind, if_true, consume_of_look hdot, hcur, expect,
        hno m hcur, ne_eq, not_false_eq_true]⟩

theorem argumentLoop_of_arguments {fuel : Nat} {p p2 : Parser} {xs : List ASTNode}
    (h : ArgumentsParse fuel p xs p2) :
    ∀ acc, argumentLoop (fuel + xs.length + 1) p acc = .ok (acc ++ xs, p2) := by
  induction h with
  | close p h =>
    intro acc
    rw [argumentLoop]
    simp only [h, bind, Except.bind, if_true, List.append_nil]
  | comma p p1 p2 x xs h hx hc _ ih =>
    intro acc
    have hx1 := (parseExpression_fuel (Nat.le_add_right fuel (xs.length + 1)) p 0).ok hx
    have hfuel : fuel + (x :: xs).length + 1 = (fuel + (xs.length + 1)) + 1 := by
      simp only [List.length_cons]
    rw [hfuel, argumentLoop]
    simp only [h, bind, Except.bind, Bool.false_eq_true, if_false, hx1, hc, if_true,
      consume_of_look hc]
    rw [show fuel + (xs.length + 1) = fuel + xs.length + 1 from rfl, ih]
    simp only [List.append_assoc, List.singleton_append]
  | noComma p p1 p2 x xs h hx hc _ ih =>
    intro acc
    have hx1 := (parseExpression_fuel (Nat.le_add_right fuel (xs.length + 1)) p 0).ok hx
    have hfuel : fuel + (x :: xs).length + 1 = (fuel + (xs.length + 1)) + 1 := by
      simp only [List.length_cons]
    rw [hfuel, argumentLoop]
    simp only [h, bind, Except.bind, Bool.false_eq_true, if_false, hx1, hc]
    rw [show fuel + (xs.length + 1) = fuel + xs.length + 1 from rfl, ih]
    simp only [List.append_assoc, List.singleton_append]

theorem memberAccessLoop_chain (members : List (Token × Token))
    (hm : ∀ m ∈ members, m.1.type = TOK_DOT ∧ m.2.type = TOK_IDENTIFIER)
    (r : Token) (hr : r.type ≠ TOK_OPEN_PAREN) (rest : List Token) :
    ∀ (fuel : Nat) (p : Parser) (e : ASTNode),
      p.remaining = memberTokens members ++ r :: rest →
      memberAccessLoop (fuel + members.length) p e =
        memberAccessLoop fuel (p.advance (2 * members.length)) (memberChain e members) := by
  induction members with
  | nil =>
    intro fuel p e _
    simp only [List.length_nil, Nat.mul_zero, Nat.add_zero, advance_zero, memberChain,
      List.foldl_nil]
  | cons m ms ih =>
    intro fuel p e hp
    obtain ⟨hdot, hid⟩ := hm m (List.mem_cons_self _ _)
    have hms : ∀ x ∈ ms, x.1.type = TOK_DOT ∧ x.2.type = TOK_IDENTIFIER :=
      fun x hx => hm x (List.mem_cons_of_mem _ hx)
    have hp0 : p.remaining = m.1 :: m.2 :: (memberTokens ms ++ r :: rest) := hp
    have hp1 : (p.advance 1).remaining = m.2 :: (memberTokens ms ++ r :: rest) := by
      simp [remaining_advance, hp0]
    have hp2 : (p.advance 2).remaining = memberTokens ms ++ r :: rest := by
      simp [remaining_advance, hp0]
    have hlook : lookCurrent p TOK_DOT = .ok true := by
      rw [lookCurrent_of_remaining hp0, hdot]
      rfl
    have hparen : lookCurrent (p.advance 2) TOK_OPEN_PAREN = .ok false := by
      cases ms with
      | nil =>
        have hp2n : (p.advance 2).remaining = r :: rest := hp2
        rw [lookCurrent_of_remaining hp2n]
        simp [hr]
      | cons m2 ms2 =>
        have hp2c : (p.advance 2).remaining =
            m2.1 :: (m2.2 :: (memberTokens ms2 ++ r :: rest)) := hp2
        rw [lookCurrent_of_remaining hp2c, (hm m2 (by simp)).1]
        rfl
    have hfuel : fuel + (m :: ms).length = (fuel + ms.length) + 1 := by
      simp only [List.length_cons]
      omega
    rw [hfuel, memberAccessLoop_member (fuel + ms.length) e hlook
      (currentToken_of_remaining hp1) hid hparen, ih hms fuel (p.advance 2) _ hp2,
      advance_advance]
    have hlen : 2 + 2 * ms.length = 2 * (m :: ms).length := by
      simp only [List.length_cons]
      omega
    rw [hlen]
    rfl

theorem memberTokens_length (members : List (Token × Token)) :
    (memberTokens members).length = 2 * members.length := by
  induction members with
  | nil => rfl
  | cons m ms ih =>
    simp only [memberTokens, List.length_cons, ih]
    omega

theorem ArgumentsParse.at_close {fuel : Nat} {p p2 : Parser} {xs : List ASTNode}
    (h : ArgumentsParse fuel p xs p2) : lookCurrent p2 TOK_CLOSE_PAREN = .ok true := by
  induction h with
  | close p h => exact h
  | comma p p1 p2 x xs h hx hc _ ih => exact ih
  | noComma p p1 p2 x xs h hx hc _ ih => exact ih

/-- C20: (1) for an identifier `a` followed by the member chain
`. m1 . ... . mk` (`k ≥ 0`) and then by a token that is neither `.` nor `(`,
`parsePrimary` returns `MemberAccess(...MemberAccess(Variable a, m1)..., mk)`
and stops behind the chain; (2) in the member loop, a member `. m` followed
by `(`, an argument list and `)` turns the running expression `e` into
`FunctionCall(MemberAccess(e, m), arguments)`, the arguments being the trees
of the argument expressions in source order, and the loop goes on behind
`)`; (3) on the tokens of `a.b.c(x, y)` the result is
`FunctionCall(MemberAccess(MemberAccess(Variable a, b), c), [Variable x,
Variable y])`; (4) a `.` that is not followed by an identifier makes the
member loop and `parsePrimary` fail with an exception. -/
theorem C20_member_chains_and_calls (fuel : Nat) :
    (∀ (a r : Token) (members : List (Token × Token)) (rest : List Token) (p : Parser),
      a.type = TOK_IDENTIFIER →
      (∀ m ∈ members, m.1.type = TOK_DOT ∧ m.2.type = TOK_IDENTIFIER) →
      r.type ≠ TOK_DOT → r.type ≠ TOK_OPEN_PAREN →
      p.remaining = a :: (memberTokens members ++ r :: rest) →
      parsePrimary (fuel + members.length + 2) p =
        .ok (memberChain (.Variable a.value) members, p.advance (1 + 2 * members.length))) ∧
    (∀ (p p1 : Parser) (e : ASTNode) (m : Token) (arguments : List ASTNode),
      lookCurrent p TOK_DOT = .ok true → currentToken (p.advance 1) = .ok m →
      m.type = TOK_IDENTIFIER → lookCurrent (p.advance 2) TOK_OPEN_PAREN = .ok true →
      ArgumentsParse fuel (p.advance 3) arguments p1 →
      memberAccessLoop (fuel + arguments.length + 2) p e =
        memberAccessLoop (fuel + arguments.length + 1) (p1.advance 1)
          (.FunctionCall (.MemberAccess e m.value) arguments)) ∧
    parsePrimary (fuel + 8) ⟨tokenize "a.b.c(x, y)".toList, 0⟩ =
      .ok (.FunctionCall
          (.MemberAccess (.MemberAccess (.Variable "a".toList) "b".toList) "c".toList)
          [.Variable "x".toList, .Variable "y".toList],
        ⟨tokenize "a.b.c(x, y)".toList, 10⟩) ∧
    (∀ (p : Parser) (e : ASTNode), lookCurrent p TOK_DOT = .ok true →
      (∀ m, currentToken (p.advance 1) = .ok m → m.type ≠ TOK_IDENTIFIER) →
      ∃ err, memberAccessLoop (fuel + 1) p e = .error (.thrown err)) ∧
    (∀ (p : Parser) (a : Token), currentToken p = .ok a → a.type = TOK_IDENTIFIER →
      lookCurrent (p.advance 1) TOK_DOT = .ok true →
      (∀ m, currentToken (p.advance 2) = .ok m → m.type ≠ TOK_IDENTIFIER) →
      ∃ err, parsePrimary (fuel + 2) p = .error (.thrown err)) := by
  refine ⟨?_, ?_, ?_, ?_, ?_⟩
  · intro a r members rest p ha hm hdot hparen hp
    have hp1 : (p.advance 1).remaining = memberTokens members ++ r :: rest := by
      simp [remaining_advance, hp]
    have hp2 : ((p.advance 1).advance (2 * members.length)).remaining = r :: rest := by
      rw [remaining_advance, hp1, List.drop_left' (memberTokens_length members)]
    have hstop : lookCurrent ((p.advance 1).advance (2 * members.length)) TOK_DOT =
        .ok false := by
      rw [lookCurrent_of_remaining hp2]
      simp [hdot]
    rw [parsePrimary_identifier (fuel + members.length + 1) (currentToken_of_remaining hp) ha,
      show fuel + members.length + 1 = (fuel + 1) + members.length by omega,
      memberAccessLoop_chain members hm r hparen rest (fuel + 1) (p.advance 1) _ hp1,
      memberAccessLoop_stop fuel _ hstop, advance_advance]
  · intro p p1 e m arguments hdot hm hty hparen hargs
    have hloop := argumentLoop_of_arguments hargs []
    rw [List.nil_append] at hloop
    exact memberAccessLoop_call (fuel + arguments.length + 1) e hdot hm hty hparen hloop
      hargs.at_close
  · exact (parsePrimary_fuel (Nat.le_add_left 8 fuel) _).ok (by rfl)
  · intro p e hdot hno
    exact memberAccessLoop_not_identifier fuel e hdot hno
  · intro p a ha hty hdot hno
    rw [parsePrimary_identifier (fuel + 1) ha hty]
    exact memberAccessLoop_not_identifier fuel _ hdot hno

/-- C20 at the tokens of `a.b.c;`, at the call `.c(x, y)` of `a.b.c(x, y)`,
and at `a.;` where no identifier follows the `.`. -/
theorem C20_member_chains_and_calls_witness :
    parsePrimary 4 ⟨tokenize "a.b.c;".toList, 0⟩ =
      .ok (.MemberAccess (.MemberAccess (.Variable "a".toList) "b".toList) "c".toList,
        (Parser.mk (tokenize "a.b.c;".toList) 0).advance 5) ∧
    memberAccessLoop 7 ⟨tokenize "a.b.c(x, y)".toList, 3⟩
        (.MemberAccess (.Variable "a".toList) "b".toList) =
      memberAccessLoop 6 ((Parser.mk (tokenize "a.b.c(x, y)".toList) 9).advance 1)
        (.FunctionCall
          (.MemberAccess (.MemberAccess (.Variable "a".toList) "b".toList) "c".toList)
          [.Variable "x".toList, .Variable "y".toList]) ∧
    parsePrimary 8 ⟨tokenize "a.b.c(x, y)".toList, 0⟩ =
      .ok (.FunctionCall
          (.MemberAccess (.MemberAccess (.Variable "a".toList) "b".toList) "c".toList)
          [.Variable "x".toList, .Variable "y".toList],
        ⟨tokenize "a.b.c(x, y)".toList, 10⟩) ∧
    (∃ err, parsePrimary 2 ⟨tokenize "a.;".toList, 0⟩ = .error (.thrown err)) :=
  ⟨(C20_member_chains_and_calls 0).1 ⟨"a".toList, TOK_IDENTIFIER, 1⟩
      ⟨";".toList, TOK_SEMICOLON, 5⟩
      [(⟨".".toList, TOK_DOT, 1⟩, ⟨"b".toList, TOK_IDENTIFIER, 3⟩),
        (⟨".".toList, TOK_DOT, 3⟩, ⟨"c".toList, TOK_IDENTIFIER, 5⟩)]
      [⟨[], TOK_EOF, 6⟩] ⟨tokenize "a.b.c;".toList, 0⟩ rfl (by decide) (by decide) (by decide)
      (by decide),
    (C20_member_chains_and_calls 3).2.1 ⟨tokenize "a.b.c(x, y)".toList, 3⟩
      ⟨tokenize "a.b.c(x, y)".toList, 9⟩ _ ⟨"c".toList, TOK_IDENTIFIER, 5⟩
      [.Variable "x".toList, .Variable "y".toList] (by rfl) (by rfl) rfl (by rfl)
      (ArgumentsParse.comma _ ⟨tokenize "a.b.c(x, y)".toList, 7⟩ _ _ _ (by rfl) (by rfl)
        (by rfl)
        (ArgumentsParse.noComma _ ⟨tokenize "a.b.c(x, y)".toList, 9⟩ _ _ _ (by rfl) (by rfl)
          (by rfl) (ArgumentsParse.close _ (by rfl)))),
    (C20_member_chains_and_calls 0).2.2.1,
    (C20_member_chains_and_calls 0).2.2.2.2 ⟨tokenize "a.;".toList, 0⟩
      ⟨"a".toList, TOK_IDENTIFIER, 1⟩ (by rfl) rfl (by rfl)
      (fun m hm => by
        have h : currentToken ((Parser.mk (tokenize "a.;".toList) 0).advance 2) =
            .ok ⟨";".toList, TOK_SEMICOLON, 2⟩ := rfl
        rw [h] at hm
        cases hm
        decide)⟩

/-! ## The top-level loop of `parse` -/

theorem sizeMinusOne_eq {n : Nat} (h1 : 1 ≤ n) (h2 : n < 18446744073709551616) :
    sizeMinusOne n = n - 1 := by
  unfold sizeMinusOne
  omega

theorem parseLoop_exit (fuel : Nat) (p : Parser) (statements : List ASTNode)
    (h : ¬ p.current < sizeMinusOne p.tokens.length) :
    parseLoop (fuel + 1) p statements = .ok (statements, p) := by
  rw [parseLoop, if_neg h]

theorem parseLoop_step (fuel : Nat) (p : Parser) (statements : List ASTNode)
    (h : p.current < sizeMinusOne p.tokens.length) :
    parseLoop (fuel + 1) p statements =
      (parseStatement fuel p true >>= fun x => parseLoop fuel x.2 (statements ++ [x.1])) := by
  rw [parseLoop, if_pos h]

theorem statementLoop_while (fuel : Nat) (p : Parser) (statements : List ASTNode)
    (h : lookCurrent p TOK_WHILE_STATEMENT = .ok true) :
    statementLoop (fuel + 1) p statements =
      (parseWhileStatement fuel p >>= fun x =>
        statementLoop fuel x.2 (statements ++ [x.1])) := by
  rw [statementLoop]
  simp only [lookCurrent_of_look h (show TOK_WHILE_STATEMENT ≠ TOK_EOF by decide),
    lookCurrent_of_look h (show TOK_WHILE_STATEMENT ≠ TOK_CLOSE_BRACE by decide),
    lookCurrent_of_look h (show TOK_WHILE_STATEMENT ≠ TOK_VAR by decide),
    lookCurrent_of_look h (show TOK_WHILE_STATEMENT ≠ TOK_GLOBAL_VAR by decide),
    lookCurrent_of_look h (show TOK_WHILE_STATEMENT ≠ TOK_FOR_STATEMENT by decide),
    h, bind, Except.bind, Bool.or_false, Bool.false_eq_true, if_false, if_true]

theorem parseStatement_of_statementLoop (fuel : Nat) (p p1 : Parser) (s : ASTNode)
    (statements : List ASTNode) (h : statementLoop fuel p [] = .ok (s :: statements, p1)) :
    parseStatement (fuel + 1) p true = .ok (.Block (s :: statements), p1) := by
  rw [parseStatement]
  simp only [if_true, h, bind, Except.bind]
  rfl

theorem ok_bind {α β : Type} (a : α) (f : α → Outcome β) : ((.ok a : Outcome α) >>= f) = f a :=
  rfl

theorem tokenize_wellTerminated (sourceCode : List Char) : WellTerminated (tokenize sourceCode) :=
  ⟨(flushWord (tokenizeLoop sourceCode 0 ⟨[], [], false, []⟩) sourceCode.length).tokens,
    ⟨[], TOK_EOF, sourceCode.length⟩, rfl, rfl, rfl,
    fun t ht => (flushWord_proper _ _ (tokenizeLoop_proper _ _ _ (by simp)) t ht).1⟩

theorem WellTerminated.length_pos {T : List Token} (hT : WellTerminated T) : 1 ≤ T.length := by
  obtain ⟨front, last, rfl, -, -, -⟩ := hT
  simp

theorem WellTerminated.not_last_of_type {T : List Token} (hT : WellTerminated T) {i : Nat}
    {t : Token} (ht : T[i]? = some t) (hty : t.type ≠ TOK_EOF) : i + 1 < T.length := by
  obtain ⟨front, last, rfl, hlast, -, -⟩ := hT
  have hi : i < (front ++ [last]).length := (List.getElem?_eq_some_iff.1 ht).1
  simp only [List.length_append, List.length_singleton] at hi ⊢
  by_contra hge
  have hi2 : i = front.length := by omega
  subst hi2
  rw [List.getElem?_append_right (le_refl _)] at ht
  simp only [Nat.sub_self, List.getElem?_cons_zero, Option.some.injEq] at ht
  subst ht
  exact hty hlast

theorem WellTerminated.not_last_of_value {T : List Token} (hT : WellTerminated T) {i : Nat}
    {t : Token} (ht : T[i]? = some t) (hv : t.value ≠ []) : i + 1 < T.length := by
  obtain ⟨front, last, rfl, -, hlast, -⟩ := hT
  have hi : i < (front ++ [last]).length := (List.getElem?_eq_some_iff.1 ht).1
  simp only [List.length_append, List.length_singleton] at hi ⊢
  by_contra hge
  have hi2 : i = front.length := by omega
  subst hi2
  rw [List.getElem?_append_right (le_refl _)] at ht
  simp only [Nat.sub_self, List.getElem?_cons_zero, Option.some.injEq] at ht
  subst ht
  exact hv hlast

theorem WellTerminated.last_of_type {T : List Token} (hT : WellTerminated T) {i : Nat}
    {t : Token} (ht : T[i]? = some t) (hty : t.type = TOK_EOF) : i + 1 = T.length := by
  obtain ⟨front, last, rfl, -, -, hfront⟩ := hT
  have hi : i < (front ++ [last]).length := (List.getElem?_eq_some_iff.1 ht).1
  simp only [List.length_append, List.length_singleton] at hi ⊢
  by_contra hne
  have hi2 : i < front.length := by omega
  rw [List.getElem?_append_left hi2] at ht
  obtain ⟨hlt, hget⟩ := List.getElem?_eq_some_iff.1 ht
  exact hfront t (hget ▸ List.getElem_mem _) hty

theorem parseStatement_close_brace (fuel : Nat) (p : Parser)
    (h : lookCurrent p TOK_CLOSE_BRACE = .ok true) :
    parseStatement (fuel + 2) p true = .ok (.Block [.Empty], p) :=
  parseStatement_empty (fuel + 1) p p (statementLoop_close_brace fuel p [] h)

theorem parseLoop_close_brace (p : Parser) (h : lookCurrent p TOK_CLOSE_BRACE = .ok true)
    (hcur : p.current < sizeMinusOne p.tokens.length) :
    ∀ (fuel : Nat) (statements : List ASTNode),
      parseLoop fuel p statements = .error .outOfFuel := by
  intro fuel
  induction fuel with
  | zero => intro statements; rfl
  | succ f ih =>
    intro statements
    rw [parseLoop_step f p statements hcur]
    match f with
    | 0 => rfl
    | 1 => rfl
    | g + 2 =>
      rw [parseStatement_close_brace g p h, ok_bind]
      exact ih _

/-! ## Cursor safety, progress and termination

One invariant for all parser functions, over a token vector that ends with
its only end-of-input token: the cursor stays on a token, moves forward only,
`lookCurrent` never reads out of bounds, and a budget linear in the number of
tokens left is never exhausted. -/

set_option linter.unusedVariables false

theorem SafeRun.safe_ok {T : List Token} {c : Nat} {b : Prop} {α : Type} {a : α} {q : Parser}
    (h1 : q.tokens = T) (h2 : c ≤ q.current) (h3 : q.current < T.length) :
    SafeRun T c b (.ok (a, q)) :=
  ⟨h1, h2, h3⟩

theorem SafeRun.safe_thrown (T : List Token) (c : Nat) (b : Prop) {α : Type} (e : ParseError) :
    SafeRun T c b (.error (.thrown e) : Outcome (α × Parser)) :=
  ⟨fun h => (by cases h), fun _ h => (by cases h)⟩

theorem SafeRun.safe_fuel (T : List Token) (c : Nat) {b : Prop} {α : Type} (hb : ¬ b) :
    SafeRun T c b (.error .outOfFuel : Outcome (α × Parser)) :=
  ⟨fun h => (by cases h), fun h => absurd h hb⟩

theorem SafeRun.safe_mono {T : List Token} {c c1 : Nat} {b b1 : Prop} {α : Type}
    {r : Outcome (α × Parser)} (h : SafeRun T c1 b1 r) (hc : c ≤ c1) (hb : b → b1) :
    SafeRun T c b r := by
  cases r with
  | error e => exact ⟨h.1, fun hb0 => h.2 (hb hb0)⟩
  | ok x => exact ⟨h.1, Nat.le_trans hc h.2.1, h.2.2⟩

theorem SafeRun.bind_call {T : List Token} {c c1 : Nat} {b b1 : Prop} {α β : Type}
    {x : Outcome (α × Parser)} {g : α × Parser → Outcome (β × Parser)}
    (hx : SafeRun T c1 b1 x) (hb : b → b1)
    (hg : ∀ a q, q.tokens = T → c1 ≤ q.current → q.current < T.length →
      SafeRun T c b (g (a, q))) :
    SafeRun T c b (x >>= g) := by
  cases x with
  | error e => exact ⟨hx.1, fun hb0 => hx.2 (hb hb0)⟩
  | ok v => exact hg v.1 v.2 hx.1 hx.2.1 hx.2.2

theorem SafeRun.bind_consume {T : List Token} (hT : WellTerminated T) {c : Nat} {b : Prop}
    {β : Type} {p : Parser} {ty : TokenType} {g : Parser → Outcome (β × Parser)}
    (hp : p.tokens = T) (hty : ty ≠ TOK_EOF)
    (hg : ∀ q : Parser, q.tokens = T → q.current = p.current + 1 → q.current < T.length →
      SafeRun T c b (g q)) :
    SafeRun T c b (consume p ty >>= g) := by
  unfold consume currentToken
  cases ht : p.tokens[p.current]? with
  | none => exact SafeRun.safe_thrown _ _ _ _
  | some t =>
    simp only []
    split
    · exact SafeRun.safe_thrown _ _ _ _
    · rename_i heq
      have heq2 : t.type = ty := by simpa using heq
      rw [hp] at ht
      exact hg _ hp rfl (hT.not_last_of_type ht (by rw [heq2]; exact hty))

theorem SafeRun.bind_consume_current {T : List Token} (hT : WellTerminated T) {c : Nat}
    {b : Prop} {β : Type} {p : Parser} {t : Token} {g : Parser → Outcome (β × Parser)}
    (hp : p.tokens = T) (ht : p.tokens[p.current]? = some t)
    (hnot : t.type ≠ TOK_EOF ∨ t.value ≠ [])
    (hg : ∀ q : Parser, q.tokens = T → q.current = p.current + 1 → q.current < T.length →
      SafeRun T c b (g q)) :
    SafeRun T c b (consume p t.type >>= g) := by
  have hc : consume p t.type = .ok ⟨p.tokens, p.current + 1⟩ := by
    simp [consume, currentToken, ht]
  rw [hc]
  rw [hp] at ht
  refine hg _ hp rfl ?_
  rcases hnot with h | h
  · exact hT.not_last_of_type ht h
  · exact hT.not_last_of_value ht h

theorem SafeRun.bind_currentToken {T : List Token} {c : Nat} {b : Prop} {β : Type} {p : Parser}
    {g : Token → Outcome (β × Parser)}
    (hg : ∀ t, p.tokens[p.current]? = some t → SafeRun T c b (g t)) :
    SafeRun T c b (currentToken p >>= g) := by
  unfold currentToken
  cases ht : p.tokens[p.current]? with
  | none => exact SafeRun.safe_thrown _ _ _ _
  | some t => exact hg t ht

theorem SafeRun.bind_look {T : List Token} {c : Nat} {b : Prop} {β : Type} {p : Parser}
    {ty : TokenType} {g : Bool → Outcome (β × Parser)} (hp : p.tokens = T)
    (hc : p.current < T.length)
    (hg : ∀ t, p.tokens[p.current]? = some t → SafeRun T c b (g (t.type == ty))) :
    SafeRun T c b (lookCurrent p ty >>= g) := by
  unfold lookCurrent
  cases ht : p.tokens[p.current]? with
  | none =>
    rw [← hp] at hc
    simp [List.getElem?_eq_none_iff] at ht
    omega
  | some t => exact hg t ht

theorem SafeRun.bind_expect {T : List Token} {c : Nat} {b : Prop} {β : Type} {p : Parser}
    {ty : TokenType} {g : Unit → Outcome (β × Parser)} (hg : SafeRun T c b (g ())) :
    SafeRun T c b (expect p ty >>= g) := by
  unfold expect currentToken
  cases p.tokens[p.current]? with
  | none => exact SafeRun.safe_thrown _ _ _ _
  | some t =>
    simp only []
    split
    · exact SafeRun.safe_thrown _ _ _ _
    · exact hg

theorem stoi_error {s : List Char} {e : Failure} (h : stoi s = .error e) :
    ∃ pe, e = .thrown pe := by
  unfold stoi at h
  simp only [] at h
  split_ifs at h <;> first | (cases h; exact ⟨_, rfl⟩) | (cases h)

theorem SafeRun.bind_stoi {T : List Token} {c : Nat} {b : Prop} {β : Type} {s : List Char}
    {g : Int → Outcome (β × Parser)} (hg : ∀ n, SafeRun T c b (g n)) :
    SafeRun T c b (stoi s >>= g) := by
  cases hs : stoi s with
  | ok n => exact hg n
  | error e =>
    obtain ⟨pe, rfl⟩ := stoi_error hs
    exact SafeRun.safe_thrown _ _ _ _

theorem SafeRun.safe_ite {T : List Token} {c : Nat} {b : Prop} {α : Type} {cond : Prop}
    [Decidable cond] {x y : Outcome (α × Parser)}
    (hx : cond → SafeRun T c b x) (hy : ¬cond → SafeRun T c b y) :
    SafeRun T c b (if cond then x else y) := by
  split
  · exact hx ‹_›
  · exact hy ‹_›

theorem operator_value_ne_nil {v : List Char} (h : v ∈ rightNeededExpressionSet) : v ≠ [] := by
  intro h0
  rw [h0] at h
  exact absurd h (by decide)

theorem operator_token_not_last {t : Token} {P : Prop}
    (h : t.value ∈ rightNeededExpressionSet ∧ P) : t.type ≠ TOK_EOF ∨ t.value ≠ [] :=
  Or.inr (operator_value_ne_nil h.1)

theorem expression_safe {T : List Token} (hT : WellTerminated T) (fuel : Nat) :
    (∀ p, p.tokens = T → p.current < T.length →
      SafeRun T (p.current + 1) (2 * (T.length - p.current) + 1 ≤ fuel) (parsePrimary fuel p)) ∧
    (∀ p e, p.tokens = T → p.current < T.length →
      SafeRun T p.current (2 * (T.length - p.current) + 1 ≤ fuel) (memberAccessLoop fuel p e)) ∧
    (∀ p a, p.tokens = T → p.current < T.length →
      SafeRun T p.current (2 * (T.length - p.current) + 3 ≤ fuel) (argumentLoop fuel p a)) ∧
    (∀ p q, p.tokens = T → p.current < T.length →
      SafeRun T (p.current + 1) (2 * (T.length - p.current) + 2 ≤ fuel)
        (parseExpression fuel p q)) ∧
    (∀ p q l, p.tokens = T → p.current < T.length →
      SafeRun T p.current (2 * (T.length - p.current) + 1 ≤ fuel)
        (binaryOperationLoop fuel p q l)) := by
  induction fuel with
  | zero =>
    refine ⟨?_, ?_, ?_, ?_, ?_⟩ <;> intros <;> exact SafeRun.safe_fuel _ _ (by omega)
  | succ f ih =>
    obtain ⟨ih1, ih2, ih3, ih4, ih5⟩ := ih
    refine ⟨?_, ?_, ?_, ?_, ?_⟩
    · intro p hp hc
      rw [parsePrimary]
      repeat' (first
        | assumption
        | omega
        | decide
        | (with_reducible exact SafeRun.safe_thrown _ _ _ _)
        | (with_reducible refine SafeRun.safe_ok ?_ ?_ ?_)
        | (with_reducible refine SafeRun.safe_mono (ih2 _ _ ?_ ?_) ?_ ?_)
        | (with_reducible refine SafeRun.safe_mono (ih3 _ _ ?_ ?_) ?_ ?_)
        | (with_reducible refine SafeRun.safe_mono (ih5 _ _ _ ?_ ?_) ?_ ?_)
        | (with_reducible refine SafeRun.bind_call (ih1 _ ?_ ?_) ?_ ?_)
        | (with_reducible refine SafeRun.bind_call (ih4 _ _ ?_ ?_) ?_ ?_)
        | (with_reducible refine SafeRun.bind_call (ih3 _ _ ?_ ?_) ?_ ?_)
        | (with_reducible refine SafeRun.bind_consume hT ?_ (by decide) ?_)
        | (with_reducible refine SafeRun.bind_consume_current hT ?_ ?_ ?_ ?_)
        | (apply operator_token_not_last <;> assumption)
        | (with_reducible refine SafeRun.bind_currentToken ?_)
        | (with_reducible refine SafeRun.bind_look ?_ ?_ ?_)
        | (with_reducible refine SafeRun.bind_expect ?_)
        | (with_reducible refine SafeRun.bind_stoi ?_)
        | (with_reducible refine SafeRun.safe_ite ?_ ?_)
        | intro _)
    · intro p e hp hc
      rw [memberAccessLoop]
      repeat' (first
        | assumption
        | omega
        | decide
        | (with_reducible exact SafeRun.safe_thrown _ _ _ _)
        | (with_reducible refine SafeRun.safe_ok ?_ ?_ ?_)
        | (with_reducible refine SafeRun.safe_mono (ih2 _ _ ?_ ?_) ?_ ?_)
        | (with_reducible refine SafeRun.safe_mono (ih3 _ _ ?_ ?_) ?_ ?_)
        | (with_reducible refine SafeRun.safe_mono (ih5 _ _ _ ?_ ?_) ?_ ?_)
        | (with_reducible refine SafeRun.bind_call (ih1 _ ?_ ?_) ?_ ?_)
        | (with_reducible refine SafeRun.bind_call (ih4 _ _ ?_ ?_) ?_ ?_)
        | (with_reducible refine SafeRun.bind_call (ih3 _ _ ?_ ?_) ?_ ?_)
        | (with_reducible refine SafeRun.bind_consume hT ?_ (by decide) ?_)
        | (with_reducible refine SafeRun.bind_consume_current hT ?_ ?_ ?_ ?_)
        | (apply operator_token_not_last <;> assumption)
        | (with_reducible refine SafeRun.bind_currentToken ?_)
        | (with_reducible refine SafeRun.bind_look ?_ ?_ ?_)
        | (with_reducible refine SafeRun.bind_expect ?_)
        | (with_reducible refine SafeRun.bind_stoi ?_)
        | (with_reducible refine SafeRun.safe_ite ?_ ?_)
        | intro _)
    · intro p a hp hc
      rw [argumentLoop]
      repeat' (first
        | assumption
        | omega
        | decide
        | (with_reducible exact SafeRun.safe_thrown _ _ _ _)
        | (with_reducible refine SafeRun.safe_ok ?_ ?_ ?_)
        | (with_reducible refine SafeRun.safe_mono (ih2 _ _ ?_ ?_) ?_ ?_)
        | (with_reducible refine SafeRun.safe_mono (ih3 _ _ ?_ ?_) ?_ ?_)
        | (with_reducible refine SafeRun.safe_mono (ih5 _ _ _ ?_ ?_) ?_ ?_)
        | (with_reducible refine SafeRun.bind_call (ih1 _ ?_ ?_) ?_ ?_)
        | (with_reducible refine SafeRun.bind_call (ih4 _ _ ?_ ?_) ?_ ?_)
        | (with_reducible refine SafeRun.bind_call (ih3 _ _ ?_ ?_) ?_ ?_)
        | (with_reducible refine SafeRun.bind_consume hT ?_ (by decide) ?_)
        | (with_reducible refine SafeRun.bind_consume_current hT ?_ ?_ ?_ ?_)
        | (apply operator_token_not_last <;> assumption)
        | (with_reducible refine SafeRun.bind_currentToken ?_)
        | (with_reducible refine SafeRun.bind_look ?_ ?_ ?_)
        | (with_reducible refine SafeRun.bind_expect ?_)
        | (with_reducible refine SafeRun.bind_stoi ?_)
        | (with_reducible refine SafeRun.safe_ite ?_ ?_)
        | intro _)
    · intro p q hp hc
      rw [parseExpression]
      repeat' (first
        | assumption
        | omega
        | decide
        | (with_reducible exact SafeRun.safe_thrown _ _ _ _)
        | (with_reducible refine SafeRun.safe_ok ?_ ?_ ?_)
        | (with_reducible refine SafeRun.safe_mono (ih2 _ _ ?_ ?_) ?_ ?_)
        | (with_reducible refine SafeRun.safe_mono (ih3 _ _ ?_ ?_) ?_ ?_)
        | (with_reducible refine SafeRun.safe_mono (ih5 _ _ _ ?_ ?_) ?_ ?_)
        | (with_reducible refine SafeRun.bind_call (ih1 _ ?_ ?_) ?_ ?_)
        | (with_reducible refine SafeRun.bind_call (ih4 _ _ ?_ ?_) ?_ ?_)
        | (with_reducible refine SafeRun.bind_call (ih3 _ _ ?_ ?_) ?_ ?_)
        | (with_reducible refine SafeRun.bind_consume hT ?_ (by decide) ?_)
        | (with_reducible refine SafeRun.bind_consume_current hT ?_ ?_ ?_ ?_)
        | (apply operator_token_not_last <;> assumption)
        | (with_reducible refine SafeRun.bind_currentToken ?_)
        | (with_reducible refine SafeRun.bind_look ?_ ?_ ?_)
        | (with_reducible refine SafeRun.bind_expect ?_)
        | (with_reducible refine SafeRun.bind_stoi ?_)
        | (with_reducible refine SafeRun.safe_ite ?_ ?_)
        | intro _)
    · intro p q l hp hc
      rw [binaryOperationLoop]
      repeat' (first
        | assumption
        | omega
        | decide
        | (with_reducible exact SafeRun.safe_thrown _ _ _ _)
        | (with_reducible refine SafeRun.safe_ok ?_ ?_ ?_)
        | (with_reducible refine SafeRun.safe_mono (ih2 _ _ ?_ ?_) ?_ ?_)
        | (with_reducible refine SafeRun.safe_mono (ih3 _ _ ?_ ?_) ?_ ?_)
        | (with_reducible refine SafeRun.safe_mono (ih5 _ _ _ ?_ ?_) ?_ ?_)
        | (with_reducible refine SafeRun.bind_call (ih1 _ ?_ ?_) ?_ ?_)
        | (with_reducible refine SafeRun.bind_call (ih4 _ _ ?_ ?_) ?_ ?_)
        | (with_reducible refine SafeRun.bind_call (ih3 _ _ ?_ ?_) ?_ ?_)
        | (with_reducible refine SafeRun.bind_consume hT ?_ (by decide) ?_)
        | (with_reducible refine SafeRun.bind_consume_current hT ?_ ?_ ?_ ?_)
        | (apply operator_token_not_last <;> assumption)
        | (with_reducible refine SafeRun.bind_currentToken ?_)
        | (with_reducible refine SafeRun.bind_look ?_ ?_ ?_)
        | (with_reducible refine SafeRun.bind_expect ?_)
        | (with_reducible refine SafeRun.bind_stoi ?_)
        | (with_reducible refine SafeRun.safe_ite ?_ ?_)
        | intro _)

theorem parsePrimary_safe {T : List Token} (hT : WellTerminated T) (fuel : Nat) (p : Parser)
    (hp : p.tokens = T) (hc : p.current < T.length) :
    SafeRun T (p.current + 1) (2 * (T.length - p.current) + 1 ≤ fuel) (parsePrimary fuel p) :=
  (expression_safe hT fuel).1 p hp hc

theorem parseExpression_safe {T : List Token} (hT : WellTerminated T) (fuel : Nat) (p : Parser)
    (q : Int) (hp : p.tokens = T) (hc : p.current < T.length) :
    SafeRun T (p.current + 1) (2 * (T.length - p.current) + 2 ≤ fuel)
      (parseExpression fuel p q) :=
  (expression_safe hT fuel).2.2.2.1 p q hp hc

theorem parseAssignmentStatement_safe {T : List Token} (hT : WellTerminated T) (fuel : Nat)
    (p : Parser) (e : ASTNode) (hp : p.tokens = T) (hc : p.current < T.length) :
    SafeRun T (p.current + 1) (2 * (T.length - p.current) ≤ fuel)
      (parseAssignmentStatement fuel p e) := by
  unfold parseAssignmentStatement
  repeat' (first
    | assumption
    | omega
    | decide
    | (with_reducible exact SafeRun.safe_thrown _ _ _ _)
    | (with_reducible refine SafeRun.safe_ok ?_ ?_ ?_)
    | (with_reducible refine SafeRun.bind_call (parseExpression_safe hT _ _ _ ?_ ?_) ?_ ?_)
    | (with_reducible refine SafeRun.bind_consume hT ?_ (by decide) ?_)
    | (with_reducible refine SafeRun.bind_currentToken ?_)
    | (with_reducible refine SafeRun.bind_look ?_ ?_ ?_)
    | (with_reducible refine SafeRun.safe_ite ?_ ?_)
    | intro _)

theorem SafeRun.bind_look_consume {T : List Token} (hT : WellTerminated T) {c : Nat}
    {b : Prop} {β : Type} {q : Parser} {ty ty2 : TokenType}
    {g : Parser → Outcome (β × Parser)} (hq : q.tokens = T) (hc : q.current < T.length)
    (hty : ty2 ≠ TOK_EOF)
    (hg : ∀ q1 : Parser, q1.tokens = T → q.current ≤ q1.current → q1.current < T.length →
      SafeRun T c b (g q1)) :
    SafeRun T c b
      ((lookCurrent q ty >>= fun look => if look = true then consume q ty2 else .ok q) >>=
        g) := by
  cases ht : q.tokens[q.current]? with
  | none =>
    rw [← hq] at hc
    simp [List.getElem?_eq_none_iff] at ht
    omega
  | some t =>
    have hl : lookCurrent q ty = .ok (t.type == ty) := by simp [lookCurrent, ht]
    rw [hl, ok_bind]
    cases hlook : (t.type == ty) with
    | false =>
      simp only [Bool.false_eq_true, if_false]
      rw [ok_bind]
      exact hg q hq (Nat.le_refl _) hc
    | true =>
      simp only [if_true]
      exact SafeRun.bind_consume hT hq hty
        (fun q1 h1 h2 h3 => hg q1 h1 (by omega) h3)

theorem parseVariableDeclarationStatement_safe {T : List Token} (hT : WellTerminated T)
    (fuel : Nat) (p : Parser) (hp : p.tokens = T) (hc : p.current < T.length) :
    SafeRun T (p.current + 1) (2 * (T.length - p.current) ≤ fuel)
      (parseVariableDeclarationStatement fuel p) := by
  unfold parseVariableDeclarationStatement
  repeat' (first
    | assumption
    | omega
    | decide
    | (with_reducible exact SafeRun.safe_thrown _ _ _ _)
    | (with_reducible refine SafeRun.safe_ok ?_ ?_ ?_)
    | (with_reducible refine SafeRun.bind_call (parseExpression_safe hT _ _ _ ?_ ?_) ?_ ?_)
    | (with_reducible refine SafeRun.bind_look_consume hT ?_ ?_ (by decide) ?_)
    | (with_reducible refine SafeRun.bind_consume hT ?_ (by decide) ?_)
    | (with_reducible refine SafeRun.bind_currentToken ?_)
    | (with_reducible refine SafeRun.bind_look ?_ ?_ ?_)
    | (with_reducible refine SafeRun.safe_ite ?_ ?_)
    | intro _)

theorem parseGlobalDeclarationStatement_safe {T : List Token} (hT : WellTerminated T)
    (fuel : Nat) (p : Parser) (hp : p.tokens = T) (hc : p.current < T.length) :
    SafeRun T (p.current + 1) (2 * (T.length - p.current) ≤ fuel)
      (parseGlobalDeclarationStatement fuel p) := by
  unfold parseGlobalDeclarationStatement
  repeat' (first
    | assumption
    | omega
    | decide
    | (with_reducible exact SafeRun.safe_thrown _ _ _ _)
    | (with_reducible refine SafeRun.safe_ok ?_ ?_ ?_)
    | (with_reducible refine SafeRun.bind_call (parseExpression_safe hT _ _ _ ?_ ?_) ?_ ?_)
    | (with_reducible refine SafeRun.bind_consume hT ?_ (by decide) ?_)
    | (with_reducible refine SafeRun.bind_currentToken ?_)
    | (with_reducible refine SafeRun.bind_look ?_ ?_ ?_)
    | (with_reducible refine SafeRun.safe_ite ?_ ?_)
    | intro _)

theorem parseReturnStatement_safe {T : List Token} (hT : WellTerminated T) (fuel : Nat)
    (p : Parser) (hp : p.tokens = T) (hc : p.current < T.length) :
    SafeRun T (p.current + 1) (2 * (T.length - p.current) ≤ fuel)
      (parseReturnStatement fuel p) := by
  unfold parseReturnStatement
  repeat' (first
    | assumption
    | omega
    | decide
    | (with_reducible exact SafeRun.safe_thrown _ _ _ _)
    | (with_reducible refine SafeRun.safe_ok ?_ ?_ ?_)
    | (with_reducible refine SafeRun.bind_call (parseExpression_safe hT _ _ _ ?_ ?_) ?_ ?_)
    | (with_reducible refine SafeRun.bind_consume hT ?_ (by decide) ?_)
    | (with_reducible refine SafeRun.bind_currentToken ?_)
    | (with_reducible refine SafeRun.bind_look ?_ ?_ ?_)
    | (with_reducible refine SafeRun.safe_ite ?_ ?_)
    | intro _)

theorem SafeRun.bind_for {T : List Token} {c : Nat} {b : Prop} {β : Type} {p : Parser}
    {g : ASTNode × Parser → Outcome (β × Parser)} :
    SafeRun T c b (parseForStatement p >>= g) :=
  SafeRun.safe_thrown _ _ _ _

theorem not_eof_of_not_stop {p : Parser} {t0 t1 t : Token}
    (hc : ¬ (t0.type == TOK_EOF || t1.type == TOK_CLOSE_BRACE) = true)
    (h0 : p.tokens[p.current]? = some t0) (h : p.tokens[p.current]? = some t) :
    t.type ≠ TOK_EOF ∨ t.value ≠ [] := by
  rw [h0] at h
  cases h
  left
  intro heq
  apply hc
  simp [heq]

theorem statement_safe {T : List Token} (hT : WellTerminated T) (fuel : Nat) :
    (∀ p, p.tokens = T → p.current < T.length →
      SafeRun T (p.current + 1) (2 * (T.length - p.current) + 1 ≤ fuel)
        (parseIfStatement fuel p)) ∧
    (∀ p l, p.tokens = T → p.current < T.length →
      SafeRun T p.current (2 * (T.length - p.current) + 1 ≤ fuel) (elseifLoop fuel p l)) ∧
    (∀ p, p.tokens = T → p.current < T.length →
      SafeRun T (p.current + 1) (2 * (T.length - p.current) + 1 ≤ fuel)
        (parseWhileStatement fuel p)) ∧
    (∀ p l, p.tokens = T → p.current < T.length →
      SafeRun T p.current (2 * (T.length - p.current) + 2 ≤ fuel) (statementLoop fuel p l)) ∧
    (∀ p b, p.tokens = T → p.current < T.length →
      SafeRun T p.current (2 * (T.length - p.current) + 3 ≤ fuel)
        (parseStatement fuel p b)) := by
  induction fuel with
  | zero =>
    refine ⟨?_, ?_, ?_, ?_, ?_⟩ <;> intros <;> exact SafeRun.safe_fuel _ _ (by omega)
  | succ f ih =>
    obtain ⟨ih1, ih2, ih3, ih4, ih5⟩ := ih
    refine ⟨?_, ?_, ?_, ?_, ?_⟩
    · intro p hp hc
      rw [parseIfStatement]
      repeat' (first
        | assumption
        | omega
        | decide
        | (with_reducible exact SafeRun.safe_thrown _ _ _ _)
        | (with_reducible refine SafeRun.safe_ok ?_ ?_ ?_)
        | (with_reducible refine SafeRun.safe_mono (ih2 _ _ ?_ ?_) ?_ ?_)
        | (with_reducible refine SafeRun.safe_mono (ih4 _ _ ?_ ?_) ?_ ?_)
        | (with_reducible refine SafeRun.bind_call (parseExpression_safe hT _ _ _ ?_ ?_) ?_ ?_)
        | (with_reducible refine SafeRun.bind_call (parsePrimary_safe hT _ _ ?_ ?_) ?_ ?_)
        | (with_reducible refine SafeRun.bind_call (parseAssignmentStatement_safe hT _ _ _ ?_ ?_) ?_ ?_)
        | (with_reducible refine SafeRun.bind_call (parseVariableDeclarationStatement_safe hT _ _ ?_ ?_) ?_ ?_)
        | (with_reducible refine SafeRun.bind_call (parseGlobalDeclarationStatement_safe hT _ _ ?_ ?_) ?_ ?_)
        | (with_reducible refine SafeRun.bind_call (parseReturnStatement_safe hT _ _ ?_ ?_) ?_ ?_)
        | (with_reducible refine SafeRun.bind_call (ih1 _ ?_ ?_) ?_ ?_)
        | (with_reducible refine SafeRun.bind_call (ih2 _ _ ?_ ?_) ?_ ?_)
        | (with_reducible refine SafeRun.bind_call (ih3 _ ?_ ?_) ?_ ?_)
        | (with_reducible refine SafeRun.bind_call (ih5 _ _ ?_ ?_) ?_ ?_)
        | (with_reducible exact SafeRun.bind_for)
        | (apply not_eof_of_not_stop (by assumption) <;> assumption)
        | (with_reducible refine SafeRun.bind_consume hT ?_ (by decide) ?_)
        | (with_reducible refine SafeRun.bind_consume_current hT ?_ ?_ ?_ ?_)
        | (with_reducible refine SafeRun.bind_currentToken ?_)
        | (with_reducible refine SafeRun.bind_look ?_ ?_ ?_)
        | (with_reducible refine SafeRun.safe_ite ?_ ?_)
        | intro _)
    · intro p l hp hc
      rw [elseifLoop]
      repeat' (first
        | assumption
        | omega
        | decide
        | (with_reducible exact SafeRun.safe_thrown _ _ _ _)
        | (with_reducible refine SafeRun.safe_ok ?_ ?_ ?_)
        | (with_reducible refine SafeRun.safe_mono (ih2 _ _ ?_ ?_) ?_ ?_)
        | (with_reducible refine SafeRun.safe_mono (ih4 _ _ ?_ ?_) ?_ ?_)
        | (with_reducible refine SafeRun.bind_call (parseExpression_safe hT _ _ _ ?_ ?_) ?_ ?_)
        | (with_reducible refine SafeRun.bind_call (parsePrimary_safe hT _ _ ?_ ?_) ?_ ?_)
        | (with_reducible refine SafeRun.bind_call (parseAssignmentStatement_safe hT _ _ _ ?_ ?_) ?_ ?_)
        | (with_reducible refine SafeRun.bind_call (parseVariableDeclarationStatement_safe hT _ _ ?_ ?_) ?_ ?_)
        | (with_reducible refine SafeRun.bind_call (parseGlobalDeclarationStatement_safe hT _ _ ?_ ?_) ?_ ?_)
        | (with_reducible refine SafeRun.bind_call (parseReturnStatement_safe hT _ _ ?_ ?_) ?_ ?_)
        | (with_reducible refine SafeRun.bind_call (ih1 _ ?_ ?_) ?_ ?_)
        | (with_reducible refine SafeRun.bind_call (ih2 _ _ ?_ ?_) ?_ ?_)
        | (with_reducible refine SafeRun.bind_call (ih3 _ ?_ ?_) ?_ ?_)
        | (with_reducible refine SafeRun.bind_call (ih5 _ _ ?_ ?_) ?_ ?_)
        | (with_reducible exact SafeRun.bind_for)
        | (apply not_eof_of_not_stop (by assumption) <;> assumption)
        | (with_reducible refine SafeRun.bind_consume hT ?_ (by decide) ?_)
        | (with_reducible refine SafeRun.bind_consume_current hT ?_ ?_ ?_ ?_)
        | (with_reducible refine SafeRun.bind_currentToken ?_)
        | (with_reducible refine SafeRun.bind_look ?_ ?_ ?_)
        | (with_reducible refine SafeRun.safe_ite ?_ ?_)
        | intro _)
    · intro p hp hc
      rw [parseWhileStatement]
      repeat' (first
        | assumption
        | omega
        | decide
        | (with_reducible exact SafeRun.safe_thrown _ _ _ _)
        | (with_reducible refine SafeRun.safe_ok ?_ ?_ ?_)
        | (with_reducible refine SafeRun.safe_mono (ih2 _ _ ?_ ?_) ?_ ?_)
        | (with_reducible refine SafeRun.safe_mono (ih4 _ _ ?_ ?_) ?_ ?_)
        | (with_reducible refine SafeRun.bind_call (parseExpression_safe hT _ _ _ ?_ ?_) ?_ ?_)
        | (with_reducible refine SafeRun.bind_call (parsePrimary_safe hT _ _ ?_ ?_) ?_ ?_)
        | (with_reducible refine SafeRun.bind_call (parseAssignmentStatement_safe hT _ _ _ ?_ ?_) ?_ ?_)
        | (with_reducible refine SafeRun.bind_call (parseVariableDeclarationStatement_safe hT _ _ ?_ ?_) ?_ ?_)
        | (with_reducible refine SafeRun.bind_call (parseGlobalDeclarationStatement_safe hT _ _ ?_ ?_) ?_ ?_)
        | (with_reducible refine SafeRun.bind_call (parseReturnStatement_safe hT _ _ ?_ ?_) ?_ ?_)
        | (with_reducible refine SafeRun.bind_call (ih1 _ ?_ ?_) ?_ ?_)
        | (with_reducible refine SafeRun.bind_call (ih2 _ _ ?_ ?_) ?_ ?_)
        | (with_reducible refine SafeRun.bind_call (ih3 _ ?_ ?_) ?_ ?_)
        | (with_reducible refine SafeRun.bind_call (ih5 _ _ ?_ ?_) ?_ ?_)
        | (with_reducible exact SafeRun.bind_for)
        | (apply not_eof_of_not_stop (by assumption) <;> assumption)
        | (with_reducible refine SafeRun.bind_consume hT ?_ (by decide) ?_)
        | (with_reducible refine SafeRun.bind_consume_current hT ?_ ?_ ?_ ?_)
        | (with_reducible refine SafeRun.bind_currentToken ?_)
        | (with_reducible refine SafeRun.bind_look ?_ ?_ ?_)
        | (with_reducible refine SafeRun.safe_ite ?_ ?_)
        | intro _)
    · intro p l hp hc
      rw [statementLoop]
      repeat' (first
        | assumption
        | omega
        | decide
        | (with_reducible exact SafeRun.safe_thrown _ _ _ _)
        | (with_reducible refine SafeRun.safe_ok ?_ ?_ ?_)
        | (with_reducible refine SafeRun.safe_mono (ih2 _ _ ?_ ?_) ?_ ?_)
        | (with_reducible refine SafeRun.safe_mono (ih4 _ _ ?_ ?_) ?_ ?_)
        | (with_reducible refine SafeRun.bind_call (parseExpression_safe hT _ _ _ ?_ ?_) ?_ ?_)
        | (with_reducible refine SafeRun.bind_call (parsePrimary_safe hT _ _ ?_ ?_) ?_ ?_)
        | (with_reducible refine SafeRun.bind_call (parseAssignmentStatement_safe hT _ _ _ ?_ ?_) ?_ ?_)
        | (with_reducible refine SafeRun.bind_call (parseVariableDeclarationStatement_safe hT _ _ ?_ ?_) ?_ ?_)
        | (with_reducible refine SafeRun.bind_call (parseGlobalDeclarationStatement_safe hT _ _ ?_ ?_) ?_ ?_)
        | (with_reducible refine SafeRun.bind_call (parseReturnStatement_safe hT _ _ ?_ ?_) ?_ ?_)
        | (with_reducible refine SafeRun.bind_call (ih1 _ ?_ ?_) ?_ ?_)
        | (with_reducible refine SafeRun.bind_call (ih2 _ _ ?_ ?_) ?_ ?_)
        | (with_reducible refine SafeRun.bind_call (ih3 _ ?_ ?_) ?_ ?_)
        | (with_reducible refine SafeRun.bind_call (ih5 _ _ ?_ ?_) ?_ ?_)
        | (with_reducible exact SafeRun.bind_for)
        | (apply not_eof_of_not_stop (by assumption) <;> assumption)
        | (with_reducible refine SafeRun.bind_consume hT ?_ (by decide) ?_)
        | (with_reducible refine SafeRun.bind_consume_current hT ?_ ?_ ?_ ?_)
        | (with_reducible refine SafeRun.bind_currentToken ?_)
        | (with_reducible refine SafeRun.bind_look ?_ ?_ ?_)
        | (with_reducible refine SafeRun.safe_ite ?_ ?_)
        | intro _)
    · intro p b hp hc
      rw [parseStatement]
      cases b with
      | true =>
        simp only [if_true]
        refine SafeRun.bind_call (ih4 p [] hp hc) (fun _ => by omega) (fun a q h1 h2 h3 => ?_)
        refine SafeRun.safe_ite (fun _ => ?_) (fun _ => ?_)
        · exact SafeRun.safe_ok h1 h2 h3
        · exact SafeRun.safe_ok h1 h2 h3
      | false =>
        simp only [Bool.false_eq_true, if_false]
        rw [ok_bind]
        refine SafeRun.safe_ite (fun _ => ?_) (fun _ => ?_)
        · exact SafeRun.safe_ok hp (Nat.le_refl _) hc
        · exact SafeRun.safe_ok hp (Nat.le_refl _) hc

/-! ## C21: the cursor stays within the token vector -/

theorem statementLoop_safe {T : List Token} (hT : WellTerminated T) (fuel : Nat) (p : Parser)
    (l : List ASTNode) (hp : p.tokens = T) (hc : p.current < T.length) :
    SafeRun T p.current (2 * (T.length - p.current) + 2 ≤ fuel) (statementLoop fuel p l) :=
  (statement_safe hT fuel).2.2.2.1 p l hp hc

theorem parseStatement_safe {T : List Token} (hT : WellTerminated T) (fuel : Nat) (p : Parser)
    (b : Bool) (hp : p.tokens = T) (hc : p.current < T.length) :
    SafeRun T p.current (2 * (T.length - p.current) + 3 ≤ fuel) (parseStatement fuel p b) :=
  (statement_safe hT fuel).2.2.2.2 p b hp hc

theorem SafeRun.of_ok {T : List Token} {c : Nat} {b : Prop} {α : Type}
    {r : Outcome (α × Parser)} (h : SafeRun T c b r) {a : α} {q : Parser} (hr : r = .ok (a, q)) :
    q.tokens = T ∧ c ≤ q.current ∧ q.current < T.length := by
  subst hr
  exact h

theorem SafeRun.not_outOfFuel {T : List Token} {c : Nat} {b : Prop} {α : Type}
    {r : Outcome (α × Parser)} (h : SafeRun T c b r) (hb : b) : r ≠ .error .outOfFuel := by
  intro hr
  subst hr
  exact h.2 hb rfl

theorem expect_thrown_of_currentToken {p : Parser} {t : Token} (h : currentToken p = .ok t)
    {ty : TokenType} (hty : t.type ≠ ty) :
    expect p ty = .error (.thrown (.unexpectedToken t.type ty t.position t.value)) := by
  simp [expect, h, hty]

/-! ## C23: literals -/

theorem stoi_digits_out_of_range {digits : List Char} (hne : digits ≠ [])
    (hdigits : ∀ c ∈ digits, isdigit c = true) (hrange : 2147483647 < digitsValue digits) :
    stoi digits = .error (.thrown .stoiOutOfRange) := by
  obtain ⟨d, ds, rfl⟩ := List.exists_cons_of_ne_nil hne
  have hd : isdigit d = true := hdigits d (List.mem_cons_self _ _)
  have hsp : isspace d = false := isdigit_not_isspace hd
  have hminus : d ≠ '-' := by
    intro h; rw [h] at hd; exact absurd hd (by decide)
  have hplus : d ≠ '+' := by
    intro h; rw [h] at hd; exact absurd hd (by decide)
  have htake : List.takeWhile isdigit (d :: ds) = d :: ds := by
    rw [List.takeWhile_eq_self_iff]
    exact hdigits
  have hmax : (2147483647 < (digitsValue (d :: ds) : Int)) := by omega
  simp only [stoi, List.dropWhile_cons, hsp, List.head?_cons, Option.some.injEq, hminus, hplus,
    or_self, if_false, htake, List.isEmpty_cons, Bool.false_eq_true, decide_False, hmax,
    or_true, if_true]

theorem digitsValue_append (digits : List Char) (c : Char) :
    digitsValue (digits ++ [c]) = 10 * digitsValue digits + (c.toNat - 48) := by
  simp [digitsValue, List.foldl_append]

theorem digitsValue_leading_zero (digits : List Char) :
    digitsValue ('0' :: digits) = digitsValue digits := by
  rfl

/-- C23: with the cursor on a number token whose text is a non-empty run of
decimal digits, `parsePrimary` consumes exactly that token and returns
`Literal(number, n)` with `n` the base-10 value of the digits when that value
is at most `2^31 - 1 = 2147483647`, and fails with the out-of-range exception
of `std::stoi` when it is larger; the value of a digit run is the positional
base-10 value, on which a leading zero has no effect. On a string, `true` or
`false` token it consumes the token and returns `Literal(string, text)` (the
token text, quotes included), `Literal(true, true)` and `Literal(false,
false)`. -/
theorem C23_literals (fuel : Nat) (p : Parser) (t : Token) (ht : currentToken p = .ok t) :
    (t.type = TOK_NUMBER → t.value ≠ [] → (∀ c ∈ t.value, isdigit c = true) →
      (digitsValue t.value ≤ 2147483647 →
        parsePrimary (fuel + 1) p =
          .ok (.Literal LITERAL_NUMBER (.Number (digitsValue t.value)), p.advance 1)) ∧
      (2147483647 < digitsValue t.value →
        parsePrimary (fuel + 1) p = .error (.thrown .stoiOutOfRange))) ∧
    (∀ (digits : List Char) (c : Char),
      digitsValue [] = 0 ∧
      digitsValue (digits ++ [c]) = 10 * digitsValue digits + (c.toNat - 48) ∧
      digitsValue ('0' :: digits) = digitsValue digits) ∧
    (t.type = TOK_STRING →
      parsePrimary (fuel + 1) p =
        .ok (.Literal LITERAL_STRING (.String t.value), p.advance 1)) ∧
    (t.type = TOK_TRUE →
      parsePrimary (fuel + 1) p =
        .ok (.Literal LITERAL_TRUE (.Boolean true), p.advance 1)) ∧
    (t.type = TOK_FALSE →
      parsePrimary (fuel + 1) p =
        .ok (.Literal LITERAL_FALSE (.Boolean false), p.advance 1)) := by
  refine ⟨?_, ?_, ?_, ?_, ?_⟩
  · intro hty hne hdigits
    refine ⟨?_, ?_⟩
    · intro hrange
      rw [parsePrimary]
      simp only [ht, bind, Except.bind, hty, stoi_digits hne hdigits hrange,
        consume_of_currentToken ht hty]
      rfl
    · intro hrange
      rw [parsePrimary]
      simp only [ht, bind, Except.bind, hty, stoi_digits_out_of_range hne hdigits hrange]
      rfl
  · intro digits c
    exact ⟨rfl, digitsValue_append digits c, digitsValue_leading_zero digits⟩
  · intro hty
    rw [parsePrimary]
    simp only [ht, bind, Except.bind, hty, consume_of_currentToken ht hty]
    rfl
  · intro hty
    rw [parsePrimary]
    simp only [ht, bind, Except.bind, hty, consume_of_currentToken ht hty]
    rfl
  · intro hty
    rw [parsePrimary]
    simp only [ht, bind, Except.bind, hty, consume_of_currentToken ht hty]
    rfl

/-- C23 at the tokens of `007`, of `2147483647`, of `2147483648` and of a
string. -/
theorem C23_literals_witness :
    parsePrimary 1 ⟨tokenize "007".toList, 0⟩ =
      .ok (.Literal LITERAL_NUMBER (.Number 7), (Parser.mk (tokenize "007".toList) 0).advance 1) ∧
    parsePrimary 1 ⟨tokenize "2147483647".toList, 0⟩ =
      .ok (.Literal LITERAL_NUMBER (.Number 2147483647),
        (Parser.mk (tokenize "2147483647".toList) 0).advance 1) ∧
    parsePrimary 1 ⟨tokenize "2147483648".toList, 0⟩ = .error (.thrown .stoiOutOfRange) ∧
    parsePrimary 1 ⟨tokenize (dquote :: 'h' :: 'i' :: [dquote]), 0⟩ =
      .ok (.Literal LITERAL_STRING (.String (dquote :: 'h' :: 'i' :: [dquote])),
        (Parser.mk (tokenize (dquote :: 'h' :: 'i' :: [dquote])) 0).advance 1) :=
  ⟨((C23_literals 0 ⟨tokenize "007".toList, 0⟩ ⟨"007".toList, TOK_NUMBER, 3⟩ (by rfl)).1 rfl
      (by decide) (by decide)).1 (by decide),
    ((C23_literals 0 ⟨tokenize "2147483647".toList, 0⟩ ⟨"2147483647".toList, TOK_NUMBER, 10⟩
      (by rfl)).1 rfl (by decide) (by decide)).1 (by decide),
    ((C23_literals 0 ⟨tokenize "2147483648".toList, 0⟩ ⟨"2147483648".toList, TOK_NUMBER, 10⟩
      (by rfl)).1 rfl (by decide) (by decide)).2 (by decide),
    (C23_literals 0 ⟨tokenize (dquote :: 'h' :: 'i' :: [dquote]), 0⟩
      ⟨dquote :: 'h' :: 'i' :: [dquote], TOK_STRING, 3⟩ (by rfl)).2.2.1 rfl⟩

/-! ## C24: the demonstration program -/

set_option maxRecDepth 100000 in
set_option maxHeartbeats 4000000 in
theorem tokenize_demoSource : tokenize demoSource = demoTokens := by
  decide

theorem demo_declaration :
    parseVariableDeclarationStatement 8 ⟨demoTokens, 0⟩ =
      .ok (.VariableDeclaration "proje".toList
          (.BinaryOperation
            (.BinaryOperation (.Literal LITERAL_NUMBER (.Number 1)) TOK_ADDITION
              (.Literal LITERAL_NUMBER (.Number 2)))
            TOK_MULTIPLICATION (.Literal LITERAL_NUMBER (.Number 3))),
        ⟨demoTokens, 11⟩) := by
  rfl

theorem demo_while :
    parseWhileStatement 8 ⟨demoTokens, 11⟩ =
      .ok (.While (.Literal LITERAL_TRUE (.Boolean true))
          (.Block
            [.Assignment (.Variable "proje".toList)
              (.BinaryOperation (.Variable "proje".toList) TOK_ADDITION
                (.Literal LITERAL_NUMBER (.Number 1))),
             .Break]), ⟨demoTokens, 25⟩) := by
  rfl

theorem demo_return :
    parseReturnStatement 7 ⟨demoTokens, 25⟩ =
      .ok (.Return (.Literal LITERAL_NUMBER (.Number 0)), ⟨demoTokens, 28⟩) := by
  rfl

theorem demo_statements :
    parseStatement 11 ⟨demoTokens, 0⟩ true =
      .ok (.Block
        [.VariableDeclaration "proje".toList
          (.BinaryOperation
            (.BinaryOperation (.Literal LITERAL_NUMBER (.Number 1)) TOK_ADDITION
              (.Literal LITERAL_NUMBER (.Number 2)))
            TOK_MULTIPLICATION (.Literal LITERAL_NUMBER (.Number 3))),
         .While (.Literal LITERAL_TRUE (.Boolean true))
          (.Block
            [.Assignment (.Variable "proje".toList)
              (.BinaryOperation (.Variable "proje".toList) TOK_ADDITION
                (.Literal LITERAL_NUMBER (.Number 1))),
             .Break]),
         .Return (.Literal LITERAL_NUMBER (.Number 0))], ⟨demoTokens, 28⟩) := by
  apply parseStatement_of_statementLoop 10 ⟨demoTokens, 0⟩ ⟨demoTokens, 28⟩
  have h0 : lookCurrent ⟨demoTokens, 0⟩ TOK_VAR = .ok true := rfl
  have h11 : lookCurrent ⟨demoTokens, 11⟩ TOK_WHILE_STATEMENT = .ok true := rfl
  have h25 : lookCurrent ⟨demoTokens, 25⟩ TOK_RETURN_STATEMENT = .ok true := rfl
  have h28 : lookCurrent ⟨demoTokens, 28⟩ TOK_EOF = .ok true := rfl
  rw [statementLoop_var 9 ⟨demoTokens, 0⟩ [] h0,
    (parseVariableDeclarationStatement_fuel (by decide : 8 ≤ 9) _).ok demo_declaration, ok_bind,
    statementLoop_while 8 ⟨demoTokens, 11⟩ _ h11,
    (parseWhileStatement_fuel (by decide : 8 ≤ 8) _).ok demo_while, ok_bind,
    statementLoop_return 7 ⟨demoTokens, 25⟩ _ h25,
    (parseReturnStatement_fuel (by decide : 7 ≤ 7) _).ok demo_return, ok_bind,
    statementLoop_stop 6 ⟨demoTokens, 28⟩ _ (Or.inl h28)]
  rfl


/-- C24: on the source text of `main`, `parse` succeeds under every recursion
budget of at least 12 and returns exactly one root, the Block of the three
statements `VariableDeclaration(proje, (1 + 2) * 3)`,
`While(true, Block[Assignment(proje, proje + 1), Break])` and `Return(0)`, in
that order. -/
theorem C24_demo_program (fuel : Nat) :
    demoSource =
      "var proje = (1 + 2) * 3; while (true) \x7b proje = proje + 1; break; \x7d return 0;".toList ∧
    parse (fuel + 12) (tokenize demoSource) =
      .ok [.Block
        [.VariableDeclaration "proje".toList
          (.BinaryOperation
            (.BinaryOperation (.Literal LITERAL_NUMBER (.Number 1)) TOK_ADDITION
              (.Literal LITERAL_NUMBER (.Number 2)))
            TOK_MULTIPLICATION (.Literal LITERAL_NUMBER (.Number 3))),
         .While (.Literal LITERAL_TRUE (.Boolean true))
          (.Block
            [.Assignment (.Variable "proje".toList)
              (.BinaryOperation (.Variable "proje".toList) TOK_ADDITION
                (.Literal LITERAL_NUMBER (.Number 1))),
             .Break]),
         .Return (.Literal LITERAL_NUMBER (.Number 0))]] := by
  refine ⟨rfl, (parse_fuel (Nat.le_add_left 12 fuel) _).ok ?_⟩
  have hlen : demoTokens.length = 29 := rfl
  have hsize : sizeMinusOne demoTokens.length = 28 := by
    rw [hlen]
    exact sizeMinusOne_eq (by decide) (by decide)
  rw [tokenize_demoSource, parse,
    parseLoop_step 11 ⟨demoTokens, 0⟩ [] (by rw [hsize]; decide), demo_statements, ok_bind,
    parseLoop_exit 10 ⟨demoTokens, 28⟩ _ (by rw [hsize]; decide)]
  rfl
/-! ## C25: tokenization loses nothing but whitespace -/

theorem tokenTexts_append (a b : List Token) : tokenTexts (a ++ b) = tokenTexts a ++ tokenTexts b := by
  induction a with
  | nil => rfl
  | cons t ts ih => simp only [tokenTexts, List.cons_append, List.foldr_cons, List.append_assoc] at ih ⊢; rw [ih]

theorem tokenTexts_singleton (t : Token) : tokenTexts [t] = t.value := by
  simp [tokenTexts]

theorem flushWord_content (st : TokState) (i : Nat) :
    (flushWord st i).content = st.content ∧ (flushWord st i).insideString = st.insideString := by
  unfold flushWord
  split
  · exact ⟨rfl, rfl⟩
  · simp [TokState.content, tokenTexts_append, tokenTexts_singleton]

theorem emplace_back_content (st : TokState) (v : List Char) (ty : TokenType) (i : Nat)
    (h : st.currentWord = []) :
    (st.emplace_back v ty i).content = st.content ++ v := by
  simp [TokState.content, TokState.emplace_back, tokenTexts_append, tokenTexts_singleton, h]

theorem flushWord_currentWord (st : TokState) (i : Nat) : (flushWord st i).currentWord = [] := by
  unfold flushWord
  split
  · rename_i h
    simpa using h
  · rfl

theorem twoCharOperator_not_space :
    ∀ x ∈ twoCharOperatorTable.map Prod.fst, ∀ c ∈ x, isspace c = false := by
  decide

theorem withoutWhitespace_cons (c : Char) (rest : List Char) :
    withoutWhitespace (c :: rest) =
      (if isspace c = true then [] else [c]) ++ withoutWhitespace rest := by
  unfold withoutWhitespace
  cases h : isspace c <;> simp [List.filter_cons, h]

/-- One iteration outside a string on a character that is no quote: the
content grows by the characters read, whitespace left out. -/
theorem tokenizeStep_content {ch : Char} (hq : isQuote ch = false) (next : Option Char)
    (i : Nat) {st : TokState} (hst : st.insideString = false) :
    (tokenizeStep ch next i st).1.insideString = false ∧
    ((tokenizeStep ch next i st).2 = false →
      (tokenizeStep ch next i st).1.content =
        st.content ++ (if isspace ch = true then [] else [ch])) ∧
    ((tokenizeStep ch next i st).2 = true →
      ∃ d, next = some d ∧ isspace ch = false ∧ isspace d = false ∧
        (tokenizeStep ch next i st).1.content = st.content ++ [ch, d]) := by
  simp only [isQuote, decide_eq_false_iff_not] at hq
  obtain ⟨hfc, hfi⟩ := flushWord_content st i
  have hfw := flushWord_currentWord st i
  have hft : tokenTexts (flushWord st i).tokens = st.content := by
    rw [← hfc, TokState.content, hfw, List.append_nil]
  rw [hst] at hfi
  cases hsp : isspace ch with
  | true =>
    simp [tokenizeStep, hq, hst, hsp, hfc, hfi]
  | false =>
    by_cases hw : isalnum ch = true ∨ ch = '_'
    · simp [tokenizeStep, hq, hst, hsp, hw, TokState.content]
    · cases hp : punctuationType ch with
      | some ty =>
        simp [tokenizeStep, hq, hst, hsp, hw, hp, TokState.content, TokState.emplace_back,
          tokenTexts_append, tokenTexts_singleton, hfw, hft, hfi]
      | none =>
        cases next with
        | none =>
          simp [tokenizeStep, hq, hst, hsp, hw, hp, TokState.content, TokState.emplace_back,
            tokenTexts_append, tokenTexts_singleton, hfw, hft, hfi]
        | some d =>
          by_cases hop : getOperatorType [ch, d] = TOK_UNKNOWN
          · simp [tokenizeStep, hq, hst, hsp, hw, hp, hop, TokState.content,
              TokState.emplace_back, tokenTexts_append, tokenTexts_singleton, hfw, hft, hfi]
          · have hmem : [ch, d] ∈ twoCharOperatorTable.map Prod.fst := by
              by_contra hnot
              exact hop (getOperatorType_two hnot)
            have hd : isspace d = false := twoCharOperator_not_space _ hmem d (by simp)
            simp [tokenizeStep, hq, hst, hsp, hw, hp, hop, TokState.content,
              TokState.emplace_back, tokenTexts_append, tokenTexts_singleton, hfw, hft, hfi, hd]

theorem tokenizeLoop_content (src : List Char) (i : Nat) (st : TokState) :
    (∀ c ∈ src, isQuote c = false) → st.insideString = false →
    (tokenizeLoop src i st).insideString = false ∧
    (tokenizeLoop src i st).content = st.content ++ withoutWhitespace src := by
  induction src, i, st using tokenizeLoop.induct with
  | case1 i st =>
    intro _ hst
    simp [tokenizeLoop, hst, withoutWhitespace]
  | case2 ch i st =>
    intro hsrc hst
    obtain ⟨h1, h2, -⟩ := tokenizeStep_content (hsrc ch (by simp)) none i hst
    simp only [tokenizeLoop]
    refine ⟨h1, ?_⟩
    rw [h2 (tokenizeStep_none_snd ch i st), withoutWhitespace_cons]
    simp [withoutWhitespace]
  | case3 ch nextChar rest i st hskip ih =>
    intro hsrc hst
    obtain ⟨h1, -, h3⟩ := tokenizeStep_content (hsrc ch (by simp)) (some nextChar) i hst
    obtain ⟨d, hd, hsp, hspd, hcontent⟩ := h3 hskip
    cases hd
    obtain ⟨ih1, ih2⟩ := ih (fun c hc => hsrc c (by simp [hc])) h1
    simp only [tokenizeLoop, hskip, if_true]
    refine ⟨ih1, ?_⟩
    rw [ih2, hcontent, withoutWhitespace_cons, withoutWhitespace_cons]
    simp [hsp, hspd]
  | case4 ch nextChar rest i st hskip ih =>
    intro hsrc hst
    obtain ⟨h1, h2, -⟩ := tokenizeStep_content (hsrc ch (by simp)) (some nextChar) i hst
    have hfalse : (tokenizeStep ch (some nextChar) i st).2 = false := by simpa using hskip
    obtain ⟨ih1, ih2⟩ := ih (fun c hc => hsrc c (by simp [hc])) h1
    simp only [tokenizeLoop, hfalse, Bool.false_eq_true, if_false]
    refine ⟨ih1, ?_⟩
    rw [ih2, h2 hfalse]
    simp only [withoutWhitespace_cons, List.append_assoc]

/-- C25: for every source text without a quote character, the texts of the
tokens of `tokenize`, concatenated in order, are the source text with its
whitespace characters removed. -/
theorem C25_tokens_keep_text (sourceCode : List Char)
    (h : ∀ c ∈ sourceCode, isQuote c = false) :
    tokenTexts (tokenize sourceCode) = withoutWhitespace sourceCode ∧
    (tokenize sourceCode).foldr (fun t rest => t.value ++ rest) [] =
      sourceCode.filter (fun c => !isspace c) := by
  have hmain : tokenTexts (tokenize sourceCode) = withoutWhitespace sourceCode := by
    obtain ⟨-, hc⟩ := tokenizeLoop_content sourceCode 0 ⟨[], [], false, []⟩ h rfl
    obtain ⟨hfc, -⟩ :=
      flushWord_content (tokenizeLoop sourceCode 0 ⟨[], [], false, []⟩) sourceCode.length
    have hfw :=
      flushWord_currentWord (tokenizeLoop sourceCode 0 ⟨[], [], false, []⟩) sourceCode.length
    rw [hc, TokState.content, hfw, List.append_nil] at hfc
    simp only [tokenize, tokenTexts_append, tokenTexts_singleton, List.append_nil, hfc]
    rfl
  exact ⟨hmain, hmain⟩

/-- C25 at `a += b1 ;`. -/
theorem C25_tokens_keep_text_witness :
    (∀ c ∈ "a += b1 ;".toList, isQuote c = false) ∧
    tokenTexts (tokenize "a += b1 ;".toList) = "a+=b1;".toList :=
  ⟨by decide, (C25_tokens_keep_text "a += b1 ;".toList (by decide)).1⟩

/-! ## C26: a closing brace at top level -/

/-- C26: when the cursor is on a closing-brace token, `parseStatement(true)`
returns `Block[Empty]` and leaves the cursor where it is; hence the top-level
loop of `parse`, entered on a closing brace that is not the last token, gets
the same state back from each call and never ends: under every recursion
budget the run exhausts the budget, so it neither returns nor fails. This is
the case for a closing brace in the tokens of any source text (the last token
being the end-of-input token), and for `parse` itself when the first token is
a closing brace. -/
theorem C26_close_brace_at_top_level (p : Parser)
    (h : lookCurrent p TOK_CLOSE_BRACE = .ok true) :
    (∀ fuel, parseStatement (fuel + 2) p true = .ok (.Block [.Empty], p)) ∧
    (p.current < sizeMinusOne p.tokens.length →
      ∀ fuel statements, parseLoop fuel p statements = .error .outOfFuel) ∧
    (∀ sourceCode : List Char, p.tokens = tokenize sourceCode →
      p.tokens.length < 18446744073709551616 →
      (∀ fuel statements, parseLoop fuel p statements = .error .outOfFuel) ∧
      (p.current = 0 → ∀ fuel, parse fuel (tokenize sourceCode) = .error .outOfFuel)) := by
  refine ⟨fun fuel => parseStatement_close_brace fuel p h, parseLoop_close_brace p h, ?_⟩
  intro sourceCode htok hlen
  have hT : WellTerminated p.tokens := htok ▸ tokenize_wellTerminated sourceCode
  obtain ⟨t, ht, hty⟩ := lookCurrent_eq_true h
  have hnot := hT.not_last_of_type ht (by rw [hty]; decide)
  have hcur : p.current < sizeMinusOne p.tokens.length := by
    rw [sizeMinusOne_eq hT.length_pos hlen]
    omega
  refine ⟨parseLoop_close_brace p h hcur, ?_⟩
  intro h0 fuel
  have hp : (⟨tokenize sourceCode, 0⟩ : Parser) = p := by
    cases p
    simp only [Parser.mk.injEq] at htok h0 ⊢
    exact ⟨htok.symm, h0.symm⟩
  rw [parse, hp, parseLoop_close_brace p h hcur]
  rfl

/-- C26 at the tokens of `}`. -/
theorem C26_close_brace_at_top_level_witness :
    parseStatement 2 ⟨tokenize ['\x7d'], 0⟩ true = .ok (.Block [.Empty], ⟨tokenize ['\x7d'], 0⟩) ∧
    ∀ fuel, parse fuel (tokenize ['\x7d']) = .error .outOfFuel :=
  ⟨(C26_close_brace_at_top_level ⟨tokenize ['\x7d'], 0⟩ (by rfl)).1 0,
    ((C26_close_brace_at_top_level ⟨tokenize ['\x7d'], 0⟩ (by rfl)).2.2 ['\x7d'] rfl
      (by decide)).2 rfl⟩

/-! ## C27: termination -/

theorem LoopStep.step_exit {T : List Token} {p : Parser} {α : Type} {acc : α}
    {loop : Parser → α → Outcome (α × Parser)} : LoopStep T p acc loop (.ok (acc, p)) :=
  Or.inl rfl

theorem LoopStep.step_error {T : List Token} {p : Parser} {α : Type} {acc : α}
    {loop : Parser → α → Outcome (α × Parser)} (e : Failure) :
    LoopStep T p acc loop (.error e) :=
  Or.inr (Or.inl ⟨e, rfl⟩)

theorem LoopStep.step_loop {T : List Token} {p : Parser} {α : Type} {acc : α}
    {loop : Parser → α → Outcome (α × Parser)} {q : Parser} {acc1 : α}
    (h1 : q.tokens = T) (h2 : p.current < q.current) (h3 : q.current < T.length) :
    LoopStep T p acc loop (loop q acc1) :=
  Or.inr (Or.inr ⟨q, acc1, h1, h2, h3, rfl⟩)

theorem LoopStep.step_bind {T : List Token} {p : Parser} {α β : Type} {acc : α}
    {loop : Parser → α → Outcome (α × Parser)} {x : Outcome β}
    {g : β → Outcome (α × Parser)} (hg : ∀ a, x = .ok a → LoopStep T p acc loop (g a)) :
    LoopStep T p acc loop (x >>= g) := by
  cases x with
  | error e => exact LoopStep.step_error e
  | ok a => exact hg a rfl

theorem LoopStep.step_call {T : List Token} {p : Parser} {α β : Type} {acc : α}
    {loop : Parser → α → Outcome (α × Parser)} {c1 : Nat} {b1 : Prop}
    {x : Outcome (β × Parser)} {g : β × Parser → Outcome (α × Parser)}
    (hx : SafeRun T c1 b1 x)
    (hg : ∀ a q, q.tokens = T → c1 ≤ q.current → q.current < T.length →
      LoopStep T p acc loop (g (a, q))) :
    LoopStep T p acc loop (x >>= g) := by
  cases x with
  | error e => exact LoopStep.step_error e
  | ok v => exact hg v.1 v.2 hx.1 hx.2.1 hx.2.2

theorem LoopStep.step_consume {T : List Token} (hT : WellTerminated T) {p0 : Parser}
    {α : Type} {acc : α} {loop : Parser → α → Outcome (α × Parser)} {p : Parser}
    {ty : TokenType} {g : Parser → Outcome (α × Parser)}
    (hp : p.tokens = T) (hty : ty ≠ TOK_EOF)
    (hg : ∀ q : Parser, q.tokens = T → q.current = p.current + 1 → q.current < T.length →
      LoopStep T p0 acc loop (g q)) :
    LoopStep T p0 acc loop (consume p ty >>= g) := by
  unfold consume currentToken
  cases ht : p.tokens[p.current]? with
  | none => exact LoopStep.step_error _
  | some t =>
    simp only []
    split
    · exact LoopStep.step_error _
    · rename_i heq
      have heq2 : t.type = ty := by simpa using heq
      rw [hp] at ht
      exact hg _ hp rfl (hT.not_last_of_type ht (by rw [heq2]; exact hty))

theorem LoopStep.step_consume_current {T : List Token} (hT : WellTerminated T) {p0 : Parser}
    {α : Type} {acc : α} {loop : Parser → α → Outcome (α × Parser)} {p : Parser} {t : Token}
    {g : Parser → Outcome (α × Parser)}
    (hp : p.tokens = T) (ht : p.tokens[p.current]? = some t)
    (hnot : t.type ≠ TOK_EOF ∨ t.value ≠ [])
    (hg : ∀ q : Parser, q.tokens = T → q.current = p.current + 1 → q.current < T.length →
      LoopStep T p0 acc loop (g q)) :
    LoopStep T p0 acc loop (consume p t.type >>= g) := by
  have hc : consume p t.type = .ok ⟨p.tokens, p.current + 1⟩ := by
    simp [consume, currentToken, ht]
  rw [hc]
  rw [hp] at ht
  refine hg _ hp rfl ?_
  rcases hnot with h | h
  · exact hT.not_last_of_type ht h
  · exact hT.not_last_of_value ht h

theorem LoopStep.step_currentToken {T : List Token} {p0 : Parser} {α : Type} {acc : α}
    {loop : Parser → α → Outcome (α × Parser)} {p : Parser}
    {g : Token → Outcome (α × Parser)}
    (hg : ∀ t, p.tokens[p.current]? = some t → LoopStep T p0 acc loop (g t)) :
    LoopStep T p0 acc loop (currentToken p >>= g) := by
  unfold currentToken
  cases ht : p.tokens[p.current]? with
  | none => exact LoopStep.step_error _
  | some t => exact hg t ht

theorem LoopStep.step_look {T : List Token} {p0 : Parser} {α : Type} {acc : α}
    {loop : Parser → α → Outcome (α × Parser)} {p : Parser} {ty : TokenType}
    {g : Bool → Outcome (α × Parser)}
    (hg : ∀ t, p.tokens[p.current]? = some t → LoopStep T p0 acc loop (g (t.type == ty))) :
    LoopStep T p0 acc loop (lookCurrent p ty >>= g) := by
  unfold lookCurrent
  cases ht : p.tokens[p.current]? with
  | none => exact LoopStep.step_error _
  | some t => exact hg t ht

theorem LoopStep.step_expect {T : List Token} {p0 : Parser} {α : Type} {acc : α}
    {loop : Parser → α → Outcome (α × Parser)} {p : Parser} {ty : TokenType}
    {g : Unit → Outcome (α × Parser)} (hg : LoopStep T p0 acc loop (g ())) :
    LoopStep T p0 acc loop (expect p ty >>= g) :=
  LoopStep.step_bind (fun _ _ => hg)

theorem LoopStep.step_ite {T : List Token} {p0 : Parser} {α : Type} {acc : α}
    {loop : Parser → α → Outcome (α × Parser)} {cond : Prop} [Decidable cond]
    {x y : Outcome (α × Parser)}
    (hx : cond → LoopStep T p0 acc loop x) (hy : ¬cond → LoopStep T p0 acc loop y) :
    LoopStep T p0 acc loop (if cond then x else y) := by
  split
  · exact hx ‹_›
  · exact hy ‹_›

theorem LoopStep.step_for {T : List Token} {p0 : Parser} {α : Type} {acc : α}
    {loop : Parser → α → Outcome (α × Parser)} {p : Parser}
    {g : ASTNode × Parser → Outcome (α × Parser)} :
    LoopStep T p0 acc loop (parseForStatement p >>= g) :=
  LoopStep.step_error _

theorem parseIfStatement_safe {T : List Token} (hT : WellTerminated T) (fuel : Nat) (p : Parser)
    (hp : p.tokens = T) (hc : p.current < T.length) :
    SafeRun T (p.current + 1) (2 * (T.length - p.current) + 1 ≤ fuel)
      (parseIfStatement fuel p) :=
  (statement_safe hT fuel).1 p hp hc

theorem parseWhileStatement_safe {T : List Token} (hT : WellTerminated T) (fuel : Nat)
    (p : Parser) (hp : p.tokens = T) (hc : p.current < T.length) :
    SafeRun T (p.current + 1) (2 * (T.length - p.current) + 1 ≤ fuel)
      (parseWhileStatement fuel p) :=
  (statement_safe hT fuel).2.2.1 p hp hc

theorem argumentLoop_safe {T : List Token} (hT : WellTerminated T) (fuel : Nat) (p : Parser)
    (a : List ASTNode) (hp : p.tokens = T) (hc : p.current < T.length) :
    SafeRun T p.current (2 * (T.length - p.current) + 3 ≤ fuel) (argumentLoop fuel p a) :=
  (expression_safe hT fuel).2.2.1 p a hp hc

theorem statementLoop_iteration {T : List Token} (hT : WellTerminated T) (f : Nat) (p : Parser)
    (l : List ASTNode) (hp : p.tokens = T) (hc : p.current < T.length) :
    LoopStep T p l (statementLoop f) (statementLoop (f + 1) p l) := by
  rw [statementLoop]
  repeat' (first
    | assumption
    | omega
    | decide
    | (with_reducible exact LoopStep.step_exit)
    | (with_reducible exact LoopStep.step_error _)
    | (with_reducible refine LoopStep.step_loop ?_ ?_ ?_)
    | (with_reducible refine LoopStep.step_call (parseExpression_safe hT _ _ _ ?_ ?_) ?_)
    | (with_reducible refine LoopStep.step_call (parsePrimary_safe hT _ _ ?_ ?_) ?_)
    | (with_reducible refine LoopStep.step_call (parseAssignmentStatement_safe hT _ _ _ ?_ ?_) ?_)
    | (with_reducible refine LoopStep.step_call (parseVariableDeclarationStatement_safe hT _ _ ?_ ?_) ?_)
    | (with_reducible refine LoopStep.step_call (parseGlobalDeclarationStatement_safe hT _ _ ?_ ?_) ?_)
    | (with_reducible refine LoopStep.step_call (parseReturnStatement_safe hT _ _ ?_ ?_) ?_)
    | (with_reducible refine LoopStep.step_call (parseIfStatement_safe hT _ _ ?_ ?_) ?_)
    | (with_reducible refine LoopStep.step_call (parseWhileStatement_safe hT _ _ ?_ ?_) ?_)
    | (with_reducible exact LoopStep.step_for)
    | (apply not_eof_of_not_stop (by assumption) <;> assumption)
    | (with_reducible refine LoopStep.step_consume hT ?_ (by decide) ?_)
    | (with_reducible refine LoopStep.step_consume_current hT ?_ ?_ ?_ ?_)
    | (with_reducible refine LoopStep.step_currentToken ?_)
    | (with_reducible refine LoopStep.step_look ?_)
    | (with_reducible refine LoopStep.step_ite ?_ ?_)
    | intro _)

theorem memberAccessLoop_iteration {T : List Token} (hT : WellTerminated T) (f : Nat)
    (p : Parser) (e : ASTNode) (hp : p.tokens = T) (hc : p.current < T.length) :
    LoopStep T p e (memberAccessLoop f) (memberAccessLoop (f + 1) p e) := by
  rw [memberAccessLoop]
  repeat' (first
    | assumption
    | omega
    | decide
    | (with_reducible exact LoopStep.step_exit)
    | (with_reducible exact LoopStep.step_error _)
    | (with_reducible refine LoopStep.step_loop ?_ ?_ ?_)
    | (with_reducible refine LoopStep.step_call (argumentLoop_safe hT _ _ _ ?_ ?_) ?_)
    | (with_reducible refine LoopStep.step_consume hT ?_ (by decide) ?_)
    | (with_reducible refine LoopStep.step_currentToken ?_)
    | (with_reducible refine LoopStep.step_look ?_)
    | (with_reducible refine LoopStep.step_expect ?_)
    | (with_reducible refine LoopStep.step_ite ?_ ?_)
    | intro _)

theorem argumentLoop_iteration {T : List Token} (hT : WellTerminated T) (f : Nat) (p : Parser)
    (a : List ASTNode) (hp : p.tokens = T) (hc : p.current < T.length) :
    LoopStep T p a (argumentLoop f) (argumentLoop (f + 1) p a) := by
  rw [argumentLoop]
  repeat' (first
    | assumption
    | omega
    | decide
    | (with_reducible exact LoopStep.step_exit)
    | (with_reducible exact LoopStep.step_error _)
    | (with_reducible refine LoopStep.step_loop ?_ ?_ ?_)
    | (with_reducible refine LoopStep.step_call (parseExpression_safe hT _ _ _ ?_ ?_) ?_)
    | (with_reducible refine LoopStep.step_consume hT ?_ (by decide) ?_)
    | (with_reducible refine LoopStep.step_currentToken ?_)
    | (with_reducible refine LoopStep.step_look ?_)
    | (with_reducible refine LoopStep.step_ite ?_ ?_)
    | intro _)

theorem SafeRun.returns_or_throws {T : List Token} {c : Nat} {b : Prop} {α : Type}
    {r : Outcome (α × Parser)} (h : SafeRun T c b r) (hb : b) :
    (∃ x, r = .ok x) ∨ (∃ e, r = .error (.thrown e)) := by
  cases r with
  | ok x => exact Or.inl ⟨x, rfl⟩
  | error e =>
    cases e with
    | thrown pe => exact Or.inr ⟨pe, rfl⟩
    | outOfBounds => exact absurd rfl h.1
    | outOfFuel => exact absurd rfl (h.2 hb)

/-- C27: for every source text, with `T` its token vector, and every state
`p` of `T` whose cursor is on a token, with `n` the number of tokens from the
cursor on (the end-of-input token included): under every recursion budget of
at least `2 n + 3`, `2 n + 2` and `2 n + 1`, `parseStatement`,
`parseExpression` and `parsePrimary` end, by returning or by throwing, and do
not exhaust the budget; every successful call of `parseExpression` or
`parsePrimary` leaves the cursor strictly behind where it started; and one
iteration of the statement loop, of the member-access loop and of the
argument loop either ends the loop in the state it was entered in, or fails,
or goes on with the rest of the loop in a state whose cursor is strictly
behind, on a token of `T`. -/
theorem C27_termination (sourceCode : List Char) (p : Parser)
    (hp : p.tokens = tokenize sourceCode) (hc : p.current < (tokenize sourceCode).length) :
    (∀ (fuel : Nat) (isBody : Bool),
      2 * ((tokenize sourceCode).length - p.current) + 3 ≤ fuel →
      (∃ x, parseStatement fuel p isBody = .ok x) ∨
        (∃ e, parseStatement fuel p isBody = .error (.thrown e))) ∧
    (∀ (fuel : Nat) (precedence : Int),
      2 * ((tokenize sourceCode).length - p.current) + 2 ≤ fuel →
      (∃ x, parseExpression fuel p precedence = .ok x) ∨
        (∃ e, parseExpression fuel p precedence = .error (.thrown e))) ∧
    (∀ fuel : Nat, 2 * ((tokenize sourceCode).length - p.current) + 1 ≤ fuel →
      (∃ x, parsePrimary fuel p = .ok x) ∨ (∃ e, parsePrimary fuel p = .error (.thrown e))) ∧
    (∀ (fuel : Nat) (precedence : Int) (e : ASTNode) (q : Parser),
      parseExpression fuel p precedence = .ok (e, q) → p.current < q.current) ∧
    (∀ (fuel : Nat) (e : ASTNode) (q : Parser),
      parsePrimary fuel p = .ok (e, q) → p.current < q.current) ∧
    (∀ (fuel : Nat) (statements : List ASTNode),
      LoopStep (tokenize sourceCode) p statements (statementLoop fuel)
        (statementLoop (fuel + 1) p statements)) ∧
    (∀ (fuel : Nat) (expression : ASTNode),
      LoopStep (tokenize sourceCode) p expression (memberAccessLoop fuel)
        (memberAccessLoop (fuel + 1) p expression)) ∧
    (∀ (fuel : Nat) (arguments : List ASTNode),
      LoopStep (tokenize sourceCode) p arguments (argumentLoop fuel)
        (argumentLoop (fuel + 1) p arguments)) := by
  have hT := tokenize_wellTerminated sourceCode
  refine ⟨?_, ?_, ?_, ?_, ?_, ?_, ?_, ?_⟩
  · intro fuel isBody hfuel
    exact (parseStatement_safe hT fuel p isBody hp hc).returns_or_throws hfuel
  · intro fuel precedence hfuel
    exact (parseExpression_safe hT fuel p precedence hp hc).returns_or_throws hfuel
  · intro fuel hfuel
    exact (parsePrimary_safe hT fuel p hp hc).returns_or_throws hfuel
  · intro fuel precedence e q h
    exact ((parseExpression_safe hT fuel p precedence hp hc).of_ok h).2.1
  · intro fuel e q h
    exact ((parsePrimary_safe hT fuel p hp hc).of_ok h).2.1
  · intro fuel statements
    exact statementLoop_iteration hT fuel p statements hp hc
  · intro fuel expression
    exact memberAccessLoop_iteration hT fuel p expression hp hc
  · intro fuel arguments
    exact argumentLoop_iteration hT fuel p arguments hp hc

/-- C27 at the tokens of `x = f.g(1, 2);`, with the cursor on the first
token: 12 tokens are left, and a budget of 27 is enough for
`parseStatement`. -/
theorem C27_termination_witness :
    (tokenize "x = f.g(1, 2);".toList).length = 12 ∧
    ((∃ x, parseStatement 27 ⟨tokenize "x = f.g(1, 2);".toList, 0⟩ true = .ok x) ∨
      (∃ e, parseStatement 27 ⟨tokenize "x = f.g(1, 2);".toList, 0⟩ true =
        .error (.thrown e))) :=
  ⟨by decide,
    (C27_termination "x = f.g(1, 2);".toList ⟨tokenize "x = f.g(1, 2);".toList, 0⟩ rfl
      (by decide)).1 27 true (by decide)⟩

/-! ## C29: a quote behind a word -/

/-- C29: for every non-empty word `w` of alphanumeric or underscore
characters, all quote characters `q1`, `q2` and every text `t` without a
quote, `tokenize` of `w q1 t q2` is the string token `q1 t q2` (positioned at
the closing quote), then the token of `w` (positioned at the end of the text,
where the word buffer is flushed), then the end-of-input token: the opening
quote does not flush the word, and the two tokens are not in source order.
With a whitespace character between `w` and the opening quote, the token of
`w` comes first. -/
theorem C29_quote_does_not_flush_word (w t : List Char) (q1 q2 : Char) (hne : w ≠ [])
    (hw : ∀ c ∈ w, isWordChar c = true) (h1 : isQuote q1 = true) (h2 : isQuote q2 = true)
    (ht : ∀ c ∈ t, isQuote c = false) :
    tokenize (w ++ q1 :: (t ++ [q2])) =
      [⟨q1 :: (t ++ [q2]), TOK_STRING, w.length + t.length + 1⟩,
       ⟨w, referenceWordKind w, w.length + t.length + 2⟩,
       ⟨[], TOK_EOF, w.length + t.length + 2⟩] ∧
    ∀ sp : Char, isspace sp = true →
      tokenize (w ++ sp :: q1 :: (t ++ [q2])) =
        [⟨w, referenceWordKind w, w.length⟩,
         ⟨q1 :: (t ++ [q2]), TOK_STRING, w.length + t.length + 2⟩,
         ⟨[], TOK_EOF, w.length + t.length + 3⟩] := by
  have hkind := (classifyWord_eq_reference hne hw).1
  have hempty := isEmpty_eq_false_of_ne_nil hne
  refine ⟨?_, ?_⟩
  · have hscan : tokenizeLoop (w ++ q1 :: (t ++ [q2])) 0 ⟨[], [], false, []⟩ =
        ⟨[⟨q1 :: (t ++ [q2]), TOK_STRING, w.length + t.length + 1⟩], w, false, []⟩ := by
      rw [tokenizeLoop_word w hw _ 0 _ rfl]
      simp only [List.nil_append, Nat.zero_add]
      rw [tokenizeLoop_string h1 h2 t ht [] w.length [] w]
      simp only [tokenizeLoop, List.nil_append]
    have hlen : (w ++ q1 :: (t ++ [q2])).length = w.length + t.length + 2 := by
      simp only [List.length_append, List.length_cons, List.length_nil]
      omega
    simp only [tokenize, hscan, hlen]
    rw [@flushWord_pending ⟨[⟨q1 :: (t ++ [q2]), TOK_STRING, w.length + t.length + 1⟩],
      w, false, []⟩ _ hempty, hkind]
    rfl
  · intro sp hsp
    have hscan : tokenizeLoop (w ++ sp :: q1 :: (t ++ [q2])) 0 ⟨[], [], false, []⟩ =
        ⟨[⟨w, referenceWordKind w, w.length⟩,
          ⟨q1 :: (t ++ [q2]), TOK_STRING, w.length + t.length + 2⟩], [], false, []⟩ := by
      rw [tokenizeLoop_word w hw _ 0 _ rfl]
      simp only [List.nil_append, Nat.zero_add]
      have hstep := tokenizeStep_space (isspace_not_isQuote hsp) hsp
        (q1 :: (t ++ [q2])).head? w.length
        (show (TokState.mk [] w false []).insideString = false from rfl)
      rw [tokenizeLoop_cons _ _ _ _ (by rw [hstep]), hstep]
      dsimp only
      rw [@flushWord_pending ⟨[], w, false, []⟩ _ hempty, hkind]
      dsimp only
      rw [tokenizeLoop_string h1 h2 t ht [] (w.length + 1) _ []]
      simp only [tokenizeLoop, List.nil_append, List.singleton_append]
      simp [Nat.add_assoc, Nat.add_comm 1]
    have hlen : (w ++ sp :: q1 :: (t ++ [q2])).length = w.length + t.length + 3 := by
      simp only [List.length_append, List.length_cons, List.length_nil]
      omega
    simp only [tokenize, hscan, hlen]
    rw [flushWord_nothing_pending _ rfl]
    rfl

/-- C29 at `x"a b"` and at `x "a b"`. -/
theorem C29_quote_does_not_flush_word_witness :
    tokenize ("x".toList ++ dquote :: ("a b".toList ++ [dquote])) =
      [⟨dquote :: ("a b".toList ++ [dquote]), TOK_STRING, 5⟩,
       ⟨"x".toList, TOK_IDENTIFIER, 6⟩, ⟨[], TOK_EOF, 6⟩] ∧
    tokenize ("x".toList ++ ' ' :: dquote :: ("a b".toList ++ [dquote])) =
      [⟨"x".toList, TOK_IDENTIFIER, 1⟩,
       ⟨dquote :: ("a b".toList ++ [dquote]), TOK_STRING, 6⟩, ⟨[], TOK_EOF, 7⟩] :=
  ⟨(C29_quote_does_not_flush_word "x".toList "a b".toList dquote dquote (by decide) (by decide)
      (by decide) (by decide) (by decide)).1,
    (C29_quote_does_not_flush_word "x".toList "a b".toList dquote dquote (by decide) (by decide)
      (by decide) (by decide) (by decide)).2 ' ' (by decide)⟩

/-! ## Where the statement loop ends -/

theorem Sat.bind_pair {α β : Type} {Q : β → Prop} {x : Outcome (α × Parser)}
    {f : α × Parser → Outcome β} (hf : ∀ a q, x = .ok (a, q) → Sat Q (f (a, q))) :
    Sat Q (x >>= f) := by
  cases x with
  | error e => exact Sat.sat_error _ _
  | ok v => exact hf v.1 v.2 rfl

theorem Sat.bind_eq {α β : Type} {Q : β → Prop} {x : Outcome α}
    {f : α → Outcome β} (hf : ∀ a, x = .ok a → Sat Q (f a)) : Sat Q (x >>= f) := by
  cases x with
  | error e => exact Sat.sat_error _ _
  | ok a => exact hf a rfl

theorem look_stop_of_or {p : Parser} {b1 b2 : Bool} (h1 : lookCurrent p TOK_EOF = .ok b1)
    (h2 : lookCurrent p TOK_CLOSE_BRACE = .ok b2) (h : (b1 || b2) = true) :
    lookCurrent p TOK_EOF = .ok true ∨ lookCurrent p TOK_CLOSE_BRACE = .ok true := by
  cases b1 with
  | true => exact Or.inl h1
  | false =>
    cases b2 with
    | true => exact Or.inr h2
    | false => cases h

theorem sat_stop {p : Parser} {l : List ASTNode} {b1 b2 : Bool}
    (h1 : lookCurrent p TOK_EOF = .ok b1) (h2 : lookCurrent p TOK_CLOSE_BRACE = .ok b2)
    (h : (b1 || b2) = true) :
    Sat (fun x : List ASTNode × Parser => lookCurrent x.2 TOK_EOF = .ok true ∨
      lookCurrent x.2 TOK_CLOSE_BRACE = .ok true) (.ok (l, p)) :=
  Sat.sat_ok (look_stop_of_or h1 h2 h)

/-- When the statement loop returns, the cursor is on an end-of-input token
or on a closing brace. -/
theorem statementLoop_ends (fuel : Nat) :
    ∀ (p : Parser) (l : List ASTNode),
      Sat (fun x => lookCurrent x.2 TOK_EOF = .ok true ∨
        lookCurrent x.2 TOK_CLOSE_BRACE = .ok true) (statementLoop fuel p l) := by
  induction fuel with
  | zero => intro p l; exact Sat.sat_error _ _
  | succ f ih =>
    intro p l
    rw [statementLoop]
    repeat' (first
      | (with_reducible exact Sat.sat_error _ _)
      | (with_reducible exact ih _ _)
      | (apply sat_stop <;> assumption)
      | (with_reducible apply Sat.bind_pair)
      | (with_reducible apply Sat.bind_eq)
      | (with_reducible apply Sat.sat_ite)
      | (with_reducible intro _))

theorem parseStatement_inv {fuel : Nat} {p q : Parser} {b : ASTNode}
    (h : parseStatement fuel p true = .ok (b, q)) :
    ∃ g statements, fuel = g + 1 ∧ statementLoop g p [] = .ok (statements, q) ∧
      b = .Block (if statements.isEmpty then [.Empty] else statements) := by
  cases fuel with
  | zero => rw [parseStatement] at h; cases h
  | succ g =>
    rw [parseStatement] at h
    simp only [if_true] at h
    cases hs : statementLoop g p [] with
    | error e => rw [hs] at h; cases h
    | ok x =>
      rw [hs, ok_bind] at h
      obtain ⟨statements, q1⟩ := x
      cases hempty : statements.isEmpty with
      | true =>
        simp only [hempty, if_true] at h
        cases h
        exact ⟨g, statements, rfl, hs, by rw [hempty]; rfl⟩
      | false =>
        simp only [hempty, Bool.false_eq_true, if_false] at h
        cases h
        exact ⟨g, statements, rfl, hs, by rw [hempty]; rfl⟩

theorem tokenizeLoop_spaces (w : List Char) (hw : ∀ c ∈ w, isspace c = true) :
    ∀ (rest : List Char) (i : Nat) (st : TokState), st.insideString = false →
      st.currentWord = [] → tokenizeLoop (w ++ rest) i st = tokenizeLoop rest (i + w.length) st := by
  induction w with
  | nil => intro rest i st _ _; simp
  | cons c w ih =>
    intro rest i st hst hword
    have hc : isspace c = true := hw c (List.mem_cons_self _ _)
    have hstep := tokenizeStep_space (isspace_not_isQuote hc) hc (w ++ rest).head? i hst
    rw [flushWord_nothing_pending _ hword] at hstep
    rw [List.cons_append, tokenizeLoop_cons _ _ _ _ (by rw [hstep]), hstep]
    dsimp only
    rw [ih (fun x hx => hw x (List.mem_cons_of_mem _ hx)) rest (i + 1) st hst hword]
    simp [Nat.add_assoc, Nat.add_comm 1]

theorem tokenize_spaces (w : List Char) (hw : ∀ c ∈ w, isspace c = true) :
    tokenize w = [⟨[], TOK_EOF, w.length⟩] := by
  have h := tokenizeLoop_spaces w hw [] 0 ⟨[], [], false, []⟩ rfl rfl
  rw [List.append_nil] at h
  simp only [tokenize, h, tokenizeLoop]
  rfl

/-! ## C14: the token of a word, and the quote that does not end it -/

/-- The names that `tokenTypeToString` gives to the kinds other than
`TOK_COMMA` are pairwise different. -/
theorem tokenTypeToString_nodup :
    (List.map tokenTypeToString
      [TOK_NUMBER, TOK_STRING, TOK_TRUE, TOK_FALSE, TOK_OPEN_PAREN, TOK_CLOSE_PAREN,
      TOK_OPEN_BRACE, TOK_CLOSE_BRACE, TOK_OPEN_BRACKET, TOK_CLOSE_BRACKET, TOK_SEMICOLON,
      TOK_DOT, TOK_IDENTIFIER, TOK_COMMENT, TOK_WHITESPACE, TOK_IF_STATEMENT,
      TOK_ELSEIF_STATEMENT, TOK_ELSE_STATEMENT, TOK_FOR_STATEMENT, TOK_WHILE_STATEMENT,
      TOK_SWITCH_STATEMENT, TOK_CASE_STATEMENT, TOK_BREAK_STATEMENT, TOK_CONTINUE_STATEMENT,
      TOK_RETURN_STATEMENT, TOK_VAR, TOK_VAR_TYPE, TOK_VAR_CONST, TOK_GLOBAL_VAR, TOK_ASSIGNMENT,
      TOK_ADDITION, TOK_SUBTRACTION, TOK_MULTIPLICATION, TOK_DIVISION, TOK_MODULUS,
      TOK_ADDITION_ASSIGNMENT, TOK_SUBTRACTION_ASSIGNMENT, TOK_MULTIPLICATION_ASSIGNMENT,
      TOK_DIVISION_ASSIGNMENT, TOK_MODULUS_ASSIGNMENT, TOK_INCREMENT, TOK_DECREMENT, TOK_EQUAL,
      TOK_NOT_EQUAL, TOK_GREATER, TOK_LESS, TOK_GREATER_EQUAL, TOK_LESS_EQUAL, TOK_AND, TOK_OR,
      TOK_NOT, TOK_BITWISE_AND, TOK_BITWISE_OR, TOK_BITWISE_XOR, TOK_BITWISE_NOT, TOK_LEFT_SHIFT,
      TOK_RIGHT_SHIFT, TOK_EOF, TOK_UNKNOWN, TOK_DEFAULT_STATEMENT]).Nodup := by
  decide

theorem tokenTypeToString_injective_of_ne_comma (k1 k2 : TokenType) (h1 : k1 ≠ TOK_COMMA)
    (h2 : k2 ≠ TOK_COMMA) (h : tokenTypeToString k1 = tokenTypeToString k2) : k1 = k2 := by
  refine List.inj_on_of_nodup_map tokenTypeToString_nodup ?_ ?_ h
  · cases k1 <;> first | (exact absurd rfl h1) | decide
  · cases k2 <;> first | (exact absurd rfl h2) | decide

theorem tokenTypeToString_eq_iff (k1 k2 : TokenType) :
    tokenTypeToString k1 = tokenTypeToString k2 ↔
      k1 = k2 ∨ (k1 ∈ [TOK_DEFAULT_STATEMENT, TOK_COMMA] ∧
        k2 ∈ [TOK_DEFAULT_STATEMENT, TOK_COMMA]) := by
  have hcomma : tokenTypeToString TOK_COMMA = tokenTypeToString TOK_DEFAULT_STATEMENT := rfl
  constructor
  · intro h
    by_cases h1 : k1 = TOK_COMMA
    · by_cases h2 : k2 = TOK_COMMA
      · exact Or.inl (h1.trans h2.symm)
      · subst h1
        have h3 := tokenTypeToString_injective_of_ne_comma TOK_DEFAULT_STATEMENT k2 (by decide) h2
          (hcomma.symm.trans h)
        subst h3
        exact Or.inr ⟨by decide, by decide⟩
    · by_cases h2 : k2 = TOK_COMMA
      · subst h2
        have h3 := tokenTypeToString_injective_of_ne_comma k1 TOK_DEFAULT_STATEMENT h1 (by decide)
          (h.trans hcomma)
        subst h3
        exact Or.inr ⟨by decide, by decide⟩
      · exact Or.inl (tokenTypeToString_injective_of_ne_comma k1 k2 h1 h2 h)
  · intro h
    rcases h with h | ⟨h1, h2⟩
    · rw [h]
    · simp only [List.mem_cons, List.mem_singleton, List.not_mem_nil, or_false] at h1 h2
      rcases h1 with rfl | rfl <;> rcases h2 with rfl | rfl <;> rfl

/-- C22, counterexample: on the tokens of `(1 2` the failure of
`parsePrimary` is the missing-parenthesis exception, on the tokens of the
empty text it is the end-of-file exception, and on the tokens of `for` the
failure of `parseStatement` is the for-loop exception; the message of each of
the three is a fixed text that names no token, no kind and no position. On
the tokens of `,` and of `default` the failure of `parsePrimary` is the
exception of its default branch, and its message names both kinds (a comma, a
`default` keyword) by the same word, `UNIMPLEMENTED`. -/
theorem C22_failure_without_token_counterexample :
    parsePrimary 5 ⟨tokenize "(1 2".toList, 0⟩ = .error (.thrown .expectedCloseParen) ∧
    parsePrimary 1 ⟨tokenize [], 0⟩ = .error (.thrown .unexpectedEndOfFile) ∧
    parseStatement 2 ⟨tokenize "for".toList, 0⟩ true =
      .error (.thrown .forLoopNotImplemented) ∧
    ParseError.expectedCloseParen.what =
      some ("Expected ".toList ++ [squote, ')', squote] ++ " after sub-expression".toList) ∧
    ParseError.unexpectedEndOfFile.what = some "Unexpected end of file".toList ∧
    ParseError.forLoopNotImplemented.what = some "for loop not implemented".toList ∧
    parsePrimary 1 ⟨tokenize ",".toList, 0⟩ =
      .error (.thrown (.unexpectedPrimary TOK_COMMA 0 ",".toList)) ∧
    (ParseError.unexpectedPrimary TOK_COMMA 0 ",".toList).what =
      some "Unexpected token: UNIMPLEMENTED Position: 0 | String: ,".toList ∧
    parsePrimary 1 ⟨tokenize "default".toList, 0⟩ =
      .error (.thrown (.unexpectedPrimary TOK_DEFAULT_STATEMENT 7 "default".toList)) ∧
    (ParseError.unexpectedPrimary TOK_DEFAULT_STATEMENT 7 "default".toList).what =
      some "Unexpected token: UNIMPLEMENTED Position: 7 | String: default".toList := by
  refine ⟨by rfl, by rfl, by rfl, by rfl, by rfl, by rfl, by rfl, by decide, by rfl, by decide⟩

/-- C22, as the code has it: a failure is an exception that holds a message
text and nothing else. For a mismatch in `consume` or `expect` the message is
`Unexpected token: K, expected: E Position: N | String: S`, and for the
default branch of `parsePrimary` (a token that starts no primary expression
and is not the end-of-input token) it is
`Unexpected token: K Position: N | String: S`, where `S` is the text of the
offending token, `N` its position in decimal digits, and `K`, `E` the names
that `tokenTypeToString` gives to the kind of the token and to the expected
kind. Two kinds have the same name exactly when they are the same kind or
both are among `TOK_DEFAULT_STATEMENT` and `TOK_COMMA`, whose name is
`UNIMPLEMENTED`. The failures of `parsePrimary` on the end-of-input token and
on a missing `)`, the failure of the for-loop path, and the failure of
`consume` and `expect` when the cursor is past the last token have a fixed
message, without any token data. -/
theorem C22_failure_data (fuel : Nat) (p : Parser) :
    (∀ (t : Token) (ty : TokenType), currentToken p = .ok t → t.type ≠ ty →
      consume p ty = .error (.thrown (.unexpectedToken t.type ty t.position t.value)) ∧
      expect p ty = .error (.thrown (.unexpectedToken t.type ty t.position t.value)) ∧
      (ParseError.unexpectedToken t.type ty t.position t.value).what =
        some ("Unexpected token: ".toList ++ tokenTypeToString t.type ++
          ", expected: ".toList ++ tokenTypeToString ty ++ " Position: ".toList ++
          to_string t.position ++ " | String: ".toList ++ t.value)) ∧
    (∀ ty : TokenType, p.tokens[p.current]? = none →
      consume p ty = .error (.thrown .unexpectedEndOfTokens) ∧
      expect p ty = .error (.thrown .unexpectedEndOfTokens) ∧
      ParseError.unexpectedEndOfTokens.what = some "Unexpected end of tokens".toList) ∧
    (∀ t : Token, currentToken p = .ok t →
      t.type ∉ [TOK_IDENTIFIER, TOK_NUMBER, TOK_STRING, TOK_TRUE, TOK_FALSE, TOK_OPEN_PAREN,
        TOK_EOF] →
      parsePrimary (fuel + 1) p =
        .error (.thrown (.unexpectedPrimary t.type t.position t.value)) ∧
      (ParseError.unexpectedPrimary t.type t.position t.value).what =
        some ("Unexpected token: ".toList ++ tokenTypeToString t.type ++
          " Position: ".toList ++ to_string t.position ++ " | String: ".toList ++ t.value)) ∧
    (∀ t : Token, currentToken p = .ok t → t.type = TOK_EOF →
      parsePrimary (fuel + 1) p = .error (.thrown .unexpectedEndOfFile) ∧
      ParseError.unexpectedEndOfFile.what = some "Unexpected end of file".toList) ∧
    (∀ (e : ASTNode) (p1 : Parser) (c : Token), lookCurrent p TOK_OPEN_PAREN = .ok true →
      parseExpression fuel (p.advance 1) 0 = .ok (e, p1) → currentToken p1 = .ok c →
      c.type ≠ TOK_CLOSE_PAREN →
      parsePrimary (fuel + 1) p = .error (.thrown .expectedCloseParen) ∧
      ParseError.expectedCloseParen.what =
        some ("Expected ".toList ++ [squote, ')', squote] ++ " after sub-expression".toList)) ∧
    (∀ statements, lookCurrent p TOK_FOR_STATEMENT = .ok true →
      statementLoop (fuel + 1) p statements = .error (.thrown .forLoopNotImplemented) ∧
      ParseError.forLoopNotImplemented.what = some "for loop not implemented".toList) ∧
    (∀ k1 k2 : TokenType, tokenTypeToString k1 = tokenTypeToString k2 ↔
      k1 = k2 ∨ (k1 ∈ [TOK_DEFAULT_STATEMENT, TOK_COMMA] ∧
        k2 ∈ [TOK_DEFAULT_STATEMENT, TOK_COMMA])) ∧
    tokenTypeToString TOK_DEFAULT_STATEMENT = "UNIMPLEMENTED".toList ∧
    tokenTypeToString TOK_COMMA = "UNIMPLEMENTED".toList := by
  refine ⟨?_, ?_, ?_, ?_, ?_, ?_, tokenTypeToString_eq_iff, rfl, rfl⟩
  · intro t ty ht hty
    exact ⟨consume_thrown_of_currentToken ht hty, expect_thrown_of_currentToken ht hty, rfl⟩
  · intro ty hnone
    refine ⟨?_, ?_, rfl⟩
    · simp [consume, currentToken, hnone]
    · simp [expect, currentToken, hnone]
  · intro t ht hty
    simp only [List.mem_cons, List.mem_singleton, List.not_mem_nil, or_false, not_or] at hty
    obtain ⟨h1, h2, h3, h4, h5, h6, h7⟩ := hty
    refine ⟨?_, rfl⟩
    rw [parsePrimary]
    simp only [ht, bind, Except.bind, h1, h2, h3, h4, h5, h6, h7, if_false]
  · intro t ht hty
    refine ⟨?_, rfl⟩
    rw [parsePrimary]
    simp [ht, bind, Except.bind, hty]
  · intro e p1 c hparen hexpr hc hty
    obtain ⟨t, ht, htty⟩ := currentToken_of_look hparen
    refine ⟨?_, rfl⟩
    rw [parsePrimary]
    simp [ht, bind, Except.bind, htty, consume_of_look hparen, hexpr, hc, hty]
  · intro statements hfor
    exact ⟨statementLoop_for fuel p statements hfor, rfl⟩

/-- C22 at the tokens of `x` where `;` is required, and of `)` where a
primary expression is required. -/
theorem C22_failure_data_witness :
    consume ⟨tokenize "x".toList, 0⟩ TOK_SEMICOLON =
      .error (.thrown (.unexpectedToken TOK_IDENTIFIER TOK_SEMICOLON 1 "x".toList)) ∧
    (ParseError.unexpectedToken TOK_IDENTIFIER TOK_SEMICOLON 1 "x".toList).what =
      some ("Unexpected token: TOK_IDENTIFIER, expected: TOK_SEMICOLON".toList ++
        " Position: 1 | String: x".toList) ∧
    parsePrimary 1 ⟨tokenize ")".toList, 0⟩ =
      .error (.thrown (.unexpectedPrimary TOK_CLOSE_PAREN 0 ")".toList)) ∧
    (ParseError.unexpectedPrimary TOK_CLOSE_PAREN 0 ")".toList).what =
      some "Unexpected token: TOK_CLOSE_PAREN Position: 0 | String: )".toList :=
  ⟨((C22_failure_data 0 ⟨tokenize "x".toList, 0⟩).1 ⟨"x".toList, TOK_IDENTIFIER, 1⟩
      TOK_SEMICOLON (by rfl) (by decide)).1,
    ((C22_failure_data 0 ⟨tokenize "x".toList, 0⟩).1 ⟨"x".toList, TOK_IDENTIFIER, 1⟩
      TOK_SEMICOLON (by rfl) (by decide)).2.2,
    ((C22_failure_data 0 ⟨tokenize ")".toList, 0⟩).2.2.1 ⟨")".toList, TOK_CLOSE_PAREN, 0⟩
      (by rfl) (by decide)).1,
    ((C22_failure_data 0 ⟨tokenize ")".toList, 0⟩).2.2.1 ⟨")".toList, TOK_CLOSE_PAREN, 0⟩
      (by rfl) (by decide)).2⟩
/-! ## The statement loop collects the statements in source order -/

theorem statementLoop_global (fuel : Nat) (p : Parser) (statements : List ASTNode)
    (h : lookCurrent p TOK_GLOBAL_VAR = .ok true) :
    statementLoop (fuel + 1) p statements =
      (parseGlobalDeclarationStatement fuel p >>= fun x =>
        statementLoop fuel x.2 (statements ++ [x.1])) := by
  rw [statementLoop]
  simp only [lookCurrent_of_look h (show TOK_GLOBAL_VAR ≠ TOK_EOF by decide),
    lookCurrent_of_look h (show TOK_GLOBAL_VAR ≠ TOK_CLOSE_BRACE by decide),
    lookCurrent_of_look h (show TOK_GLOBAL_VAR ≠ TOK_VAR by decide),
    h, bind, Except.bind, Bool.or_false, Bool.false_eq_true, if_false, if_true]

theorem statementLoop_if (fuel : Nat) (p : Parser) (statements : List ASTNode)
    (h : lookCurrent p TOK_IF_STATEMENT = .ok true) :
    statementLoop (fuel + 1) p statements =
      (parseIfStatement fuel p >>= fun x =>
        statementLoop fuel x.2 (statements ++ [x.1])) := by
  rw [statementLoop]
  simp only [lookCurrent_of_look h (show TOK_IF_STATEMENT ≠ TOK_EOF by decide),
    lookCurrent_of_look h (show TOK_IF_STATEMENT ≠ TOK_CLOSE_BRACE by decide),
    lookCurrent_of_look h (show TOK_IF_STATEMENT ≠ TOK_VAR by decide),
    lookCurrent_of_look h (show TOK_IF_STATEMENT ≠ TOK_GLOBAL_VAR by decide),
    lookCurrent_of_look h (show TOK_IF_STATEMENT ≠ TOK_FOR_STATEMENT by decide),
    lookCurrent_of_look h (show TOK_IF_STATEMENT ≠ TOK_WHILE_STATEMENT by decide),
    h, bind, Except.bind, Bool.or_false, Bool.false_eq_true, if_false, if_true]

theorem statementLoop_break (fuel : Nat) (p : Parser) (statements : List ASTNode)
    (h : lookCurrent p TOK_BREAK_STATEMENT = .ok true) :
    statementLoop (fuel + 1) p statements =
      (consume (p.advance 1) TOK_SEMICOLON >>= fun p2 =>
        statementLoop fuel p2 (statements ++ [.Break])) := by
  rw [statementLoop]
  simp only [lookCurrent_of_look h (show TOK_BREAK_STATEMENT ≠ TOK_EOF by decide),
    lookCurrent_of_look h (show TOK_BREAK_STATEMENT ≠ TOK_CLOSE_BRACE by decide),
    lookCurrent_of_look h (show TOK_BREAK_STATEMENT ≠ TOK_VAR by decide),
    lookCurrent_of_look h (show TOK_BREAK_STATEMENT ≠ TOK_GLOBAL_VAR by decide),
    lookCurrent_of_look h (show TOK_BREAK_STATEMENT ≠ TOK_FOR_STATEMENT by decide),
    lookCurrent_of_look h (show TOK_BREAK_STATEMENT ≠ TOK_WHILE_STATEMENT by decide),
    lookCurrent_of_look h (show TOK_BREAK_STATEMENT ≠ TOK_IF_STATEMENT by decide),
    lookCurrent_of_look h (show TOK_BREAK_STATEMENT ≠ TOK_RETURN_STATEMENT by decide),
    lookCurrent_of_look h (show TOK_BREAK_STATEMENT ≠ TOK_IDENTIFIER by decide),
    consume_of_look h,
    h, bind, Except.bind, Bool.or_false, Bool.false_eq_true, if_false, if_true]

theorem statementLoop_continue (fuel : Nat) (p : Parser) (statements : List ASTNode)
    (h : lookCurrent p TOK_CONTINUE_STATEMENT = .ok true) :
    statementLoop (fuel + 1) p statements =
      (consume (p.advance 1) TOK_SEMICOLON >>= fun p2 =>
        statementLoop fuel p2 (statements ++ [.Continue])) := by
  rw [statementLoop]
  simp only [lookCurrent_of_look h (show TOK_CONTINUE_STATEMENT ≠ TOK_EOF by decide),
    lookCurrent_of_look h (show TOK_CONTINUE_STATEMENT ≠ TOK_CLOSE_BRACE by decide),
    lookCurrent_of_look h (show TOK_CONTINUE_STATEMENT ≠ TOK_VAR by decide),
    lookCurrent_of_look h (show TOK_CONTINUE_STATEMENT ≠ TOK_GLOBAL_VAR by decide),
    lookCurrent_of_look h (show TOK_CONTINUE_STATEMENT ≠ TOK_FOR_STATEMENT by decide),
    lookCurrent_of_look h (show TOK_CONTINUE_STATEMENT ≠ TOK_WHILE_STATEMENT by decide),
    lookCurrent_of_look h (show TOK_CONTINUE_STATEMENT ≠ TOK_IF_STATEMENT by decide),
    lookCurrent_of_look h (show TOK_CONTINUE_STATEMENT ≠ TOK_RETURN_STATEMENT by decide),
    lookCurrent_of_look h (show TOK_CONTINUE_STATEMENT ≠ TOK_IDENTIFIER by decide),
    lookCurrent_of_look h (show TOK_CONTINUE_STATEMENT ≠ TOK_BREAK_STATEMENT by decide),
    consume_of_look h,
    h, bind, Except.bind, Bool.or_false, Bool.false_eq_true, if_false, if_true]

theorem consume_ok_iff_look {p q : Parser} {ty : TokenType} :
    consume p ty = .ok q ↔ lookCurrent p ty = .ok true ∧ q = p.advance 1 := by
  constructor
  · intro h
    unfold consume currentToken at h
    cases ht : p.tokens[p.current]? with
    | none => rw [ht] at h; cases h
    | some t =>
      rw [ht] at h
      simp only [ne_eq, ite_not] at h
      by_cases hty : t.type = ty
      · rw [if_pos hty] at h
        cases h
        exact ⟨by simp [lookCurrent, ht, hty], rfl⟩
      · rw [if_neg hty] at h
        cases h
  · intro h
    rw [consume_of_look h.1, h.2]

theorem lookCurrent_of_getElem {p : Parser} {t : Token} (ht : p.tokens[p.current]? = some t)
    (ty : TokenType) : lookCurrent p ty = .ok (t.type == ty) := by
  simp [lookCurrent, ht]

theorem bind_ok_inv {α β : Type} {x : Outcome α} {g : α → Outcome β} {b : β}
    (h : (x >>= g) = .ok b) : ∃ a, x = .ok a ∧ g a = .ok b := by
  cases x with
  | error e => cases h
  | ok a => exact ⟨a, rfl, h⟩

/-- Whatever the statement loop returns is the list it was entered with,
followed by the statements from its cursor on, in source order. -/
theorem statementLoop_collects (fuel : Nat) :
    ∀ (p : Parser) (acc l : List ASTNode) (q : Parser),
      statementLoop fuel p acc = .ok (l, q) →
      ∃ ss, l = acc ++ ss ∧ StatementList p ss q := by
  induction fuel with
  | zero => intro p acc l q h; rw [statementLoop] at h; cases h
  | succ f ih =>
    intro p acc l q h
    have step : ∀ (s : ASTNode) (p1 : Parser), StatementAt p s p1 →
        statementLoop f p1 (acc ++ [s]) = .ok (l, q) →
        ∃ ss, l = acc ++ ss ∧ StatementList p ss q := by
      intro s p1 hs hloop
      obtain ⟨ss, hl, hss⟩ := ih p1 (acc ++ [s]) l q hloop
      exact ⟨s :: ss, by rw [hl, List.append_assoc]; rfl, .statement p s p1 ss q hs hss⟩
    cases ht : p.tokens[p.current]? with
    | none =>
      rw [statementLoop] at h
      simp [lookCurrent, ht, bind, Except.bind] at h
    | some t =>
      have hlook := lookCurrent_of_getElem ht
      by_cases h1 : t.type = TOK_EOF ∨ t.type = TOK_CLOSE_BRACE
      · have hstop : lookCurrent p TOK_EOF = .ok true ∨
            lookCurrent p TOK_CLOSE_BRACE = .ok true := by
          rcases h1 with h1 | h1
          · left; rw [hlook, h1]; rfl
          · right; rw [hlook, h1]; rfl
        rw [statementLoop_stop f p acc hstop] at h
        cases h
        exact ⟨[], (List.append_nil _).symm, .done p hstop⟩
      by_cases h3 : t.type = TOK_VAR
      · have hl : lookCurrent p TOK_VAR = .ok true := by rw [hlook, h3]; rfl
        rw [statementLoop_var f p acc hl] at h
        obtain ⟨⟨s, p1⟩, hs, hrest⟩ := bind_ok_inv h
        exact step s p1 (.variableDeclaration f p s p1 hl hs) hrest
      by_cases h4 : t.type = TOK_GLOBAL_VAR
      · have hl : lookCurrent p TOK_GLOBAL_VAR = .ok true := by rw [hlook, h4]; rfl
        rw [statementLoop_global f p acc hl] at h
        obtain ⟨⟨s, p1⟩, hs, hrest⟩ := bind_ok_inv h
        exact step s p1 (.globalDeclaration f p s p1 hl hs) hrest
      by_cases h5 : t.type = TOK_FOR_STATEMENT
      · have hl : lookCurrent p TOK_FOR_STATEMENT = .ok true := by rw [hlook, h5]; rfl
        rw [statementLoop_for f p acc hl] at h
        cases h
      by_cases h6 : t.type = TOK_WHILE_STATEMENT
      · have hl : lookCurrent p TOK_WHILE_STATEMENT = .ok true := by rw [hlook, h6]; rfl
        rw [statementLoop_while f p acc hl] at h
        obtain ⟨⟨s, p1⟩, hs, hrest⟩ := bind_ok_inv h
        exact step s p1 (.whileStatement f p s p1 hl hs) hrest
      by_cases h7 : t.type = TOK_IF_STATEMENT
      · have hl : lookCurrent p TOK_IF_STATEMENT = .ok true := by rw [hlook, h7]; rfl
        rw [statementLoop_if f p acc hl] at h
        obtain ⟨⟨s, p1⟩, hs, hrest⟩ := bind_ok_inv h
        exact step s p1 (.ifStatement f p s p1 hl hs) hrest
      by_cases h8 : t.type = TOK_RETURN_STATEMENT
      · have hl : lookCurrent p TOK_RETURN_STATEMENT = .ok true := by rw [hlook, h8]; rfl
        rw [statementLoop_return f p acc hl] at h
        obtain ⟨⟨s, p1⟩, hs, hrest⟩ := bind_ok_inv h
        exact step s p1 (.returnStatement f p s p1 hl hs) hrest
      by_cases h9 : t.type = TOK_IDENTIFIER
      · have hl : lookCurrent p TOK_IDENTIFIER = .ok true := by rw [hlook, h9]; rfl
        rw [statementLoop_identifier f p acc hl] at h
        obtain ⟨⟨e, p1⟩, he, hrest⟩ := bind_ok_inv h
        obtain ⟨b, hb, hrest⟩ := bind_ok_inv hrest
        cases b with
        | true =>
          simp only [if_true] at hrest
          obtain ⟨⟨s, p2⟩, hs, hrest⟩ := bind_ok_inv hrest
          exact step s p2 (.assignment f p e p1 s p2 hl he hb hs) hrest
        | false =>
          simp only [Bool.false_eq_true, if_false] at hrest
          exact step e p1 (.expression f p e p1 hl he hb) hrest
      by_cases h10 : t.type = TOK_BREAK_STATEMENT
      · have hl : lookCurrent p TOK_BREAK_STATEMENT = .ok true := by rw [hlook, h10]; rfl
        rw [statementLoop_break f p acc hl] at h
        obtain ⟨p2, hc, hrest⟩ := bind_ok_inv h
        obtain ⟨hsemi, hp2⟩ := consume_ok_iff_look.1 hc
        subst hp2
        exact step .Break _ (.breakStatement p hl hsemi) hrest
      by_cases h11 : t.type = TOK_CONTINUE_STATEMENT
      · have hl : lookCurrent p TOK_CONTINUE_STATEMENT = .ok true := by rw [hlook, h11]; rfl
        rw [statementLoop_continue f p acc hl] at h
        obtain ⟨p2, hc, hrest⟩ := bind_ok_inv h
        obtain ⟨hsemi, hp2⟩ := consume_ok_iff_look.1 hc
        subst hp2
        exact step .Continue _ (.continueStatement p hl hsemi) hrest
      · rw [not_or] at h1
        have hty := And.intro h1.1 (And.intro h1.2 (And.intro h3 (And.intro h4 (And.intro h5
          (And.intro h6 (And.intro h7 (And.intro h8 (And.intro h9 (And.intro h10 h11)))))))))
        rw [statementLoop_skip f p acc ht hty] at h
        obtain ⟨ss, hl, hss⟩ := ih _ acc l q h
        exact ⟨ss, hl, .skip p t ss q ht hty hss⟩

theorem StatementAt.loop_step {p p1 : Parser} {s : ASTNode} (h : StatementAt p s p1) :
    ∃ enough, ∀ f, enough ≤ f → ∀ acc,
      statementLoop (f + 1) p acc = statementLoop f p1 (acc ++ [s]) := by
  cases h with
  | variableDeclaration g _ _ _ hlook h =>
    refine ⟨g, fun f hf acc => ?_⟩
    rw [statementLoop_var f p acc hlook,
      (parseVariableDeclarationStatement_fuel hf p).ok h, ok_bind]
  | globalDeclaration g _ _ _ hlook h =>
    refine ⟨g, fun f hf acc => ?_⟩
    rw [statementLoop_global f p acc hlook,
      (parseGlobalDeclarationStatement_fuel hf p).ok h, ok_bind]
  | whileStatement g _ _ _ hlook h =>
    refine ⟨g, fun f hf acc => ?_⟩
    rw [statementLoop_while f p acc hlook, (parseWhileStatement_fuel hf p).ok h, ok_bind]
  | ifStatement g _ _ _ hlook h =>
    refine ⟨g, fun f hf acc => ?_⟩
    rw [statementLoop_if f p acc hlook, (parseIfStatement_fuel hf p).ok h, ok_bind]
  | returnStatement g _ _ _ hlook h =>
    refine ⟨g, fun f hf acc => ?_⟩
    rw [statementLoop_return f p acc hlook, (parseReturnStatement_fuel hf p).ok h, ok_bind]
  | assignment g _ e q1 _ _ hlook hprimary hassign h =>
    refine ⟨g, fun f hf acc => ?_⟩
    rw [statementLoop_identifier f p acc hlook, (parsePrimary_fuel hf p).ok hprimary, ok_bind]
    dsimp only
    rw [hassign, ok_bind, if_pos rfl, (parseAssignmentStatement_fuel hf q1 e).ok h, ok_bind]
  | expression g _ _ _ hlook hprimary hassign =>
    refine ⟨g, fun f hf acc => ?_⟩
    rw [statementLoop_identifier f p acc hlook, (parsePrimary_fuel hf p).ok hprimary, ok_bind]
    dsimp only
    rw [hassign, ok_bind, if_neg (by decide)]
  | breakStatement _ hlook hsemicolon =>
    refine ⟨0, fun f _ acc => ?_⟩
    rw [statementLoop_break f p acc hlook, consume_of_look hsemicolon, ok_bind,
      advance_advance p 1 1]
  | continueStatement _ hlook hsemicolon =>
    refine ⟨0, fun f _ acc => ?_⟩
    rw [statementLoop_continue f p acc hlook, consume_of_look hsemicolon, ok_bind,
      advance_advance p 1 1]

/-- When the statements from the cursor on are `ss`, the statement loop
returns them, in that order, behind the list it was entered with, under every
recursion budget from some budget on. -/
theorem StatementList.loop_returns {p q : Parser} {ss : List ASTNode}
    (h : StatementList p ss q) :
    ∃ enough, ∀ f, enough ≤ f → ∀ acc, statementLoop f p acc = .ok (acc ++ ss, q) := by
  induction h with
  | done p hstop =>
    refine ⟨1, fun f hf acc => ?_⟩
    obtain ⟨g, rfl⟩ : ∃ g, f = g + 1 := ⟨f - 1, by omega⟩
    rw [statementLoop_stop g p acc hstop, List.append_nil]
  | statement p s p1 ss q hs _ ih =>
    obtain ⟨n1, h1⟩ := hs.loop_step
    obtain ⟨n2, h2⟩ := ih
    refine ⟨max n1 n2 + 1, fun f hf acc => ?_⟩
    obtain ⟨g, rfl⟩ : ∃ g, f = g + 1 := ⟨f - 1, by omega⟩
    rw [h1 g (by omega) acc, h2 g (by omega), List.append_assoc]
    rfl
  | skip p t ss q ht hty _ ih =>
    obtain ⟨n2, h2⟩ := ih
    refine ⟨n2 + 1, fun f hf acc => ?_⟩
    obtain ⟨g, rfl⟩ : ∃ g, f = g + 1 := ⟨f - 1, by omega⟩
    rw [statementLoop_skip g p acc ht hty, h2 g (by omega)]

/-! ## C28: one Block that holds the statements in source order -/

theorem parseStatement_of_loop (fuel : Nat) (p q : Parser) (statements : List ASTNode)
    (h : statementLoop fuel p [] = .ok (statements, q)) :
    parseStatement (fuel + 1) p true =
      .ok (.Block (if statements.isEmpty then [.Empty] else statements), q) := by
  rw [parseStatement]
  simp only [if_true, h, bind, Except.bind]
  cases hempty : statements.isEmpty with
  | true => simp only [if_true]
  | false => simp only [Bool.false_eq_true, if_false]

/-- C28: for every source text (with fewer than `2^64` tokens), when `parse`
returns, either the token vector is the end-of-input token alone and the
result is the empty list, or the token vector holds more tokens and the
result is exactly one root, a Block: the list the statement loop returns from
the first token on is the list of the statements in source order
(`StatementList`: each statement starts where the one before it ends, from
the first token up to the end-of-input token), and the Block holds that list
(`Block[Empty]` when the list is empty). In particular the result never has
two or more roots. Conversely, whenever the statements of the token vector in
source order, up to the end-of-input token, are `statements`, `parse` returns
the one Block that holds `statements`, in that order, under every recursion
budget from some budget on, and no run of `parse` returns anything else. When
the token vector is the end-of-input token alone, as it is for an empty or
whitespace-only source text, `parse` does return the empty list. -/
theorem C28_parse_roots (sourceCode : List Char) (fuel : Nat)
    (hlen : (tokenize sourceCode).length < 18446744073709551616) :
    (∀ roots : List ASTNode, parse fuel (tokenize sourceCode) = .ok roots →
      roots.length ≤ 1 ∧
      ((tokenize sourceCode = [⟨[], TOK_EOF, sourceCode.length⟩] ∧ roots = []) ∨
       (2 ≤ (tokenize sourceCode).length ∧
        ∃ (g : Nat) (statements : List ASTNode) (q : Parser),
          fuel = g + 2 ∧
          statementLoop g ⟨tokenize sourceCode, 0⟩ [] = .ok (statements, q) ∧
          StatementList ⟨tokenize sourceCode, 0⟩ statements q ∧
          q.current + 1 = (tokenize sourceCode).length ∧
          roots = [.Block (if statements.isEmpty then [.Empty] else statements)]))) ∧
    (∀ (statements : List ASTNode) (q : Parser), 2 ≤ (tokenize sourceCode).length →
      StatementList ⟨tokenize sourceCode, 0⟩ statements q →
      lookCurrent q TOK_EOF = .ok true →
      (∃ enough, ∀ f, enough ≤ f → parse f (tokenize sourceCode) =
        .ok [.Block (if statements.isEmpty then [.Empty] else statements)]) ∧
      (∀ roots : List ASTNode, parse fuel (tokenize sourceCode) = .ok roots →
        roots = [.Block (if statements.isEmpty then [.Empty] else statements)])) ∧
    (tokenize sourceCode = [⟨[], TOK_EOF, sourceCode.length⟩] →
      parse (fuel + 1) (tokenize sourceCode) = .ok []) ∧
    ((∀ c ∈ sourceCode, isspace c = true) →
      tokenize sourceCode = [⟨[], TOK_EOF, sourceCode.length⟩]) := by
  have hT := tokenize_wellTerminated sourceCode
  have hpos := hT.length_pos
  have hsize := sizeMinusOne_eq hpos hlen
  refine ⟨?_, ?_, ?_, tokenize_spaces sourceCode⟩
  · intro roots h
    have key : (tokenize sourceCode = [⟨[], TOK_EOF, sourceCode.length⟩] ∧ roots = []) ∨
       (2 ≤ (tokenize sourceCode).length ∧
        ∃ (g : Nat) (statements : List ASTNode) (q : Parser),
          fuel = g + 2 ∧
          statementLoop g ⟨tokenize sourceCode, 0⟩ [] = .ok (statements, q) ∧
          StatementList ⟨tokenize sourceCode, 0⟩ statements q ∧
          q.current + 1 = (tokenize sourceCode).length ∧
          roots = [.Block (if statements.isEmpty then [.Empty] else statements)]) := by
      rw [parse] at h
      cases hloop : parseLoop fuel ⟨tokenize sourceCode, 0⟩ [] with
      | error e => rw [hloop] at h; cases h
      | ok x =>
        rw [hloop, ok_bind] at h
        obtain ⟨roots1, q1⟩ := x
        cases h
        cases fuel with
        | zero => rw [parseLoop] at hloop; cases hloop
        | succ f =>
          have hcases := Nat.lt_or_ge 1 (tokenize sourceCode).length
          cases hcases with
          | inr hone =>
            left
            have hl : (tokenize sourceCode).length = 1 := by omega
            have hexit : ¬ (Parser.mk (tokenize sourceCode) 0).current <
                sizeMinusOne (Parser.mk (tokenize sourceCode) 0).tokens.length := by
              rw [hsize]
              simp only []
              omega
            rw [parseLoop_exit f _ _ hexit] at hloop
            cases hloop
            refine ⟨?_, rfl⟩
            have hfront : (flushWord (tokenizeLoop sourceCode 0 ⟨[], [], false, []⟩)
                sourceCode.length).tokens = [] := by
              have hl2 := hl
              simp only [tokenize, List.length_append, List.length_singleton] at hl2
              exact List.eq_nil_of_length_eq_zero (by omega)
            simp only [tokenize, hfront, List.nil_append]
          | inl hmany =>
            right
            have hstep : (Parser.mk (tokenize sourceCode) 0).current <
                sizeMinusOne (Parser.mk (tokenize sourceCode) 0).tokens.length := by
              rw [hsize]
              simp only []
              omega
            rw [parseLoop_step f _ _ hstep] at hloop
            cases hs : parseStatement f ⟨tokenize sourceCode, 0⟩ true with
            | error e => rw [hs] at hloop; cases hloop
            | ok y =>
              rw [hs, ok_bind] at hloop
              obtain ⟨b, q⟩ := y
              obtain ⟨g, statements, hf, hsl, hb⟩ := parseStatement_inv hs
              obtain ⟨hq1, -, hq3⟩ :=
                (statementLoop_safe hT g ⟨tokenize sourceCode, 0⟩ [] rfl hpos).of_ok hsl
              have hend := statementLoop_ends g _ _ _ hsl
              have hnot : ¬ lookCurrent q TOK_CLOSE_BRACE = .ok true := by
                intro hbrace
                obtain ⟨t, ht, hty⟩ := lookCurrent_eq_true hbrace
                rw [hq1] at ht
                have hlast := hT.not_last_of_type ht (by rw [hty]; decide)
                have hcur : q.current < sizeMinusOne q.tokens.length := by
                  rw [hq1, hsize]
                  omega
                rw [parseLoop_close_brace q hbrace hcur] at hloop
                cases hloop
              have heof : lookCurrent q TOK_EOF = .ok true := by
                cases hend with
                | inl h1 => exact h1
                | inr h2 => exact absurd h2 hnot
              obtain ⟨t, ht, hty⟩ := lookCurrent_eq_true heof
              rw [hq1] at ht
              have hlast := hT.last_of_type ht hty
              have hexit : ¬ q.current < sizeMinusOne q.tokens.length := by
                rw [hq1, hsize]
                omega
              subst hf
              rw [parseLoop_exit g q _ hexit] at hloop
              simp only [Except.ok.injEq, Prod.mk.injEq] at hloop
              obtain ⟨hroots, -⟩ := hloop
              obtain ⟨ss, hss, hlist⟩ := statementLoop_collects g _ _ _ _ hsl
              rw [List.nil_append] at hss
              subst hss
              exact ⟨hmany, g, statements, q, rfl, hsl, hlist, hlast,
                by rw [← hroots, hb]; rfl⟩
    refine ⟨?_, key⟩
    cases key with
    | inl h1 => rw [h1.2]; exact Nat.zero_le _
    | inr h2 =>
      obtain ⟨-, g, statements, q, -, -, -, -, hroots⟩ := h2
      rw [hroots]
      exact Nat.le_refl _
  · intro statements q hmany hlist heof
    obtain ⟨n, hn⟩ := hlist.loop_returns
    have hreturns : ∀ f, n + 2 ≤ f → parse f (tokenize sourceCode) =
        .ok [.Block (if statements.isEmpty then [.Empty] else statements)] := by
      intro f hf
      obtain ⟨g, rfl⟩ : ∃ g, f = g + 2 := ⟨f - 2, by omega⟩
      have hsl : statementLoop g ⟨tokenize sourceCode, 0⟩ [] = .ok (statements, q) := by
        rw [hn g (by omega) [], List.nil_append]
      obtain ⟨hq1, -, hq3⟩ :=
        (statementLoop_safe hT g ⟨tokenize sourceCode, 0⟩ [] rfl hpos).of_ok hsl
      obtain ⟨t, ht, hty⟩ := lookCurrent_eq_true heof
      rw [hq1] at ht
      have hlast := hT.last_of_type ht hty
      have hstep : (Parser.mk (tokenize sourceCode) 0).current <
          sizeMinusOne (Parser.mk (tokenize sourceCode) 0).tokens.length := by
        rw [hsize]
        simp only []
        omega
      have hexit : ¬ q.current < sizeMinusOne q.tokens.length := by
        rw [hq1, hsize]
        omega
      rw [parse, parseLoop_step (g + 1) _ _ hstep, parseStatement_of_loop g _ q statements hsl,
        ok_bind]
      dsimp only
      rw [parseLoop_exit g q _ hexit]
      rfl
    refine ⟨⟨n + 2, hreturns⟩, ?_⟩
    intro roots h
    have h1 := (parse_fuel (Nat.le_max_left fuel (n + 2)) (tokenize sourceCode)).ok h
    rw [hreturns _ (Nat.le_max_right fuel (n + 2))] at h1
    cases h1
    rfl
  · intro hone
    have hexit : ¬ (Parser.mk (tokenize sourceCode) 0).current <
        sizeMinusOne (Parser.mk (tokenize sourceCode) 0).tokens.length := by
      rw [hsize]
      simp only [hone, List.length_singleton]
      omega
    rw [parse, parseLoop_exit fuel _ _ hexit]
    rfl

/-- C28 at the tokens of `x = 1; break; return x;`, whose statements in
source order are the assignment, the break and the return (the `;` behind the
assignment starts no statement), and of a source text of two spaces. -/
theorem C28_parse_roots_witness :
    (∃ enough, ∀ f, enough ≤ f → parse f (tokenize "x = 1; break; return x;".toList) =
      .ok [.Block [.Assignment (.Variable "x".toList) (.Literal LITERAL_NUMBER (.Number 1)),
        .Break, .Return (.Variable "x".toList)]]) ∧
    parse 1 (tokenize "  ".toList) = .ok [] :=
  ⟨((C28_parse_roots "x = 1; break; return x;".toList 0 (by decide)).2.1
      [.Assignment (.Variable "x".toList) (.Literal LITERAL_NUMBER (.Number 1)),
        .Break, .Return (.Variable "x".toList)]
      ⟨tokenize "x = 1; break; return x;".toList, 9⟩ (by decide)
      (.statement ⟨tokenize "x = 1; break; return x;".toList, 0⟩ _
        ⟨tokenize "x = 1; break; return x;".toList, 3⟩ _ _
        (.assignment 3 ⟨tokenize "x = 1; break; return x;".toList, 0⟩ (.Variable "x".toList)
          ⟨tokenize "x = 1; break; return x;".toList, 1⟩ _
          ⟨tokenize "x = 1; break; return x;".toList, 3⟩ (by rfl) (by rfl) (by rfl) (by rfl))
        (.skip ⟨tokenize "x = 1; break; return x;".toList, 3⟩ ⟨";".toList, TOK_SEMICOLON, 5⟩
          _ _ (by rfl) (by decide)
          (.statement ⟨tokenize "x = 1; break; return x;".toList, 4⟩ _
            ⟨tokenize "x = 1; break; return x;".toList, 6⟩ _ _
            (.breakStatement ⟨tokenize "x = 1; break; return x;".toList, 4⟩ (by rfl) (by rfl))
            (.statement ⟨tokenize "x = 1; break; return x;".toList, 6⟩ _
              ⟨tokenize "x = 1; break; return x;".toList, 9⟩ _ _
              (.returnStatement 3 ⟨tokenize "x = 1; break; return x;".toList, 6⟩ _ _
                (by rfl) (by rfl))
              (.done ⟨tokenize "x = 1; break; return x;".toList, 9⟩ (Or.inl (by rfl)))))))
      (by rfl)).1,
    (C28_parse_roots "  ".toList 0 (by decide)).2.2.1 (by decide)⟩
end Cuel
